import Mathlib

/-!
# Wine clipboard and file layer

A shallow embedding of `misc/clipboard.c` and of the file layer
`files/file.c`.  The static variables of each C module become the fields of an
explicit state record, every C function becomes a function on that record, and
the collaborators that live outside the two modules (window procedures, the X
server, the global heap, the native file system) are parameters collected in an
environment record.
-/

namespace Clipboard

/-! ## Constants of the absent header `windows.h` -/

/-- Modelled from the spec: the header windows.h that defines the built-in
format ids is absent.  The table `ClipFormats` stores the text record at array
index 0 and the code reads it as `ClipFormats[CF_TEXT-1]`, so `CF_TEXT` is 1. -/
def CF_TEXT : Nat := 1
/-- Modelled from the spec: built-in id of the absent header windows.h. -/
def CF_BITMAP : Nat := 2
/-- Modelled from the spec: built-in id of the absent header windows.h. -/
def CF_METAFILEPICT : Nat := 3
/-- Modelled from the spec: built-in id of the absent header windows.h. -/
def CF_SYLK : Nat := 4
/-- Modelled from the spec: built-in id of the absent header windows.h. -/
def CF_DIF : Nat := 5
/-- Modelled from the spec: built-in id of the absent header windows.h. -/
def CF_TIFF : Nat := 6
/-- Modelled from the spec: the OEM text record sits at array index 6 and is read
as `ClipFormats[CF_OEMTEXT-1]`, so `CF_OEMTEXT` is 7. -/
def CF_OEMTEXT : Nat := 7
/-- Modelled from the spec: built-in id of the absent header windows.h. -/
def CF_DIB : Nat := 8
/-- Modelled from the spec: built-in id of the absent header windows.h. -/
def CF_PALETTE : Nat := 9
/-- Modelled from the spec: built-in id of the absent header windows.h. -/
def CF_PENDATA : Nat := 10
/-- Modelled from the spec: built-in id of the absent header windows.h. -/
def CF_RIFF : Nat := 11
/-- Modelled from the spec: built-in id of the absent header windows.h. -/
def CF_WAVE : Nat := 12
/-- Modelled from the spec: built-in id of the absent header windows.h. -/
def CF_OWNERDISPLAY : Nat := 0x80
/-- Modelled from the spec: built-in id of the absent header windows.h. -/
def CF_DSPTEXT : Nat := 0x81
/-- Modelled from the spec: built-in id of the absent header windows.h. -/
def CF_DSPBITMAP : Nat := 0x82
/-- Modelled from the spec: built-in id of the absent header windows.h. -/
def CF_DSPMETAFILEPICT : Nat := 0x83
/-- Modelled from the spec: first id of the GDI object range (windows.h). -/
def CF_GDIOBJFIRST : Nat := 0x300
/-- Modelled from the spec: last id of the GDI object range (windows.h). -/
def CF_GDIOBJLAST : Nat := 0x3FF

/-- First id handed to a registered format (`#define CF_REGFORMATBASE 0xC000`). -/
def CF_REGFORMATBASE : Nat := 0xC000

/-- The X11 constant `None`. -/
def None : Nat := 0

/-- The X11 atom `XA_STRING` (`Xatom.h`). -/
def XA_STRING : Nat := 31

/-- Modelled from the spec: the window messages of the absent header windows.h
that the clipboard code sends. -/
inductive Message where
  | WM_RENDERFORMAT
  | WM_RENDERALLFORMATS
  | WM_DESTROYCLIPBOARD
  | WM_DRAWCLIPBOARD
  | WM_CHANGECBCHAIN
  deriving DecidableEq, Repr

/-! ## Data model -/

/-- One node of the format chain (`struct tagCLIPFORMAT`).  The links
`PrevFormat` and `NextFormat` are the position of the node in the list that
holds the chain; a pointer to a node is its index. -/
structure CLIPFORMAT where
  wFormatID : Nat
  wRefCount : Nat
  wDataPresent : Nat
  Name : String
  hData : Nat
  BufSize : Nat
  deriving DecidableEq, Repr, Inhabited

/-- Calls the clipboard code makes to its collaborators, in program order. -/
inductive Call where
  | SendMessage16 (hwnd : Nat) (msg : Message) (wParam : Nat) (lParam : Nat)
  | XSetSelectionOwner (owner : Nat)
  | XConvertSelection (requestor : Nat)
  | GlobalFree16 (h : Nat)
  | DeleteObject32 (h : Nat)
  | GlobalAlloc16 (size : Nat)
  deriving DecidableEq, Repr

/-- The static variables of `clipboard.c`, followed by the part of the outside
world the module reads back: the global heap (handle, bytes), the owner of the
X primary selection, and the log of outgoing calls. -/
structure State where
  hWndClipOwner : Nat
  hWndClipWindow : Nat
  hWndViewer : Nat
  bClipChanged : Bool
  LastRegFormat : Nat
  selectionWait : Bool
  selectionAcquired : Bool
  selectionWindow : Nat
  selectionPrevWindow : Nat
  ClipFormats : List CLIPFORMAT
  heap : List (Nat × List Nat)
  xPrimaryOwner : Nat
  calls : List Call
  deriving DecidableEq, Repr

/-- Modelled from the spec: the type `WND` of the absent header win.h, reduced to
what the module reads of a window: its handle, its X window, the X window of
`pWnd->next` (`none` for a null `next`), and the X window of
`pWnd->parent->child` (`none` when the parent is null or its first child is the
window itself). -/
structure WND where
  hwndSelf : Nat
  window : Nat
  next : Option Nat
  parentChild : Option Nat
  deriving DecidableEq, Repr

/-- What a successful `XGetWindowProperty` stores through its result pointers.
The request is for at most 0x3FFF long words, so `nitems` is at most 0xFFFC for
an 8-bit property; `val` holds the `nitems` bytes and the NUL that Xlib
appends. -/
structure XProperty where
  atype : Nat
  aformat : Nat
  nitems : Nat
  val : List Nat
  deriving DecidableEq, Repr

/-- The collaborators of the module.  `WndProc hwnd msg wParam` is everything the
window procedure of `hwnd` does to the state while it handles a message that is
delivered synchronously (it may call back into the clipboard functions);
`EVENT_WaitXEvent` is everything the processing of the next X event does;
`XGetWindowProperty w prop` is the reply of the X server, `none` when the call
does not return `Success`. -/
structure Env where
  WndProc : Nat → Message → Nat → State → State
  IsWindow32 : Nat → Bool
  WIN_GetXWindow : Nat → Nat
  XServerGrant : Nat → Nat → Nat
  GlobalAllocPick : List (Nat × List Nat) → Nat → Nat
  CharToOem : Nat → Nat
  OemToChar : Nat → Nat
  GetActiveWindow32 : Nat
  EVENT_WaitXEvent : State → State
  XGetWindowProperty : Nat → Nat → Option XProperty

/-- The table `ClipFormats[16]` as initialised in the source. -/
def ClipFormats : List CLIPFORMAT :=
  [ { wFormatID := CF_TEXT, wRefCount := 1, wDataPresent := 0, Name := "Text", hData := 0, BufSize := 0 },
    { wFormatID := CF_BITMAP, wRefCount := 1, wDataPresent := 0, Name := "Bitmap", hData := 0, BufSize := 0 },
    { wFormatID := CF_METAFILEPICT, wRefCount := 1, wDataPresent := 0, Name := "MetaFile Picture", hData := 0, BufSize := 0 },
    { wFormatID := CF_SYLK, wRefCount := 1, wDataPresent := 0, Name := "Sylk", hData := 0, BufSize := 0 },
    { wFormatID := CF_DIF, wRefCount := 1, wDataPresent := 0, Name := "DIF", hData := 0, BufSize := 0 },
    { wFormatID := CF_TIFF, wRefCount := 1, wDataPresent := 0, Name := "TIFF", hData := 0, BufSize := 0 },
    { wFormatID := CF_OEMTEXT, wRefCount := 1, wDataPresent := 0, Name := "OEM Text", hData := 0, BufSize := 0 },
    { wFormatID := CF_DIB, wRefCount := 1, wDataPresent := 0, Name := "DIB", hData := 0, BufSize := 0 },
    { wFormatID := CF_PALETTE, wRefCount := 1, wDataPresent := 0, Name := "Palette", hData := 0, BufSize := 0 },
    { wFormatID := CF_PENDATA, wRefCount := 1, wDataPresent := 0, Name := "PenData", hData := 0, BufSize := 0 },
    { wFormatID := CF_RIFF, wRefCount := 1, wDataPresent := 0, Name := "RIFF", hData := 0, BufSize := 0 },
    { wFormatID := CF_WAVE, wRefCount := 1, wDataPresent := 0, Name := "Wave", hData := 0, BufSize := 0 },
    { wFormatID := CF_OWNERDISPLAY, wRefCount := 1, wDataPresent := 0, Name := "Owner Display", hData := 0, BufSize := 0 },
    { wFormatID := CF_DSPTEXT, wRefCount := 1, wDataPresent := 0, Name := "DSPText", hData := 0, BufSize := 0 },
    { wFormatID := CF_DSPMETAFILEPICT, wRefCount := 1, wDataPresent := 0, Name := "DSPMetaFile Picture", hData := 0, BufSize := 0 },
    { wFormatID := CF_DSPBITMAP, wRefCount := 1, wDataPresent := 0, Name := "DSPBitmap", hData := 0, BufSize := 0 } ]

/-- The state at program start: the initialisers of the static variables, an
empty heap, nobody owning the selection, nothing sent yet. -/
def State.initial : State :=
  { hWndClipOwner := 0, hWndClipWindow := 0, hWndViewer := 0,
    bClipChanged := false, LastRegFormat := CF_REGFORMATBASE,
    selectionWait := false, selectionAcquired := false,
    selectionWindow := None, selectionPrevWindow := None,
    ClipFormats := Clipboard.ClipFormats, heap := [], xPrimaryOwner := None, calls := [] }

/-- Read the node a pointer designates (`*lpFormat`, `ClipFormats[i]`). -/
def State.fmt (s : State) (lpFormat : Nat) : CLIPFORMAT :=
  s.ClipFormats.getD lpFormat default

/-- Write the node a pointer designates. -/
def State.setFmt (s : State) (lpFormat : Nat) (r : CLIPFORMAT) : State :=
  { s with ClipFormats := s.ClipFormats.set lpFormat r }

/-- The chain walk every lookup in the source performs:
`while(TRUE) { if (lpFormat == NULL) return 0;
 if (lpFormat->wFormatID == wFormat) break; lpFormat = lpFormat->NextFormat; }`.
The result is the index of the node reached, or `none` for `NULL`. -/
def walkToFormat : List CLIPFORMAT → Nat → Nat → Option Nat
  | [], _, _ => none
  | r :: rest, wFormat, lpFormat =>
    if r.wFormatID = wFormat then some lpFormat
    else walkToFormat rest wFormat (lpFormat + 1)

/-! ## Collaborators -/

/-- Modelled from the spec: the message-delivery collaborator (SendMessage16 is
not in the module).  Delivery is synchronous: the call is logged and the window
procedure runs to completion on the current state.  The log records the calls
of the clipboard module itself, so it is restored after the handler. -/
def SendMessage16 (env : Env) (hwnd : Nat) (msg : Message) (wParam lParam : Nat)
    (s : State) : State :=
  let s1 := { s with calls := s.calls ++ [Call.SendMessage16 hwnd msg wParam lParam] }
  { env.WndProc hwnd msg wParam s1 with calls := s1.calls }

/-- Modelled from the spec: claim-ownership of the external selection protocol.
The X server decides who owns the selection after the request. -/
def XSetSelectionOwner (env : Env) (owner : Nat) (s : State) : State :=
  { s with xPrimaryOwner := env.XServerGrant s.xPrimaryOwner owner,
           calls := s.calls ++ [Call.XSetSelectionOwner owner] }

/-- Modelled from the spec: query-current-owner of the external selection
protocol. -/
def XGetSelectionOwner (s : State) : Nat := s.xPrimaryOwner

/-- Modelled from the spec: free of the external memory allocator. -/
def GlobalFree16 (h : Nat) (s : State) : State :=
  { s with heap := s.heap.filter (fun b => b.1 != h),
           calls := s.calls ++ [Call.GlobalFree16 h] }

/-- Modelled from the spec: deletion of a GDI object; only the call is
recorded. -/
def DeleteObject32 (h : Nat) (s : State) : State :=
  { s with calls := s.calls ++ [Call.DeleteObject32 h] }

/-- Modelled from the spec: lock of the external memory allocator; the bytes of
the block, or `none` for a null lock result. -/
def GlobalLock16 (h : Nat) (s : State) : Option (List Nat) :=
  if h = 0 then none else (s.heap.find? (fun b => b.1 == h)).map Prod.snd

/-- Modelled from the spec: size of a block of the external memory allocator,
0 for a handle that is not allocated. -/
def GlobalSize16 (h : Nat) (s : State) : Nat :=
  match GlobalLock16 h s with
  | some bytes => bytes.length
  | none => 0

/-- Modelled from the spec: allocate of the external memory allocator, zero
initialised.  The allocator picks the handle; 0 or a handle already in use
means the allocation failed. -/
def GlobalAlloc16 (env : Env) (size : Nat) (s : State) : Nat × State :=
  let h := env.GlobalAllocPick s.heap size
  let s1 := { s with calls := s.calls ++ [Call.GlobalAlloc16 size] }
  if h = 0 ∨ (s.heap.find? (fun b => b.1 == h)).isSome then (0, s1)
  else (h, { s1 with heap := (h, List.replicate size 0) :: s1.heap })

/-- Store bytes through a locked pointer: overwrite the start of block `h`. -/
def storeBytes (h : Nat) (bytes : List Nat) (s : State) : State :=
  { s with heap := s.heap.map (fun b =>
      if b.1 = h then (b.1, bytes.take b.2.length ++ b.2.drop bytes.length) else b) }

/-! ## The functions of `clipboard.c` -/

/-- Source function `CLIPBOARD_DeleteRecord`: release the data of one record and mark the
clipboard changed. -/
def CLIPBOARD_DeleteRecord (lpFormat : Nat) (s : State) : State :=
  let r := s.fmt lpFormat
  let s1 :=
    if CF_GDIOBJFIRST ≤ r.wFormatID ∧ r.wFormatID ≤ CF_GDIOBJLAST then
      DeleteObject32 r.hData s
    else if r.hData ≠ 0 then GlobalFree16 r.hData s
    else s
  let s2 := s1.setFmt lpFormat { s1.fmt lpFormat with wDataPresent := 0 }
  let s3 := s2.setFmt lpFormat { s2.fmt lpFormat with hData := 0 }
  { s3 with bClipChanged := true }

/-- Source function `OpenClipboard32`. -/
def OpenClipboard32 (hWnd : Nat) (s : State) : Bool × State :=
  let bRet := false
  let (bRet, s) :=
    if s.hWndClipWindow = 0 then (true, { s with hWndClipWindow := hWnd })
    else (bRet, s)
  let s := { s with bClipChanged := false }
  (bRet, s)

/-- Source function `OpenClipboard16`. -/
def OpenClipboard16 (hWnd : Nat) (s : State) : Bool × State :=
  OpenClipboard32 hWnd s

/-- Source function `CloseClipboard32`. -/
def CloseClipboard32 (env : Env) (s : State) : Bool × State :=
  if s.hWndClipWindow = 0 then (false, s)
  else
    let s := { s with hWndClipWindow := 0 }
    let s :=
      if s.bClipChanged ∧ s.hWndViewer ≠ 0 then
        SendMessage16 env s.hWndViewer Message.WM_DRAWCLIPBOARD 0 0 s
      else s
    (true, s)

/-- Source function `CloseClipboard16`. -/
def CloseClipboard16 (env : Env) (s : State) : Bool × State :=
  CloseClipboard32 env s

/-- The record loop of `EmptyClipboard32`:
`while(lpFormat) { if (lpFormat->wDataPresent || lpFormat->hData)
 CLIPBOARD_DeleteRecord(lpFormat); lpFormat = lpFormat->NextFormat; }`.
The first argument counts the nodes from `lpFormat` to the end of the chain. -/
def EmptyClipboard32.loop : Nat → Nat → State → State
  | 0, _, s => s
  | n + 1, lpFormat, s =>
    let s :=
      if (s.fmt lpFormat).wDataPresent ≠ 0 ∨ (s.fmt lpFormat).hData ≠ 0 then
        CLIPBOARD_DeleteRecord lpFormat s
      else s
    EmptyClipboard32.loop n (lpFormat + 1) s

/-- Source function `EmptyClipboard32`. -/
def EmptyClipboard32 (env : Env) (s : State) : Bool × State :=
  if s.hWndClipWindow = 0 then (false, s)
  else
    let s :=
      if s.hWndClipOwner ≠ 0 then
        SendMessage16 env s.hWndClipOwner Message.WM_DESTROYCLIPBOARD 0 0 s
      else s
    let s := EmptyClipboard32.loop s.ClipFormats.length 0 s
    let s := { s with hWndClipOwner := s.hWndClipWindow }
    let s :=
      if s.selectionAcquired then
        let s := { s with selectionAcquired := false }
        let s := { s with selectionPrevWindow := s.selectionWindow }
        let s := { s with selectionWindow := None }
        XSetSelectionOwner env None s
      else s
    (true, s)

/-- Source function `EmptyClipboard16`. -/
def EmptyClipboard16 (env : Env) (s : State) : Bool × State :=
  EmptyClipboard32 env s

/-- Source function `GetClipboardOwner32`. -/
def GetClipboardOwner32 (s : State) : Nat := s.hWndClipOwner

/-- Source function `GetClipboardOwner16`. -/
def GetClipboardOwner16 (s : State) : Nat := s.hWndClipOwner

/-- Source function `GetOpenClipboardWindow32`. -/
def GetOpenClipboardWindow32 (s : State) : Nat := s.hWndClipWindow

/-- Source function `GetOpenClipboardWindow16`. -/
def GetOpenClipboardWindow16 (s : State) : Nat := s.hWndClipWindow

/-- The block of `SetClipboardData16` under the comment
"Acquire X selection if text format". -/
def SetClipboardData16.acquire (env : Env) (wFormat : Nat) (s : State) : State :=
  if ¬ s.selectionAcquired ∧ (wFormat = CF_TEXT ∨ wFormat = CF_OEMTEXT) then
    let owner := env.WIN_GetXWindow s.hWndClipWindow
    let s := XSetSelectionOwner env owner s
    if XGetSelectionOwner s = owner then
      { s with selectionAcquired := true, selectionWindow := owner }
    else s
  else s

/-- The block of `SetClipboardData16` that starts
`if ( lpFormat->wDataPresent || lpFormat->hData )`: delete the previous data of
the record, then "delete existing CF_TEXT/CF_OEMTEXT aliases". -/
def SetClipboardData16.discard (wFormat lpFormat : Nat) (s : State) : State :=
  if (s.fmt lpFormat).wDataPresent ≠ 0 ∨ (s.fmt lpFormat).hData ≠ 0 then
    let s := CLIPBOARD_DeleteRecord lpFormat s
    let s :=
      if wFormat = CF_TEXT ∧ (s.fmt (CF_OEMTEXT - 1)).hData ≠ 0
          ∧ (s.fmt (CF_OEMTEXT - 1)).wDataPresent = 0 then
        CLIPBOARD_DeleteRecord (CF_OEMTEXT - 1) s
      else s
    if wFormat = CF_OEMTEXT ∧ (s.fmt (CF_TEXT - 1)).hData ≠ 0
        ∧ (s.fmt (CF_TEXT - 1)).wDataPresent = 0 then
      CLIPBOARD_DeleteRecord (CF_TEXT - 1) s
    else s
  else s

/-- Source function `SetClipboardData16`: look the record up, run the two blocks above, then
`bClipChanged = TRUE; lpFormat->wDataPresent = 1; lpFormat->hData = hData;
 return lpFormat->hData;`. -/
def SetClipboardData16 (env : Env) (wFormat hData : Nat) (s : State) : Nat × State :=
  match walkToFormat s.ClipFormats wFormat 0 with
  | none => (0, s)
  | some lpFormat =>
    let s := SetClipboardData16.acquire env wFormat s
    let s := SetClipboardData16.discard wFormat lpFormat s
    let s := { s with bClipChanged := true }
    let s := s.setFmt lpFormat { s.fmt lpFormat with wDataPresent := 1 }
    let s := s.setFmt lpFormat { s.fmt lpFormat with hData := hData }
    ((s.fmt lpFormat).hData, s)

/-- Source function `CLIPBOARD_RenderFormat`.  The `else` of the source belongs to the inner
`if( IsWindow32(hWndClipOwner) )`. -/
def CLIPBOARD_RenderFormat (env : Env) (lpFormat : Nat) (s : State) : Bool × State :=
  if (s.fmt lpFormat).wDataPresent ≠ 0 ∧ (s.fmt lpFormat).hData = 0 then
    if env.IsWindow32 s.hWndClipOwner then
      let s := SendMessage16 env s.hWndClipOwner Message.WM_RENDERFORMAT
                 (s.fmt lpFormat).wFormatID 0 s
      (decide ((s.fmt lpFormat).hData ≠ 0), s)
    else
      let s := { s with hWndClipOwner := 0 }
      let s := s.setFmt lpFormat { s.fmt lpFormat with wDataPresent := 0 }
      (false, s)
  else (decide ((s.fmt lpFormat).hData ≠ 0), s)

/-- Source function `CLIPBOARD_RenderText`: convert the bytes of the source record into a
freshly allocated block for the target record.  `size` is a `UINT16`. -/
def CLIPBOARD_RenderText (env : Env) (lpTarget lpSource : Nat) (s : State) : Bool × State :=
  let size := GlobalSize16 (s.fmt lpSource).hData s % 65536
  match GlobalLock16 (s.fmt lpSource).hData s with
  | none => (false, s)
  | some lpstrS =>
    let (h, s) := GlobalAlloc16 env size s
    let s := s.setFmt lpTarget { s.fmt lpTarget with hData := h }
    match GlobalLock16 (s.fmt lpTarget).hData s with
    | some _ =>
      let s :=
        if (s.fmt lpSource).wFormatID = CF_TEXT then
          storeBytes (s.fmt lpTarget).hData ((lpstrS.take size).map env.CharToOem) s
        else
          storeBytes (s.fmt lpTarget).hData ((lpstrS.take size).map env.OemToChar) s
      (true, s)
    | none =>
      let s := s.setFmt lpTarget { s.fmt lpTarget with hData := 0 }
      (false, s)

/-- The choice of `lpRender` and `lpUpdate` at the head of `GetClipboardData16`,
the record to render and the record whose handle is returned: the two text
aliasing cases, else the chain walk; `none` when the walk reaches `NULL`. -/
def GetClipboardData16.select (wFormat : Nat) (s : State) : Option (Nat × Nat) :=
  if wFormat = CF_TEXT ∧ (s.fmt (CF_TEXT - 1)).wDataPresent = 0
      ∧ (s.fmt (CF_OEMTEXT - 1)).wDataPresent ≠ 0 then
    some (CF_OEMTEXT - 1, CF_TEXT - 1)
  else if wFormat = CF_OEMTEXT ∧ (s.fmt (CF_OEMTEXT - 1)).wDataPresent = 0
      ∧ (s.fmt (CF_TEXT - 1)).wDataPresent ≠ 0 then
    some (CF_TEXT - 1, CF_OEMTEXT - 1)
  else
    match walkToFormat s.ClipFormats wFormat 0 with
    | none => none
    | some lpRender => some (lpRender, lpRender)

/-- Source function `GetClipboardData16`. -/
def GetClipboardData16 (env : Env) (wFormat : Nat) (s : State) : Nat × State :=
  if s.hWndClipWindow = 0 then (0, s)
  else
    let sel : Option (Nat × Nat) :=
      if wFormat = CF_TEXT ∧ (s.fmt (CF_TEXT - 1)).wDataPresent = 0
          ∧ (s.fmt (CF_OEMTEXT - 1)).wDataPresent ≠ 0 then
        some (CF_OEMTEXT - 1, CF_TEXT - 1)
      else if wFormat = CF_OEMTEXT ∧ (s.fmt (CF_OEMTEXT - 1)).wDataPresent = 0
          ∧ (s.fmt (CF_TEXT - 1)).wDataPresent ≠ 0 then
        some (CF_TEXT - 1, CF_OEMTEXT - 1)
      else
        match walkToFormat s.ClipFormats wFormat 0 with
        | none => none
        | some lpRender => some (lpRender, lpRender)
    match sel with
    | none => (0, s)
    | some (lpRender, lpUpdate) =>
      let (ok, s) := CLIPBOARD_RenderFormat env lpRender s
      if ¬ ok then (0, s)
      else
        let s :=
          if lpUpdate ≠ lpRender ∧ (s.fmt lpUpdate).hData = 0 then
            (CLIPBOARD_RenderText env lpUpdate lpRender s).2
          else s
        ((s.fmt lpUpdate).hData, s)

/-- Source function `SetClipboardViewer32`. -/
def SetClipboardViewer32 (hWnd : Nat) (s : State) : Nat × State :=
  let hwndPrev := s.hWndViewer
  (hwndPrev, { s with hWndViewer := hWnd })

/-- The name walk of `RegisterClipboardFormat16`,
`while(TRUE) { if ( !strcmp(lpFormat->Name,FormatName) ) { ... return ...; }
 if ( lpFormat->NextFormat == NULL ) break; lpFormat = lpFormat->NextFormat; }`:
the index of the first record with that name, or `none` when the walk stops at
the last record without a match. -/
def RegisterClipboardFormat16.walk : List CLIPFORMAT → String → Nat → Option Nat
  | [], _, _ => none
  | r :: rest, FormatName, lpFormat =>
    if r.Name = FormatName then some lpFormat
    else RegisterClipboardFormat16.walk rest FormatName (lpFormat + 1)

/-- Source function `RegisterClipboardFormat16`; `none` is the `NULL` name.  `wRefCount` and
`LastRegFormat` are `WORD`s, so both increments wrap at 65536. -/
def RegisterClipboardFormat16 (FormatName : Option String) (s : State) : Nat × State :=
  match FormatName with
  | none => (0, s)
  | some FormatName =>
    -- walk format chain to see if it's already registered
    match RegisterClipboardFormat16.walk s.ClipFormats FormatName 0 with
    | some lpFormat =>
      let s := s.setFmt lpFormat
        { s.fmt lpFormat with wRefCount := ((s.fmt lpFormat).wRefCount + 1) % 65536 }
      ((s.fmt lpFormat).wFormatID, s)
    | none =>
      -- allocate storage for new format entry
      let lpNewFormat : CLIPFORMAT :=
        CLIPFORMAT.mk s.LastRegFormat 1 0 FormatName 0 0
      let s1 := { s with ClipFormats := s.ClipFormats ++ [lpNewFormat] }
      (s.LastRegFormat, { s1 with LastRegFormat := (s.LastRegFormat + 1) % 65536 })

/-- Source function `CLIPBOARD_CheckSelection`: the window `pWnd` is being destroyed; when it
holds the selection, hand the selection to a sibling. -/
def CLIPBOARD_CheckSelection (env : Env) (pWnd : WND) (s : State) : State :=
  if s.selectionAcquired ∧ s.selectionWindow ≠ None ∧ pWnd.window = s.selectionWindow then
    let s := { s with selectionPrevWindow := s.selectionWindow }
    let s := { s with selectionWindow := None }
    let s :=
      match pWnd.next with
      | some window => { s with selectionWindow := window }
      | none =>
        match pWnd.parentChild with
        | some window => { s with selectionWindow := window }
        | none => s
    if s.selectionWindow ≠ None then
      let s := XSetSelectionOwner env s.selectionWindow s
      if XGetSelectionOwner s ≠ s.selectionWindow then { s with selectionWindow := None }
      else s
    else s
  else s

/-- The record loop of `CLIPBOARD_DisOwn`,
`while(lpFormat) { if( lpFormat->wDataPresent && !lpFormat->hData )
 lpFormat->wDataPresent = 0; lpFormat = lpFormat->NextFormat; }`.
The first argument counts the nodes from `lpFormat` to the end of the chain. -/
def CLIPBOARD_DisOwn.loop : Nat → Nat → State → State
  | 0, _, s => s
  | n + 1, lpFormat, s =>
    let s :=
      if (s.fmt lpFormat).wDataPresent ≠ 0 ∧ (s.fmt lpFormat).hData = 0 then
        s.setFmt lpFormat { s.fmt lpFormat with wDataPresent := 0 }
      else s
    CLIPBOARD_DisOwn.loop n (lpFormat + 1) s

/-- Source function `CLIPBOARD_DisOwn`: called from `DestroyWindow()`. -/
def CLIPBOARD_DisOwn (env : Env) (pWnd : WND) (s : State) : State :=
  let s :=
    if pWnd.hwndSelf = s.hWndClipOwner then
      let s := SendMessage16 env s.hWndClipOwner Message.WM_RENDERALLFORMATS 0 0 s
      -- check if all formats were rendered
      let s := CLIPBOARD_DisOwn.loop s.ClipFormats.length 0 s
      { s with hWndClipOwner := 0 }
    else s
  -- now try to salvage current selection from being destroyed by X
  CLIPBOARD_CheckSelection env pWnd s

/-- The event loop of `CLIPBOARD_RequestXSelection`,
`while(selectionWait) EVENT_WaitXEvent( TRUE, FALSE );`; `none` when the fuel
runs out before the wait flag is cleared. -/
def CLIPBOARD_RequestXSelection.wait (env : Env) : Nat → State → Option State
  | 0, s => if s.selectionWait then none else some s
  | fuel + 1, s =>
    if s.selectionWait then CLIPBOARD_RequestXSelection.wait env fuel (env.EVENT_WaitXEvent s)
    else some s

/-- Source function `CLIPBOARD_RequestXSelection`; `fuel` bounds the events waited for. -/
def CLIPBOARD_RequestXSelection (env : Env) (fuel : Nat) (s : State) : Option (Bool × State) :=
  let hWnd := if s.hWndClipWindow ≠ 0 then s.hWndClipWindow else env.GetActiveWindow32
  if hWnd = 0 then some (false, s)
  else
    let s := { s with calls := s.calls ++ [Call.XConvertSelection (env.WIN_GetXWindow hWnd)] }
    -- wait until SelectionNotify is processed
    let s := { s with selectionWait := true }
    match CLIPBOARD_RequestXSelection.wait env fuel s with
    | none => none
    | some s =>
      -- we treat Unix text as CF_OEMTEXT
      some (decide ((s.fmt (CF_OEMTEXT - 1)).wDataPresent ≠ 0), s)

/-- Source function `CLIPBOARD_IsPresent`. -/
def CLIPBOARD_IsPresent (wFormat : Nat) (s : State) : Bool :=
  if wFormat = CF_TEXT ∨ wFormat = CF_OEMTEXT then
    decide ((s.fmt (CF_TEXT - 1)).wDataPresent ≠ 0 ∨ (s.fmt (CF_OEMTEXT - 1)).wDataPresent ≠ 0)
  else
    match walkToFormat s.ClipFormats wFormat 0 with
    | none => false
    | some lpFormat => decide ((s.fmt lpFormat).wDataPresent ≠ 0)

/-- The record loop of `CountClipboardFormats32`,
`while(TRUE) { if (lpFormat == NULL) break;
 if (lpFormat->wDataPresent) FormatCount++; lpFormat = lpFormat->NextFormat; }`,
over the chain from `lpFormat` on. -/
def CountClipboardFormats32.loop : List CLIPFORMAT → Int → Int
  | [], FormatCount => FormatCount
  | r :: rest, FormatCount =>
    CountClipboardFormats32.loop rest (if r.wDataPresent ≠ 0 then FormatCount + 1 else FormatCount)

/-- Source function `CountClipboardFormats32`.  `FormatCount` is an `INT32`; a chain long enough
to overflow it does not fit in memory. -/
def CountClipboardFormats32 (env : Env) (fuel : Nat) (s : State) : Option (Int × State) :=
  let FormatCount : Int := 0
  let requested : Option State :=
    if ¬ s.selectionAcquired then (CLIPBOARD_RequestXSelection env fuel s).map Prod.snd
    else some s
  match requested with
  | none => none
  | some s =>
    let FormatCount := FormatCount
      + |((s.fmt (CF_TEXT - 1)).wDataPresent : Int) - ((s.fmt (CF_OEMTEXT - 1)).wDataPresent : Int)|
    some (CountClipboardFormats32.loop s.ClipFormats FormatCount, s)

/-- The second loop of `EnumClipboardFormats32`, "find next format with
available data", over the chain from `lpFormat` on: the id of the record it
stops at, 0 when it reaches `NULL`. -/
def EnumClipboardFormats32.next (s : State) : List CLIPFORMAT → Nat
  | [] => 0
  | r :: rest =>
    if r.wDataPresent ≠ 0 ∨
        (r.wFormatID = CF_OEMTEXT ∧ (s.fmt (CF_TEXT - 1)).wDataPresent ≠ 0) then r.wFormatID
    else EnumClipboardFormats32.next s rest

/-- Source function `EnumClipboardFormats32`. -/
def EnumClipboardFormats32 (env : Env) (fuel : Nat) (wFormat : Nat) (s : State) :
    Option (Nat × State) :=
  if s.hWndClipWindow = 0 then some (0, s)
  else
    let requested : Option State :=
      if (wFormat = 0 ∨ wFormat = CF_TEXT ∨ wFormat = CF_OEMTEXT) ∧ ¬ s.selectionAcquired then
        (CLIPBOARD_RequestXSelection env fuel s).map Prod.snd
      else some s
    match requested with
    | none => none
    | some s =>
      if wFormat = 0 ∧ ((s.fmt 0).wDataPresent ≠ 0
          ∨ (s.fmt (CF_OEMTEXT - 1)).wDataPresent ≠ 0) then
        some ((s.fmt 0).wFormatID, s)
      else
        -- and CF_TEXT is not available
        let wFormat := if wFormat = 0 then (s.fmt 0).wFormatID else wFormat
        -- walk up to the specified format record
        match walkToFormat s.ClipFormats wFormat 0 with
        | none => some (0, s)
        | some lpFormat =>
          -- find next format with available data
          some (EnumClipboardFormats32.next s (s.ClipFormats.drop (lpFormat + 1)), s)

/-- The counting loop of `CLIPBOARD_ReadSelection`,
`for(i=0; i <= nitems; i++) if( val[i] == '\n' ) inlcount++;`. -/
def CLIPBOARD_ReadSelection.count (val : List Nat) (nitems : Nat) : Nat :=
  (List.range (nitems + 1)).foldl
    (fun inlcount i => if val.getD i 0 = 10 then inlcount + 1 else inlcount) 0

/-- The copying loop of `CLIPBOARD_ReadSelection`,
`for(i=0,inlcount=0; i <= nitems; i++)
 { if( val[i] == '\n' ) lpstr[inlcount++]='\r'; lpstr[inlcount++]=val[i]; }`:
the bytes written through `lpstr`, in order from `lpstr[0]`; `inlcount` is their
number. -/
def CLIPBOARD_ReadSelection.copy (val : List Nat) (nitems : Nat) : List Nat :=
  (List.range (nitems + 1)).foldl
    (fun lpstr i => (if val.getD i 0 = 10 then lpstr ++ [13] else lpstr) ++ [val.getD i 0]) []

/-- The first block of `CLIPBOARD_ReadSelection`, `if(prop != None) { ... }`:
the value of `hText` after it, 0 unless a block was allocated and filled. -/
def CLIPBOARD_ReadSelection.fetch (env : Env) (w prop : Nat) (s : State) : Nat × State :=
  let hText : Nat := 0
  if prop ≠ None then
    match env.XGetWindowProperty w prop with
    | none => (hText, s)
    | some p =>
      if p.atype = XA_STRING ∧ p.aformat = 8 then
        let inlcount := CLIPBOARD_ReadSelection.count p.val p.nitems
        if p.nitems ≠ 0 then
          let (hText, s) := GlobalAlloc16 env (p.nitems + inlcount + 1) s
          match GlobalLock16 hText s with
          | some _ =>
            (hText, storeBytes hText (CLIPBOARD_ReadSelection.copy p.val p.nitems) s)
          | none => (0, s)
        else (hText, s)
      else (hText, s)
  else (hText, s)

/-- The second block of `CLIPBOARD_ReadSelection`, under the comment
"delete previous CF_TEXT and CF_OEMTEXT data": `if( hText ) { ... }`. -/
def CLIPBOARD_ReadSelection.store (hText : Nat) (s : State) : State :=
  if hText ≠ 0 then
    let s :=
      if (s.fmt (CF_TEXT - 1)).wDataPresent ≠ 0 ∨ (s.fmt (CF_TEXT - 1)).hData ≠ 0 then
        CLIPBOARD_DeleteRecord (CF_TEXT - 1) s
      else s
    let s :=
      if (s.fmt (CF_OEMTEXT - 1)).wDataPresent ≠ 0 ∨ (s.fmt (CF_OEMTEXT - 1)).hData ≠ 0 then
        CLIPBOARD_DeleteRecord (CF_OEMTEXT - 1) s
      else s
    let s := s.setFmt (CF_OEMTEXT - 1) { s.fmt (CF_OEMTEXT - 1) with wDataPresent := 1 }
    s.setFmt (CF_OEMTEXT - 1) { s.fmt (CF_OEMTEXT - 1) with hData := hText }
  else s

/-- Source function `CLIPBOARD_ReadSelection`: called from the SelectionNotify event handler;
the two blocks above, then `selectionWait=False;`. -/
def CLIPBOARD_ReadSelection (env : Env) (w prop : Nat) (s : State) : State :=
  let (hText, s) := CLIPBOARD_ReadSelection.fetch env w prop s
  let s := CLIPBOARD_ReadSelection.store hText s
  { s with selectionWait := false }

/-- Source function `CLIPBOARD_ReleaseSelection`: the window `w` lost the selection.  The
`else` of the source belongs to the inner `if`. -/
def CLIPBOARD_ReleaseSelection (env : Env) (w hwnd : Nat) (s : State) : State :=
  let s :=
    if s.selectionAcquired then
      if w = s.selectionWindow ∨ s.selectionPrevWindow = None then
        -- alright, we really lost it
        let s := { s with selectionAcquired := false }
        { s with selectionWindow := None }
      else if w = s.selectionPrevWindow then
        let w := XGetSelectionOwner s
        if w = None then XSetSelectionOwner env s.selectionWindow s else s
      else s
    else s
  { s with selectionPrevWindow := None }

/-! ## Predicates and fixtures used by the statements -/

/-- The selection mirror is coherent: when the selection is recorded as not
held, no selection window is recorded. -/
def SelectionCoherent (s : State) : Prop :=
  s.selectionAcquired = false → s.selectionWindow = None

/-- An environment for concrete runs: window procedures that ignore every
message, every window valid, an X server that grants every request, an
allocator that hands out the next unused handle, identity conversions, no active
window, events that only end the wait, no property to read. -/
def Env.quiet : Env :=
  { WndProc := fun _ _ _ s => s,
    IsWindow32 := fun _ => true,
    WIN_GetXWindow := fun hwnd => hwnd,
    XServerGrant := fun _ owner => owner,
    GlobalAllocPick := fun heap _ => (heap.map Prod.fst).foldl max 0 + 1,
    CharToOem := fun c => c,
    OemToChar := fun c => c,
    GetActiveWindow32 := 0,
    EVENT_WaitXEvent := fun s => { s with selectionWait := false },
    XGetWindowProperty := fun _ _ => none }

/-- An environment whose windows answer the content-changed message by opening
the clipboard themselves, as a viewer does to read the new data; every other
message is ignored. -/
def Env.viewerOpens : Env :=
  { Env.quiet with
      WndProc := fun hwnd msg _ s =>
        if msg = Message.WM_DRAWCLIPBOARD then (OpenClipboard32 hwnd s).2 else s }

/-- An environment whose windows answer the destroy message by closing the
clipboard and opening it again for window 8; every other message is ignored. -/
def Env.ownerReopens : Env :=
  { Env.quiet with
      WndProc := fun _ msg _ s =>
        if msg = Message.WM_DESTROYCLIPBOARD then
          (OpenClipboard32 8 (CloseClipboard32 Env.quiet s).2).2
        else s }

/-- An open clipboard whose text record holds the present handle 1, a block with
the given bytes; every other record is as at start-up. -/
def State.withText (bytes : List Nat) : State :=
  ({ State.initial with hWndClipWindow := 5, hWndClipOwner := 5, heap := [(1, bytes)] } :
    State).setFmt (CF_TEXT - 1) { State.initial.fmt (CF_TEXT - 1) with wDataPresent := 1, hData := 1 }

/-- The quiet environment with an allocator that has no memory left. -/
def Env.noMemory : Env :=
  { Env.quiet with GlobalAllocPick := fun _ _ => 0 }

/-- The quiet environment with a conversion that moves every character. -/
def Env.shifting : Env :=
  { Env.quiet with CharToOem := fun c => c + 1 }

/-- The ids handed to newly appended records while the names are registered in
order from state `s`: a call contributes its result exactly when it made the
chain longer. -/
def appendedIds : List String → State → List Nat
  | [], _ => []
  | name :: rest, s =>
    if (RegisterClipboardFormat16 (some name) s).2.ClipFormats.length = s.ClipFormats.length then
      appendedIds rest (RegisterClipboardFormat16 (some name) s).2
    else
      (RegisterClipboardFormat16 (some name) s).1 ::
        appendedIds rest (RegisterClipboardFormat16 (some name) s).2

/-- A format name made of `i + 1` letters x. -/
def xName (i : Nat) : String := String.mk (List.replicate (i + 1) 'x')

/-- The first `n` names of that family, all different. -/
def xNames (n : Nat) : List String := (List.range n).map xName

/-- An open clipboard whose owner, window 5, has promised the bitmap format: the
record is marked present with a null handle. -/
def State.promisedBitmap : State :=
  ({ State.initial with hWndClipWindow := 5, hWndClipOwner := 5 } : State).setFmt (CF_BITMAP - 1)
    { State.initial.fmt (CF_BITMAP - 1) with wDataPresent := 1 }

/-- The states reachable from the initial state by the operations of the module
on the clipboard and on the selection mirror, with any arguments. -/
inductive Reachable (env : Env) : State → Prop
  | initial : Reachable env State.initial
  | opened (s : State) (hWnd : Nat) :
      Reachable env s → Reachable env (OpenClipboard32 hWnd s).2
  | closed (s : State) : Reachable env s → Reachable env (CloseClipboard32 env s).2
  | emptied (s : State) : Reachable env s → Reachable env (EmptyClipboard32 env s).2
  | dataSet (s : State) (wFormat hData : Nat) :
      Reachable env s → Reachable env (SetClipboardData16 env wFormat hData s).2
  | dataGot (s : State) (wFormat : Nat) :
      Reachable env s → Reachable env (GetClipboardData16 env wFormat s).2
  | registered (s : State) (FormatName : Option String) :
      Reachable env s → Reachable env (RegisterClipboardFormat16 FormatName s).2
  | viewerSet (s : State) (hWnd : Nat) :
      Reachable env s → Reachable env (SetClipboardViewer32 hWnd s).2
  | disowned (s : State) (pWnd : WND) :
      Reachable env s → Reachable env (CLIPBOARD_DisOwn env pWnd s)
  | selectionChecked (s : State) (pWnd : WND) :
      Reachable env s → Reachable env (CLIPBOARD_CheckSelection env pWnd s)
  | selectionReleased (s : State) (w hwnd : Nat) :
      Reachable env s → Reachable env (CLIPBOARD_ReleaseSelection env w hwnd s)
  | selectionRead (s : State) (w prop : Nat) :
      Reachable env s → Reachable env (CLIPBOARD_ReadSelection env w prop s)

/-- The text the specification asks for: the input with a carriage return (13)
inserted before every line feed (10). -/
def withCarriageReturns (data : List Nat) : List Nat :=
  data.flatMap (fun c => if c = 10 then [13, 10] else [c])

/-- An environment whose X server answers every property read with the 8-bit
string "a\nb" and its terminating NUL. -/
def Env.withProperty : Env :=
  { Env.quiet with
      XGetWindowProperty := fun _ _ =>
        some { atype := XA_STRING, aformat := 8, nitems := 3, val := [97, 10, 98, 0] } }

/-- The environment that answers every property read with "a\nb" and whose
allocator has no memory left. -/
def Env.withPropertyNoMemory : Env :=
  { Env.withProperty with GlobalAllocPick := fun _ _ => 0 }

/-- The chain starts with the built-in records in the order of the table, so the
text record is `ClipFormats[CF_TEXT-1]`, the OEM text record is
`ClipFormats[CF_OEMTEXT-1]` and no record before it has its id. -/
def TextLayout (s : State) : Prop :=
  (s.ClipFormats.map CLIPFORMAT.wFormatID).take 7
    = [CF_TEXT, CF_BITMAP, CF_METAFILEPICT, CF_SYLK, CF_DIF, CF_TIFF, CF_OEMTEXT]

/-- A record holds a converted alias handle: a non-null handle with the
data-present flag clear. -/
def IsAlias (r : CLIPFORMAT) : Prop := r.hData ≠ 0 ∧ r.wDataPresent = 0

/-- A record has data present with a non-null handle. -/
def HoldsData (r : CLIPFORMAT) : Prop := r.wDataPresent ≠ 0 ∧ r.hData ≠ 0

/-- A text record holds an alias handle only while its sibling text record has
data present with a non-null handle. -/
def AliasBacked (s : State) : Prop :=
  (IsAlias (s.fmt (CF_TEXT - 1)) → HoldsData (s.fmt (CF_OEMTEXT - 1))) ∧
  (IsAlias (s.fmt (CF_OEMTEXT - 1)) → HoldsData (s.fmt (CF_TEXT - 1)))

/-- Every block that is allocated in `s1` is allocated in `s` with the same
bytes: going from `s` to `s1` allocated no block and stored through no
pointer. -/
def LocksWithin (s1 s : State) : Prop :=
  ∀ h x, GlobalLock16 h s1 = some x → GlobalLock16 h s = some x

/-- An alias is current: when a text record holds an alias handle and both its
block and the block of the sibling text record are allocated, the bytes of the
alias are the conversion `CLIPBOARD_RenderText` makes of the bytes the sibling
holds now, that is of their first `size % 65536` bytes (`size` is a `UINT16`),
from OEM for the text record and to OEM for the OEM text record. -/
def AliasCurrent (env : Env) (s : State) : Prop :=
  (IsAlias (s.fmt (CF_TEXT - 1)) →
    ∀ src dst, GlobalLock16 (s.fmt (CF_OEMTEXT - 1)).hData s = some src →
      GlobalLock16 (s.fmt (CF_TEXT - 1)).hData s = some dst →
      dst = (src.take (src.length % 65536)).map env.OemToChar) ∧
  (IsAlias (s.fmt (CF_OEMTEXT - 1)) →
    ∀ src dst, GlobalLock16 (s.fmt (CF_TEXT - 1)).hData s = some src →
      GlobalLock16 (s.fmt (CF_OEMTEXT - 1)).hData s = some dst →
      dst = (src.take (src.length % 65536)).map env.CharToOem)

/-- The environment that answers every property read with "a\nb" and whose
conversion from OEM moves every character. -/
def Env.withPropertyShifting : Env :=
  { Env.withProperty with OemToChar := fun c => c + 1 }

/-- The data-present flags and the handles of the two text records. -/
def textView (s : State) : (Nat × Nat) × (Nat × Nat) :=
  (((s.fmt (CF_TEXT - 1)).wDataPresent, (s.fmt (CF_TEXT - 1)).hData),
   ((s.fmt (CF_OEMTEXT - 1)).wDataPresent, (s.fmt (CF_OEMTEXT - 1)).hData))

/-- The end of `SetClipboardData16`,
`bClipChanged = TRUE; lpFormat->wDataPresent = 1; lpFormat->hData = hData;`. -/
def SetClipboardData16.store (lpFormat hData : Nat) (s : State) : State :=
  let s := { s with bClipChanged := true }
  let s := s.setFmt lpFormat { s.fmt lpFormat with wDataPresent := 1 }
  s.setFmt lpFormat { s.fmt lpFormat with hData := hData }

/-- The loop of a caller that lists the formats,
`f = 0; while ((f = EnumClipboardFormats32(f)) != 0) visit(f);`: the formats
visited, in order, and the state afterwards; `none` when `calls` calls did not
reach the result 0 or a selection request ran out of fuel. -/
def enumerateFormats (env : Env) (fuel : Nat) : Nat → Nat → State → Option (List Nat × State)
  | 0, _, _ => none
  | calls + 1, f, s =>
    match EnumClipboardFormats32 env fuel f s with
    | none => none
    | some (g, s1) =>
      if g = 0 then some ([], s1)
      else (enumerateFormats env fuel calls g s1).map (fun r => (g :: r.1, r.2))

/-- The records the specification says the enumeration visits: every record
with data present, and both text records when either of them has data
present. -/
def listedFormat (s : State) (r : CLIPFORMAT) : Bool :=
  decide (r.wDataPresent ≠ 0 ∨
    ((r.wFormatID = CF_TEXT ∨ r.wFormatID = CF_OEMTEXT) ∧
      ((s.fmt (CF_TEXT - 1)).wDataPresent ≠ 0 ∨ (s.fmt (CF_OEMTEXT - 1)).wDataPresent ≠ 0)))

/-- The test of the second loop of `EnumClipboardFormats32` on one record. -/
def EnumClipboardFormats32.stops (s : State) (r : CLIPFORMAT) : Bool :=
  decide (r.wDataPresent ≠ 0 ∨
    (r.wFormatID = CF_OEMTEXT ∧ (s.fmt (CF_TEXT - 1)).wDataPresent ≠ 0))

/-- Register the names in order. -/
def registerAll : List String → State → State
  | [], s => s
  | name :: rest, s => registerAll rest (RegisterClipboardFormat16 (some name) s).2

end Clipboard

namespace File

/-! ## Native storage and the process handle table -/

/-- Native error numbers (`errno.h`); `other` stands for every number the
error table of `FILE_SetDosError` does not name. -/
inductive Errno where
  | EAGAIN | EBADF | ENOSPC | EACCES | EPERM | EROFS | EBUSY | ENOENT
  | EISDIR | ENFILE | EMFILE | EEXIST
  | other (n : Nat)
  deriving DecidableEq, Repr

/-- Constant `EFAULT` of the system headers, a native error number outside the table. -/
def Errno.EFAULT : Errno := Errno.other 14

/-- Modelled from the spec: the DOS extended error codes of the absent header
msdos.h that the module uses; `ER_NoError` is the value 0 the variable holds
before any error. -/
inductive ER where
  | ER_NoError | ER_ShareViolation | ER_InvalidHandle | ER_DiskFull | ER_AccessDenied
  | ER_LockViolation | ER_FileNotFound | ER_CanNotMakeDir | ER_NoMoreFiles
  | ER_FileExists | ER_GeneralFailure | ER_TooManyOpenFiles
  deriving DecidableEq, Repr

/-- Modelled from the spec: the DOS error classes of the absent header msdos.h. -/
inductive EC where
  | EC_None | EC_Temporary | EC_ProgramError | EC_MediaError | EC_AccessDenied
  | EC_NotFound | EC_Exists | EC_SystemFailure
  deriving DecidableEq, Repr

/-- Modelled from the spec: the DOS suggested actions of the absent header
msdos.h. -/
inductive SA where
  | SA_None | SA_Retry | SA_Abort
  deriving DecidableEq, Repr

/-- Modelled from the spec: the DOS error loci of the absent header msdos.h. -/
inductive EL where
  | EL_None | EL_Disk | EL_Unknown
  deriving DecidableEq, Repr

/-- Access mode and creation flags of the native `open` (`fcntl.h`): the
bit-or of the source becomes a record of the bits. -/
structure OpenFlags where
  access : Nat
  creat : Bool
  excl : Bool
  trunc : Bool
  deriving DecidableEq, Repr

/-- Constant `O_RDONLY` of the system headers. -/
def O_RDONLY : Nat := 0
/-- Constant `O_WRONLY` of the system headers. -/
def O_WRONLY : Nat := 1
/-- Constant `O_RDWR` of the system headers. -/
def O_RDWR : Nat := 2
/-- Constant `S_IWUSR` of the system headers, the owner write permission bit. -/
def S_IWUSR : Nat := 0o200
/-- Constant `S_IRUSR` of the system headers, the owner read permission bit. -/
def S_IRUSR : Nat := 0o400

/-- Modelled from the spec: constant `OF_READ` of the absent header windows.h. -/
def OF_READ : Nat := 0
/-- Modelled from the spec: constant `OF_WRITE` of the absent header windows.h. -/
def OF_WRITE : Nat := 1
/-- Modelled from the spec: constant `OF_READWRITE` of the absent header windows.h. -/
def OF_READWRITE : Nat := 2

/-- Modelled from the spec: constant `FILE_ATTRIBUTE_READONLY` of the absent
header windows.h. -/
def FILE_ATTRIBUTE_READONLY : Nat := 0x01
/-- Modelled from the spec: constant `FILE_ATTRIBUTE_DIRECTORY` of the absent
header windows.h. -/
def FILE_ATTRIBUTE_DIRECTORY : Nat := 0x10
/-- Modelled from the spec: constant `FILE_ATTRIBUTE_ARCHIVE` of the absent
header windows.h. -/
def FILE_ATTRIBUTE_ARCHIVE : Nat := 0x20
/-- Modelled from the spec: constant `FILE_TYPE_DISK` of the absent header windows.h. -/
def FILE_TYPE_DISK : Nat := 1

/-- Modelled from the spec: constant `FILE_TYPE_UNKNOWN` of the absent header windows.h. -/
def FILE_TYPE_UNKNOWN : Nat := 0

/-- Modelled from the spec: constant `FILE_CURRENT` of the absent header windows.h. -/
def FILE_CURRENT : Nat := 1

/-- Modelled from the spec: constant `FILE_END` of the absent header windows.h. -/
def FILE_END : Nat := 2

/-- The native seek origin `SEEK_SET`. -/
def SEEK_SET : Nat := 0

/-- The native seek origin `SEEK_CUR`. -/
def SEEK_CUR : Nat := 1

/-- The native seek origin `SEEK_END`. -/
def SEEK_END : Nat := 2

/-- Modelled from the spec: constant `INVALID_HANDLE_VALUE32` of the absent
header windows.h, the handle -1. -/
def INVALID_HANDLE_VALUE32 : Int := -1
/-- Modelled from the spec: constant `HFILE_ERROR32` of the absent header
windows.h, the handle -1. -/
def HFILE_ERROR32 : Int := -1

/-- A file of the native file system. -/
structure UnixFile where
  data : List Nat
  st_mode : Nat
  isDir : Bool
  st_mtime : Nat
  st_atime : Nat
  st_nlink : Nat
  st_ino : Nat
  deriving DecidableEq, Repr

/-- An open native descriptor: the file it refers to, the file position and
the access mode it was opened with. -/
structure OpenFile where
  name : String
  pos : Nat
  access : Nat
  deriving DecidableEq, Repr

/-- The fields of `struct stat` the module reads. -/
structure Stat where
  st_mode : Nat
  isDir : Bool
  st_size : Nat
  st_mtime : Nat
  st_atime : Nat
  st_nlink : Nat
  st_ino : Nat
  deriving DecidableEq, Repr

/-- Modelled from the spec: the type `BY_HANDLE_FILE_INFORMATION` of the absent
header windows.h; the three times are kept as the native times they are
converted from. -/
structure BY_HANDLE_FILE_INFORMATION where
  dwFileAttributes : Nat
  ftCreationTime : Nat
  ftLastWriteTime : Nat
  ftLastAccessTime : Nat
  dwVolumeSerialNumber : Nat
  nFileSizeHigh : Nat
  nFileSizeLow : Nat
  nNumberOfLinks : Nat
  nFileIndexHigh : Nat
  nFileIndexLow : Nat
  deriving DecidableEq, Repr

/-- Modelled from the spec: the type `FILE_OBJECT` of the absent header file.h,
the File Object of the data model: the object header (its reference count; the
kind tag is always `K32OBJ_FILE`) and the fields of the file. -/
structure FILE_OBJECT where
  refcount : Nat
  unix_handle : Int
  unix_name : Option String
  type : Nat
  deriving DecidableEq, Repr

/-- What happens to the slots of the handle table, in program order. -/
inductive Event where
  | AllocHandle (handle : Int)
  | CloseHandle (handle : Int)
  deriving DecidableEq, Repr

/-- A call of the native system, with the arguments the module passes. -/
inductive Native where
  | Open (name : String) (flags : OpenFlags) (mode : Nat)
  | Close (fd : Int)
  | Fstat (fd : Int)
  | Read (fd : Int) (count : Nat)
  | Write (fd : Int) (count : Nat)
  | Lseek (fd : Int)
  | Ftruncate (fd : Int) (length : Int)
  | Time
  | Access (name : String)
  | Seek (fd : Int) (offset : Int) (whence : Nat)
  | Fsync (fd : Int)
  | Utime (name : Option String)
  | Unlink (name : String)
  | Rmdir (name : String)
  deriving DecidableEq, Repr

/-- The process state the file functions work on: the handle table (slot to
object pointer), the kernel objects, the native files and descriptors, `errno`,
the DOS error variables, the number of native calls made so far, the log of
handle-table events and the log of native calls. -/
structure State where
  handles : List (Int × Nat)
  objects : List (Nat × FILE_OBJECT)
  files : List (String × UnixFile)
  fds : List (Int × OpenFile)
  errno : Errno
  DOS_ExtendedError : ER
  DOS_ErrorClass : EC
  DOS_ErrorAction : SA
  DOS_ErrorLocus : EL
  tick : Nat
  events : List Event
  natives : List Native
  deriving DecidableEq, Repr

/-- The collaborators of the file functions.  `fault n` makes native call number
`n` fail with an error number; `shortCount n m` is how many of `m` transferable
bytes read or write number `n` moves; the two `Fails` oracles exhaust the heap
and the handle table; the `DOSFS_` functions are the path resolution service,
which reports its own DOS error when it fails; `time n` is the clock read by
native call number `n`. -/
structure Env where
  fault : Nat → Option Errno
  time : Nat → Nat
  shortCount : Nat → Nat → Nat
  HeapAllocFails : Nat → Bool
  AllocHandleFails : Nat → Bool
  DOSFS_IsDevice : String → Option String
  DOSFS_GetFullName : String → Bool → List (String × UnixFile) → ER ⊕ String
  failReadOnly : Bool

/-- Association list lookup. -/
def assocFind {κ α : Type} [DecidableEq κ] (k : κ) : List (κ × α) → Option α
  | [] => none
  | (k1, v) :: rest => if k1 = k then some v else assocFind k rest

/-- Association list removal. -/
def assocErase {κ α : Type} [DecidableEq κ] (k : κ) (l : List (κ × α)) : List (κ × α) :=
  l.filter (fun e => decide (e.1 ≠ k))

/-- Association list update: the binding of `k` is replaced or added. -/
def assocInsert {κ α : Type} [DecidableEq κ] (k : κ) (v : α) (l : List (κ × α)) : List (κ × α) :=
  (k, v) :: assocErase k l

/-- Modelled from the spec: the DOS_ERROR macro of the absent header msdos.h,
which records the four DOS error variables. -/
def DOS_ERROR (er : ER) (ec : EC) (sa : SA) (el : EL) (s : State) : State :=
  { s with DOS_ExtendedError := er, DOS_ErrorClass := ec,
           DOS_ErrorAction := sa, DOS_ErrorLocus := el }

/-! ### Native calls

Each call consults the fault oracle once, then behaves as the file system
does. -/

/-- The smallest descriptor number not in use. -/
def freshFd (fds : List (Int × OpenFile)) : Int :=
  (fds.map Prod.fst).foldl max (-1) + 1

/-- Native `open(name, flags, mode)`. -/
def sys_open (env : Env) (name : String) (flags : OpenFlags) (mode : Nat) (s : State) :
    Int × State :=
  let s1 := { s with tick := s.tick + 1, natives := s.natives ++ [Native.Open name flags mode] }
  match env.fault s.tick with
  | some e => (-1, { s1 with errno := e })
  | none =>
    match assocFind name s.files with
    | some f =>
      if flags.creat ∧ flags.excl then (-1, { s1 with errno := Errno.EEXIST })
      else if f.isDir ∧ flags.access ≠ O_RDONLY then (-1, { s1 with errno := Errno.EISDIR })
      else if flags.access ≠ O_WRONLY ∧ f.st_mode &&& S_IRUSR = 0 then
        (-1, { s1 with errno := Errno.EACCES })
      else if flags.access ≠ O_RDONLY ∧ f.st_mode &&& S_IWUSR = 0 then
        (-1, { s1 with errno := Errno.EACCES })
      else
        let fd := freshFd s.fds
        let files := if flags.trunc ∧ ¬ f.isDir ∧ flags.access ≠ O_RDONLY then
                       assocInsert name { f with data := [] } s1.files
                     else s1.files
        let d : OpenFile := { name := name, pos := 0, access := flags.access }
        (fd, { s1 with files := files, fds := assocInsert fd d s1.fds })
    | none =>
      if flags.creat then
        let fd := freshFd s.fds
        let f : UnixFile :=
          { data := [], st_mode := mode, isDir := false, st_mtime := s.tick,
            st_atime := s.tick, st_nlink := 1, st_ino := s.tick }
        let d : OpenFile := { name := name, pos := 0, access := flags.access }
        (fd, { s1 with files := assocInsert name f s1.files, fds := assocInsert fd d s1.fds })
      else (-1, { s1 with errno := Errno.ENOENT })

/-- Native `close(fd)`. -/
def sys_close (fd : Int) (s : State) : State :=
  { s with fds := assocErase fd s.fds, tick := s.tick + 1,
           natives := s.natives ++ [Native.Close fd] }

/-- Native `fstat(fd, &st)`. -/
def sys_fstat (env : Env) (fd : Int) (s : State) : Option Stat × State :=
  let s1 := { s with tick := s.tick + 1, natives := s.natives ++ [Native.Fstat fd] }
  match env.fault s.tick with
  | some e => (none, { s1 with errno := e })
  | none =>
    match assocFind fd s.fds with
    | none => (none, { s1 with errno := Errno.EBADF })
    | some d =>
      match assocFind d.name s.files with
      | none => (none, { s1 with errno := Errno.EBADF })
      | some f =>
        (some { st_mode := f.st_mode, isDir := f.isDir, st_size := f.data.length,
                st_mtime := f.st_mtime, st_atime := f.st_atime,
                st_nlink := f.st_nlink, st_ino := f.st_ino }, s1)

/-- How many bytes a transfer moves when `m` can be moved: all of them or, at
the choice of the environment, fewer, but at least one. -/
def moved (env : Env) (tick m : Nat) : Nat :=
  if m = 0 then 0 else max 1 (min (env.shortCount tick m) m)

/-- Native `read(fd, buffer, count)`: the result and the bytes stored at the
start of the buffer. -/
def sys_read (env : Env) (fd : Int) (count : Nat) (s : State) : Int × List Nat × State :=
  let s1 := { s with tick := s.tick + 1, natives := s.natives ++ [Native.Read fd count] }
  match env.fault s.tick with
  | some e => (-1, [], { s1 with errno := e })
  | none =>
    match assocFind fd s.fds with
    | none => (-1, [], { s1 with errno := Errno.EBADF })
    | some d =>
      if d.access = O_WRONLY then (-1, [], { s1 with errno := Errno.EBADF })
      else
        match assocFind d.name s.files with
        | none => (-1, [], { s1 with errno := Errno.EBADF })
        | some f =>
          if f.isDir then (-1, [], { s1 with errno := Errno.EISDIR })
          else
            let n := moved env s.tick (min count (f.data.length - d.pos))
            (n, (f.data.drop d.pos).take n,
              { s1 with fds := assocInsert fd { d with pos := d.pos + n } s1.fds })

/-- Native `write(fd, buffer, count)`; `buffer` is the memory readable at the
pointer, and asking for more bytes than it holds fails with `EFAULT`. -/
def sys_write (env : Env) (fd : Int) (buffer : List Nat) (count : Nat) (s : State) :
    Int × State :=
  let s1 := { s with tick := s.tick + 1, natives := s.natives ++ [Native.Write fd count] }
  match env.fault s.tick with
  | some e => (-1, { s1 with errno := e })
  | none =>
    match assocFind fd s.fds with
    | none => (-1, { s1 with errno := Errno.EBADF })
    | some d =>
      if d.access = O_RDONLY then (-1, { s1 with errno := Errno.EBADF })
      else if buffer.length < count then (-1, { s1 with errno := Errno.EFAULT })
      else
        match assocFind d.name s.files with
        | none => (-1, { s1 with errno := Errno.EBADF })
        | some f =>
          let n := moved env s.tick count
          let old := f.data ++ List.replicate (d.pos - f.data.length) 0
          let data := old.take d.pos ++ buffer.take n ++ old.drop (d.pos + n)
          (n, { s1 with files := assocInsert d.name { f with data := data } s1.files,
                        fds := assocInsert fd { d with pos := d.pos + n } s1.fds })

/-- Native `lseek(fd, 0, SEEK_CUR)`. -/
def sys_lseek_cur (env : Env) (fd : Int) (s : State) : Int × State :=
  let s1 := { s with tick := s.tick + 1, natives := s.natives ++ [Native.Lseek fd] }
  match env.fault s.tick with
  | some e => (-1, { s1 with errno := e })
  | none =>
    match assocFind fd s.fds with
    | none => (-1, { s1 with errno := Errno.EBADF })
    | some d => (d.pos, s1)

/-- Native `ftruncate(fd, length)`. -/
def sys_ftruncate (env : Env) (fd : Int) (length : Int) (s : State) : Int × State :=
  let s1 := { s with tick := s.tick + 1, natives := s.natives ++ [Native.Ftruncate fd length] }
  match env.fault s.tick with
  | some e => (-1, { s1 with errno := e })
  | none =>
    match assocFind fd s.fds with
    | none => (-1, { s1 with errno := Errno.EBADF })
    | some d =>
      if d.access = O_RDONLY ∨ length < 0 then (-1, { s1 with errno := Errno.other 22 })
      else
        match assocFind d.name s.files with
        | none => (-1, { s1 with errno := Errno.EBADF })
        | some f =>
          let data := (f.data ++ List.replicate (length.toNat - f.data.length) 0).take length.toNat
          (0, { s1 with files := assocInsert d.name { f with data := data } s1.files })

/-- Native `time(NULL)`. -/
def sys_time (env : Env) (s : State) : Nat × State :=
  (env.time s.tick, { s with tick := s.tick + 1, natives := s.natives ++ [Native.Time] })

/-- Native `access(name, W_OK)`: 0 when the file exists and its owner may write
it, else -1. -/
def sys_access (env : Env) (name : String) (s : State) : Int × State :=
  let s1 := { s with tick := s.tick + 1, natives := s.natives ++ [Native.Access name] }
  match env.fault s.tick with
  | some e => (-1, { s1 with errno := e })
  | none =>
    match assocFind name s.files with
    | none => (-1, { s1 with errno := Errno.ENOENT })
    | some f =>
      if f.st_mode &&& S_IWUSR = 0 then (-1, { s1 with errno := Errno.EACCES }) else (0, s1)

/-- Native `lseek(fd, offset, whence)`; `whence` is 0 for `SEEK_SET`, 1 for
`SEEK_CUR`, 2 for `SEEK_END`. -/
def sys_lseek (env : Env) (fd : Int) (offset : Int) (whence : Nat) (s : State) : Int × State :=
  let s1 := { s with tick := s.tick + 1,
                     natives := s.natives ++ [Native.Seek fd offset whence] }
  match env.fault s.tick with
  | some e => (-1, { s1 with errno := e })
  | none =>
    match assocFind fd s.fds with
    | none => (-1, { s1 with errno := Errno.EBADF })
    | some d =>
      match assocFind d.name s.files with
      | none => (-1, { s1 with errno := Errno.EBADF })
      | some f =>
        let base : Int :=
          if whence = SEEK_CUR then d.pos else if whence = SEEK_END then f.data.length else 0
        if base + offset < 0 then (-1, { s1 with errno := Errno.other 22 })
        else
          (base + offset,
            { s1 with fds := assocInsert fd { d with pos := (base + offset).toNat } s1.fds })

/-- Native `fsync(fd)`. -/
def sys_fsync (env : Env) (fd : Int) (s : State) : Int × State :=
  let s1 := { s with tick := s.tick + 1, natives := s.natives ++ [Native.Fsync fd] }
  match env.fault s.tick with
  | some e => (-1, { s1 with errno := e })
  | none =>
    match assocFind fd s.fds with
    | none => (-1, { s1 with errno := Errno.EBADF })
    | some _ => (0, s1)

/-- Native `utime(name, &utimbuf)`; `none` is the null name. -/
def sys_utime (env : Env) (name : Option String) (actime modtime : Nat) (s : State) :
    Int × State :=
  let s1 := { s with tick := s.tick + 1, natives := s.natives ++ [Native.Utime name] }
  match env.fault s.tick with
  | some e => (-1, { s1 with errno := e })
  | none =>
    match name with
    | none => (-1, { s1 with errno := Errno.EFAULT })
    | some name =>
      match assocFind name s.files with
      | none => (-1, { s1 with errno := Errno.ENOENT })
      | some f =>
        (0, { s1 with files :=
                assocInsert name { f with st_atime := actime, st_mtime := modtime } s1.files })

/-- Native `unlink(name)`. -/
def sys_unlink (env : Env) (name : String) (s : State) : Int × State :=
  let s1 := { s with tick := s.tick + 1, natives := s.natives ++ [Native.Unlink name] }
  match env.fault s.tick with
  | some e => (-1, { s1 with errno := e })
  | none =>
    match assocFind name s.files with
    | none => (-1, { s1 with errno := Errno.ENOENT })
    | some f =>
      if f.isDir then (-1, { s1 with errno := Errno.EISDIR })
      else (0, { s1 with files := assocErase name s1.files })

/-- Native `rmdir(name)`; 20 is `ENOTDIR`. -/
def sys_rmdir (env : Env) (name : String) (s : State) : Int × State :=
  let s1 := { s with tick := s.tick + 1, natives := s.natives ++ [Native.Rmdir name] }
  match env.fault s.tick with
  | some e => (-1, { s1 with errno := e })
  | none =>
    match assocFind name s.files with
    | none => (-1, { s1 with errno := Errno.ENOENT })
    | some f =>
      if f.isDir then (0, { s1 with files := assocErase name s1.files })
      else (-1, { s1 with errno := Errno.other 20 })

/-! ### The handle table -/

/-- Apply `f` to the object a pointer designates. -/
def modifyObject (ptr : Nat) (f : FILE_OBJECT → FILE_OBJECT) (s : State) : State :=
  match assocFind ptr s.objects with
  | some o => { s with objects := assocInsert ptr (f o) s.objects }
  | none => s

/-- Source function `FILE_Destroy`: close the native descriptor if one is set, free the name and
the object. -/
def FILE_Destroy (ptr : Nat) (s : State) : State :=
  match assocFind ptr s.objects with
  | none => s
  | some file =>
    let s := if file.unix_handle ≠ -1 then sys_close file.unix_handle s else s
    { s with objects := assocErase ptr s.objects }

/-- Modelled from the spec: K32OBJ_IncCount of the absent object manager; one
more reference to the object. -/
def K32OBJ_IncCount (ptr : Nat) (s : State) : State :=
  modifyObject ptr (fun o => { o with refcount := o.refcount + 1 }) s

/-- Modelled from the spec: K32OBJ_DecCount of the absent object manager (the
release and destroy of the handle table): one reference less, and at zero the
destructor of the kind runs. -/
def K32OBJ_DecCount (ptr : Nat) (s : State) : State :=
  match assocFind ptr s.objects with
  | none => s
  | some o =>
    if o.refcount ≤ 1 then
      FILE_Destroy ptr (modifyObject ptr (fun o => { o with refcount := 0 }) s)
    else modifyObject ptr (fun o => { o with refcount := o.refcount - 1 }) s

/-- A slot number not in use; slots are numbered from 1. -/
def freshHandle (handles : List (Int × Nat)) : Int :=
  (handles.map Prod.fst).foldl max 0 + 1

/-- An object pointer not in use. -/
def freshPtr (objects : List (Nat × FILE_OBJECT)) : Nat :=
  (objects.map Prod.fst).foldl max 0 + 1

/-- Modelled from the spec: PROCESS_AllocHandle, the allocate of the absent
handle table.  The object gains a reference and is installed in a free slot;
when the table is exhausted the reference is dropped again and the invalid
handle is returned. -/
def PROCESS_AllocHandle (env : Env) (ptr : Nat) (s : State) : Int × State :=
  let s1 := K32OBJ_IncCount ptr { s with tick := s.tick + 1 }
  if env.AllocHandleFails s.tick then (INVALID_HANDLE_VALUE32, K32OBJ_DecCount ptr s1)
  else
    let handle := freshHandle s.handles
    (handle, { s1 with handles := assocInsert handle ptr s1.handles,
                       events := s1.events ++ [Event.AllocHandle handle] })

/-- Modelled from the spec: PROCESS_GetObjPtr, the lookup of the absent handle
table.  A known handle yields its object with one more (transient) reference;
an unknown one fails with the invalid-handle error. -/
def PROCESS_GetObjPtr (handle : Int) (s : State) : Option Nat × State :=
  match assocFind handle s.handles with
  | some ptr =>
    match assocFind ptr s.objects with
    | some _ => (some ptr, K32OBJ_IncCount ptr s)
    | none => (none, { s with DOS_ExtendedError := ER.ER_InvalidHandle })
  | none => (none, { s with DOS_ExtendedError := ER.ER_InvalidHandle })

/-- Modelled from the spec: CloseHandle, the destroy of the absent handle
table.  The slot is freed and the object loses the reference of the slot; an
unknown handle fails with the invalid-handle error and frees nothing. -/
def CloseHandle (handle : Int) (s : State) : Bool × State :=
  match assocFind handle s.handles with
  | some ptr =>
    let s := { s with handles := assocErase handle s.handles,
                      events := s.events ++ [Event.CloseHandle handle] }
    (true, K32OBJ_DecCount ptr s)
  | none => (false, { s with DOS_ExtendedError := ER.ER_InvalidHandle })

/-- Modelled from the spec: PROCESS_SetObjPtr, the remapSlot of the absent
handle table.  The slot is forced to reference the object, which gains a
reference; whatever occupied the slot loses one and is destroyed at zero.  A
slot number below 1 is refused. -/
def PROCESS_SetObjPtr (handle : Int) (ptr : Nat) (s : State) : Bool × State :=
  if handle < 1 then (false, { s with DOS_ExtendedError := ER.ER_InvalidHandle })
  else
    let old_ptr := assocFind handle s.handles
    let s := K32OBJ_IncCount ptr s
    let s := { s with handles := assocInsert handle ptr s.handles,
                      events := s.events
                        ++ (if old_ptr.isSome then [Event.CloseHandle handle] else [])
                        ++ [Event.AllocHandle handle] }
    match old_ptr with
    | some old => (true, K32OBJ_DecCount old s)
    | none => (true, s)

/-! ## The functions of `file.c` -/

/-- Why a run produces no return value. -/
inductive Abort where
  | NullDereference
  | OutOfFuel
  deriving DecidableEq, Repr

/-- Source function `FILE_Alloc`: the handle and the object pointer stored through `file`.
When `HeapAlloc` fails the source returns `NULL`, the handle 0. -/
def FILE_Alloc (env : Env) (s : State) : Int × Option Nat × State :=
  let s1 := { s with tick := s.tick + 1 }
  if env.HeapAllocFails s.tick then
    (0, none, DOS_ERROR ER.ER_TooManyOpenFiles EC.EC_ProgramError SA.SA_Abort EL.EL_Disk s1)
  else
    let file := freshPtr s1.objects
    let o : FILE_OBJECT :=
      { refcount := 0, unix_handle := -1, unix_name := none, type := FILE_TYPE_DISK }
    let s2 := { s1 with objects := assocInsert file o s1.objects }
    let (handle, s3) := PROCESS_AllocHandle env file s2
    if handle = INVALID_HANDLE_VALUE32 then (handle, none, s3)
    else (handle, some file, s3)

/-- Source function `FILE_GetFile`. -/
def FILE_GetFile (handle : Int) (s : State) : Option Nat × State :=
  PROCESS_GetObjPtr handle s

/-- Source function `FILE_ReleaseFile`. -/
def FILE_ReleaseFile (file : Nat) (s : State) : State :=
  K32OBJ_DecCount file s

/-- Source function `FILE_SetDosError`: set the DOS error code from errno. -/
def FILE_SetDosError (s : State) : State :=
  match s.errno with
  | Errno.EAGAIN => DOS_ERROR ER.ER_ShareViolation EC.EC_Temporary SA.SA_Retry EL.EL_Disk s
  | Errno.EBADF => DOS_ERROR ER.ER_InvalidHandle EC.EC_ProgramError SA.SA_Abort EL.EL_Disk s
  | Errno.ENOSPC => DOS_ERROR ER.ER_DiskFull EC.EC_MediaError SA.SA_Abort EL.EL_Disk s
  | Errno.EACCES => DOS_ERROR ER.ER_AccessDenied EC.EC_AccessDenied SA.SA_Abort EL.EL_Disk s
  | Errno.EPERM => DOS_ERROR ER.ER_AccessDenied EC.EC_AccessDenied SA.SA_Abort EL.EL_Disk s
  | Errno.EROFS => DOS_ERROR ER.ER_AccessDenied EC.EC_AccessDenied SA.SA_Abort EL.EL_Disk s
  | Errno.EBUSY => DOS_ERROR ER.ER_LockViolation EC.EC_AccessDenied SA.SA_Abort EL.EL_Disk s
  | Errno.ENOENT => DOS_ERROR ER.ER_FileNotFound EC.EC_NotFound SA.SA_Abort EL.EL_Disk s
  | Errno.EISDIR => DOS_ERROR ER.ER_CanNotMakeDir EC.EC_AccessDenied SA.SA_Abort EL.EL_Unknown s
  | Errno.ENFILE => DOS_ERROR ER.ER_NoMoreFiles EC.EC_MediaError SA.SA_Abort EL.EL_Unknown s
  | Errno.EMFILE => DOS_ERROR ER.ER_NoMoreFiles EC.EC_MediaError SA.SA_Abort EL.EL_Unknown s
  | Errno.EEXIST => DOS_ERROR ER.ER_FileExists EC.EC_Exists SA.SA_Abort EL.EL_Disk s
  | Errno.other _ =>
    DOS_ERROR ER.ER_GeneralFailure EC.EC_SystemFailure SA.SA_Abort EL.EL_Unknown s

/-- The first statement of `FILE_OpenUnixFile`,
`if ((file->unix_handle = open( name, mode, 0666 )) == -1)
 { if (!Options.failReadOnly && (mode == O_RDWR))
 file->unix_handle = open( name, O_RDONLY ); }`:
the descriptor left in `file->unix_handle`. -/
def FILE_OpenUnixFile.open (env : Env) (name : String) (mode : OpenFlags) (file : Nat)
    (s : State) : Int × State :=
  let (fd, s) := sys_open env name mode 0o666 s
  let s := modifyObject file (fun o => { o with unix_handle := fd }) s
  if fd = -1 then
    if ¬ env.failReadOnly ∧
        mode = { access := O_RDWR, creat := false, excl := false, trunc := false } then
      let (fd, s) := sys_open env name
        { access := O_RDONLY, creat := false, excl := false, trunc := false } 0 s
      (fd, modifyObject file (fun o => { o with unix_handle := fd }) s)
    else (fd, s)
  else (fd, s)

/-- Source function `FILE_OpenUnixFile`.  A null `file` with a handle other than the invalid one
(the `HeapAlloc` failure of `FILE_Alloc`) is dereferenced by the source. -/
def FILE_OpenUnixFile (env : Env) (name : String) (mode : OpenFlags) (s : State) :
    Except Abort (Int × State) :=
  let (handle, file, s) := FILE_Alloc env s
  if handle = INVALID_HANDLE_VALUE32 then pure (INVALID_HANDLE_VALUE32, s)
  else
    match file with
    | none => throw Abort.NullDereference
    | some file =>
      let (fd, s) := FILE_OpenUnixFile.open env name mode file s
      let (st, s) := if fd = -1 then (none, s) else sys_fstat env fd s
      match st with
      | none =>
        let s := FILE_SetDosError s
        let s := (CloseHandle handle s).2
        pure (INVALID_HANDLE_VALUE32, s)
      | some st =>
        if st.isDir then
          let s := DOS_ERROR ER.ER_AccessDenied EC.EC_AccessDenied SA.SA_Abort EL.EL_Disk s
          let s := (CloseHandle handle s).2
          pure (INVALID_HANDLE_VALUE32, s)
        else
          -- File opened OK, now fill the FILE_OBJECT
          let s := modifyObject file (fun o => { o with unix_name := some name }) s
          pure (handle, s)

/-- Source function `FILE_Open`. -/
def FILE_Open (env : Env) (path : String) (mode : OpenFlags) (s : State) :
    Except Abort (Int × State) :=
  match env.DOSFS_IsDevice path with
  | some unixName =>
    if unixName = "" then
      -- Non-existing device
      pure (HFILE_ERROR32,
        DOS_ERROR ER.ER_FileNotFound EC.EC_NotFound SA.SA_Abort EL.EL_Disk s)
    else FILE_OpenUnixFile env unixName mode s
  | none =>
    match env.DOSFS_GetFullName path (!mode.creat) s.files with
    | Sum.inl er => pure (HFILE_ERROR32, { s with DOS_ExtendedError := er })
    | Sum.inr long_name => FILE_OpenUnixFile env long_name mode s

/-- Source function `FILE_Create`. -/
def FILE_Create (env : Env) (path : String) (mode : Nat) (unique : Bool) (s : State) :
    Except Abort (Int × State) :=
  match env.DOSFS_IsDevice path with
  | some _ =>
    pure (INVALID_HANDLE_VALUE32,
      DOS_ERROR ER.ER_AccessDenied EC.EC_NotFound SA.SA_Abort EL.EL_Disk s)
  | none =>
    let (handle, file, s) := FILE_Alloc env s
    if handle = INVALID_HANDLE_VALUE32 then pure (INVALID_HANDLE_VALUE32, s)
    else
      match env.DOSFS_GetFullName path false s.files with
      | Sum.inl er =>
        let s := { s with DOS_ExtendedError := er }
        let s := (CloseHandle handle s).2
        pure (INVALID_HANDLE_VALUE32, s)
      | Sum.inr long_name =>
        match file with
        | none => throw Abort.NullDereference
        | some file =>
          let (fd, s) := sys_open env long_name
            { access := O_RDWR, creat := true, excl := unique, trunc := true } mode s
          let s := modifyObject file (fun o => { o with unix_handle := fd }) s
          if fd = -1 then
            let s := FILE_SetDosError s
            let s := (CloseHandle handle s).2
            pure (INVALID_HANDLE_VALUE32, s)
          else
            -- File created OK, now fill the FILE_OBJECT
            let s := modifyObject file (fun o => { o with unix_name := some long_name }) s
            pure (handle, s)

/-- Source function `FILE_FillInfo`: fill a file information from a struct stat. -/
def FILE_FillInfo (st : Stat) : BY_HANDLE_FILE_INFORMATION :=
  { dwFileAttributes :=
      FILE_ATTRIBUTE_ARCHIVE
        ||| (if st.isDir then FILE_ATTRIBUTE_DIRECTORY else 0)
        ||| (if st.st_mode &&& S_IWUSR = 0 then FILE_ATTRIBUTE_READONLY else 0),
    ftCreationTime := st.st_mtime,
    ftLastWriteTime := st.st_mtime,
    ftLastAccessTime := st.st_atime,
    dwVolumeSerialNumber := 0,
    nFileSizeHigh := 0,
    nFileSizeLow := if st.isDir then 0 else st.st_size,
    nNumberOfLinks := st.st_nlink,
    nFileIndexHigh := 0,
    nFileIndexLow := st.st_ino }

/-- Source function `GetFileInformationByHandle`: the return value and the information stored
through `info`. -/
def GetFileInformationByHandle (env : Env) (hFile : Int) (s : State) :
    Nat × Option BY_HANDLE_FILE_INFORMATION × State :=
  match FILE_GetFile hFile s with
  | (none, s) => (0, none, s)
  | (some file, s) =>
    let unix_handle := ((assocFind file s.objects).map FILE_OBJECT.unix_handle).getD (-1)
    let (ret, info, s) :=
      match sys_fstat env unix_handle s with
      | (none, s) => (0, none, FILE_SetDosError s)
      | (some st, s) => (1, some (FILE_FillInfo st), s)
    let s := FILE_ReleaseFile file s
    (ret, info, s)

/-- The value of a C integer expression as a `UINT32`. -/
def toUINT32 (x : Int) : Nat := (x % 4294967296).toNat

/-- The value of a `UINT32` read as an `INT32` or `LONG`. -/
def toINT32 (n : Nat) : Int :=
  if n % 4294967296 < 2147483648 then (n % 4294967296 : Nat)
  else ((n % 4294967296 : Nat) : Int) - 4294967296

/-- Source function `_lread32`: the `UINT32` result and the bytes stored at the start of the
buffer. -/
def _lread32 (env : Env) (hFile : Int) (count : Nat) (s : State) : Nat × List Nat × State :=
  match FILE_GetFile hFile s with
  | (none, s) => (toUINT32 (-1), [], s)
  | (some file, s) =>
    let unix_handle := ((assocFind file s.objects).map FILE_OBJECT.unix_handle).getD (-1)
    let (result, bytes, s) :=
      if count = 0 then (0, [], s)
      else
        match sys_read env unix_handle count s with
        | (r, bytes, s) =>
          if toUINT32 r = toUINT32 (-1) then (toUINT32 r, bytes, FILE_SetDosError s)
          else (toUINT32 r, bytes, s)
    let s := FILE_ReleaseFile file s
    (result, bytes, s)

/-- Source function `_hwrite32`; `buffer` is the memory readable at the pointer. -/
def _hwrite32 (env : Env) (hFile : Int) (buffer : List Nat) (count : Int) (s : State) :
    Int × State :=
  match FILE_GetFile hFile s with
  | (none, s) => (HFILE_ERROR32, s)
  | (some file, s) =>
    let unix_handle := ((assocFind file s.objects).map FILE_OBJECT.unix_handle).getD (-1)
    let (result, s) :=
      if count = 0 then
        -- Expand or truncate at current position
        let (pos, s) := sys_lseek_cur env unix_handle s
        sys_ftruncate env unix_handle pos s
      else sys_write env unix_handle buffer (toUINT32 count) s
    let s := if result = -1 then FILE_SetDosError s else s
    let s := FILE_ReleaseFile file s
    (result, s)

/-- Source function `_lwrite32`. -/
def _lwrite32 (env : Env) (hFile : Int) (buffer : List Nat) (count : Nat) (s : State) :
    Nat × State :=
  let (result, s) := _hwrite32 env hFile buffer (toINT32 count) s
  (toUINT32 result, s)

/-- Source function `_lopen32`. -/
def _lopen32 (env : Env) (path : String) (mode : Nat) (s : State) :
    Except Abort (Int × State) :=
  let unixMode : OpenFlags :=
    if mode % 4 = OF_WRITE then
      { access := O_WRONLY, creat := false, excl := false, trunc := true }
    else if mode % 4 = OF_READWRITE then
      { access := O_RDWR, creat := false, excl := false, trunc := false }
    else { access := O_RDONLY, creat := false, excl := false, trunc := false }
  FILE_Open env path unixMode s

/-- The inner loop of `CopyFile32A`,
`while (count > 0) { res = _lwrite32( h2, p, count ); if (res <= 0) goto done;
 p += res; count -= res; }`: `false` stands for the jump to `done`. -/
def CopyFile32A.write (env : Env) (h2 : Int) (buffer : List Nat) :
    Nat → Nat → Nat → State → Except Abort (Bool × State)
  | 0, _, _, _ => throw Abort.OutOfFuel
  | fuel + 1, p, count, s =>
    if count > 0 then
      let (r, s) := _lwrite32 env h2 (buffer.drop p) count s
      let res := toINT32 r
      if res ≤ 0 then pure (false, s)
      else CopyFile32A.write env h2 buffer fuel (p + res.toNat) (toUINT32 (count - res)) s
    else pure (true, s)

/-- The outer loop of `CopyFile32A`,
`while ((count = _lread32( h2, buffer, sizeof(buffer) )) > 0) { ... }` followed
by `ret = TRUE`: the value of `ret` at the label `done`. -/
def CopyFile32A.copy (env : Env) (h2 : Int) :
    Nat → List Nat → State → Except Abort (Bool × State)
  | 0, _, _ => throw Abort.OutOfFuel
  | fuel + 1, buffer, s =>
    let (count, bytes, s) := _lread32 env h2 2048 s
    if count > 0 then
      let buffer := bytes ++ buffer.drop bytes.length
      match CopyFile32A.write env h2 buffer (fuel + 1) 0 count s with
      | Except.error e => throw e
      | Except.ok (false, s) => pure (false, s)
      | Except.ok (true, s) => CopyFile32A.copy env h2 fuel buffer s
    else pure (true, s)

/-- Source function `CopyFile32A`.  `fuel` bounds the number of loop iterations. -/
def CopyFile32A (env : Env) (fuel : Nat) (source dest : String) (fail_if_exists : Bool)
    (s : State) : Except Abort (Bool × State) :=
  match _lopen32 env source OF_READ s with
  | Except.error e => throw e
  | Except.ok (h1, s) =>
    if h1 = HFILE_ERROR32 then pure (false, s)
    else
      match GetFileInformationByHandle env h1 s with
      | (ret, info, s) =>
        if ret = 0 then
          let s := (CloseHandle h1 s).2
          pure (false, s)
        else
          let dwFileAttributes := (info.map (·.dwFileAttributes)).getD 0
          let mode := if dwFileAttributes &&& FILE_ATTRIBUTE_READONLY ≠ 0 then 0o444 else 0o666
          match FILE_Create env dest mode fail_if_exists s with
          | Except.error e => throw e
          | Except.ok (h2, s) =>
            if h2 = HFILE_ERROR32 then
              let s := (CloseHandle h1 s).2
              pure (false, s)
            else
              match CopyFile32A.copy env h2 fuel (List.replicate 2048 0) s with
              | Except.error e => throw e
              | Except.ok (ret, s) =>
                let s := (CloseHandle h1 s).2
                let s := (CloseHandle h2 s).2
                pure (ret, s)

/-- The text `sprintf` writes for the format "%04x": the number in lower-case
hexadecimal, padded with zeros to at least four digits. -/
def hex04 (num : Nat) : String :=
  String.mk (List.replicate (4 - (Nat.toDigits 16 num).length) '0' ++ Nat.toDigits 16 num)

/-- The part of the temporary name before the number: in the source
`strcpy( buffer, path ); p = buffer + strlen(buffer);
 if ((p == buffer) || (p[-1] != '\\')) *p++ = '\\'; *p++ = '~';
 for (i = 3; (i > 0) && (*prefix); i--) *p++ = *prefix++;`. -/
def GetTempFileName32A.stem (path pfx : String) : String :=
  String.mk (path.data
    ++ (if path.data = [] ∨ path.data.getLast? ≠ some (Char.ofNat 92) then [Char.ofNat 92]
        else [])
    ++ ['~'] ++ pfx.data.take 3)

/-- The probing loop of `GetTempFileName32A`,
`do { handle = FILE_Create( buffer, 0666, TRUE ); ... num++;
 sprintf( p, "%04x.tmp", num ); } while (num != (unique & 0xffff));`
the value of `num` at the exit; the buffer then holds the stem followed by that
number and ".tmp".  `num` is a `UINT32`. -/
def GetTempFileName32A.probe (env : Env) (stem : String) (unique : Nat) :
    Nat → Nat → State → Except Abort (Nat × State)
  | 0, _, _ => throw Abort.OutOfFuel
  | fuel + 1, num, s =>
    match FILE_Create env (stem ++ hex04 num ++ ".tmp") 0o666 true s with
    | Except.error e => throw e
    | Except.ok (handle, s) =>
      if handle ≠ INVALID_HANDLE_VALUE32 then
        -- We created it
        pure (num, (CloseHandle handle s).2)
      else if s.DOS_ExtendedError ≠ ER.ER_FileExists then
        -- No need to go on
        pure (num, s)
      else
        let num := (num + 1) % 4294967296
        if num ≠ unique % 65536 then GetTempFileName32A.probe env stem unique fuel num s
        else pure (num, s)

/-- The end of a name at its last '/', as
`if ((p = strrchr( full_name.long_name, '/' ))) *p = '\0';` leaves it. -/
def cutAtLastSlash (name : String) : String :=
  if '/' ∈ name.data then
    String.mk ((name.data.reverse.dropWhile (fun c => c ≠ '/')).drop 1).reverse
  else name

/-- Source function `GetTempFileName32A`: the return value and the text left in `buffer`.
`path` is `none` for a null pointer, `pfx` is the parameter `prefix` of the
source, `fuel` bounds the number of probes. -/
def GetTempFileName32A (env : Env) (fuel : Nat) (path : Option String) (pfx : String)
    (unique : Nat) (buffer : String) (s : State) : Except Abort (Nat × String × State) :=
  let (num, s) :=
    if unique ≠ 0 then (unique % 65536, s)
    else ((sys_time env s).1 % 65536, (sys_time env s).2)
  match path with
  | none => pure (0, buffer, s)
  | some path =>
    let stem := GetTempFileName32A.stem path pfx
    -- Now try to create it
    let probed : Except Abort (Nat × State) :=
      if unique = 0 then GetTempFileName32A.probe env stem unique fuel num s
      else pure (num, s)
    match probed with
    | Except.error e => throw e
    | Except.ok (num, s) =>
      let buffer := stem ++ hex04 num ++ ".tmp"
      -- Get the full path name
      let s :=
        match env.DOSFS_GetFullName buffer false s.files with
        | Sum.inl er => { s with DOS_ExtendedError := er }
        | Sum.inr long_name =>
          -- Check if we have write access in the directory
          (sys_access env (cutAtLastSlash long_name) s).2
      pure (if unique ≠ 0 then unique else num, buffer, s)

/-! ## File times -/

/-- Modelled from the spec: the type `FILETIME` of the absent header windows.h,
a 64-bit time kept as two `DWORD` halves. -/
structure FILETIME where
  dwLowDateTime : Nat
  dwHighDateTime : Nat
  deriving DecidableEq, Repr

/-- Both halves of a `FILETIME` are in the range of a `DWORD`. -/
def FILETIME.InRange (x : FILETIME) : Prop :=
  x.dwLowDateTime < 4294967296 ∧ x.dwHighDateTime < 4294967296

instance (x : FILETIME) : Decidable x.InRange := by
  unfold FILETIME.InRange
  infer_instance

/-- Source function `CompareFileTime`. -/
def CompareFileTime (x y : FILETIME) : Int :=
  if x.dwHighDateTime > y.dwHighDateTime then 1
  else if x.dwHighDateTime < y.dwHighDateTime then -1
  else if x.dwLowDateTime > y.dwLowDateTime then 1
  else if x.dwLowDateTime < y.dwLowDateTime then -1
  else 0

/-- The 64-bit quantity a `FILETIME` stands for, high * 2^32 + low. -/
def FILETIME.quantity (x : FILETIME) : Nat :=
  x.dwHighDateTime * 4294967296 + x.dwLowDateTime

/-- The sign of the comparison of two numbers, as the specification words the
result of comparing two times: 1, -1 or 0. -/
def signOfComparison (a b : Nat) : Int :=
  if a > b then 1 else if a < b then -1 else 0

/-- Source function `FILE_GetUnixHandle`: return the Unix handle associated to a file handle. -/
def FILE_GetUnixHandle (hFile : Int) (s : State) : Int × State :=
  match FILE_GetFile hFile s with
  | (none, s) => (-1, s)
  | (some file, s) =>
    let ret := ((assocFind file s.objects).map FILE_OBJECT.unix_handle).getD (-1)
    let s := FILE_ReleaseFile file s
    (ret, s)

/-- Source function `FILE_Dup`: dup() function for DOS handles. -/
def FILE_Dup (env : Env) (hFile : Int) (s : State) : Int × State :=
  match FILE_GetFile hFile s with
  | (none, s) => (HFILE_ERROR32, s)
  | (some file, s) =>
    let (handle, s) := PROCESS_AllocHandle env file s
    let s := FILE_ReleaseFile file s
    (handle, s)

/-- Source function `FILE_Dup2`: dup2() function for DOS handles. -/
def FILE_Dup2 (hFile1 hFile2 : Int) (s : State) : Int × State :=
  match FILE_GetFile hFile1 s with
  | (none, s) => (HFILE_ERROR32, s)
  | (some file, s) =>
    let (ok, s) := PROCESS_SetObjPtr hFile2 file s
    let hFile2 := if ok then hFile2 else HFILE_ERROR32
    let s := FILE_ReleaseFile file s
    (hFile2, s)

/-- Source function `SetFilePointer`; `highword` is `none` for a null pointer, else the value
pointed to.  The last-error variable that `SetLastError` writes belongs to the
absent thread module and is not part of this state. -/
def SetFilePointer (env : Env) (hFile : Int) (distance : Int) (highword : Option Int)
    (method : Nat) (s : State) : Nat × State :=
  if highword.isSome ∧ highword ≠ some 0 then (0xffffffff, s)
  else
    match FILE_GetFile hFile s with
    | (none, s) => (0xffffffff, s)
    | (some file, s) =>
      let origin :=
        if method = FILE_CURRENT then SEEK_CUR
        else if method = FILE_END then SEEK_END
        else SEEK_SET
      let unix_handle := ((assocFind file s.objects).map FILE_OBJECT.unix_handle).getD (-1)
      let (result, s) := sys_lseek env unix_handle distance origin s
      let s := if result = -1 then FILE_SetDosError s else s
      let s := FILE_ReleaseFile file s
      (toUINT32 result, s)

/-- Source function `FlushFileBuffers`. -/
def FlushFileBuffers (env : Env) (hFile : Int) (s : State) : Bool × State :=
  match FILE_GetFile hFile s with
  | (none, s) => (false, s)
  | (some file, s) =>
    let unix_handle := ((assocFind file s.objects).map FILE_OBJECT.unix_handle).getD (-1)
    let (r, s) := sys_fsync env unix_handle s
    let (ret, s) := if r ≠ -1 then (true, s) else (false, FILE_SetDosError s)
    let s := FILE_ReleaseFile file s
    (ret, s)

/-- Source function `SetEndOfFile`. -/
def SetEndOfFile (env : Env) (hFile : Int) (s : State) : Bool × State :=
  match FILE_GetFile hFile s with
  | (none, s) => (false, s)
  | (some file, s) =>
    let unix_handle := ((assocFind file s.objects).map FILE_OBJECT.unix_handle).getD (-1)
    let (pos, s) := sys_lseek_cur env unix_handle s
    let (r, s) := sys_ftruncate env unix_handle pos s
    let (ret, s) := if r ≠ 0 then (false, FILE_SetDosError s) else (true, s)
    let s := FILE_ReleaseFile file s
    (ret, s)

/-- Source function `FILE_SetFileType`. -/
def FILE_SetFileType (hFile : Int) (type : Nat) (s : State) : Bool × State :=
  match FILE_GetFile hFile s with
  | (none, s) => (false, s)
  | (some file, s) =>
    let s := modifyObject file (fun o => { o with type := type }) s
    let s := FILE_ReleaseFile file s
    (true, s)

/-- Source function `GetFileType`.  The source reads `file->type` after the release; the
read yields `FILE_TYPE_UNKNOWN` here when the release destroyed the object. -/
def GetFileType (hFile : Int) (s : State) : Nat × State :=
  match FILE_GetFile hFile s with
  | (none, s) => (FILE_TYPE_UNKNOWN, s)
  | (some file, s) =>
    let s := FILE_ReleaseFile file s
    (((assocFind file s.objects).map FILE_OBJECT.type).getD FILE_TYPE_UNKNOWN, s)

/-- Modelled from the spec: DOSFS_FileTimeToUnixTime of the absent path
resolution service, the seconds since 1970 of a time counted in units of 100 ns
since 1601. -/
def DOSFS_FileTimeToUnixTime (ft : FILETIME) : Nat :=
  ft.quantity / 10000000 - 11644473600

/-- Source function `SetFileTime`; a time is `none` for a null pointer.  The value returned
for a handle that is not a file is `FILE_TYPE_UNKNOWN`, which is `FALSE`. -/
def SetFileTime (env : Env) (hFile : Int) (lpCreationTime lpLastAccessTime
    lpLastWriteTime : Option FILETIME) (s : State) : Bool × State :=
  match FILE_GetFile hFile s with
  | (none, s) => (decide (FILE_TYPE_UNKNOWN ≠ 0), s)
  | (some file, s) =>
    let actime := match lpLastAccessTime with
      | some t => DOSFS_FileTimeToUnixTime t
      | none => 0
    let modtime := match lpLastWriteTime with
      | some t => DOSFS_FileTimeToUnixTime t
      | none => 0
    let unix_name := (assocFind file s.objects).bind FILE_OBJECT.unix_name
    let (r, s) := sys_utime env unix_name actime modtime s
    if r = -1 then
      let s := FILE_ReleaseFile file s
      let s := FILE_SetDosError s
      (false, s)
    else
      let s := FILE_ReleaseFile file s
      (true, s)

/-- Source function `DeleteFile32A`. -/
def DeleteFile32A (env : Env) (path : String) (s : State) : Bool × State :=
  match env.DOSFS_IsDevice path with
  | some _ =>
    (false, DOS_ERROR ER.ER_FileNotFound EC.EC_NotFound SA.SA_Abort EL.EL_Disk s)
  | none =>
    match env.DOSFS_GetFullName path true s.files with
    | Sum.inl er => (false, { s with DOS_ExtendedError := er })
    | Sum.inr long_name =>
      let (r, s) := sys_unlink env long_name s
      if r = -1 then (false, FILE_SetDosError s) else (true, s)

/-- Source function `DeleteFile16`. -/
def DeleteFile16 (env : Env) (path : String) (s : State) : Bool × State :=
  DeleteFile32A env path s

/-- Modelled from the spec: RemoveDirectory32A of the absent file directory.c,
the removal of a directory: native rmdir after path resolution. -/
def RemoveDirectory32A (env : Env) (path : String) (s : State) : Bool × State :=
  match env.DOSFS_GetFullName path true s.files with
  | Sum.inl er => (false, { s with DOS_ExtendedError := er })
  | Sum.inr long_name =>
    let (r, s) := sys_rmdir env long_name s
    if r = -1 then (false, FILE_SetDosError s) else (true, s)

/-- Source function `DeleteFile32W`; `xpath` is the single-byte conversion that
`HEAP_strdupWtoA` makes of the wide path, here the path itself. -/
def DeleteFile32W (env : Env) (path : String) (s : State) : Bool × State :=
  let xpath := path
  let ret := RemoveDirectory32A env xpath s
  ret

/-! ## Fixtures used by the statements -/

/-- An environment for concrete runs: no native call fails, every transfer is
complete, allocations succeed, no path is a device and every path resolves to
itself. -/
def Env.plain : Env :=
  { fault := fun _ => none,
    time := fun _ => 0,
    shortCount := fun _ m => m,
    HeapAllocFails := fun _ => false,
    AllocHandleFails := fun _ => false,
    DOSFS_IsDevice := fun _ => none,
    DOSFS_GetFullName := fun path _ _ => Sum.inr path,
    failReadOnly := false }

/-- A process with no open handle and an empty file system. -/
def State.empty : State :=
  { handles := [], objects := [], files := [], fds := [], errno := Errno.other 0,
    DOS_ExtendedError := ER.ER_NoError, DOS_ErrorClass := EC.EC_None,
    DOS_ErrorAction := SA.SA_None, DOS_ErrorLocus := EL.EL_None, tick := 0, events := [],
    natives := [] }

/-- A process that holds handle 7, on an object without a native descriptor, and
has the two byte file "a". -/
def State.sample : State :=
  { State.empty with
      handles := [(7, 0)],
      objects := [(0, { refcount := 1, unix_handle := -1, unix_name := none, type := 1 })],
      files := [("a", { data := [72, 105], st_mode := 0o644, isDir := false, st_mtime := 0,
                        st_atime := 0, st_nlink := 1, st_ino := 0 })] }

/-- A regular file with the given contents and permission bits. -/
def UnixFile.regular (data : List Nat) (st_mode : Nat) : UnixFile :=
  { data := data, st_mode := st_mode, isDir := false, st_mtime := 0, st_atime := 0,
    st_nlink := 1, st_ino := 0 }

/-- The contents of a native file, `none` when it does not exist. -/
def State.contents (s : State) (name : String) : Option (List Nat) :=
  (assocFind name s.files).map UnixFile.data

/-- The handles allocated in a log of events. -/
def allocated : List Event → List Int
  | [] => []
  | Event.AllocHandle h :: rest => h :: allocated rest
  | Event.CloseHandle _ :: rest => allocated rest

/-- The handles closed in a log of events. -/
def closed : List Event → List Int
  | [] => []
  | Event.AllocHandle _ :: rest => closed rest
  | Event.CloseHandle h :: rest => h :: closed rest

/-- Every slot of the handle table has a number from 1 up, as the slots the
table hands out have. -/
def HandlesValid (s : State) : Prop := ∀ e ∈ s.handles, 1 ≤ e.1

/-- From `s` to `s1` no handle was left open: the table is the same and the log
grew by nothing or by one slot allocated and closed again. -/
def Settled (s s1 : State) : Prop :=
  s1.handles = s.handles ∧
  (s1.events = s.events ∨
   s1.events = s.events ++ [Event.AllocHandle (freshHandle s.handles),
                            Event.CloseHandle (freshHandle s.handles)])

/-- From `s` to `s1` exactly the new handle `h` was opened. -/
def Holding (s s1 : State) (h : Int) : Prop :=
  h = freshHandle s.handles ∧
  ∃ ptr, s1.handles = (h, ptr) :: s.handles ∧ s1.events = s.events ++ [Event.AllocHandle h]

/-- Handle `h` is open, read-write and at position 0, on the empty regular
native file `name`. -/
def AtEmptyFile (s : State) (h : Int) (name : String) : Prop :=
  ∃ (f : Nat) (o : FILE_OBJECT) (d : OpenFile) (file : UnixFile),
    assocFind h s.handles = some f ∧ assocFind f s.objects = some o ∧ 1 ≤ o.refcount ∧
    assocFind o.unix_handle s.fds = some d ∧ d.pos = 0 ∧ d.access = O_RDWR ∧ d.name = name ∧
    assocFind name s.files = some file ∧ file.data = [] ∧ file.isDir = false

/-- The DOS error recorded in a state: code, class, suggested action, locus. -/
def State.dosError (s : State) : ER × EC × SA × EL :=
  (s.DOS_ExtendedError, s.DOS_ErrorClass, s.DOS_ErrorAction, s.DOS_ErrorLocus)

/-- The flags of a plain read-write open, `O_RDWR` alone. -/
def OpenFlags.rdwr : OpenFlags :=
  { access := O_RDWR, creat := false, excl := false, trunc := false }

/-- The flags of a plain read-only open, `O_RDONLY` alone. -/
def OpenFlags.rdonly : OpenFlags :=
  { access := O_RDONLY, creat := false, excl := false, trunc := false }

/-- A process that has the file "a" of `State.sample` and the directory "d". -/
def State.withDir : State :=
  { State.sample with
      files := ("d", { data := [], st_mode := 0o755, isDir := true, st_mtime := 0,
                       st_atime := 0, st_nlink := 2, st_ino := 1 }) :: State.sample.files }

/-- The plain environment with a clock that always reads `t`. -/
def Env.atTime (t : Nat) : Env :=
  { Env.plain with time := fun _ => t }

/-- A process whose file system holds the temporary name built from the path
"T", the prefix "abc" and the number 0xffff. -/
def State.withTemp : State :=
  { State.empty with
      files := [(GetTempFileName32A.stem "T" "abc" ++ hex04 0xffff ++ ".tmp",
                 UnixFile.regular [] 0o666)] }

/-- The format the specification gives for a generated name: the path, a
backslash if the path did not end in one, a tilde, the first min(3, length)
characters of the prefix, exactly four lower-case hexadecimal digits and
".tmp". -/
def TempNameFormat (path pfx buffer : String) : Prop :=
  ∃ digits : List Char, digits.length = 4 ∧ (∀ c ∈ digits, c ∈ "0123456789abcdef".data) ∧
    buffer = String.mk (path.data
      ++ (if path.data.getLast? = some (Char.ofNat 92) then [] else [Char.ofNat 92])
      ++ ['~'] ++ pfx.data.take (min 3 pfx.data.length) ++ digits ++ ".tmp".data)

/-- The number of handle slots that designate an object. -/
def slotsOf (ptr : Nat) (handles : List (Int × Nat)) : Nat :=
  (handles.filter (fun e => decide (e.2 = ptr))).length

/-- The borrow count of an object: the references it counts beyond the handle
slots that designate it; `none` when the object does not exist. -/
def borrowCount (ptr : Nat) (s : State) : Option Int :=
  (assocFind ptr s.objects).map (fun o => (o.refcount : Int) - (slotsOf ptr s.handles : Int))

/-- An environment in which the native system reports every name as taken: each
native call that can fail does so with `EEXIST`; the clock reads `t`. -/
def Env.allTaken (t : Nat) : Env :=
  { Env.plain with time := fun _ => t, fault := fun _ => some Errno.EEXIST }

/-- Whether a native call is an open. -/
def Native.isOpen : Native → Bool
  | Native.Open _ _ _ => true
  | _ => false

/-- The number of native opens in a log of native calls. -/
def opens (l : List Native) : Nat :=
  l.countP Native.isOpen

end File

/-! # Theorems -/

namespace Clipboard

/-! ## Opening and closing -/

/-- C3: from the closed state, for distinct non-zero windows w1 and w2,
OpenClipboard32(w1) returns TRUE, a following OpenClipboard32(w2) returns FALSE
and the window holding the clipboard open is still w1. -/
theorem OpenClipboard32_mutual_exclusion (s : State) (w1 w2 : Nat)
    (hclosed : s.hWndClipWindow = 0) (h1 : w1 ≠ 0) (_h2 : w2 ≠ 0) (_hne : w1 ≠ w2) :
    (OpenClipboard32 w1 s).1 = true ∧
    (OpenClipboard32 w2 (OpenClipboard32 w1 s).2).1 = false ∧
    GetOpenClipboardWindow32 (OpenClipboard32 w2 (OpenClipboard32 w1 s).2).2 = w1 := by
  simp [OpenClipboard32, GetOpenClipboardWindow32, hclosed, h1]

/-- Witness of C3 at the initial state with windows 1 and 2. -/
theorem OpenClipboard32_mutual_exclusion_witness :
    (OpenClipboard32 1 State.initial).1 = true ∧
    (OpenClipboard32 2 (OpenClipboard32 1 State.initial).2).1 = false ∧
    GetOpenClipboardWindow32 (OpenClipboard32 2 (OpenClipboard32 1 State.initial).2).2 = 1 :=
  OpenClipboard32_mutual_exclusion State.initial 1 2 rfl (by decide) (by decide) (by decide)

/-- When the clipboard is already open, OpenClipboard32 returns FALSE and the
state it leaves is the state it found with the changed flag cleared. -/
theorem OpenClipboard32_already_open (s : State) (w : Nat) (hopen : s.hWndClipWindow ≠ 0) :
    OpenClipboard32 w s = (false, { s with bClipChanged := false }) := by
  simp [OpenClipboard32, hopen]

/-- C4 (the code at the failing input): window 1 opens the clipboard and sets
text data, so the changed flag is set; the refused OpenClipboard32(2) returns
FALSE and clears the flag, and the close that follows no longer notifies the
registered viewer 9, which it does when the refused open is left out. -/
theorem OpenClipboard32_refused_open_clears_changed :
    (SetClipboardData16 Env.quiet CF_TEXT 5
        (OpenClipboard32 1 (SetClipboardViewer32 9 State.initial).2).2).2.bClipChanged = true ∧
    (OpenClipboard32 2 (SetClipboardData16 Env.quiet CF_TEXT 5
        (OpenClipboard32 1 (SetClipboardViewer32 9 State.initial).2).2).2).1 = false ∧
    (OpenClipboard32 2 (SetClipboardData16 Env.quiet CF_TEXT 5
        (OpenClipboard32 1 (SetClipboardViewer32 9 State.initial).2).2).2).2.bClipChanged = false ∧
    (CloseClipboard32 Env.quiet (OpenClipboard32 2 (SetClipboardData16 Env.quiet CF_TEXT 5
        (OpenClipboard32 1 (SetClipboardViewer32 9 State.initial).2).2).2).2).2.calls
      = [Call.XSetSelectionOwner 1] ∧
    (CloseClipboard32 Env.quiet (SetClipboardData16 Env.quiet CF_TEXT 5
        (OpenClipboard32 1 (SetClipboardViewer32 9 State.initial).2).2).2).2.calls
      = [Call.XSetSelectionOwner 1, Call.SendMessage16 9 Message.WM_DRAWCLIPBOARD 0 0] := by
  decide

/-- The claim C5 read on the code fails for the state afterwards: window 1 has
the clipboard open with changed data and viewer 9 registered, a state reached
from start-up; the viewer answers WM_DRAWCLIPBOARD by opening the clipboard, so
the close returns TRUE and the clipboard is open afterwards, for window 9. -/
theorem CloseClipboard32_viewer_reopens :
    Reachable Env.viewerOpens (SetClipboardData16 Env.viewerOpens CF_TEXT 5
      (OpenClipboard32 1 (SetClipboardViewer32 9 State.initial).2).2).2 ∧
    (SetClipboardData16 Env.viewerOpens CF_TEXT 5
      (OpenClipboard32 1 (SetClipboardViewer32 9 State.initial).2).2).2.hWndClipWindow = 1 ∧
    (CloseClipboard32 Env.viewerOpens (SetClipboardData16 Env.viewerOpens CF_TEXT 5
      (OpenClipboard32 1 (SetClipboardViewer32 9 State.initial).2).2).2).1 = true ∧
    (CloseClipboard32 Env.viewerOpens (SetClipboardData16 Env.viewerOpens CF_TEXT 5
      (OpenClipboard32 1 (SetClipboardViewer32 9 State.initial).2).2).2).2.hWndClipWindow = 9 :=
  ⟨Reachable.dataSet _ CF_TEXT 5 (Reachable.opened _ 1
      (Reachable.viewerSet _ 9 Reachable.initial)),
    by decide, by decide, by decide⟩

/-- Claim C5, amended: CloseClipboard32 returns TRUE exactly when the clipboard
was open.  When it was closed it returns FALSE, changes no state and sends
nothing.  When it was open it clears the opening window, then sends
WM_DRAWCLIPBOARD to the viewer exactly when the changed flag is set and a viewer
is registered, and nothing else; the state afterwards is the state the window
procedure of the viewer returns from the closed state, so the clipboard is
closed afterwards when the window procedure of the viewer returns from that
message with the clipboard open or closed as it found it, and when no message
is sent. -/
theorem CloseClipboard32_spec (env : Env) (s : State) :
    ((CloseClipboard32 env s).1 = true ↔ s.hWndClipWindow ≠ 0) ∧
    (s.hWndClipWindow = 0 → CloseClipboard32 env s = (false, s)) ∧
    (s.hWndClipWindow ≠ 0 →
      (CloseClipboard32 env s).2.calls =
        s.calls ++ (if s.bClipChanged = true ∧ s.hWndViewer ≠ 0 then
                      [Call.SendMessage16 s.hWndViewer Message.WM_DRAWCLIPBOARD 0 0]
                    else []) ∧
      (CloseClipboard32 env s).2 =
        (if s.bClipChanged = true ∧ s.hWndViewer ≠ 0 then
           SendMessage16 env s.hWndViewer Message.WM_DRAWCLIPBOARD 0 0
             { s with hWndClipWindow := 0 }
         else { s with hWndClipWindow := 0 }) ∧
      ((∀ c, (env.WndProc s.hWndViewer Message.WM_DRAWCLIPBOARD 0 c).hWndClipWindow
              = c.hWndClipWindow) →
        (CloseClipboard32 env s).2.hWndClipWindow = 0) ∧
      (¬ (s.bClipChanged = true ∧ s.hWndViewer ≠ 0) →
        (CloseClipboard32 env s).2.hWndClipWindow = 0)) := by
  refine ⟨?_, ?_, ?_⟩
  · by_cases h : s.hWndClipWindow = 0 <;> simp [CloseClipboard32, h]
  · intro h
    simp [CloseClipboard32, h]
  · intro h
    by_cases hc : s.bClipChanged = true ∧ s.hWndViewer ≠ 0
    · simp only [CloseClipboard32, h, if_false, hc, if_true, SendMessage16, and_self, ne_eq,
        not_false_eq_true, true_and, not_true_eq_false, false_implies, and_true]
      intro hk
      exact hk _
    · simp only [CloseClipboard32, h, if_false, hc, List.append_nil, true_and]
      exact ⟨fun _ => trivial, fun _ => trivial⟩

/-- Witness of C5: window 1 has the clipboard open with changed data and viewer 9
registered; the close returns TRUE, leaves the clipboard closed and sends the
viewer exactly one WM_DRAWCLIPBOARD. -/
theorem CloseClipboard32_spec_witness :
    (CloseClipboard32 Env.quiet
        { State.initial with hWndClipWindow := 1, hWndViewer := 9, bClipChanged := true }).1 = true ∧
    (CloseClipboard32 Env.quiet
        { State.initial with hWndClipWindow := 1, hWndViewer := 9, bClipChanged := true }).2.calls
      = [Call.SendMessage16 9 Message.WM_DRAWCLIPBOARD 0 0] ∧
    (CloseClipboard32 Env.quiet
        { State.initial with hWndClipWindow := 1, hWndViewer := 9, bClipChanged := true }).2.hWndClipWindow
      = 0 :=
  have h := CloseClipboard32_spec Env.quiet
    { State.initial with hWndClipWindow := 1, hWndViewer := 9, bClipChanged := true }
  ⟨h.1.2 (by decide), (h.2.2 (by decide)).1, (h.2.2 (by decide)).2.2.1 (fun _ => rfl)⟩

/-- C6 as stated fails for the window handle 0: from the initial state
OpenClipboard32(0) returns TRUE, yet a following OpenClipboard32(5) returns
TRUE as well and a following CloseClipboard32 returns FALSE. -/
theorem OpenClipboard32_zero_window_not_open :
    ¬ (∀ (env : Env) (s : State) (w : Nat), (OpenClipboard32 w s).1 = true →
        (∀ w2, (OpenClipboard32 w2 (OpenClipboard32 w s).2).1 = false) ∧
        (CloseClipboard32 env (OpenClipboard32 w s).2).1 = true) := by
  intro h
  have h0 := (h Env.quiet State.initial 0 (by decide)).1 5
  revert h0
  decide

/-- C6 (amended): for every non-zero window handle w, when OpenClipboard32(w)
returns TRUE the clipboard is afterwards open: a following OpenClipboard32 by
any window returns FALSE and a following CloseClipboard32 returns TRUE. -/
theorem OpenClipboard32_nonzero_window_open (env : Env) (s : State) (w : Nat)
    (hw : w ≠ 0) (hret : (OpenClipboard32 w s).1 = true) :
    (∀ w2, (OpenClipboard32 w2 (OpenClipboard32 w s).2).1 = false) ∧
    (CloseClipboard32 env (OpenClipboard32 w s).2).1 = true := by
  have hclosed : s.hWndClipWindow = 0 := by
    by_contra hne
    simp [OpenClipboard32, hne] at hret
  constructor
  · intro w2
    simp [OpenClipboard32, hclosed, hw]
  · simp [OpenClipboard32, CloseClipboard32, hclosed, hw]

/-- Witness of amended C6: window 3 opens the clipboard from the initial
state. -/
theorem OpenClipboard32_nonzero_window_open_witness :
    (∀ w2, (OpenClipboard32 w2 (OpenClipboard32 3 State.initial).2).1 = false) ∧
    (CloseClipboard32 Env.quiet (OpenClipboard32 3 State.initial).2).1 = true :=
  OpenClipboard32_nonzero_window_open Env.quiet State.initial 3 (by decide) (by decide)

/-! ## Records -/

theorem walkToFormat_bound (l : List CLIPFORMAT) (wFormat k i : Nat)
    (h : walkToFormat l wFormat k = some i) : k ≤ i ∧ i < k + l.length := by
  induction l generalizing k with
  | nil => simp [walkToFormat] at h
  | cons r rest ih =>
    unfold walkToFormat at h
    split at h
    · simp only [Option.some.injEq] at h
      subst h
      simp
    · have := ih (k + 1) h
      simp only [List.length_cons]
      omega

theorem CLIPBOARD_DeleteRecord_length (lp : Nat) (s : State) :
    (CLIPBOARD_DeleteRecord lp s).ClipFormats.length = s.ClipFormats.length := by
  unfold CLIPBOARD_DeleteRecord
  simp only [State.setFmt, List.length_set]
  split
  · rfl
  · split <;> rfl


theorem CLIPBOARD_DeleteRecord_formats (lp : Nat) (s : State) :
    (CLIPBOARD_DeleteRecord lp s).ClipFormats =
      s.ClipFormats.set lp { s.fmt lp with wDataPresent := 0, hData := 0 } := by
  have key : ∀ l : List CLIPFORMAT,
      (l.set lp { l.getD lp default with wDataPresent := 0 }).set lp
        { (l.set lp { l.getD lp default with wDataPresent := 0 }).getD lp default with hData := 0 }
      = l.set lp { l.getD lp default with wDataPresent := 0, hData := 0 } := by
    intro l
    by_cases h : lp < l.length
    · simp [List.getD_eq_getElem?_getD, h]
    · rw [List.set_eq_of_length_le (by simpa using h), List.set_eq_of_length_le (by simpa using h),
        List.set_eq_of_length_le (by simpa using h)]
  unfold CLIPBOARD_DeleteRecord
  simp only [State.setFmt, State.fmt]
  split
  · exact key _
  · split
    · exact key _
    · exact key _

theorem CLIPBOARD_DeleteRecord_frame (lp : Nat) (s : State) :
    (CLIPBOARD_DeleteRecord lp s).hWndClipOwner = s.hWndClipOwner ∧
    (CLIPBOARD_DeleteRecord lp s).hWndClipWindow = s.hWndClipWindow ∧
    (CLIPBOARD_DeleteRecord lp s).hWndViewer = s.hWndViewer ∧
    (CLIPBOARD_DeleteRecord lp s).selectionAcquired = s.selectionAcquired ∧
    (CLIPBOARD_DeleteRecord lp s).selectionWindow = s.selectionWindow ∧
    (CLIPBOARD_DeleteRecord lp s).selectionPrevWindow = s.selectionPrevWindow ∧
    (CLIPBOARD_DeleteRecord lp s).xPrimaryOwner = s.xPrimaryOwner ∧
    (CLIPBOARD_DeleteRecord lp s).bClipChanged = true := by
  unfold CLIPBOARD_DeleteRecord
  simp only [State.setFmt]
  split
  · simp [DeleteObject32]
  · split <;> simp [GlobalFree16]


theorem fmt_DeleteRecord_other (lp i : Nat) (s : State) (h : lp ≠ i) :
    (CLIPBOARD_DeleteRecord lp s).fmt i = s.fmt i := by
  simp [State.fmt, CLIPBOARD_DeleteRecord_formats, List.getD_eq_getElem?_getD,
    List.getElem?_set_ne h]

theorem fmt_DeleteRecord_same (lp : Nat) (s : State) :
    ((CLIPBOARD_DeleteRecord lp s).fmt lp).wDataPresent = 0 ∧
    ((CLIPBOARD_DeleteRecord lp s).fmt lp).hData = 0 := by
  by_cases h : lp < s.ClipFormats.length
  · simp [State.fmt, CLIPBOARD_DeleteRecord_formats, List.getD_eq_getElem?_getD, h]
  · have h2 : s.ClipFormats.length ≤ lp := by omega
    simp [State.fmt, CLIPBOARD_DeleteRecord_formats, List.getD_eq_getElem?_getD,
      List.set_eq_of_length_le h2, List.getElem?_eq_none h2]
    exact ⟨rfl, rfl⟩

theorem EmptyClipboard32_loop_spec (n : Nat) : ∀ (lp : Nat) (s : State),
    (EmptyClipboard32.loop n lp s).ClipFormats.length = s.ClipFormats.length ∧
    (∀ i, i < lp → (EmptyClipboard32.loop n lp s).fmt i = s.fmt i) ∧
    (∀ i, lp ≤ i → i < lp + n →
      ((EmptyClipboard32.loop n lp s).fmt i).wDataPresent = 0 ∧
      ((EmptyClipboard32.loop n lp s).fmt i).hData = 0) := by
  induction n with
  | zero =>
    intro lp s
    refine ⟨rfl, fun _ _ => rfl, ?_⟩
    intro i h1 h2
    omega
  | succ n ih =>
    intro lp s
    unfold EmptyClipboard32.loop
    by_cases hc : (s.fmt lp).wDataPresent ≠ 0 ∨ (s.fmt lp).hData ≠ 0
    · simp only [hc, if_true]
      obtain ⟨hl, hlow, hrange⟩ := ih (lp + 1) (CLIPBOARD_DeleteRecord lp s)
      refine ⟨by rw [hl, CLIPBOARD_DeleteRecord_length], ?_, ?_⟩
      · intro i hi
        rw [hlow i (by omega), fmt_DeleteRecord_other lp i s (by omega)]
      · intro i h1 h2
        by_cases hi : i = lp
        · subst hi
          rw [hlow i (by omega)]
          exact fmt_DeleteRecord_same i s
        · exact hrange i (by omega) (by omega)
    · simp only [hc, if_false]
      obtain ⟨hl, hlow, hrange⟩ := ih (lp + 1) s
      refine ⟨hl, ?_, ?_⟩
      · intro i hi
        exact hlow i (by omega)
      · intro i h1 h2
        by_cases hi : i = lp
        · subst hi
          rw [hlow i (by omega)]
          simp only [ne_eq, not_or, not_not] at hc
          exact hc
        · exact hrange i (by omega) (by omega)

theorem EmptyClipboard32_loop_frame (n : Nat) : ∀ (lp : Nat) (s : State),
    (EmptyClipboard32.loop n lp s).hWndClipOwner = s.hWndClipOwner ∧
    (EmptyClipboard32.loop n lp s).hWndClipWindow = s.hWndClipWindow ∧
    (EmptyClipboard32.loop n lp s).hWndViewer = s.hWndViewer ∧
    (EmptyClipboard32.loop n lp s).selectionAcquired = s.selectionAcquired ∧
    (EmptyClipboard32.loop n lp s).selectionWindow = s.selectionWindow ∧
    (EmptyClipboard32.loop n lp s).selectionPrevWindow = s.selectionPrevWindow ∧
    (EmptyClipboard32.loop n lp s).xPrimaryOwner = s.xPrimaryOwner := by
  induction n with
  | zero =>
    intro lp s
    simp [EmptyClipboard32.loop]
  | succ n ih =>
    intro lp s
    unfold EmptyClipboard32.loop
    by_cases hc : (s.fmt lp).wDataPresent ≠ 0 ∨ (s.fmt lp).hData ≠ 0
    · simp only [hc, if_true]
      obtain ⟨h1, h2, h3, h4, h5, h6, h7⟩ := ih (lp + 1) (CLIPBOARD_DeleteRecord lp s)
      obtain ⟨g1, g2, g3, g4, g5, g6, g7, _⟩ := CLIPBOARD_DeleteRecord_frame lp s
      exact ⟨h1.trans g1, h2.trans g2, h3.trans g3, h4.trans g4, h5.trans g5, h6.trans g6,
        h7.trans g7⟩
    · simp only [hc, if_false]
      exact ih (lp + 1) s

theorem EmptyClipboard32_loop_changed (n : Nat) : ∀ (lp : Nat) (s : State),
    ((EmptyClipboard32.loop n lp s).bClipChanged = true ↔
      s.bClipChanged = true ∨
      ∃ i, lp ≤ i ∧ i < lp + n ∧ ((s.fmt i).wDataPresent ≠ 0 ∨ (s.fmt i).hData ≠ 0)) := by
  induction n with
  | zero =>
    intro lp s
    simp only [EmptyClipboard32.loop, add_zero]
    constructor
    · intro h
      exact Or.inl h
    · rintro (h | ⟨i, h1, h2, _⟩)
      · exact h
      · omega
  | succ n ih =>
    intro lp s
    unfold EmptyClipboard32.loop
    by_cases hc : (s.fmt lp).wDataPresent ≠ 0 ∨ (s.fmt lp).hData ≠ 0
    · simp only [hc, if_true]
      rw [ih]
      constructor
      · intro _
        exact Or.inr ⟨lp, le_refl _, by omega, hc⟩
      · intro _
        exact Or.inl (CLIPBOARD_DeleteRecord_frame lp s).2.2.2.2.2.2.2
    · simp only [hc, if_false]
      rw [ih]
      constructor
      · rintro (h | ⟨i, h1, h2, h3⟩)
        · exact Or.inl h
        · exact Or.inr ⟨i, by omega, by omega, h3⟩
      · rintro (h | ⟨i, h1, h2, h3⟩)
        · exact Or.inl h
        · by_cases hi : i = lp
          · subst hi
            exact absurd h3 hc
          · exact Or.inr ⟨i, by omega, by omega, h3⟩


theorem walkToFormat_congr (l1 l2 : List CLIPFORMAT) (wFormat k : Nat)
    (h : l1.map CLIPFORMAT.wFormatID = l2.map CLIPFORMAT.wFormatID) :
    walkToFormat l1 wFormat k = walkToFormat l2 wFormat k := by
  induction l1 generalizing l2 k with
  | nil =>
    cases l2 with
    | nil => rfl
    | cons b l2 => simp at h
  | cons a l1 ih =>
    cases l2 with
    | nil => simp at h
    | cons b l2 =>
      simp only [List.map_cons, List.cons.injEq] at h
      unfold walkToFormat
      rw [h.1, ih l2 (k + 1) h.2]

theorem CLIPBOARD_DeleteRecord_ids (lp : Nat) (s : State) :
    (CLIPBOARD_DeleteRecord lp s).ClipFormats.map CLIPFORMAT.wFormatID =
      s.ClipFormats.map CLIPFORMAT.wFormatID := by
  rw [CLIPBOARD_DeleteRecord_formats]
  apply List.ext_getElem?
  intro i
  by_cases hi : lp = i
  · subst hi
    by_cases hl : lp < s.ClipFormats.length
    · simp [State.fmt, List.getD_eq_getElem?_getD, hl, List.getElem?_set]
    · rw [List.set_eq_of_length_le (by omega)]
  · simp [List.getElem?_set_ne hi]

theorem setFmt_ids (s : State) (lp : Nat) (r : CLIPFORMAT) (h : r.wFormatID = (s.fmt lp).wFormatID) :
    (s.setFmt lp r).ClipFormats.map CLIPFORMAT.wFormatID =
      s.ClipFormats.map CLIPFORMAT.wFormatID := by
  apply List.ext_getElem?
  intro i
  by_cases hi : lp = i
  · subst hi
    by_cases hl : lp < s.ClipFormats.length
    · simp [State.fmt, State.setFmt, List.getD_eq_getElem?_getD, hl, List.getElem?_set] at h ⊢
      exact h
    · simp only [State.setFmt]
      rw [List.set_eq_of_length_le (by omega)]
  · simp [State.setFmt, List.getElem?_set_ne hi]

theorem SetClipboardData16_acquire_frame (env : Env) (wFormat : Nat) (s : State) :
    (SetClipboardData16.acquire env wFormat s).ClipFormats = s.ClipFormats ∧
    (SetClipboardData16.acquire env wFormat s).hWndClipWindow = s.hWndClipWindow ∧
    (SetClipboardData16.acquire env wFormat s).hWndClipOwner = s.hWndClipOwner ∧
    (SetClipboardData16.acquire env wFormat s).hWndViewer = s.hWndViewer ∧
    (SetClipboardData16.acquire env wFormat s).bClipChanged = s.bClipChanged := by
  unfold SetClipboardData16.acquire
  split
  · simp only []
    split <;> simp [XSetSelectionOwner]
  · simp

theorem SetClipboardData16_discard_frame (wFormat lp : Nat) (s : State) :
    (SetClipboardData16.discard wFormat lp s).ClipFormats.length = s.ClipFormats.length ∧
    (SetClipboardData16.discard wFormat lp s).ClipFormats.map CLIPFORMAT.wFormatID
      = s.ClipFormats.map CLIPFORMAT.wFormatID ∧
    (SetClipboardData16.discard wFormat lp s).hWndClipWindow = s.hWndClipWindow ∧
    (SetClipboardData16.discard wFormat lp s).hWndClipOwner = s.hWndClipOwner ∧
    (SetClipboardData16.discard wFormat lp s).hWndViewer = s.hWndViewer := by
  unfold SetClipboardData16.discard
  split
  · simp only []
    split <;> split <;>
      simp [CLIPBOARD_DeleteRecord_length, CLIPBOARD_DeleteRecord_ids,
        (CLIPBOARD_DeleteRecord_frame _ _).1, (CLIPBOARD_DeleteRecord_frame _ _).2.1,
        (CLIPBOARD_DeleteRecord_frame _ _).2.2.1]
  · simp


theorem walkToFormat_found (l : List CLIPFORMAT) (wFormat k i : Nat)
    (h : walkToFormat l wFormat k = some i) :
    (l.getD (i - k) default).wFormatID = wFormat := by
  induction l generalizing k with
  | nil => simp [walkToFormat] at h
  | cons r rest ih =>
    unfold walkToFormat at h
    split at h
    · simp only [Option.some.injEq] at h
      subst h
      simpa
    · have hb := walkToFormat_bound _ _ _ _ h
      have := ih (k + 1) h
      have hik : i - k = (i - (k + 1)) + 1 := by omega
      rw [hik]
      simpa using this

theorem ids_getD (l1 l2 : List CLIPFORMAT) (i : Nat)
    (h : l1.map CLIPFORMAT.wFormatID = l2.map CLIPFORMAT.wFormatID) :
    (l1.getD i default).wFormatID = (l2.getD i default).wFormatID := by
  have hlen : l1.length = l2.length := by simpa using congrArg List.length h
  by_cases hi : i < l1.length
  · have h1 : (l1.map CLIPFORMAT.wFormatID)[i]? = (l2.map CLIPFORMAT.wFormatID)[i]? := by rw [h]
    have hi2 : i < l2.length := by omega
    simpa [List.getD_eq_getElem?_getD, hi, hi2] using h1
  · have hi2 : ¬ i < l2.length := by omega
    simp [List.getD_eq_getElem?_getD, List.getElem?_eq_none, Nat.le_of_not_lt hi,
      Nat.le_of_not_lt hi2]

/-- C10: for a format id with a record in the chain, SetClipboardData16 returns
the handle it was given (zero included); afterwards that record, still the one
found for the id, has its data-present flag set and holds the handle, and the
changed flag is set.  For a format id with no record it returns 0 and changes
no state. -/
theorem SetClipboardData16_spec (env : Env) (s : State) (wFormat hData : Nat) :
    match walkToFormat s.ClipFormats wFormat 0 with
    | some lpFormat =>
      (SetClipboardData16 env wFormat hData s).1 = hData ∧
      walkToFormat (SetClipboardData16 env wFormat hData s).2.ClipFormats wFormat 0
        = some lpFormat ∧
      ((SetClipboardData16 env wFormat hData s).2.fmt lpFormat).wFormatID = wFormat ∧
      ((SetClipboardData16 env wFormat hData s).2.fmt lpFormat).wDataPresent = 1 ∧
      ((SetClipboardData16 env wFormat hData s).2.fmt lpFormat).hData = hData ∧
      (SetClipboardData16 env wFormat hData s).2.bClipChanged = true
    | none => SetClipboardData16 env wFormat hData s = (0, s) := by
  cases hwalk : walkToFormat s.ClipFormats wFormat 0 with
  | none => simp [SetClipboardData16, hwalk]
  | some lp =>
    simp only
    have hlp : lp < s.ClipFormats.length := by
      have := walkToFormat_bound _ _ _ _ hwalk
      omega
    obtain ⟨a1, a2, -, -, -⟩ := SetClipboardData16_acquire_frame env wFormat s
    obtain ⟨d1, d2, -, -, -⟩ :=
      SetClipboardData16_discard_frame wFormat lp (SetClipboardData16.acquire env wFormat s)
    generalize hb : SetClipboardData16.discard wFormat lp
      (SetClipboardData16.acquire env wFormat s) = b at d1 d2
    rw [a1] at d1 d2
    have hE : SetClipboardData16 env wFormat hData s =
        (hData, { b with bClipChanged := true,
                         ClipFormats := b.ClipFormats.set lp
                           { b.fmt lp with wDataPresent := 1, hData := hData } }) := by
      simp only [SetClipboardData16, hwalk, hb, State.setFmt, State.fmt,
        List.getD_eq_getElem?_getD, List.set_set]
      simp [d1, hlp]
    rw [hE]
    have hid : (s.fmt lp).wFormatID = wFormat := by
      have := walkToFormat_found _ _ _ _ hwalk
      simpa [State.fmt] using this
    have hidb : (b.fmt lp).wFormatID = wFormat := by
      rw [← hid]
      exact ids_getD _ _ _ d2
    have hlpb : lp < b.ClipFormats.length := by omega
    have hids : (b.ClipFormats.set lp { b.fmt lp with wDataPresent := 1, hData := hData }).map
        CLIPFORMAT.wFormatID = s.ClipFormats.map CLIPFORMAT.wFormatID := by
      rw [← d2]
      exact setFmt_ids b lp _ rfl
    refine ⟨rfl, ?_, ?_, ?_, ?_, rfl⟩
    · rw [← hwalk]
      exact walkToFormat_congr _ _ _ _ hids
    · simp [State.fmt, List.getD_eq_getElem?_getD, hlpb] at hidb ⊢
      exact hidb
    · simp [State.fmt, List.getD_eq_getElem?_getD, hlpb]
    · simp [State.fmt, List.getD_eq_getElem?_getD, hlpb]


theorem mem_fmt (s : State) (r : CLIPFORMAT) (h : r ∈ s.ClipFormats) :
    ∃ i, i < s.ClipFormats.length ∧ s.fmt i = r := by
  obtain ⟨i, hi, rfl⟩ := List.getElem_of_mem h
  exact ⟨i, hi, by simp [State.fmt, List.getD_eq_getElem?_getD, hi]⟩

theorem fmt_mem (s : State) (i : Nat) (hi : i < s.ClipFormats.length) :
    s.fmt i ∈ s.ClipFormats := by
  simp [State.fmt, List.getD_eq_getElem?_getD, hi]

/-- What EmptyClipboard32 does on an open clipboard, in terms of the state `N`
the owner leaves after handling WM_DESTROYCLIPBOARD. -/
theorem EmptyClipboard32_open (env : Env) (s N : State) (hopen : s.hWndClipWindow ≠ 0)
    (hN : N = if s.hWndClipOwner ≠ 0 then
            SendMessage16 env s.hWndClipOwner Message.WM_DESTROYCLIPBOARD 0 0 s else s) :
    (EmptyClipboard32 env s).1 = true ∧
    (∀ r ∈ (EmptyClipboard32 env s).2.ClipFormats, r.wDataPresent = 0 ∧ r.hData = 0) ∧
    (EmptyClipboard32 env s).2.hWndClipOwner = (EmptyClipboard32 env s).2.hWndClipWindow ∧
    (EmptyClipboard32 env s).2.hWndClipWindow = N.hWndClipWindow ∧
    (EmptyClipboard32 env s).2.selectionAcquired = false ∧
    ((EmptyClipboard32 env s).2.selectionWindow = None ∨
      (N.selectionAcquired = false ∧ (EmptyClipboard32 env s).2.selectionWindow = N.selectionWindow)) ∧
    ((EmptyClipboard32 env s).2.bClipChanged = true ↔
      N.bClipChanged = true ∨ ∃ r ∈ N.ClipFormats, r.wDataPresent ≠ 0 ∨ r.hData ≠ 0) := by
  obtain ⟨hlen, -, hclear⟩ := EmptyClipboard32_loop_spec N.ClipFormats.length 0 N
  obtain ⟨f1, f2, f3, f4, f5, f6, f7⟩ := EmptyClipboard32_loop_frame N.ClipFormats.length 0 N
  have hch := EmptyClipboard32_loop_changed N.ClipFormats.length 0 N
  have hE : EmptyClipboard32 env s =
      (true,
        (if (EmptyClipboard32.loop N.ClipFormats.length 0 N).selectionAcquired = true then
          XSetSelectionOwner env None
            { EmptyClipboard32.loop N.ClipFormats.length 0 N with
                hWndClipOwner := (EmptyClipboard32.loop N.ClipFormats.length 0 N).hWndClipWindow,
                selectionAcquired := false,
                selectionPrevWindow := (EmptyClipboard32.loop N.ClipFormats.length 0 N).selectionWindow,
                selectionWindow := None }
        else
          { EmptyClipboard32.loop N.ClipFormats.length 0 N with
              hWndClipOwner := (EmptyClipboard32.loop N.ClipFormats.length 0 N).hWndClipWindow })) := by
    simp only [EmptyClipboard32, hopen, if_false, hN]
  rw [hE]
  refine ⟨rfl, ?_, ?_, ?_, ?_, ?_, ?_⟩
  · intro r hr
    have hr2 : r ∈ (EmptyClipboard32.loop N.ClipFormats.length 0 N).ClipFormats := by
      revert hr
      simp only
      split <;> simp [XSetSelectionOwner]
    obtain ⟨i, hi, rfl⟩ := mem_fmt _ r hr2
    exact hclear i (Nat.zero_le _) (by omega)
  · simp only
    split <;> simp [XSetSelectionOwner]
  · simp only
    split <;> simp [XSetSelectionOwner, f2]
  · simp only
    split
    · simp [XSetSelectionOwner]
    · rename_i h
      simpa using h
  · simp only
    split
    · left
      simp [XSetSelectionOwner]
    · rename_i h
      right
      refine ⟨?_, f5⟩
      rw [← f4]
      simpa using h
  · have hb : (if (EmptyClipboard32.loop N.ClipFormats.length 0 N).selectionAcquired = true then
          XSetSelectionOwner env None
            { EmptyClipboard32.loop N.ClipFormats.length 0 N with
                hWndClipOwner := (EmptyClipboard32.loop N.ClipFormats.length 0 N).hWndClipWindow,
                selectionAcquired := false,
                selectionPrevWindow := (EmptyClipboard32.loop N.ClipFormats.length 0 N).selectionWindow,
                selectionWindow := None }
        else
          { EmptyClipboard32.loop N.ClipFormats.length 0 N with
              hWndClipOwner := (EmptyClipboard32.loop N.ClipFormats.length 0 N).hWndClipWindow }).bClipChanged
        = (EmptyClipboard32.loop N.ClipFormats.length 0 N).bClipChanged := by
      split <;> simp [XSetSelectionOwner]
    simp only [hb, hch]
    constructor
    · rintro (h | ⟨i, -, hi, hc⟩)
      · exact Or.inl h
      · exact Or.inr ⟨N.fmt i, fmt_mem N i (by omega), hc⟩
    · rintro (h | ⟨r, hr, hc⟩)
      · exact Or.inl h
      · obtain ⟨i, hi, rfl⟩ := mem_fmt _ r hr
        exact Or.inr ⟨i, Nat.zero_le _, by omega, hc⟩

/-- C7: when the clipboard is open, EmptyClipboard32 returns TRUE and afterwards
every record of the chain has its data-present flag clear and a null handle,
the owner is the window that has the clipboard open, and the selection is
recorded as not held with no selection window; when the clipboard is closed it
returns FALSE and changes nothing.  The owner is sent WM_DESTROYCLIPBOARD first;
the selection window part is stated for a state whose selection mirror is
coherent and an owner whose window procedure keeps it so, and the owner is the
window that opened the clipboard when that procedure leaves the clipboard
open. -/
theorem EmptyClipboard32_spec (env : Env) (s : State) (hsel : SelectionCoherent s)
    (henv : ∀ c, SelectionCoherent c →
      SelectionCoherent (env.WndProc s.hWndClipOwner Message.WM_DESTROYCLIPBOARD 0 c)) :
    (s.hWndClipWindow ≠ 0 →
      (EmptyClipboard32 env s).1 = true ∧
      (∀ r ∈ (EmptyClipboard32 env s).2.ClipFormats, r.wDataPresent = 0 ∧ r.hData = 0) ∧
      (EmptyClipboard32 env s).2.hWndClipOwner = (EmptyClipboard32 env s).2.hWndClipWindow ∧
      ((∀ c, (env.WndProc s.hWndClipOwner Message.WM_DESTROYCLIPBOARD 0 c).hWndClipWindow
              = c.hWndClipWindow) →
        (EmptyClipboard32 env s).2.hWndClipOwner = s.hWndClipWindow) ∧
      (EmptyClipboard32 env s).2.selectionAcquired = false ∧
      (EmptyClipboard32 env s).2.selectionWindow = None) ∧
    (s.hWndClipWindow = 0 → EmptyClipboard32 env s = (false, s)) := by
  constructor
  · intro hopen
    obtain ⟨h1, h2, h3, h4, h5, h6, -⟩ := EmptyClipboard32_open env s _ hopen rfl
    refine ⟨h1, h2, h3, ?_, h5, ?_⟩
    · intro hk
      rw [h3, h4]
      split
      · exact hk _
      · rfl
    · rcases h6 with h6 | ⟨hacq, hwin⟩
      · exact h6
      · rw [hwin]
        revert hacq
        split
        · exact henv { s with calls := s.calls ++ [Call.SendMessage16 s.hWndClipOwner
              Message.WM_DESTROYCLIPBOARD 0 0] } hsel
        · exact hsel
  · intro hclosed
    simp [EmptyClipboard32, hclosed]

/-- Witness of C7: window 1 has the clipboard open with text data 5 set, so the
selection is held; EmptyClipboard32 clears every record, makes window 1 the
owner and records the selection as given up. -/
theorem EmptyClipboard32_spec_witness :
    (EmptyClipboard32 Env.quiet
      (SetClipboardData16 Env.quiet CF_TEXT 5 (OpenClipboard32 1 State.initial).2).2).1 = true ∧
    (∀ r ∈ (EmptyClipboard32 Env.quiet
      (SetClipboardData16 Env.quiet CF_TEXT 5 (OpenClipboard32 1 State.initial).2).2).2.ClipFormats,
        r.wDataPresent = 0 ∧ r.hData = 0) ∧
    (EmptyClipboard32 Env.quiet
      (SetClipboardData16 Env.quiet CF_TEXT 5 (OpenClipboard32 1 State.initial).2).2).2.hWndClipOwner
      = 1 ∧
    (EmptyClipboard32 Env.quiet
      (SetClipboardData16 Env.quiet CF_TEXT 5 (OpenClipboard32 1 State.initial).2).2).2.selectionAcquired
      = false ∧
    (EmptyClipboard32 Env.quiet
      (SetClipboardData16 Env.quiet CF_TEXT 5 (OpenClipboard32 1 State.initial).2).2).2.selectionWindow
      = None :=
  have h := (EmptyClipboard32_spec Env.quiet
    (SetClipboardData16 Env.quiet CF_TEXT 5 (OpenClipboard32 1 State.initial).2).2
    (by unfold SelectionCoherent; decide) (fun _ hc => hc)).1 (by decide)
  ⟨h.1, h.2.1, h.2.2.2.1 (fun _ => rfl), h.2.2.2.2.1, h.2.2.2.2.2⟩

/-- C8 as stated fails on an open clipboard where no format holds data: after
OpenClipboard32(1) on the initial state, EmptyClipboard32 returns TRUE and the
changed flag is still clear. -/
theorem EmptyClipboard32_changed_not_always :
    ¬ (∀ (env : Env) (s : State), s.hWndClipWindow ≠ 0 →
        (EmptyClipboard32 env s).1 = true ∧ (EmptyClipboard32 env s).2.bClipChanged = true) := by
  intro h
  have h0 := (h Env.quiet (OpenClipboard32 1 State.initial).2 (by decide)).2
  revert h0
  decide

/-- C8 (amended): with the clipboard open, EmptyClipboard32 returns TRUE and
the changed flag is set afterwards exactly when it was set already or some
record held data (data-present flag set or non-null handle) when the records
were deleted, that is in the state the owner left after WM_DESTROYCLIPBOARD;
where no format holds any data the flag keeps the value it had. -/
theorem EmptyClipboard32_changed (env : Env) (s : State) (hopen : s.hWndClipWindow ≠ 0) :
    (EmptyClipboard32 env s).1 = true ∧
    ((EmptyClipboard32 env s).2.bClipChanged = true ↔
      (if s.hWndClipOwner ≠ 0 then
          SendMessage16 env s.hWndClipOwner Message.WM_DESTROYCLIPBOARD 0 0 s
        else s).bClipChanged = true ∨
      ∃ r ∈ (if s.hWndClipOwner ≠ 0 then
                SendMessage16 env s.hWndClipOwner Message.WM_DESTROYCLIPBOARD 0 0 s
              else s).ClipFormats,
        r.wDataPresent ≠ 0 ∨ r.hData ≠ 0) := by
  obtain ⟨h1, -, -, -, -, -, h7⟩ := EmptyClipboard32_open env s _ hopen rfl
  exact ⟨h1, h7⟩

/-- Witness of amended C8: with text data 5 set by window 1 and the flag then
cleared, EmptyClipboard32 sets the changed flag again. -/
theorem EmptyClipboard32_changed_witness :
    (EmptyClipboard32 Env.quiet
      { (SetClipboardData16 Env.quiet CF_TEXT 5 (OpenClipboard32 1 State.initial).2).2 with
          bClipChanged := false }).1 = true ∧
    (EmptyClipboard32 Env.quiet
      { (SetClipboardData16 Env.quiet CF_TEXT 5 (OpenClipboard32 1 State.initial).2).2 with
          bClipChanged := false }).2.bClipChanged = true :=
  have h := EmptyClipboard32_changed Env.quiet
    { (SetClipboardData16 Env.quiet CF_TEXT 5 (OpenClipboard32 1 State.initial).2).2 with
        bClipChanged := false } (by decide)
  ⟨h.1, h.2.2 (Or.inr ⟨CLIPFORMAT.mk CF_TEXT 1 1 "Text" 5 0, by decide, by decide⟩)⟩


theorem SetClipboardData16_frame (env : Env) (wFormat hData : Nat) (s : State) :
    (SetClipboardData16 env wFormat hData s).2.hWndClipWindow = s.hWndClipWindow ∧
    (SetClipboardData16 env wFormat hData s).2.hWndClipOwner = s.hWndClipOwner ∧
    (SetClipboardData16 env wFormat hData s).2.hWndViewer = s.hWndViewer := by
  unfold SetClipboardData16
  split
  · exact ⟨rfl, rfl, rfl⟩
  · rename_i lp _
    obtain ⟨-, a2, a3, a4, -⟩ := SetClipboardData16_acquire_frame env wFormat s
    obtain ⟨-, -, d3, d4, d5⟩ :=
      SetClipboardData16_discard_frame wFormat lp (SetClipboardData16.acquire env wFormat s)
    simp only [State.setFmt]
    exact ⟨d3.trans a2, d4.trans a3, d5.trans a4⟩

theorem fmt_of_clear (s : State)
    (h : ∀ r ∈ s.ClipFormats, r.wDataPresent = 0 ∧ r.hData = 0) (i : Nat) :
    (s.fmt i).wDataPresent = 0 ∧ (s.fmt i).hData = 0 := by
  by_cases hi : i < s.ClipFormats.length
  · exact h _ (fmt_mem s i hi)
  · have : s.fmt i = default := by
      simp [State.fmt, List.getD_eq_getElem?_getD, List.getElem?_eq_none, Nat.le_of_not_lt hi]
    rw [this]
    exact ⟨rfl, rfl⟩

/-- On a clipboard whose records are all empty GetClipboardData16 returns 0 for
every format and leaves the state alone. -/
theorem GetClipboardData16_of_clear (env : Env) (wFormat : Nat) (s : State)
    (h : ∀ r ∈ s.ClipFormats, r.wDataPresent = 0 ∧ r.hData = 0) :
    GetClipboardData16 env wFormat s = (0, s) := by
  have hc := fmt_of_clear s h
  unfold GetClipboardData16
  split
  · rfl
  · simp only [(hc _).1, ne_eq, not_true_eq_false, and_false, if_false]
    cases hwalk : walkToFormat s.ClipFormats wFormat 0 with
    | none => rfl
    | some lp =>
      simp [CLIPBOARD_RenderFormat, (hc lp).1, (hc lp).2]

/-- The claim C9 read on the code fails for the owner: window 2 owns the closed
clipboard, a state reached from start-up; window 1 opens it, sets text data and
empties it; window 2 answers WM_DESTROYCLIPBOARD by closing the clipboard and
opening it for window 8, and the owner afterwards is 8, not 1. -/
theorem EmptyClipboard32_owner_not_opener :
    Reachable Env.ownerReopens (CloseClipboard32 Env.ownerReopens
      (EmptyClipboard32 Env.ownerReopens (OpenClipboard32 2 State.initial).2).2).2 ∧
    (CloseClipboard32 Env.ownerReopens
      (EmptyClipboard32 Env.ownerReopens (OpenClipboard32 2 State.initial).2).2).2.hWndClipWindow
      = 0 ∧
    GetClipboardOwner32 (CloseClipboard32 Env.ownerReopens
      (EmptyClipboard32 Env.ownerReopens (OpenClipboard32 2 State.initial).2).2).2 = 2 ∧
    (EmptyClipboard32 Env.ownerReopens (SetClipboardData16 Env.ownerReopens CF_TEXT 5
      (OpenClipboard32 1 (CloseClipboard32 Env.ownerReopens
        (EmptyClipboard32 Env.ownerReopens
          (OpenClipboard32 2 State.initial).2).2).2).2).2).1 = true ∧
    GetClipboardOwner32 (EmptyClipboard32 Env.ownerReopens
      (SetClipboardData16 Env.ownerReopens CF_TEXT 5
        (OpenClipboard32 1 (CloseClipboard32 Env.ownerReopens
          (EmptyClipboard32 Env.ownerReopens
            (OpenClipboard32 2 State.initial).2).2).2).2).2).2 = 8 :=
  ⟨Reachable.closed _ (Reachable.emptied _ (Reachable.opened _ 2 Reachable.initial)),
    by decide, by decide, by decide, by decide⟩

/-- Claim C9, amended: from the closed state, for a non-zero window w and any
handle h, after OpenClipboard32(w), SetClipboardData16(CF_TEXT, h) and
EmptyClipboard32() the call GetClipboardData16(CF_TEXT) returns 0, and the
clipboard owner is the window that has the clipboard open when EmptyClipboard32
returns.  The previous owner is sent WM_DESTROYCLIPBOARD on the way; the owner
afterwards is w when there was no previous owner, and when the window procedure
of the previous owner returns from that message with the clipboard open as it
found it. -/
theorem EmptyClipboard32_after_SetClipboardData16 (env : Env) (s : State) (w h : Nat)
    (hclosed : s.hWndClipWindow = 0) (hw : w ≠ 0) :
    (OpenClipboard32 w s).1 = true ∧
    (EmptyClipboard32 env
      (SetClipboardData16 env CF_TEXT h (OpenClipboard32 w s).2).2).1 = true ∧
    (GetClipboardData16 env CF_TEXT (EmptyClipboard32 env
      (SetClipboardData16 env CF_TEXT h (OpenClipboard32 w s).2).2).2).1 = 0 ∧
    GetClipboardOwner32 (EmptyClipboard32 env
      (SetClipboardData16 env CF_TEXT h (OpenClipboard32 w s).2).2).2 =
      GetOpenClipboardWindow32 (EmptyClipboard32 env
        (SetClipboardData16 env CF_TEXT h (OpenClipboard32 w s).2).2).2 ∧
    GetClipboardOwner32 (GetClipboardData16 env CF_TEXT (EmptyClipboard32 env
      (SetClipboardData16 env CF_TEXT h (OpenClipboard32 w s).2).2).2).2 =
      GetClipboardOwner32 (EmptyClipboard32 env
        (SetClipboardData16 env CF_TEXT h (OpenClipboard32 w s).2).2).2 ∧
    ((s.hWndClipOwner = 0 ∨
      ∀ c, (env.WndProc s.hWndClipOwner Message.WM_DESTROYCLIPBOARD 0 c).hWndClipWindow
            = c.hWndClipWindow) →
      GetClipboardOwner32 (EmptyClipboard32 env
        (SetClipboardData16 env CF_TEXT h (OpenClipboard32 w s).2).2).2 = w) := by
  have ho : OpenClipboard32 w s = (true, { s with hWndClipWindow := w, bClipChanged := false }) := by
    simp [OpenClipboard32, hclosed]
  rw [ho]
  obtain ⟨g1, g2, -⟩ := SetClipboardData16_frame env CF_TEXT h
    { s with hWndClipWindow := w, bClipChanged := false }
  generalize (SetClipboardData16 env CF_TEXT h
    { s with hWndClipWindow := w, bClipChanged := false }).2 = s2 at g1 g2
  simp only at g1 g2
  have hopen : s2.hWndClipWindow ≠ 0 := by rw [g1]; exact hw
  obtain ⟨e1, e2, e3, e4, -, -, -⟩ := EmptyClipboard32_open env s2 _ hopen rfl
  have hown : (s.hWndClipOwner = 0 ∨
      ∀ c, (env.WndProc s.hWndClipOwner Message.WM_DESTROYCLIPBOARD 0 c).hWndClipWindow
            = c.hWndClipWindow) →
      (EmptyClipboard32 env s2).2.hWndClipOwner = w := by
    intro hk
    rw [e3, e4, ← g1]
    split
    · rename_i hne
      rcases hk with hk | hk
      · rw [g2] at hne
        exact absurd hk hne
      · simp only [SendMessage16]
        rw [g2]
        exact hk _
    · rfl
  rw [GetClipboardData16_of_clear env CF_TEXT _ e2]
  exact ⟨rfl, e1, rfl, e3, rfl, hown⟩

/-- Witness of C9: window 2 owns the clipboard, window 1 opens it, sets text
data 5 and empties it. -/
theorem EmptyClipboard32_after_SetClipboardData16_witness :
    (GetClipboardData16 Env.quiet CF_TEXT (EmptyClipboard32 Env.quiet
      (SetClipboardData16 Env.quiet CF_TEXT 5
        (OpenClipboard32 1 { State.initial with hWndClipOwner := 2 }).2).2).2).1 = 0 ∧
    GetClipboardOwner32 (EmptyClipboard32 Env.quiet
      (SetClipboardData16 Env.quiet CF_TEXT 5
        (OpenClipboard32 1 { State.initial with hWndClipOwner := 2 }).2).2).2 = 1 :=
  have h := EmptyClipboard32_after_SetClipboardData16 Env.quiet
    { State.initial with hWndClipOwner := 2 } 1 5 rfl (by decide)
  ⟨h.2.2.1, h.2.2.2.2.2 (Or.inr (fun _ => rfl))⟩

/-! ## Reading data -/

/-- The body of `GetClipboardData16` after the choice of the two records. -/
theorem GetClipboardData16_select (env : Env) (wFormat : Nat) (s : State)
    (hopen : s.hWndClipWindow ≠ 0) :
    GetClipboardData16 env wFormat s =
      match GetClipboardData16.select wFormat s with
      | none => (0, s)
      | some (lpRender, lpUpdate) =>
        if ¬ (CLIPBOARD_RenderFormat env lpRender s).1 then
          (0, (CLIPBOARD_RenderFormat env lpRender s).2)
        else
          let s1 := (CLIPBOARD_RenderFormat env lpRender s).2
          let s2 := if lpUpdate ≠ lpRender ∧ (s1.fmt lpUpdate).hData = 0 then
                      (CLIPBOARD_RenderText env lpUpdate lpRender s1).2
                    else s1
          ((s2.fmt lpUpdate).hData, s2) := by
  unfold GetClipboardData16 GetClipboardData16.select
  simp only [hopen, if_false]

/-- A record that is not the default one lies in the chain. -/
theorem lt_length_of_present (s : State) (i : Nat) (h : (s.fmt i).wDataPresent ≠ 0) :
    i < s.ClipFormats.length := by
  by_contra hi
  have : s.fmt i = default := by
    simp [State.fmt, List.getD_eq_getElem?_getD, List.getElem?_eq_none, Nat.le_of_not_lt hi]
  rw [this] at h
  exact h rfl

theorem fmt_setFmt (s : State) (i : Nat) (r : CLIPFORMAT) (hi : i < s.ClipFormats.length) :
    (s.setFmt i r).fmt i = r := by
  simp [State.fmt, State.setFmt, List.getD_eq_getElem?_getD, hi]

/-- Claim C12: with the clipboard open, when the record `GetClipboardData16` must
render has its data-present flag set and a null handle and the recorded owner is
not a valid window, the call returns 0 and sends nothing, and afterwards the
owner is 0 and the data-present flag of that record is clear. -/
theorem GetClipboardData16_owner_lost (env : Env) (wFormat : Nat) (s : State)
    (lpRender lpUpdate : Nat) (hopen : s.hWndClipWindow ≠ 0)
    (hsel : GetClipboardData16.select wFormat s = some (lpRender, lpUpdate))
    (hpresent : (s.fmt lpRender).wDataPresent ≠ 0) (hnull : (s.fmt lpRender).hData = 0)
    (howner : env.IsWindow32 s.hWndClipOwner = false) :
    (GetClipboardData16 env wFormat s).1 = 0 ∧
    (GetClipboardData16 env wFormat s).2.calls = s.calls ∧
    (GetClipboardData16 env wFormat s).2.hWndClipOwner = 0 ∧
    ((GetClipboardData16 env wFormat s).2.fmt lpRender).wDataPresent = 0 := by
  have hi := lt_length_of_present s lpRender hpresent
  obtain ⟨s1, hr, h1, h2, h3⟩ : ∃ s1, CLIPBOARD_RenderFormat env lpRender s = (false, s1) ∧
      s1.calls = s.calls ∧ s1.hWndClipOwner = 0 ∧ (s1.fmt lpRender).wDataPresent = 0 := by
    unfold CLIPBOARD_RenderFormat
    simp only [hpresent, hnull, howner, ne_eq, not_false_eq_true, and_self, if_true,
      Bool.false_eq_true, if_false]
    refine ⟨_, rfl, rfl, rfl, ?_⟩
    simp [State.fmt, State.setFmt, List.getD_eq_getElem?_getD, hi]
  rw [GetClipboardData16_select env wFormat s hopen, hsel]
  simp only [hr, Bool.false_eq_true, not_false_eq_true, if_true]
  exact ⟨trivial, h1, h2, h3⟩

theorem GetClipboardData16_owner_lost_witness :
    (GetClipboardData16 { Env.quiet with IsWindow32 := fun _ => false } CF_BITMAP
      (({ State.initial with hWndClipWindow := 5, hWndClipOwner := 9 } : State).setFmt 1
        (CLIPFORMAT.mk CF_BITMAP 1 1 "Bitmap" 0 0))).1 = 0 ∧
    (GetClipboardData16 { Env.quiet with IsWindow32 := fun _ => false } CF_BITMAP
      (({ State.initial with hWndClipWindow := 5, hWndClipOwner := 9 } : State).setFmt 1
        (CLIPFORMAT.mk CF_BITMAP 1 1 "Bitmap" 0 0))).2.calls = [] ∧
    (GetClipboardData16 { Env.quiet with IsWindow32 := fun _ => false } CF_BITMAP
      (({ State.initial with hWndClipWindow := 5, hWndClipOwner := 9 } : State).setFmt 1
        (CLIPFORMAT.mk CF_BITMAP 1 1 "Bitmap" 0 0))).2.hWndClipOwner = 0 ∧
    ((GetClipboardData16 { Env.quiet with IsWindow32 := fun _ => false } CF_BITMAP
      (({ State.initial with hWndClipWindow := 5, hWndClipOwner := 9 } : State).setFmt 1
        (CLIPFORMAT.mk CF_BITMAP 1 1 "Bitmap" 0 0))).2.fmt 1).wDataPresent = 0 :=
  GetClipboardData16_owner_lost { Env.quiet with IsWindow32 := fun _ => false } CF_BITMAP
    (({ State.initial with hWndClipWindow := 5, hWndClipOwner := 9 } : State).setFmt 1
      (CLIPFORMAT.mk CF_BITMAP 1 1 "Bitmap" 0 0)) 1 1 (by decide) (by decide) (by decide)
    (by decide) rfl

theorem fmt_setFmt_ne (s : State) (i j : Nat) (r : CLIPFORMAT) (hij : i ≠ j) :
    (s.setFmt i r).fmt j = s.fmt j := by
  simp [State.fmt, State.setFmt, List.getD_eq_getElem?_getD, List.getElem?_set, hij]

/-- A successful allocation hands out a handle that is not 0 and was not in use,
with a zeroed block of the size asked for; the records are left as they are. -/
theorem GlobalAlloc16_ok (env : Env) (size : Nat) (s : State)
    (h : (GlobalAlloc16 env size s).1 ≠ 0) :
    ∃ h1 sA, GlobalAlloc16 env size s = (h1, sA) ∧
      h1 ≠ 0 ∧ s.heap.find? (fun b => b.1 == h1) = none ∧
      sA.heap = (h1, List.replicate size 0) :: s.heap ∧
      sA.ClipFormats = s.ClipFormats ∧
      sA.calls = s.calls ++ [Call.GlobalAlloc16 size] := by
  unfold GlobalAlloc16 at h ⊢
  by_cases hc : env.GlobalAllocPick s.heap size = 0 ∨
      (s.heap.find? (fun b => b.1 == env.GlobalAllocPick s.heap size)).isSome
  · simp only [hc, if_true] at h
    exact absurd rfl h
  · simp only [hc, if_false]
    refine ⟨_, _, rfl, ?_, ?_, rfl, rfl, rfl⟩
    · exact fun h0 => hc (Or.inl h0)
    · cases hf : s.heap.find? (fun b => b.1 == env.GlobalAllocPick s.heap size) with
      | none => rfl
      | some b => exact absurd (Or.inr (by simp [hf])) hc

/-- A lock reads the heap only. -/
theorem GlobalLock16_congr (h : Nat) (s t : State) (heq : s.heap = t.heap) :
    GlobalLock16 h s = GlobalLock16 h t := by
  simp only [GlobalLock16, heq]

theorem GlobalLock16_head (h : Nat) (blk : List Nat) (rest : List (Nat × List Nat)) (s : State)
    (hs : s.heap = (h, blk) :: rest) (h0 : h ≠ 0) : GlobalLock16 h s = some blk := by
  simp [GlobalLock16, hs, h0]

/-- Storing through the pointer of one block leaves the other blocks as they
are. -/
theorem GlobalLock16_storeBytes_ne (h h1 : Nat) (bytes : List Nat) (s : State) (hne : h ≠ h1) :
    GlobalLock16 h (storeBytes h1 bytes s) = GlobalLock16 h s := by
  have hfalse : (h1 == h) = false := by simpa using fun e => hne e.symm
  have key : ∀ l : List (Nat × List Nat),
      (l.map (fun b => if b.1 = h1 then
          (b.1, bytes.take b.2.length ++ b.2.drop bytes.length) else b)).find?
        (fun b => b.1 == h) = l.find? (fun b => b.1 == h) := by
    intro l
    induction l with
    | nil => rfl
    | cons b rest ih =>
      rw [List.map_cons, List.find?_cons, List.find?_cons, ih]
      by_cases hb1 : b.1 = h1
      · simp only [hb1, if_true, hfalse]
      · simp only [hb1, if_false]
  unfold GlobalLock16 storeBytes
  simp only [key]

theorem GlobalLock16_storeBytes_head (h : Nat) (blk bytes : List Nat)
    (rest : List (Nat × List Nat)) (s : State) (hs : s.heap = (h, blk) :: rest) (h0 : h ≠ 0) :
    GlobalLock16 h (storeBytes h bytes s) =
      some (bytes.take blk.length ++ blk.drop bytes.length) := by
  simp [GlobalLock16, storeBytes, hs, h0]

/-- The conversion block of `CLIPBOARD_RenderText` when the source locks and the
allocation succeeds: the first `size % 65536` bytes of the source, converted. -/
theorem CLIPBOARD_RenderText_ok (env : Env) (lpTarget lpSource : Nat) (s : State)
    (bytes : List Nat) (hne : lpTarget ≠ lpSource) (hlt : lpTarget < s.ClipFormats.length)
    (hid : (s.fmt lpSource).wFormatID = CF_TEXT)
    (hlock : GlobalLock16 (s.fmt lpSource).hData s = some bytes)
    (halloc : (GlobalAlloc16 env (bytes.length % 65536) s).1 ≠ 0) :
    ∃ h1 s1, CLIPBOARD_RenderText env lpTarget lpSource s = (true, s1) ∧
      h1 ≠ 0 ∧ GlobalLock16 h1 s = none ∧
      (s1.fmt lpTarget).hData = h1 ∧ s1.fmt lpSource = s.fmt lpSource ∧
      GlobalLock16 h1 s1 = some ((bytes.take (bytes.length % 65536)).map env.CharToOem) ∧
      (∀ h, h ≠ h1 → GlobalLock16 h s1 = GlobalLock16 h s) ∧
      s1.calls = s.calls ++ [Call.GlobalAlloc16 (bytes.length % 65536)] := by
  obtain ⟨h1, sA, ha, h10, hfresh, hheap, hfmts, hcalls⟩ := GlobalAlloc16_ok env _ s halloc
  have hsize : GlobalSize16 (s.fmt lpSource).hData s = bytes.length := by
    simp only [GlobalSize16, hlock]
  have hltA : lpTarget < sA.ClipFormats.length := by rw [hfmts]; exact hlt
  unfold CLIPBOARD_RenderText
  simp only [hsize, hlock, ha]
  generalize hB : sA.setFmt lpTarget { sA.fmt lpTarget with hData := h1 } = sB
  have hBt : sB.fmt lpTarget = { sA.fmt lpTarget with hData := h1 } := by
    rw [← hB]; exact fmt_setFmt sA _ _ hltA
  have hBs : sB.fmt lpSource = s.fmt lpSource := by
    rw [← hB, fmt_setFmt_ne sA _ _ _ hne]
    simp only [State.fmt, hfmts]
  have hBheap : sB.heap = (h1, List.replicate (bytes.length % 65536) 0) :: s.heap := by
    rw [← hB]; exact hheap
  have hBcalls : sB.calls = s.calls ++ [Call.GlobalAlloc16 (bytes.length % 65536)] := by
    rw [← hB]; exact hcalls
  have hBh : (sB.fmt lpTarget).hData = h1 := by rw [hBt]
  simp only [hBh, GlobalLock16_head h1 _ _ sB hBheap h10, hBs, hid, if_true]
  refine ⟨h1, _, rfl, h10, ?_, ?_, ?_, ?_, ?_, ?_⟩
  · simp [GlobalLock16, h10, hfresh]
  · exact hBh
  · exact hBs
  · rw [GlobalLock16_storeBytes_head h1 _ _ _ sB hBheap h10]
    have hm : (bytes.length % 65536) ≤ bytes.length := Nat.mod_le _ _
    simp [List.length_take, hm]
  · intro h hh
    rw [GlobalLock16_storeBytes_ne h h1 _ sB hh]
    by_cases h0 : h = 0
    · simp [GlobalLock16, h0]
    · have : (h1 == h) = false := by simpa using fun e => hh e.symm
      simp [GlobalLock16, h0, hBheap, List.find?, this]
  · exact hBcalls

/-- The failure branch of `CLIPBOARD_RenderText`: the source locks but the
allocation gives no block; the target record keeps a null handle, the source
record and every flag stay as they are, and only the allocation is called. -/
theorem CLIPBOARD_RenderText_fail (env : Env) (lpTarget lpSource : Nat) (s : State)
    (bytes : List Nat) (hne : lpTarget ≠ lpSource) (hlt : lpTarget < s.ClipFormats.length)
    (hlock : GlobalLock16 (s.fmt lpSource).hData s = some bytes)
    (halloc : (GlobalAlloc16 env (bytes.length % 65536) s).1 = 0) :
    (CLIPBOARD_RenderText env lpTarget lpSource s).1 = false ∧
    ((CLIPBOARD_RenderText env lpTarget lpSource s).2.fmt lpTarget).hData = 0 ∧
    ((CLIPBOARD_RenderText env lpTarget lpSource s).2.fmt lpTarget).wDataPresent
      = (s.fmt lpTarget).wDataPresent ∧
    (CLIPBOARD_RenderText env lpTarget lpSource s).2.fmt lpSource = s.fmt lpSource ∧
    (CLIPBOARD_RenderText env lpTarget lpSource s).2.heap = s.heap ∧
    (CLIPBOARD_RenderText env lpTarget lpSource s).2.calls
      = s.calls ++ [Call.GlobalAlloc16 (bytes.length % 65536)] := by
  have hsize : GlobalSize16 (s.fmt lpSource).hData s = bytes.length := by
    simp only [GlobalSize16, hlock]
  have ha : GlobalAlloc16 env (bytes.length % 65536) s
      = (0, { s with calls := s.calls ++ [Call.GlobalAlloc16 (bytes.length % 65536)] }) := by
    unfold GlobalAlloc16 at halloc ⊢
    by_cases hc : env.GlobalAllocPick s.heap (bytes.length % 65536) = 0 ∨
        (s.heap.find? (fun b => b.1 == env.GlobalAllocPick s.heap (bytes.length % 65536))).isSome
    · simp only [hc, if_true]
    · simp only [hc, if_false] at halloc
      exact absurd halloc (fun e => hc (Or.inl e))
  generalize hA : ({ s with calls := s.calls ++ [Call.GlobalAlloc16 (bytes.length % 65536)] }
    : State) = sA at ha
  have hAf : sA.ClipFormats = s.ClipFormats := by rw [← hA]
  have hAh : sA.heap = s.heap := by rw [← hA]
  have hAc : sA.calls = s.calls ++ [Call.GlobalAlloc16 (bytes.length % 65536)] := by rw [← hA]
  have hltA : lpTarget < sA.ClipFormats.length := by rw [hAf]; exact hlt
  have hlt2 : lpTarget < (sA.setFmt lpTarget { sA.fmt lpTarget with hData := 0 }).ClipFormats.length := by
    simp only [State.setFmt, List.length_set]
    exact hltA
  have h0 : ((sA.setFmt lpTarget { sA.fmt lpTarget with hData := 0 }).fmt lpTarget).hData = 0 := by
    rw [fmt_setFmt _ _ _ hltA]
  have hl0 : ∀ t : State, GlobalLock16 0 t = none := by
    intro t
    simp [GlobalLock16]
  unfold CLIPBOARD_RenderText
  simp only [hsize, hlock, ha]
  rw [h0, hl0]
  simp only []
  refine ⟨trivial, ?_, ?_, ?_, ?_, ?_⟩
  · rw [fmt_setFmt _ _ _ hlt2]
  · rw [fmt_setFmt _ _ _ hlt2, fmt_setFmt _ _ _ hltA]
    simp only [State.fmt, hAf]
  · rw [fmt_setFmt_ne _ _ _ _ hne, fmt_setFmt_ne _ _ _ _ hne]
    simp only [State.fmt, hAf]
  · exact hAh
  · exact hAc

/-- Converting the text record into the OEM text record: what
`GetClipboardData16 (CF_OEMTEXT)` does when the allocation succeeds, for a block
of any size.  Only the first `size % 65536` bytes are converted. -/
theorem GetClipboardData16_oem_of_text (env : Env) (s : State) (h : Nat) (bytes : List Nat)
    (hopen : s.hWndClipWindow ≠ 0)
    (hid : (s.fmt (CF_TEXT - 1)).wFormatID = CF_TEXT)
    (hp : (s.fmt (CF_TEXT - 1)).wDataPresent ≠ 0)
    (hh : (s.fmt (CF_TEXT - 1)).hData = h)
    (hoid : (s.fmt (CF_OEMTEXT - 1)).wFormatID = CF_OEMTEXT)
    (hop : (s.fmt (CF_OEMTEXT - 1)).wDataPresent = 0)
    (hoh : (s.fmt (CF_OEMTEXT - 1)).hData = 0)
    (hlock : GlobalLock16 h s = some bytes)
    (halloc : (GlobalAlloc16 env (bytes.length % 65536) s).1 ≠ 0) :
    ∃ h1 s1, GetClipboardData16 env CF_OEMTEXT s = (h1, s1) ∧ h1 ≠ 0 ∧ h1 ≠ h ∧
      GlobalLock16 h1 s = none ∧
      GlobalLock16 h1 s1 = some ((bytes.take (bytes.length % 65536)).map env.CharToOem) ∧
      GlobalLock16 h s1 = some bytes ∧
      (s1.fmt (CF_TEXT - 1)).hData = h ∧
      (s1.fmt (CF_TEXT - 1)).wDataPresent = (s.fmt (CF_TEXT - 1)).wDataPresent ∧
      s1.calls = s.calls ++ [Call.GlobalAlloc16 (bytes.length % 65536)] := by
  have hh0 : h ≠ 0 := by
    intro h0
    rw [h0] at hlock
    simp [GlobalLock16] at hlock
  have hi6 : CF_OEMTEXT - 1 < s.ClipFormats.length := by
    by_contra hi
    have : s.fmt (CF_OEMTEXT - 1) = default := by
      simp [State.fmt, List.getD_eq_getElem?_getD, List.getElem?_eq_none, Nat.le_of_not_lt hi]
    rw [this] at hoid
    exact absurd hoid (by decide)
  have hsel : GetClipboardData16.select CF_OEMTEXT s = some (CF_TEXT - 1, CF_OEMTEXT - 1) := by
    unfold GetClipboardData16.select
    have h71 : ¬ CF_OEMTEXT = CF_TEXT := by decide
    simp only [h71, false_and, if_false, hop, hp, ne_eq, not_false_eq_true, and_self, if_true]
  have hrender : CLIPBOARD_RenderFormat env (CF_TEXT - 1) s = (true, s) := by
    unfold CLIPBOARD_RenderFormat
    simp only [hh, hh0, and_false, if_false, ne_eq, not_false_eq_true, decide_True]
  have h60 : CF_OEMTEXT - 1 ≠ CF_TEXT - 1 := by decide
  obtain ⟨h1, s1, htext, h10, hfresh, ht, hsrc, hconv, hother, hcalls⟩ :=
    CLIPBOARD_RenderText_ok env (CF_OEMTEXT - 1) (CF_TEXT - 1) s bytes h60 hi6 hid
      (by rw [hh]; exact hlock) halloc
  have hne : h1 ≠ h := by
    intro he
    rw [he, hlock] at hfresh
    exact absurd hfresh (by simp)
  refine ⟨h1, s1, ?_, h10, hne, hfresh, hconv, ?_, ?_, ?_, hcalls⟩
  · rw [GetClipboardData16_select env _ s hopen, hsel]
    simp only [hrender, not_true_eq_false, if_false, h60, ne_eq, not_false_eq_true, hoh,
      and_self, if_true, htext, ht]
  · rw [hother h (Ne.symm hne)]
    exact hlock
  · rw [hsrc]
    exact hh
  · rw [hsrc]

/-- The claim C11 read on the code fails twice: when the allocator has no block
to give the call returns 0, and for a text block of 65537 bytes the block
returned holds one converted byte, not the conversion of the bytes of the text
block. -/
theorem GetClipboardData16_oem_not_always :
    (GetClipboardData16 Env.noMemory CF_OEMTEXT (State.withText [72, 105])).1 = 0 ∧
    GlobalLock16
        (GetClipboardData16 Env.quiet CF_OEMTEXT (State.withText (List.replicate 65537 65))).1
        (GetClipboardData16 Env.quiet CF_OEMTEXT (State.withText (List.replicate 65537 65))).2 =
      some [65] ∧
    GlobalLock16
        (GetClipboardData16 Env.quiet CF_OEMTEXT (State.withText (List.replicate 65537 65))).1
        (GetClipboardData16 Env.quiet CF_OEMTEXT (State.withText (List.replicate 65537 65))).2 ≠
      some ((List.replicate 65537 65).map Env.quiet.CharToOem) := by
  have hlen : (List.replicate 65537 65 : List Nat).length % 65536 = 1 := by
    rw [List.length_replicate]
  obtain ⟨h1, s1, hr, -, -, -, hconv, -⟩ :=
    GetClipboardData16_oem_of_text Env.quiet (State.withText (List.replicate 65537 65)) 1
      (List.replicate 65537 65) (by decide) rfl (by decide) rfl rfl rfl rfl rfl
      (by rw [hlen]; decide)
  rw [hlen] at hconv
  have htake : (List.replicate 65537 65 : List Nat).take 1 = [65] := rfl
  rw [htake] at hconv
  refine ⟨by decide, ?_, ?_⟩
  · rw [hr]
    exact hconv
  · rw [hr]
    show GlobalLock16 h1 s1 ≠ _
    rw [hconv]
    intro he
    have h2 : ([65] : List Nat).length =
        ((List.replicate 65537 65).map Env.quiet.CharToOem).length :=
      congrArg List.length (Option.some.inj he)
    rw [List.length_map, List.length_replicate, List.length_singleton] at h2
    exact absurd h2 (by decide)

/-- Claim C11, amended: with the clipboard open, the text record holding a
present handle `h` that locks to fewer than 65536 bytes and the OEM text record
never set: when the allocation of the new block succeeds,
`GetClipboardData16 (CF_OEMTEXT)` returns a handle that is not 0, is not `h` and
was not allocated before, whose bytes are the conversion of the bytes of `h`;
when the allocation fails the call returns 0 and the OEM text record keeps its
null handle; in both cases the handle and the data-present flag of the text
record are unchanged. -/
theorem GetClipboardData16_oem_from_text (env : Env) (s : State) (h : Nat) (bytes : List Nat)
    (hopen : s.hWndClipWindow ≠ 0)
    (hid : (s.fmt (CF_TEXT - 1)).wFormatID = CF_TEXT)
    (hp : (s.fmt (CF_TEXT - 1)).wDataPresent ≠ 0)
    (hh : (s.fmt (CF_TEXT - 1)).hData = h)
    (hoid : (s.fmt (CF_OEMTEXT - 1)).wFormatID = CF_OEMTEXT)
    (hop : (s.fmt (CF_OEMTEXT - 1)).wDataPresent = 0)
    (hoh : (s.fmt (CF_OEMTEXT - 1)).hData = 0)
    (hlock : GlobalLock16 h s = some bytes)
    (hsize : bytes.length < 65536) :
    ((GlobalAlloc16 env bytes.length s).1 ≠ 0 →
      (GetClipboardData16 env CF_OEMTEXT s).1 ≠ 0 ∧
      (GetClipboardData16 env CF_OEMTEXT s).1 ≠ h ∧
      GlobalLock16 (GetClipboardData16 env CF_OEMTEXT s).1 s = none ∧
      GlobalLock16 (GetClipboardData16 env CF_OEMTEXT s).1
          (GetClipboardData16 env CF_OEMTEXT s).2 =
        some (bytes.map env.CharToOem)) ∧
    ((GlobalAlloc16 env bytes.length s).1 = 0 →
      (GetClipboardData16 env CF_OEMTEXT s).1 = 0 ∧
      ((GetClipboardData16 env CF_OEMTEXT s).2.fmt (CF_OEMTEXT - 1)).hData = 0 ∧
      ((GetClipboardData16 env CF_OEMTEXT s).2.fmt (CF_OEMTEXT - 1)).wDataPresent = 0) ∧
    ((GetClipboardData16 env CF_OEMTEXT s).2.fmt (CF_TEXT - 1)).hData = h ∧
    ((GetClipboardData16 env CF_OEMTEXT s).2.fmt (CF_TEXT - 1)).wDataPresent =
      (s.fmt (CF_TEXT - 1)).wDataPresent := by
  have hmod : bytes.length % 65536 = bytes.length := Nat.mod_eq_of_lt hsize
  have hh0 : h ≠ 0 := by
    intro h0
    rw [h0] at hlock
    simp [GlobalLock16] at hlock
  have hi6 : CF_OEMTEXT - 1 < s.ClipFormats.length := by
    by_contra hi
    have : s.fmt (CF_OEMTEXT - 1) = default := by
      simp [State.fmt, List.getD_eq_getElem?_getD, List.getElem?_eq_none, Nat.le_of_not_lt hi]
    rw [this] at hoid
    exact absurd hoid (by decide)
  have h60 : CF_OEMTEXT - 1 ≠ CF_TEXT - 1 := by decide
  -- the allocation fails
  have hfail : (GlobalAlloc16 env bytes.length s).1 = 0 →
      (GetClipboardData16 env CF_OEMTEXT s).1 = 0 ∧
      ((GetClipboardData16 env CF_OEMTEXT s).2.fmt (CF_OEMTEXT - 1)).hData = 0 ∧
      ((GetClipboardData16 env CF_OEMTEXT s).2.fmt (CF_OEMTEXT - 1)).wDataPresent = 0 ∧
      ((GetClipboardData16 env CF_OEMTEXT s).2.fmt (CF_TEXT - 1)).hData = h ∧
      ((GetClipboardData16 env CF_OEMTEXT s).2.fmt (CF_TEXT - 1)).wDataPresent =
        (s.fmt (CF_TEXT - 1)).wDataPresent := by
    intro halloc
    have hsel : GetClipboardData16.select CF_OEMTEXT s = some (CF_TEXT - 1, CF_OEMTEXT - 1) := by
      unfold GetClipboardData16.select
      have h71 : ¬ CF_OEMTEXT = CF_TEXT := by decide
      simp only [h71, false_and, if_false, hop, hp, ne_eq, not_false_eq_true, and_self, if_true]
    have hrender : CLIPBOARD_RenderFormat env (CF_TEXT - 1) s = (true, s) := by
      unfold CLIPBOARD_RenderFormat
      simp only [hh, hh0, and_false, if_false, ne_eq, not_false_eq_true, decide_True]
    obtain ⟨-, f2, f3, f4, -, -⟩ := CLIPBOARD_RenderText_fail env (CF_OEMTEXT - 1) (CF_TEXT - 1) s
      bytes h60 hi6 (by rw [hh]; exact hlock) (by rw [hmod]; exact halloc)
    rw [GetClipboardData16_select env _ s hopen, hsel]
    simp only [hrender, not_true_eq_false, if_false, h60, ne_eq, not_false_eq_true, hoh,
      and_self, if_true]
    refine ⟨f2, f2, f3.trans hop, ?_, ?_⟩
    · rw [f4]
      exact hh
    · rw [f4]
  by_cases halloc : (GlobalAlloc16 env bytes.length s).1 = 0
  · obtain ⟨r1, r2, r3, r4, r5⟩ := hfail halloc
    exact ⟨fun hn => absurd halloc hn, fun _ => ⟨r1, r2, r3⟩, r4, r5⟩
  · obtain ⟨h1, s1, hr, h10, hne, hfresh, hconv, -, hth, htp, -⟩ :=
      GetClipboardData16_oem_of_text env s h bytes hopen hid hp hh hoid hop hoh hlock
        (by rw [hmod]; exact halloc)
    rw [hmod, List.take_length] at hconv
    rw [hr]
    exact ⟨fun _ => ⟨h10, hne, hfresh, hconv⟩, fun h0 => absurd h0 halloc, hth, htp⟩

theorem GetClipboardData16_oem_from_text_witness :
    (GetClipboardData16 Env.shifting CF_OEMTEXT (State.withText [72, 105])).1 ≠ 0 ∧
    (GetClipboardData16 Env.shifting CF_OEMTEXT (State.withText [72, 105])).1 ≠ 1 ∧
    GlobalLock16 (GetClipboardData16 Env.shifting CF_OEMTEXT (State.withText [72, 105])).1
      (State.withText [72, 105]) = none ∧
    GlobalLock16 (GetClipboardData16 Env.shifting CF_OEMTEXT (State.withText [72, 105])).1
      (GetClipboardData16 Env.shifting CF_OEMTEXT (State.withText [72, 105])).2 =
      some ([72, 105].map Env.shifting.CharToOem) ∧
    (GetClipboardData16 Env.noMemory CF_OEMTEXT (State.withText [72, 105])).1 = 0 ∧
    ((GetClipboardData16 Env.shifting CF_OEMTEXT (State.withText [72, 105])).2.fmt
      (CF_TEXT - 1)).hData = 1 ∧
    ((GetClipboardData16 Env.shifting CF_OEMTEXT (State.withText [72, 105])).2.fmt
      (CF_TEXT - 1)).wDataPresent = ((State.withText [72, 105]).fmt (CF_TEXT - 1)).wDataPresent :=
  have hs := GetClipboardData16_oem_from_text Env.shifting (State.withText [72, 105]) 1 [72, 105]
    (by decide) (by decide) (by decide) (by decide) (by decide) (by decide) (by decide)
    (by decide) (by decide)
  have hn := GetClipboardData16_oem_from_text Env.noMemory (State.withText [72, 105]) 1 [72, 105]
    (by decide) (by decide) (by decide) (by decide) (by decide) (by decide) (by decide)
    (by decide) (by decide)
  ⟨(hs.1 (by decide)).1, (hs.1 (by decide)).2.1, (hs.1 (by decide)).2.2.1,
    (hs.1 (by decide)).2.2.2, (hn.2.1 (by decide)).1, hs.2.2.1, hs.2.2.2⟩

/-! ## Registering format names -/

theorem RegisterClipboardFormat16_walk_bound (l : List CLIPFORMAT) (name : String) (k i : Nat)
    (h : RegisterClipboardFormat16.walk l name k = some i) : k ≤ i ∧ i < k + l.length := by
  induction l generalizing k with
  | nil => simp [RegisterClipboardFormat16.walk] at h
  | cons r rest ih =>
    unfold RegisterClipboardFormat16.walk at h
    split at h
    · simp only [Option.some.injEq] at h
      subst h
      simp
    · have := ih _ h
      simp only [List.length_cons]
      omega

theorem RegisterClipboardFormat16_walk_found (l : List CLIPFORMAT) (name : String) (k i : Nat)
    (h : RegisterClipboardFormat16.walk l name k = some i) :
    (l.getD (i - k) default).Name = name := by
  induction l generalizing k with
  | nil => simp [RegisterClipboardFormat16.walk] at h
  | cons r rest ih =>
    unfold RegisterClipboardFormat16.walk at h
    split at h
    · simp only [Option.some.injEq] at h
      subst h
      simpa
    · have hb := RegisterClipboardFormat16_walk_bound _ _ _ _ h
      have := ih _ h
      have he : i - k = (i - (k + 1)) + 1 := by omega
      rw [he]
      simpa using this

theorem RegisterClipboardFormat16_walk_none (l : List CLIPFORMAT) (name : String) (k : Nat) :
    RegisterClipboardFormat16.walk l name k = none ↔ ∀ r ∈ l, r.Name ≠ name := by
  induction l generalizing k with
  | nil => simp [RegisterClipboardFormat16.walk]
  | cons r rest ih =>
    unfold RegisterClipboardFormat16.walk
    by_cases hr : r.Name = name
    · simp [hr]
    · simp [hr, ih]

theorem RegisterClipboardFormat16_walk_congr (l1 l2 : List CLIPFORMAT) (name : String) (k : Nat)
    (h : l1.map CLIPFORMAT.Name = l2.map CLIPFORMAT.Name) :
    RegisterClipboardFormat16.walk l1 name k = RegisterClipboardFormat16.walk l2 name k := by
  induction l1 generalizing l2 k with
  | nil =>
    cases l2 with
    | nil => rfl
    | cons b l2 => simp at h
  | cons a l1 ih =>
    cases l2 with
    | nil => simp at h
    | cons b l2 =>
      simp only [List.map_cons, List.cons.injEq] at h
      unfold RegisterClipboardFormat16.walk
      rw [h.1, ih l2 _ h.2]

theorem RegisterClipboardFormat16_walk_append (l : List CLIPFORMAT) (r : CLIPFORMAT) (k : Nat)
    (h : RegisterClipboardFormat16.walk l r.Name k = none) :
    RegisterClipboardFormat16.walk (l ++ [r]) r.Name k = some (k + l.length) := by
  induction l generalizing k with
  | nil => simp [RegisterClipboardFormat16.walk]
  | cons a rest ih =>
    unfold RegisterClipboardFormat16.walk at h
    split at h
    · simp at h
    · rename_i hne
      simp only [List.cons_append, List.length_cons]
      unfold RegisterClipboardFormat16.walk
      simp only [hne, if_false]
      rw [ih _ h]
      congr 1
      omega

theorem setFmt_names (s : State) (lp : Nat) (r : CLIPFORMAT) (h : r.Name = (s.fmt lp).Name) :
    (s.setFmt lp r).ClipFormats.map CLIPFORMAT.Name = s.ClipFormats.map CLIPFORMAT.Name := by
  apply List.ext_getElem?
  intro i
  by_cases hi : lp = i
  · subst hi
    by_cases hl : lp < s.ClipFormats.length
    · simp [State.fmt, State.setFmt, List.getD_eq_getElem?_getD, hl, List.getElem?_set] at h ⊢
      exact h
    · simp only [State.setFmt]
      rw [List.set_eq_of_length_le (by omega)]
  · simp [State.setFmt, List.getElem?_set_ne hi]

/-- Registering a name that has a record: the count of that record goes up by
one modulo 65536 and its id is returned. -/
theorem RegisterClipboardFormat16_found (s : State) (name : String) (lp : Nat)
    (h : RegisterClipboardFormat16.walk s.ClipFormats name 0 = some lp) :
    RegisterClipboardFormat16 (some name) s =
      ((s.fmt lp).wFormatID,
        s.setFmt lp { s.fmt lp with wRefCount := ((s.fmt lp).wRefCount + 1) % 65536 }) := by
  have hlt := (RegisterClipboardFormat16_walk_bound _ _ _ _ h).2
  simp only [Nat.zero_add] at hlt
  unfold RegisterClipboardFormat16
  simp only [h]
  rw [fmt_setFmt _ _ _ hlt]

/-- Registering a name that has no record: a record is appended with the value
of the counter as its id, and the counter goes up by one modulo 65536. -/
theorem RegisterClipboardFormat16_new (s : State) (name : String)
    (h : RegisterClipboardFormat16.walk s.ClipFormats name 0 = none) :
    RegisterClipboardFormat16 (some name) s =
      (s.LastRegFormat,
        { s with ClipFormats := s.ClipFormats ++ [CLIPFORMAT.mk s.LastRegFormat 1 0 name 0 0],
                 LastRegFormat := (s.LastRegFormat + 1) % 65536 }) := by
  unfold RegisterClipboardFormat16
  simp only [h]

theorem Reachable_registerAll (env : Env) (names : List String) (s : State)
    (h : Reachable env s) : Reachable env (registerAll names s) := by
  induction names generalizing s with
  | nil => exact h
  | cons name rest ih =>
    rw [registerAll]
    exact ih _ (Reachable.registered s (some name) h)

/-- Registering a name that has a record over and over raises the 16-bit
reference count of that record, modulo 65536, and keeps its name and id. -/
theorem registerAll_replicate (n : Nat) (name : String) (s : State) (lp : Nat)
    (hw : RegisterClipboardFormat16.walk s.ClipFormats name 0 = some lp)
    (hc : (s.fmt lp).wRefCount < 65536) :
    RegisterClipboardFormat16.walk (registerAll (List.replicate n name) s).ClipFormats name 0
      = some lp ∧
    ((registerAll (List.replicate n name) s).fmt lp).wRefCount
      = ((s.fmt lp).wRefCount + n) % 65536 ∧
    ((registerAll (List.replicate n name) s).fmt lp).wFormatID = (s.fmt lp).wFormatID := by
  induction n generalizing s with
  | zero =>
    refine ⟨hw, ?_, rfl⟩
    show (s.fmt lp).wRefCount = ((s.fmt lp).wRefCount + 0) % 65536
    omega
  | succ n ih =>
    have hlt := (RegisterClipboardFormat16_walk_bound _ _ _ _ hw).2
    simp only [Nat.zero_add] at hlt
    rw [List.replicate_succ, registerAll, RegisterClipboardFormat16_found s name lp hw]
    simp only []
    have hw1 : RegisterClipboardFormat16.walk
        (s.setFmt lp { s.fmt lp with wRefCount := ((s.fmt lp).wRefCount + 1) % 65536 }).ClipFormats
        name 0 = some lp := by
      rw [RegisterClipboardFormat16_walk_congr _ s.ClipFormats _ _
        (setFmt_names s lp { s.fmt lp with wRefCount := ((s.fmt lp).wRefCount + 1) % 65536 }
          rfl)]
      exact hw
    have hf1 : (s.setFmt lp { s.fmt lp with wRefCount := ((s.fmt lp).wRefCount + 1) % 65536 }).fmt lp
        = { s.fmt lp with wRefCount := ((s.fmt lp).wRefCount + 1) % 65536 } :=
      fmt_setFmt _ _ _ hlt
    obtain ⟨i1, i2, i3⟩ := ih
      (s.setFmt lp { s.fmt lp with wRefCount := ((s.fmt lp).wRefCount + 1) % 65536 }) hw1
      (by rw [hf1]; exact Nat.mod_lt _ (by decide))
    refine ⟨i1, ?_, ?_⟩
    · rw [i2, hf1]
      show (((s.fmt lp).wRefCount + 1) % 65536 + n) % 65536
        = ((s.fmt lp).wRefCount + (n + 1)) % 65536
      omega
    · rw [i3, hf1]

/-- A registration of a name whose record has the count 65535 returns the id of
the record and leaves the count 0. -/
theorem RegisterClipboardFormat16_at_limit (s : State) (name : String) (lp : Nat)
    (hw : RegisterClipboardFormat16.walk s.ClipFormats name 0 = some lp)
    (hc : (s.fmt lp).wRefCount = 65535) :
    (RegisterClipboardFormat16 (some name) s).1 = (s.fmt lp).wFormatID ∧
    ((RegisterClipboardFormat16 (some name) s).2.fmt lp).wRefCount = 0 := by
  have hlt := (RegisterClipboardFormat16_walk_bound _ _ _ _ hw).2
  simp only [Nat.zero_add] at hlt
  rw [RegisterClipboardFormat16_found s name lp hw]
  refine ⟨rfl, ?_⟩
  show ((s.setFmt lp { s.fmt lp with wRefCount := ((s.fmt lp).wRefCount + 1) % 65536 }).fmt
    lp).wRefCount = 0
  rw [fmt_setFmt _ _ _ hlt]
  show ((s.fmt lp).wRefCount + 1) % 65536 = 0
  rw [hc]

/-- The claim C13 read on the code fails for the reference count: the name
"Text" has a record at start-up; after 65534 registrations of that name, a state
reached from start-up, the count of the record is 65535, and one more
registration returns the same id and leaves the count 0, not 65536. -/
theorem RegisterClipboardFormat16_count_wraps :
    Reachable Env.quiet (registerAll (List.replicate 65534 "Text") State.initial) ∧
    ((registerAll (List.replicate 65534 "Text") State.initial).fmt 0).wRefCount = 65535 ∧
    (RegisterClipboardFormat16 (some "Text")
      (registerAll (List.replicate 65534 "Text") State.initial)).1 = CF_TEXT ∧
    ((RegisterClipboardFormat16 (some "Text")
      (registerAll (List.replicate 65534 "Text") State.initial)).2.fmt 0).wRefCount = 0 :=
  have h := registerAll_replicate 65534 "Text" State.initial 0 (by decide) (by decide)
  have hc : ((registerAll (List.replicate 65534 "Text") State.initial).fmt 0).wRefCount
      = 65535 := h.2.1.trans (by decide)
  have hid : ((registerAll (List.replicate 65534 "Text") State.initial).fmt 0).wFormatID
      = CF_TEXT := h.2.2.trans (by decide)
  have hl := RegisterClipboardFormat16_at_limit _ "Text" 0 h.1 hc
  ⟨Reachable_registerAll Env.quiet _ State.initial Reachable.initial, hc, hl.1.trans hid, hl.2⟩

/-- Claim C13, amended: registering a name a second time returns the id of the
first registration, appends no record, leaves the id counter unchanged and
raises the reference count of the record of that name by one modulo 65536, the
count being a `WORD`: by exactly one while the count is below 65535; every other
record stays as it is. -/
theorem RegisterClipboardFormat16_idempotent (s s1 s2 : State) (FormatName : String)
    (id1 id2 : Nat)
    (hfirst : RegisterClipboardFormat16 (some FormatName) s = (id1, s1))
    (hsecond : RegisterClipboardFormat16 (some FormatName) s1 = (id2, s2)) :
    id2 = id1 ∧ s2.ClipFormats.length = s1.ClipFormats.length ∧
    s2.LastRegFormat = s1.LastRegFormat ∧
    ∃ lp, lp < s1.ClipFormats.length ∧ (s1.fmt lp).Name = FormatName ∧
      (s1.fmt lp).wFormatID = id1 ∧
      (s2.fmt lp).wRefCount = ((s1.fmt lp).wRefCount + 1) % 65536 ∧
      ((s1.fmt lp).wRefCount < 65535 → (s2.fmt lp).wRefCount = (s1.fmt lp).wRefCount + 1) ∧
      ∀ j, j ≠ lp → s2.fmt j = s1.fmt j := by
  -- the state of the chain after the first registration
  obtain ⟨lp, hw1, hlt, hname, hid⟩ : ∃ lp,
      RegisterClipboardFormat16.walk s1.ClipFormats FormatName 0 = some lp ∧
      lp < s1.ClipFormats.length ∧ (s1.fmt lp).Name = FormatName ∧
      (s1.fmt lp).wFormatID = id1 := by
    cases hw : RegisterClipboardFormat16.walk s.ClipFormats FormatName 0 with
    | some lp =>
      have hlt := (RegisterClipboardFormat16_walk_bound _ _ _ _ hw).2
      simp only [Nat.zero_add] at hlt
      have hn := RegisterClipboardFormat16_walk_found _ _ _ _ hw
      simp only [Nat.sub_zero] at hn
      rw [RegisterClipboardFormat16_found s FormatName lp hw] at hfirst
      simp only [Prod.mk.injEq] at hfirst
      obtain ⟨hid, hs1⟩ := hfirst
      subst hs1
      refine ⟨lp, ?_, ?_, ?_, ?_⟩
      · rw [RegisterClipboardFormat16_walk_congr _ s.ClipFormats _ _
          (setFmt_names s lp { s.fmt lp with wRefCount := ((s.fmt lp).wRefCount + 1) % 65536 }
            rfl)]
        exact hw
      · simpa [State.setFmt] using hlt
      · rw [fmt_setFmt _ _ _ hlt]
        exact hn
      · rw [fmt_setFmt _ _ _ hlt]
        exact hid
    | none =>
      rw [RegisterClipboardFormat16_new s FormatName hw] at hfirst
      simp only [Prod.mk.injEq] at hfirst
      obtain ⟨hid, hs1⟩ := hfirst
      subst hs1
      have hget : ({ s with
          ClipFormats := s.ClipFormats ++ [CLIPFORMAT.mk s.LastRegFormat 1 0 FormatName 0 0],
          LastRegFormat := (s.LastRegFormat + 1) % 65536 } : State).fmt s.ClipFormats.length =
          CLIPFORMAT.mk s.LastRegFormat 1 0 FormatName 0 0 := by
        simp [State.fmt, List.getD_eq_getElem?_getD]
      refine ⟨s.ClipFormats.length, ?_, ?_, ?_, ?_⟩
      · have := RegisterClipboardFormat16_walk_append s.ClipFormats
          (CLIPFORMAT.mk s.LastRegFormat 1 0 FormatName 0 0) 0 hw
        simpa using this
      · simp
      · rw [hget]
      · rw [hget]
        exact hid
  rw [RegisterClipboardFormat16_found s1 FormatName lp hw1] at hsecond
  simp only [Prod.mk.injEq] at hsecond
  obtain ⟨hid2, hs2⟩ := hsecond
  subst hs2
  have hcount : ((s1.setFmt lp
      { s1.fmt lp with wRefCount := ((s1.fmt lp).wRefCount + 1) % 65536 }).fmt lp).wRefCount
      = ((s1.fmt lp).wRefCount + 1) % 65536 := by
    rw [fmt_setFmt _ _ _ hlt]
  refine ⟨?_, ?_, rfl, lp, hlt, hname, hid, hcount, ?_, ?_⟩
  · rw [← hid2, hid]
  · simp [State.setFmt]
  · intro hroom
    rw [hcount]
    omega
  · intro j hj
    exact fmt_setFmt_ne s1 lp j _ (Ne.symm hj)

theorem RegisterClipboardFormat16_idempotent_witness :
    (49152 : Nat) = 49152 ∧
    (RegisterClipboardFormat16 (some "My")
      (RegisterClipboardFormat16 (some "My") State.initial).2).2.ClipFormats.length =
      (RegisterClipboardFormat16 (some "My") State.initial).2.ClipFormats.length ∧
    (RegisterClipboardFormat16 (some "My")
      (RegisterClipboardFormat16 (some "My") State.initial).2).2.LastRegFormat =
      (RegisterClipboardFormat16 (some "My") State.initial).2.LastRegFormat ∧
    ∃ lp, lp < (RegisterClipboardFormat16 (some "My") State.initial).2.ClipFormats.length ∧
      ((RegisterClipboardFormat16 (some "My") State.initial).2.fmt lp).Name = "My" ∧
      ((RegisterClipboardFormat16 (some "My") State.initial).2.fmt lp).wFormatID = 49152 ∧
      ((RegisterClipboardFormat16 (some "My")
        (RegisterClipboardFormat16 (some "My") State.initial).2).2.fmt lp).wRefCount =
        (((RegisterClipboardFormat16 (some "My") State.initial).2.fmt lp).wRefCount + 1)
          % 65536 ∧
      (((RegisterClipboardFormat16 (some "My") State.initial).2.fmt lp).wRefCount < 65535 →
        ((RegisterClipboardFormat16 (some "My")
          (RegisterClipboardFormat16 (some "My") State.initial).2).2.fmt lp).wRefCount =
          ((RegisterClipboardFormat16 (some "My") State.initial).2.fmt lp).wRefCount + 1) ∧
      ∀ j, j ≠ lp →
        (RegisterClipboardFormat16 (some "My")
          (RegisterClipboardFormat16 (some "My") State.initial).2).2.fmt j =
        (RegisterClipboardFormat16 (some "My") State.initial).2.fmt j :=
  RegisterClipboardFormat16_idempotent State.initial
    (RegisterClipboardFormat16 (some "My") State.initial).2
    (RegisterClipboardFormat16 (some "My")
      (RegisterClipboardFormat16 (some "My") State.initial).2).2 "My" 49152 49152
    (by decide) (by decide)

theorem appendedIds_cons_found (s : State) (name : String) (rest : List String) (lp : Nat)
    (h : RegisterClipboardFormat16.walk s.ClipFormats name 0 = some lp) :
    appendedIds (name :: rest) s =
      appendedIds rest
        (s.setFmt lp { s.fmt lp with wRefCount := ((s.fmt lp).wRefCount + 1) % 65536 }) := by
  rw [appendedIds, RegisterClipboardFormat16_found s name lp h]
  simp [State.setFmt]

theorem appendedIds_cons_new (s : State) (name : String) (rest : List String)
    (h : RegisterClipboardFormat16.walk s.ClipFormats name 0 = none) :
    appendedIds (name :: rest) s =
      s.LastRegFormat :: appendedIds rest
        { s with ClipFormats := s.ClipFormats ++ [CLIPFORMAT.mk s.LastRegFormat 1 0 name 0 0],
                 LastRegFormat := (s.LastRegFormat + 1) % 65536 } := by
  rw [appendedIds, RegisterClipboardFormat16_new s name h]
  simp

/-- The ids handed to new records are the successive values of the 16-bit
counter, whatever names are registered. -/
theorem appendedIds_counter (names : List String) (s : State) (hL : s.LastRegFormat < 65536) :
    appendedIds names s =
      (List.range (appendedIds names s).length).map (fun k => (s.LastRegFormat + k) % 65536) := by
  induction names generalizing s with
  | nil => simp [appendedIds]
  | cons name rest ih =>
    cases hw : RegisterClipboardFormat16.walk s.ClipFormats name 0 with
    | some lp =>
      rw [appendedIds_cons_found s name rest lp hw]
      exact ih _ hL
    | none =>
      rw [appendedIds_cons_new s name rest hw]
      generalize hs1 : ({ s with
        ClipFormats := s.ClipFormats ++ [CLIPFORMAT.mk s.LastRegFormat 1 0 name 0 0],
        LastRegFormat := (s.LastRegFormat + 1) % 65536 } : State) = s1
      have hL1 : s1.LastRegFormat = (s.LastRegFormat + 1) % 65536 := by rw [← hs1]
      have ih1 := ih s1 (by rw [hL1]; exact Nat.mod_lt _ (by decide))
      generalize appendedIds rest s1 = X at ih1 ⊢
      rw [List.length_cons, List.range_succ_eq_map, List.map_cons, List.map_map]
      congr 1
      · simp only [Nat.add_zero]
        exact (Nat.mod_eq_of_lt hL).symm
      · rw [ih1, List.length_map, List.length_range]
        apply List.map_congr_left
        intro k _
        simp only [Function.comp, hL1]
        omega

theorem xName_ne (i j : Nat) (h : i ≠ j) : xName i ≠ xName j := by
  intro he
  unfold xName at he
  have := congrArg (fun t => t.data.length) he
  simp only [List.length_replicate] at this
  omega

/-- No name of the table at start-up is made of letters x. -/
theorem xName_not_builtin (i : Nat) : ∀ r ∈ Clipboard.ClipFormats, r.Name ≠ xName i := by
  have hhead : ∀ r ∈ Clipboard.ClipFormats, r.Name.data.head? ≠ some 'x' := by decide
  intro r hr he
  apply hhead r hr
  rw [he]
  rfl

/-- Names that have no record each get a record of their own. -/
theorem appendedIds_xNames_length (n j : Nat) (s : State)
    (h : ∀ r ∈ s.ClipFormats, ∀ i, j ≤ i → r.Name ≠ xName i) :
    (appendedIds ((List.range' j n).map xName) s).length = n := by
  induction n generalizing j s with
  | zero => simp [appendedIds]
  | succ n ih =>
    have hw : RegisterClipboardFormat16.walk s.ClipFormats (xName j) 0 = none :=
      (RegisterClipboardFormat16_walk_none _ _ _).2 (fun r hr => h r hr j (Nat.le_refl _))
    rw [List.range'_succ, List.map_cons, appendedIds_cons_new s _ _ hw, List.length_cons,
      ih (j + 1)]
    intro r hr i hi
    simp only [List.mem_append, List.mem_singleton] at hr
    rcases hr with hr | hr
    · exact h r hr i (by omega)
    · rw [hr]
      exact xName_ne j i (by omega)

/-- The ids of the records appended for the first `n` names made of letters x,
from the state at start-up. -/
theorem appendedIds_xNames (n : Nat) :
    appendedIds (xNames n) State.initial =
      (List.range n).map (fun k => (CF_REGFORMATBASE + k) % 65536) := by
  have hlen : (appendedIds (xNames n) State.initial).length = n := by
    unfold xNames
    rw [List.range_eq_range']
    exact appendedIds_xNames_length n 0 State.initial (fun r hr i _ => xName_not_builtin i r hr)
  have := appendedIds_counter (xNames n) State.initial (by decide)
  rw [hlen] at this
  exact this

/-- The claim C14 read on the code fails for long sequences: of 16386 new names
registered from start-up the 16384th gets the id 65535, the next one the id 0,
which is below the base and not greater than the ids before, and the next one
the id 1, the id of the built-in text format. -/
theorem RegisterClipboardFormat16_ids_wrap :
    (appendedIds (xNames 16386) State.initial)[16383]? = some 65535 ∧
    (appendedIds (xNames 16386) State.initial)[16384]? = some 0 ∧
    (appendedIds (xNames 16386) State.initial)[16385]? = some CF_TEXT := by
  rw [appendedIds_xNames]
  simp only [List.getElem?_map]
  rw [List.getElem?_range (by omega), List.getElem?_range (by omega),
    List.getElem?_range (by omega)]
  decide

/-- Claim C14, amended: for every sequence of registrations from start-up that
appends at most 16384 records, the ids handed to the new records are at or above
the base 0xC000 and below 65536, each is greater than every id handed out
before, so no two are equal, and none is the id of a record of the start-up
table. -/
theorem RegisterClipboardFormat16_ids (names : List String)
    (hcount : (appendedIds names State.initial).length ≤ 16384) :
    (∀ id ∈ appendedIds names State.initial, CF_REGFORMATBASE ≤ id ∧ id < 65536) ∧
    (appendedIds names State.initial).Pairwise (fun a b => a < b) ∧
    (appendedIds names State.initial).Nodup ∧
    (∀ id ∈ appendedIds names State.initial, ∀ r ∈ Clipboard.ClipFormats, r.wFormatID ≠ id) := by
  have hf := appendedIds_counter names State.initial (by decide)
  generalize appendedIds names State.initial = ids at hcount hf
  have hbase : State.initial.LastRegFormat = 49152 := rfl
  rw [hbase] at hf
  have hmem : ∀ id ∈ ids, CF_REGFORMATBASE ≤ id ∧ id < 65536 := by
    intro id hid
    rw [hf] at hid
    simp only [List.mem_map, List.mem_range] at hid
    obtain ⟨k, hk, rfl⟩ := hid
    unfold CF_REGFORMATBASE
    omega
  have hpair : ids.Pairwise (fun a b => a < b) := by
    rw [hf, List.pairwise_map]
    refine List.Pairwise.imp_of_mem ?_ (List.pairwise_lt_range _)
    intro a b ha hb hab
    simp only [List.mem_range] at ha hb
    omega
  refine ⟨hmem, hpair, ?_, ?_⟩
  · exact hpair.imp (fun h => Nat.ne_of_lt h)
  · intro id hid r hr he
    have hlow : ∀ r ∈ Clipboard.ClipFormats, r.wFormatID < 49152 := by decide
    have h1 := hlow r hr
    have h2 := (hmem id hid).1
    unfold CF_REGFORMATBASE at h2
    omega

theorem RegisterClipboardFormat16_ids_witness :
    (∀ id ∈ appendedIds ["a", "Text", "b", "a"] State.initial,
      CF_REGFORMATBASE ≤ id ∧ id < 65536) ∧
    (appendedIds ["a", "Text", "b", "a"] State.initial).Pairwise (fun a b => a < b) ∧
    (appendedIds ["a", "Text", "b", "a"] State.initial).Nodup ∧
    (∀ id ∈ appendedIds ["a", "Text", "b", "a"] State.initial,
      ∀ r ∈ Clipboard.ClipFormats, r.wFormatID ≠ id) :=
  RegisterClipboardFormat16_ids ["a", "Text", "b", "a"] (by decide)

/-! ## Destroying the owner window -/

theorem CLIPBOARD_CheckSelection_frame (env : Env) (pWnd : WND) (s : State) :
    (CLIPBOARD_CheckSelection env pWnd s).hWndClipOwner = s.hWndClipOwner ∧
    (CLIPBOARD_CheckSelection env pWnd s).ClipFormats = s.ClipFormats ∧
    (CLIPBOARD_CheckSelection env pWnd s).selectionAcquired = s.selectionAcquired ∧
    (CLIPBOARD_CheckSelection env pWnd s).hWndClipWindow = s.hWndClipWindow := by
  unfold CLIPBOARD_CheckSelection XSetSelectionOwner XGetSelectionOwner
  cases pWnd.next <;> cases pWnd.parentChild <;> simp only [] <;> split_ifs <;>
    exact ⟨rfl, rfl, rfl, rfl⟩

/-- The record loop of `CLIPBOARD_DisOwn` clears the data-present flag of the
records it passes that have a null handle, and touches nothing else. -/
theorem CLIPBOARD_DisOwn_loop_spec (n : Nat) : ∀ (lp : Nat) (s : State),
    (CLIPBOARD_DisOwn.loop n lp s).ClipFormats.length = s.ClipFormats.length ∧
    (∀ i, (CLIPBOARD_DisOwn.loop n lp s).fmt i =
      if lp ≤ i ∧ i < lp + n ∧ (s.fmt i).wDataPresent ≠ 0 ∧ (s.fmt i).hData = 0 then
        { s.fmt i with wDataPresent := 0 }
      else s.fmt i) ∧
    (CLIPBOARD_DisOwn.loop n lp s).hWndClipOwner = s.hWndClipOwner ∧
    (CLIPBOARD_DisOwn.loop n lp s).hWndClipWindow = s.hWndClipWindow ∧
    (CLIPBOARD_DisOwn.loop n lp s).selectionAcquired = s.selectionAcquired ∧
    (CLIPBOARD_DisOwn.loop n lp s).selectionWindow = s.selectionWindow ∧
    (CLIPBOARD_DisOwn.loop n lp s).selectionPrevWindow = s.selectionPrevWindow ∧
    (CLIPBOARD_DisOwn.loop n lp s).heap = s.heap := by
  induction n with
  | zero =>
    intro lp s
    refine ⟨rfl, ?_, rfl, rfl, rfl, rfl, rfl, rfl⟩
    intro i
    have : ¬ (lp ≤ i ∧ i < lp + 0 ∧ (s.fmt i).wDataPresent ≠ 0 ∧ (s.fmt i).hData = 0) := by
      omega
    rw [if_neg this]
    rfl
  | succ n ih =>
    intro lp s
    have hstep : CLIPBOARD_DisOwn.loop (n + 1) lp s = CLIPBOARD_DisOwn.loop n (lp + 1)
        (if (s.fmt lp).wDataPresent ≠ 0 ∧ (s.fmt lp).hData = 0 then
          s.setFmt lp { s.fmt lp with wDataPresent := 0 }
        else s) := rfl
    rw [hstep]
    by_cases hc : (s.fmt lp).wDataPresent ≠ 0 ∧ (s.fmt lp).hData = 0
    · rw [if_pos hc]
      have hlp := lt_length_of_present s lp hc.1
      obtain ⟨h1, h2, h3, h4, h5, h6, h7, h8⟩ := ih (lp + 1)
        (s.setFmt lp { s.fmt lp with wDataPresent := 0 })
      refine ⟨by rw [h1]; simp [State.setFmt], ?_, h3, h4, h5, h6, h7, h8⟩
      intro i
      rw [h2]
      by_cases hi : i = lp
      · subst hi
        rw [fmt_setFmt _ _ _ hlp]
        have c1 : ¬ (i + 1 ≤ i ∧ i < i + 1 + n ∧
            ({ s.fmt i with wDataPresent := 0 } : CLIPFORMAT).wDataPresent ≠ 0 ∧
            ({ s.fmt i with wDataPresent := 0 } : CLIPFORMAT).hData = 0) := by omega
        have c2 : i ≤ i ∧ i < i + (n + 1) ∧ (s.fmt i).wDataPresent ≠ 0 ∧ (s.fmt i).hData = 0 :=
          ⟨Nat.le_refl _, by omega, hc.1, hc.2⟩
        rw [if_neg c1, if_pos c2]
      · rw [fmt_setFmt_ne _ _ _ _ (Ne.symm hi)]
        by_cases hcond : (s.fmt i).wDataPresent ≠ 0 ∧ (s.fmt i).hData = 0
        · by_cases hr : lp + 1 ≤ i ∧ i < lp + 1 + n
          · rw [if_pos ⟨hr.1, hr.2, hcond⟩, if_pos ⟨by omega, by omega, hcond⟩]
          · rw [if_neg (fun h => hr ⟨h.1, h.2.1⟩), if_neg (fun h => hr ⟨by omega, by omega⟩)]
        · rw [if_neg (fun h => hcond h.2.2), if_neg (fun h => hcond h.2.2)]
    · rw [if_neg hc]
      obtain ⟨h1, h2, h3, h4, h5, h6, h7, h8⟩ := ih (lp + 1) s
      refine ⟨h1, ?_, h3, h4, h5, h6, h7, h8⟩
      intro i
      rw [h2]
      by_cases hcond : (s.fmt i).wDataPresent ≠ 0 ∧ (s.fmt i).hData = 0
      · by_cases hi : i = lp
        · subst hi
          exact absurd hcond hc
        · by_cases hr : lp + 1 ≤ i ∧ i < lp + 1 + n
          · rw [if_pos ⟨hr.1, hr.2, hcond⟩, if_pos ⟨by omega, by omega, hcond⟩]
          · rw [if_neg (fun h => hr ⟨h.1, h.2.1⟩), if_neg (fun h => hr ⟨by omega, by omega⟩)]
      · rw [if_neg (fun h => hcond h.2.2), if_neg (fun h => hcond h.2.2)]

/-- After the complete record loop of `CLIPBOARD_DisOwn` no record is promised
but unrendered. -/
theorem CLIPBOARD_DisOwn_loop_rendered (s : State) :
    ∀ r ∈ (CLIPBOARD_DisOwn.loop s.ClipFormats.length 0 s).ClipFormats,
      r.wDataPresent ≠ 0 → r.hData ≠ 0 := by
  intro r hr hp hd
  obtain ⟨h1, h2, -⟩ := CLIPBOARD_DisOwn_loop_spec s.ClipFormats.length 0 s
  obtain ⟨i, hi, rfl⟩ := mem_fmt _ r hr
  rw [h1] at hi
  rw [h2] at hp hd
  by_cases hc : (s.fmt i).wDataPresent ≠ 0 ∧ (s.fmt i).hData = 0
  · rw [if_pos ⟨Nat.zero_le _, by omega, hc⟩] at hp
    exact hp rfl
  · rw [if_neg (fun h => hc h.2.2)] at hp hd
    exact hc ⟨hp, hd⟩

/-- Claim C27: whatever the owner does in response to the render-all request,
after `CLIPBOARD_DisOwn` for the window that is the clipboard owner the owner is
0 and every record whose data-present flag is set has a non-null data handle;
for a window that is not the owner, the owner and every format record are
unchanged. -/
theorem CLIPBOARD_DisOwn_spec (env : Env) (pWnd : WND) (s : State) :
    (pWnd.hwndSelf = s.hWndClipOwner →
      (CLIPBOARD_DisOwn env pWnd s).hWndClipOwner = 0 ∧
      ∀ r ∈ (CLIPBOARD_DisOwn env pWnd s).ClipFormats, r.wDataPresent ≠ 0 → r.hData ≠ 0) ∧
    (pWnd.hwndSelf ≠ s.hWndClipOwner →
      (CLIPBOARD_DisOwn env pWnd s).hWndClipOwner = s.hWndClipOwner ∧
      (CLIPBOARD_DisOwn env pWnd s).ClipFormats = s.ClipFormats) := by
  constructor
  · intro hown
    unfold CLIPBOARD_DisOwn
    simp only [hown, if_true]
    obtain ⟨c1, c2, -, -⟩ := CLIPBOARD_CheckSelection_frame env pWnd
      { CLIPBOARD_DisOwn.loop
          (SendMessage16 env s.hWndClipOwner Message.WM_RENDERALLFORMATS 0 0 s).ClipFormats.length
          0 (SendMessage16 env s.hWndClipOwner Message.WM_RENDERALLFORMATS 0 0 s)
        with hWndClipOwner := 0 }
    rw [c1, c2]
    exact ⟨rfl, CLIPBOARD_DisOwn_loop_rendered _⟩
  · intro hown
    unfold CLIPBOARD_DisOwn
    simp only [hown, if_false]
    obtain ⟨c1, c2, -, -⟩ := CLIPBOARD_CheckSelection_frame env pWnd s
    exact ⟨c1, c2⟩

theorem CLIPBOARD_DisOwn_spec_witness :
    (State.promisedBitmap.fmt (CF_BITMAP - 1)).wDataPresent = 1 ∧
    (CLIPBOARD_DisOwn Env.quiet ⟨5, 50, none, none⟩ State.promisedBitmap).hWndClipOwner = 0 ∧
    (∀ r ∈ (CLIPBOARD_DisOwn Env.quiet ⟨5, 50, none, none⟩ State.promisedBitmap).ClipFormats,
      r.wDataPresent ≠ 0 → r.hData ≠ 0) ∧
    (CLIPBOARD_DisOwn Env.quiet ⟨6, 60, none, none⟩ State.promisedBitmap).hWndClipOwner = 5 ∧
    (CLIPBOARD_DisOwn Env.quiet ⟨6, 60, none, none⟩ State.promisedBitmap).ClipFormats
      = State.promisedBitmap.ClipFormats :=
  ⟨by decide,
   ((CLIPBOARD_DisOwn_spec Env.quiet ⟨5, 50, none, none⟩ State.promisedBitmap).1 (by decide)).1,
   ((CLIPBOARD_DisOwn_spec Env.quiet ⟨5, 50, none, none⟩ State.promisedBitmap).1 (by decide)).2,
   ((CLIPBOARD_DisOwn_spec Env.quiet ⟨6, 60, none, none⟩ State.promisedBitmap).2 (by decide)).1,
   ((CLIPBOARD_DisOwn_spec Env.quiet ⟨6, 60, none, none⟩ State.promisedBitmap).2 (by decide)).2⟩

/-! ## The selection mirror in the reachable states -/

theorem SelectionCoherent_congr (s s1 : State)
    (h1 : s1.selectionAcquired = s.selectionAcquired)
    (h2 : s1.selectionWindow = s.selectionWindow) (h : SelectionCoherent s) :
    SelectionCoherent s1 := by
  unfold SelectionCoherent at h ⊢
  rw [h1, h2]
  exact h

theorem SendMessage16_coherent (env : Env)
    (hproc : ∀ hwnd msg wParam s, SelectionCoherent s →
      SelectionCoherent (env.WndProc hwnd msg wParam s))
    (hwnd : Nat) (msg : Message) (wParam lParam : Nat) (s : State)
    (h : SelectionCoherent s) :
    SelectionCoherent (SendMessage16 env hwnd msg wParam lParam s) := by
  unfold SendMessage16
  exact SelectionCoherent_congr _ _ rfl rfl
    (hproc hwnd msg wParam _ (SelectionCoherent_congr s _ rfl rfl h))

theorem CLIPBOARD_DeleteRecord_selection (lp : Nat) (s : State) :
    (CLIPBOARD_DeleteRecord lp s).selectionAcquired = s.selectionAcquired ∧
    (CLIPBOARD_DeleteRecord lp s).selectionWindow = s.selectionWindow :=
  ⟨(CLIPBOARD_DeleteRecord_frame lp s).2.2.2.1, (CLIPBOARD_DeleteRecord_frame lp s).2.2.2.2.1⟩

theorem CloseClipboard32_coherent (env : Env)
    (hproc : ∀ hwnd msg wParam s, SelectionCoherent s →
      SelectionCoherent (env.WndProc hwnd msg wParam s))
    (s : State) (h : SelectionCoherent s) : SelectionCoherent (CloseClipboard32 env s).2 := by
  unfold CloseClipboard32
  split
  · exact h
  · simp only []
    split
    · exact SendMessage16_coherent env hproc _ _ _ _ _ (SelectionCoherent_congr s _ rfl rfl h)
    · exact SelectionCoherent_congr s _ rfl rfl h

theorem EmptyClipboard32_coherent (env : Env)
    (hproc : ∀ hwnd msg wParam s, SelectionCoherent s →
      SelectionCoherent (env.WndProc hwnd msg wParam s))
    (s : State) (h : SelectionCoherent s) : SelectionCoherent (EmptyClipboard32 env s).2 := by
  by_cases hopen : s.hWndClipWindow = 0
  · unfold EmptyClipboard32
    rw [if_pos hopen]
    exact h
  · obtain ⟨-, -, -, -, -, e6, -⟩ := EmptyClipboard32_open env s _ hopen rfl
    have hN : SelectionCoherent (if s.hWndClipOwner ≠ 0 then
        SendMessage16 env s.hWndClipOwner Message.WM_DESTROYCLIPBOARD 0 0 s else s) := by
      split
      · exact SendMessage16_coherent env hproc _ _ _ _ _ h
      · exact h
    intro _
    rcases e6 with e | ⟨e1, e2⟩
    · exact e
    · rw [e2]
      exact hN e1

theorem SetClipboardData16_acquire_coherent (env : Env) (wFormat : Nat) (s : State)
    (h : SelectionCoherent s) : SelectionCoherent (SetClipboardData16.acquire env wFormat s) := by
  unfold SetClipboardData16.acquire
  split
  · simp only []
    split
    · intro hacq
      simp at hacq
    · exact SelectionCoherent_congr s _ rfl rfl h
  · exact h

theorem SetClipboardData16_discard_selection (wFormat lp : Nat) (s : State) :
    (SetClipboardData16.discard wFormat lp s).selectionAcquired = s.selectionAcquired ∧
    (SetClipboardData16.discard wFormat lp s).selectionWindow = s.selectionWindow := by
  unfold SetClipboardData16.discard
  split
  · simp only []
    split <;> split <;>
      simp only [(CLIPBOARD_DeleteRecord_selection _ _).1, (CLIPBOARD_DeleteRecord_selection _ _).2,
        and_self]
  · exact ⟨rfl, rfl⟩

theorem SetClipboardData16_coherent (env : Env) (wFormat hData : Nat) (s : State)
    (h : SelectionCoherent s) : SelectionCoherent (SetClipboardData16 env wFormat hData s).2 := by
  unfold SetClipboardData16
  split
  · exact h
  · rename_i lp _
    obtain ⟨d1, d2⟩ := SetClipboardData16_discard_selection wFormat lp
      (SetClipboardData16.acquire env wFormat s)
    exact SelectionCoherent_congr _ _ d1 d2 (SetClipboardData16_acquire_coherent env wFormat s h)

theorem CLIPBOARD_RenderFormat_coherent (env : Env)
    (hproc : ∀ hwnd msg wParam s, SelectionCoherent s →
      SelectionCoherent (env.WndProc hwnd msg wParam s))
    (lp : Nat) (s : State) (h : SelectionCoherent s) :
    SelectionCoherent (CLIPBOARD_RenderFormat env lp s).2 := by
  unfold CLIPBOARD_RenderFormat
  split
  · split
    · exact SendMessage16_coherent env hproc _ _ _ _ _ h
    · exact SelectionCoherent_congr s _ rfl rfl h
  · exact h

theorem CLIPBOARD_RenderText_selection (env : Env) (lpTarget lpSource : Nat) (s : State) :
    (CLIPBOARD_RenderText env lpTarget lpSource s).2.selectionAcquired = s.selectionAcquired ∧
    (CLIPBOARD_RenderText env lpTarget lpSource s).2.selectionWindow = s.selectionWindow := by
  unfold CLIPBOARD_RenderText GlobalAlloc16
  simp only []
  split
  · exact ⟨rfl, rfl⟩
  · split_ifs <;> simp only [] <;> split <;> exact ⟨rfl, rfl⟩

theorem GetClipboardData16_coherent (env : Env)
    (hproc : ∀ hwnd msg wParam s, SelectionCoherent s →
      SelectionCoherent (env.WndProc hwnd msg wParam s))
    (wFormat : Nat) (s : State) (h : SelectionCoherent s) :
    SelectionCoherent (GetClipboardData16 env wFormat s).2 := by
  by_cases hopen : s.hWndClipWindow = 0
  · unfold GetClipboardData16
    rw [if_pos hopen]
    exact h
  · rw [GetClipboardData16_select env wFormat s hopen]
    cases GetClipboardData16.select wFormat s with
    | none => exact h
    | some p =>
      obtain ⟨lpRender, lpUpdate⟩ := p
      have hr := CLIPBOARD_RenderFormat_coherent env hproc lpRender s h
      simp only []
      split
      · exact hr
      · simp only []
        split
        · obtain ⟨t1, t2⟩ := CLIPBOARD_RenderText_selection env lpUpdate lpRender
            (CLIPBOARD_RenderFormat env lpRender s).2
          exact SelectionCoherent_congr _ _ t1 t2 hr
        · exact hr

theorem RegisterClipboardFormat16_selection (FormatName : Option String) (s : State) :
    (RegisterClipboardFormat16 FormatName s).2.selectionAcquired = s.selectionAcquired ∧
    (RegisterClipboardFormat16 FormatName s).2.selectionWindow = s.selectionWindow := by
  unfold RegisterClipboardFormat16
  split
  · exact ⟨rfl, rfl⟩
  · split <;> exact ⟨rfl, rfl⟩

theorem CLIPBOARD_CheckSelection_coherent (env : Env) (pWnd : WND) (s : State)
    (h : SelectionCoherent s) : SelectionCoherent (CLIPBOARD_CheckSelection env pWnd s) := by
  by_cases hacq : s.selectionAcquired = true
  · intro hf
    rw [(CLIPBOARD_CheckSelection_frame env pWnd s).2.2.1, hacq] at hf
    exact absurd hf (by decide)
  · unfold CLIPBOARD_CheckSelection
    rw [if_neg (fun hc => hacq hc.1)]
    exact h

theorem CLIPBOARD_DisOwn_coherent (env : Env)
    (hproc : ∀ hwnd msg wParam s, SelectionCoherent s →
      SelectionCoherent (env.WndProc hwnd msg wParam s))
    (pWnd : WND) (s : State) (h : SelectionCoherent s) :
    SelectionCoherent (CLIPBOARD_DisOwn env pWnd s) := by
  unfold CLIPBOARD_DisOwn
  apply CLIPBOARD_CheckSelection_coherent
  split
  · obtain ⟨-, -, -, -, l5, l6, -, -⟩ := CLIPBOARD_DisOwn_loop_spec
      (SendMessage16 env s.hWndClipOwner Message.WM_RENDERALLFORMATS 0 0 s).ClipFormats.length 0
      (SendMessage16 env s.hWndClipOwner Message.WM_RENDERALLFORMATS 0 0 s)
    exact SelectionCoherent_congr _ _ l5 l6 (SendMessage16_coherent env hproc _ _ _ _ _ h)
  · exact h

theorem CLIPBOARD_ReleaseSelection_coherent (env : Env) (w hwnd : Nat) (s : State)
    (h : SelectionCoherent s) : SelectionCoherent (CLIPBOARD_ReleaseSelection env w hwnd s) := by
  unfold CLIPBOARD_ReleaseSelection
  by_cases hacq : s.selectionAcquired = true
  · simp only [hacq, if_true]
    split
    · intro _
      rfl
    · split
      · split
        · intro hf
          simp [XSetSelectionOwner, hacq] at hf
        · intro hf
          simp [hacq] at hf
      · intro hf
        simp [hacq] at hf
  · rw [if_neg hacq]
    exact SelectionCoherent_congr s _ rfl rfl h

theorem CLIPBOARD_ReadSelection_fetch_frame (env : Env) (w prop : Nat) (s : State) :
    (CLIPBOARD_ReadSelection.fetch env w prop s).2.ClipFormats = s.ClipFormats ∧
    (CLIPBOARD_ReadSelection.fetch env w prop s).2.selectionAcquired = s.selectionAcquired ∧
    (CLIPBOARD_ReadSelection.fetch env w prop s).2.selectionWindow = s.selectionWindow ∧
    (CLIPBOARD_ReadSelection.fetch env w prop s).2.selectionPrevWindow = s.selectionPrevWindow ∧
    (CLIPBOARD_ReadSelection.fetch env w prop s).2.hWndClipOwner = s.hWndClipOwner ∧
    (CLIPBOARD_ReadSelection.fetch env w prop s).2.hWndClipWindow = s.hWndClipWindow := by
  unfold CLIPBOARD_ReadSelection.fetch GlobalAlloc16
  simp only []
  split
  · split
    · exact ⟨rfl, rfl, rfl, rfl, rfl, rfl⟩
    · split
      · split
        · split
          · simp only []
            split <;> exact ⟨rfl, rfl, rfl, rfl, rfl, rfl⟩
          · simp only []
            split <;> exact ⟨rfl, rfl, rfl, rfl, rfl, rfl⟩
        · exact ⟨rfl, rfl, rfl, rfl, rfl, rfl⟩
      · exact ⟨rfl, rfl, rfl, rfl, rfl, rfl⟩
  · exact ⟨rfl, rfl, rfl, rfl, rfl, rfl⟩

theorem CLIPBOARD_DeleteRecord_if_selection (c : Prop) [Decidable c] (lp : Nat) (s : State) :
    (if c then CLIPBOARD_DeleteRecord lp s else s).selectionAcquired = s.selectionAcquired ∧
    (if c then CLIPBOARD_DeleteRecord lp s else s).selectionWindow = s.selectionWindow := by
  split
  · exact CLIPBOARD_DeleteRecord_selection lp s
  · exact ⟨rfl, rfl⟩

theorem CLIPBOARD_ReadSelection_store_selection (hText : Nat) (s : State) :
    (CLIPBOARD_ReadSelection.store hText s).selectionAcquired = s.selectionAcquired ∧
    (CLIPBOARD_ReadSelection.store hText s).selectionWindow = s.selectionWindow := by
  unfold CLIPBOARD_ReadSelection.store
  split
  · simp only [State.setFmt]
    obtain ⟨a1, a2⟩ := CLIPBOARD_DeleteRecord_if_selection
      ((s.fmt (CF_TEXT - 1)).wDataPresent ≠ 0 ∨ (s.fmt (CF_TEXT - 1)).hData ≠ 0) (CF_TEXT - 1) s
    generalize (if (s.fmt (CF_TEXT - 1)).wDataPresent ≠ 0 ∨ (s.fmt (CF_TEXT - 1)).hData ≠ 0 then
      CLIPBOARD_DeleteRecord (CF_TEXT - 1) s else s) = s1 at a1 a2 ⊢
    obtain ⟨b1, b2⟩ := CLIPBOARD_DeleteRecord_if_selection
      ((s1.fmt (CF_OEMTEXT - 1)).wDataPresent ≠ 0 ∨ (s1.fmt (CF_OEMTEXT - 1)).hData ≠ 0)
      (CF_OEMTEXT - 1) s1
    exact ⟨b1.trans a1, b2.trans a2⟩
  · exact ⟨rfl, rfl⟩

theorem CLIPBOARD_ReadSelection_selection (env : Env) (w prop : Nat) (s : State) :
    (CLIPBOARD_ReadSelection env w prop s).selectionAcquired = s.selectionAcquired ∧
    (CLIPBOARD_ReadSelection env w prop s).selectionWindow = s.selectionWindow := by
  unfold CLIPBOARD_ReadSelection
  obtain ⟨-, f2, f3, -⟩ := CLIPBOARD_ReadSelection_fetch_frame env w prop s
  obtain ⟨s1, s2⟩ := CLIPBOARD_ReadSelection_store_selection
    (CLIPBOARD_ReadSelection.fetch env w prop s).1 (CLIPBOARD_ReadSelection.fetch env w prop s).2
  exact ⟨s1.trans f2, s2.trans f3⟩

/-- Claim C30: in every state reachable from the initial state by the operations
of the module (among them `EmptyClipboard32`, `SetClipboardData16`,
`CLIPBOARD_CheckSelection`, `CLIPBOARD_DisOwn`, `CLIPBOARD_ReleaseSelection` and
`CLIPBOARD_ReadSelection`), the window procedures that run in between keeping
the property, the recorded selection window is `None` whenever the selection is
recorded as not held; and every `CLIPBOARD_ReleaseSelection` call leaves the
recorded previous selection window `None`. -/
theorem Reachable_selection_coherent (env : Env)
    (hproc : ∀ hwnd msg wParam s, SelectionCoherent s →
      SelectionCoherent (env.WndProc hwnd msg wParam s))
    (s : State) (hs : Reachable env s) :
    (s.selectionAcquired = false → s.selectionWindow = None) ∧
    ∀ w hwnd, (CLIPBOARD_ReleaseSelection env w hwnd s).selectionPrevWindow = None := by
  constructor
  · induction hs with
    | initial =>
      intro _
      rfl
    | opened s hWnd _ ih =>
      refine SelectionCoherent_congr s _ ?_ ?_ ih <;>
      · unfold OpenClipboard32
        simp only []
        split <;> rfl
    | closed s _ ih => exact CloseClipboard32_coherent env hproc s ih
    | emptied s _ ih => exact EmptyClipboard32_coherent env hproc s ih
    | dataSet s wFormat hData _ ih => exact SetClipboardData16_coherent env wFormat hData s ih
    | dataGot s wFormat _ ih => exact GetClipboardData16_coherent env hproc wFormat s ih
    | registered s FormatName _ ih =>
      exact SelectionCoherent_congr s _ (RegisterClipboardFormat16_selection FormatName s).1
        (RegisterClipboardFormat16_selection FormatName s).2 ih
    | viewerSet s hWnd _ ih => exact SelectionCoherent_congr s _ rfl rfl ih
    | disowned s pWnd _ ih => exact CLIPBOARD_DisOwn_coherent env hproc pWnd s ih
    | selectionChecked s pWnd _ ih => exact CLIPBOARD_CheckSelection_coherent env pWnd s ih
    | selectionReleased s w hwnd _ ih =>
      exact CLIPBOARD_ReleaseSelection_coherent env w hwnd s ih
    | selectionRead s w prop _ ih =>
      exact SelectionCoherent_congr s _ (CLIPBOARD_ReadSelection_selection env w prop s).1
        (CLIPBOARD_ReadSelection_selection env w prop s).2 ih
  · intro w hwnd
    rfl

theorem Reachable_selection_coherent_witness :
    (CLIPBOARD_ReleaseSelection Env.quiet 5 5
        (SetClipboardData16 Env.quiet CF_TEXT 1 (OpenClipboard32 5 State.initial).2).2).selectionAcquired
      = false ∧
    (SetClipboardData16 Env.quiet CF_TEXT 1 (OpenClipboard32 5 State.initial).2).2.selectionWindow
      = 5 ∧
    (CLIPBOARD_ReleaseSelection Env.quiet 5 5
        (SetClipboardData16 Env.quiet CF_TEXT 1 (OpenClipboard32 5 State.initial).2).2).selectionWindow
      = None :=
  ⟨by decide, by decide,
   (Reachable_selection_coherent Env.quiet (fun _ _ _ _ h => h) _
    (Reachable.selectionReleased _ 5 5
      (Reachable.dataSet _ CF_TEXT 1 (Reachable.opened _ 5 Reachable.initial)))).1 (by decide)⟩

/-! ## Reading the selection -/

theorem range_map_getD (l : List Nat) :
    (List.range l.length).map (fun i => l.getD i 0) = l := by
  apply List.ext_getElem
  · simp
  · intro i h1 h2
    simp [List.getD_eq_getElem?_getD, h2]

theorem CLIPBOARD_ReadSelection_count_spec (data : List Nat) :
    CLIPBOARD_ReadSelection.count (data ++ [0]) data.length = data.count 10 := by
  have hlen : data.length + 1 = (data ++ [0]).length := by simp
  have key : ∀ (l : List Nat) (a : Nat),
      l.foldl (fun inlcount c => if c = 10 then inlcount + 1 else inlcount) a
        = a + l.count 10 := by
    intro l
    induction l with
    | nil => simp
    | cons c rest ih =>
      intro a
      rw [List.foldl_cons, ih]
      by_cases hc : c = 10
      · subst hc
        simp
        omega
      · rw [if_neg hc, List.count_cons_of_ne (fun h => hc h.symm)]
  unfold CLIPBOARD_ReadSelection.count
  rw [hlen]
  have hmap := List.foldl_map (fun i => (data ++ [0]).getD i 0)
    (fun inlcount c => if c = 10 then inlcount + 1 else inlcount)
    (List.range (data ++ [0]).length) 0
  rw [range_map_getD] at hmap
  rw [← hmap, key]
  simp

theorem CLIPBOARD_ReadSelection_copy_spec (data : List Nat) :
    CLIPBOARD_ReadSelection.copy (data ++ [0]) data.length = withCarriageReturns data ++ [0] := by
  have hlen : data.length + 1 = (data ++ [0]).length := by simp
  have key : ∀ (l : List Nat) (a : List Nat),
      l.foldl (fun lpstr c => (if c = 10 then lpstr ++ [13] else lpstr) ++ [c]) a
        = a ++ withCarriageReturns l := by
    intro l
    induction l with
    | nil => simp [withCarriageReturns]
    | cons c rest ih =>
      intro a
      rw [List.foldl_cons, ih]
      by_cases hc : c = 10
      · subst hc
        simp [withCarriageReturns]
      · simp [withCarriageReturns, hc]
  unfold CLIPBOARD_ReadSelection.copy
  rw [hlen]
  have hmap := List.foldl_map (fun i => (data ++ [0]).getD i 0)
    (fun lpstr c => (if c = 10 then lpstr ++ [13] else lpstr) ++ [c])
    (List.range (data ++ [0]).length) []
  rw [range_map_getD] at hmap
  rw [← hmap, key]
  simp [withCarriageReturns]

theorem withCarriageReturns_length (data : List Nat) :
    (withCarriageReturns data).length = data.length + data.count 10 := by
  induction data with
  | nil => rfl
  | cons c rest ih =>
    have hcons : withCarriageReturns (c :: rest)
        = (if c = 10 then [13, 10] else [c]) ++ withCarriageReturns rest := by
      simp [withCarriageReturns]
    rw [hcons, List.length_append, ih]
    by_cases hc : c = 10
    · subst hc
      simp
      omega
    · rw [if_neg hc, List.count_cons_of_ne (fun h => hc h.symm)]
      simp
      omega

theorem GlobalLock16_GlobalFree16_ne (h old : Nat) (s : State) (hne : h ≠ old) :
    GlobalLock16 h (GlobalFree16 old s) = GlobalLock16 h s := by
  have key : ∀ l : List (Nat × List Nat),
      (l.filter (fun b => b.1 != old)).find? (fun b => b.1 == h)
        = l.find? (fun b => b.1 == h) := by
    intro l
    induction l with
    | nil => rfl
    | cons b rest ih =>
      rw [List.filter_cons]
      by_cases hb : b.1 = old
      · have hbh : (b.1 == h) = false := by
          simp only [beq_eq_false_iff_ne, ne_eq]
          intro e
          exact hne (e.symm.trans hb)
        simp only [hb, bne_self_eq_false, Bool.false_eq_true, if_false]
        rw [List.find?_cons, hbh]
        exact ih
      · have : (b.1 != old) = true := by simpa using hb
        rw [if_pos this, List.find?_cons, List.find?_cons, ih]
  simp only [GlobalLock16, GlobalFree16, key]

theorem GlobalLock16_DeleteRecord_ne (h lp : Nat) (s : State) (hne : h ≠ (s.fmt lp).hData) :
    GlobalLock16 h (CLIPBOARD_DeleteRecord lp s) = GlobalLock16 h s := by
  unfold CLIPBOARD_DeleteRecord
  simp only []
  split
  · exact GlobalLock16_congr _ _ _ rfl
  · split
    · exact (GlobalLock16_congr _ _ _ rfl).trans (GlobalLock16_GlobalFree16_ne h _ s hne)
    · exact GlobalLock16_congr _ _ _ rfl

/-- The first block of `CLIPBOARD_ReadSelection` when an 8-bit string arrives
and the allocation succeeds: a new block holds the bytes the copying loop
wrote. -/
theorem CLIPBOARD_ReadSelection_fetch_ok (env : Env) (w prop : Nat) (s : State)
    (p : XProperty) (hprop : prop ≠ None) (hget : env.XGetWindowProperty w prop = some p)
    (htype : p.atype = XA_STRING) (hformat : p.aformat = 8) (hn : p.nitems ≠ 0)
    (hlen : (CLIPBOARD_ReadSelection.copy p.val p.nitems).length
      = p.nitems + CLIPBOARD_ReadSelection.count p.val p.nitems + 1)
    (halloc : (GlobalAlloc16 env
      (p.nitems + CLIPBOARD_ReadSelection.count p.val p.nitems + 1) s).1 ≠ 0) :
    ∃ h1 s1, CLIPBOARD_ReadSelection.fetch env w prop s = (h1, s1) ∧ h1 ≠ 0 ∧
      GlobalLock16 h1 s = none ∧
      GlobalLock16 h1 s1 = some (CLIPBOARD_ReadSelection.copy p.val p.nitems) ∧
      s1.ClipFormats = s.ClipFormats ∧ s1.selectionWait = s.selectionWait := by
  obtain ⟨h1, sA, ha, h10, hfresh, hheap, hfmts, -⟩ := GlobalAlloc16_ok env _ s halloc
  have hlockA : GlobalLock16 h1 sA
      = some (List.replicate
          (p.nitems + CLIPBOARD_ReadSelection.count p.val p.nitems + 1) 0) :=
    GlobalLock16_head h1 _ _ sA hheap h10
  have hwait : sA.selectionWait = s.selectionWait := by
    have := congrArg (fun r => r.2.selectionWait) ha
    simp only [] at this
    rw [← this]
    unfold GlobalAlloc16
    simp only []
    split <;> rfl
  unfold CLIPBOARD_ReadSelection.fetch
  simp only [hprop, ne_eq, not_false_eq_true, if_true, hget, htype, hformat, and_self, hn, ha,
    hlockA]
  refine ⟨_, _, rfl, h10, ?_, ?_, ?_, ?_⟩
  · simp [GlobalLock16, h10, hfresh]
  · rw [GlobalLock16_storeBytes_head h1 _ _ _ sA hheap h10]
    rw [List.length_replicate, ← hlen, List.take_length, List.drop_eq_nil_of_le (by simp [hlen]),
      List.append_nil]
  · exact hfmts
  · exact hwait

/-- The second block of `CLIPBOARD_ReadSelection` for a non-null handle: the
OEM text record is marked present with that handle, the text record is cleared,
and a block that neither record held is left as it is. -/
theorem CLIPBOARD_ReadSelection_store_ok (hText : Nat) (s : State) (h0 : hText ≠ 0)
    (hlen : CF_OEMTEXT - 1 < s.ClipFormats.length)
    (hT : (s.fmt (CF_TEXT - 1)).hData ≠ hText) (hO : (s.fmt (CF_OEMTEXT - 1)).hData ≠ hText) :
    ((CLIPBOARD_ReadSelection.store hText s).fmt (CF_OEMTEXT - 1)).wDataPresent = 1 ∧
    ((CLIPBOARD_ReadSelection.store hText s).fmt (CF_OEMTEXT - 1)).hData = hText ∧
    ((CLIPBOARD_ReadSelection.store hText s).fmt (CF_TEXT - 1)).wDataPresent = 0 ∧
    ((CLIPBOARD_ReadSelection.store hText s).fmt (CF_TEXT - 1)).hData = 0 ∧
    GlobalLock16 hText (CLIPBOARD_ReadSelection.store hText s) = GlobalLock16 hText s ∧
    (CLIPBOARD_ReadSelection.store hText s).selectionWait = s.selectionWait := by
  have hne : CF_TEXT - 1 ≠ CF_OEMTEXT - 1 := by decide
  -- the text record
  have stepT : ∃ s1, s1 = (if (s.fmt (CF_TEXT - 1)).wDataPresent ≠ 0
        ∨ (s.fmt (CF_TEXT - 1)).hData ≠ 0 then CLIPBOARD_DeleteRecord (CF_TEXT - 1) s else s) ∧
      (s1.fmt (CF_TEXT - 1)).wDataPresent = 0 ∧ (s1.fmt (CF_TEXT - 1)).hData = 0 ∧
      s1.fmt (CF_OEMTEXT - 1) = s.fmt (CF_OEMTEXT - 1) ∧
      s1.ClipFormats.length = s.ClipFormats.length ∧
      GlobalLock16 hText s1 = GlobalLock16 hText s ∧ s1.selectionWait = s.selectionWait := by
    refine ⟨_, rfl, ?_⟩
    split
    · refine ⟨(fmt_DeleteRecord_same _ s).1, (fmt_DeleteRecord_same _ s).2,
        fmt_DeleteRecord_other _ _ s hne, CLIPBOARD_DeleteRecord_length _ s,
        GlobalLock16_DeleteRecord_ne _ _ s (Ne.symm hT), ?_⟩
      unfold CLIPBOARD_DeleteRecord
      simp only [State.setFmt]
      split
      · rfl
      · split <;> rfl
    · rename_i hc
      simp only [not_or, ne_eq, not_not] at hc
      exact ⟨hc.1, hc.2, rfl, rfl, rfl, rfl⟩
  obtain ⟨s1, hs1, t1, t2, t3, t4, t5, t6⟩ := stepT
  -- the OEM text record
  have stepO : ∃ s2, s2 = (if (s1.fmt (CF_OEMTEXT - 1)).wDataPresent ≠ 0
        ∨ (s1.fmt (CF_OEMTEXT - 1)).hData ≠ 0 then CLIPBOARD_DeleteRecord (CF_OEMTEXT - 1) s1
        else s1) ∧
      s2.fmt (CF_TEXT - 1) = s1.fmt (CF_TEXT - 1) ∧
      s2.ClipFormats.length = s1.ClipFormats.length ∧
      GlobalLock16 hText s2 = GlobalLock16 hText s1 ∧ s2.selectionWait = s1.selectionWait := by
    refine ⟨_, rfl, ?_⟩
    split
    · refine ⟨fmt_DeleteRecord_other _ _ s1 (Ne.symm hne), CLIPBOARD_DeleteRecord_length _ s1,
        GlobalLock16_DeleteRecord_ne _ _ s1 (by rw [t3]; exact Ne.symm hO), ?_⟩
      unfold CLIPBOARD_DeleteRecord
      simp only [State.setFmt]
      split
      · rfl
      · split <;> rfl
    · exact ⟨rfl, rfl, rfl, rfl⟩
  obtain ⟨s2, hs2, o1, o2, o3, o4⟩ := stepO
  have hres : CLIPBOARD_ReadSelection.store hText s
      = (s2.setFmt (CF_OEMTEXT - 1) { s2.fmt (CF_OEMTEXT - 1) with wDataPresent := 1 }).setFmt
          (CF_OEMTEXT - 1)
          { (s2.setFmt (CF_OEMTEXT - 1)
              { s2.fmt (CF_OEMTEXT - 1) with wDataPresent := 1 }).fmt (CF_OEMTEXT - 1)
            with hData := hText } := by
    unfold CLIPBOARD_ReadSelection.store
    rw [if_pos h0, hs2, hs1]
  have hlen2 : CF_OEMTEXT - 1 < s2.ClipFormats.length := by rw [o2, t4]; exact hlen
  have hlen3 : CF_OEMTEXT - 1 < (s2.setFmt (CF_OEMTEXT - 1)
      { s2.fmt (CF_OEMTEXT - 1) with wDataPresent := 1 }).ClipFormats.length := by
    simp only [State.setFmt, List.length_set]
    exact hlen2
  rw [hres]
  refine ⟨?_, ?_, ?_, ?_, ?_, ?_⟩
  · rw [fmt_setFmt _ _ _ hlen3, fmt_setFmt _ _ _ hlen2]
  · rw [fmt_setFmt _ _ _ hlen3]
  · rw [fmt_setFmt_ne _ _ _ _ (Ne.symm hne), fmt_setFmt_ne _ _ _ _ (Ne.symm hne), o1]
    exact t1
  · rw [fmt_setFmt_ne _ _ _ _ (Ne.symm hne), fmt_setFmt_ne _ _ _ _ (Ne.symm hne), o1]
    exact t2
  · exact (GlobalLock16_congr _ _ s2 rfl).trans (o3.trans t5)
  · exact o4.trans t6

/-- The allocation of `GlobalAlloc16` fails exactly in its first branch. -/
theorem GlobalAlloc16_fail (env : Env) (size : Nat) (s : State)
    (h : (GlobalAlloc16 env size s).1 = 0) :
    GlobalAlloc16 env size s = (0, { s with calls := s.calls ++ [Call.GlobalAlloc16 size] }) := by
  unfold GlobalAlloc16 at h ⊢
  by_cases hc : env.GlobalAllocPick s.heap size = 0 ∨
      (s.heap.find? (fun b => b.1 == env.GlobalAllocPick s.heap size)).isSome
  · simp only [hc, if_true]
  · simp only [hc, if_false] at h
    exact absurd h (fun e => hc (Or.inl e))

/-- The claim C26 read on the code fails twice, in the state reached from
start-up by opening the clipboard and setting the text handle 1, a handle that
is not allocated: when the allocator has no memory nothing is stored, the OEM
text record stays absent and the text record keeps its data; and when the
allocator hands out the handle 1 itself, deleting the old text data frees the
new block, so the OEM text record is present with a handle that locks to
nothing. -/
theorem CLIPBOARD_ReadSelection_not_always :
    Reachable Env.withPropertyNoMemory
      (SetClipboardData16 Env.withPropertyNoMemory CF_TEXT 1
        (OpenClipboard32 5 State.initial).2).2 ∧
    ((CLIPBOARD_ReadSelection Env.withPropertyNoMemory 5 1
      (SetClipboardData16 Env.withPropertyNoMemory CF_TEXT 1
        (OpenClipboard32 5 State.initial).2).2).fmt (CF_OEMTEXT - 1)).wDataPresent = 0 ∧
    ((CLIPBOARD_ReadSelection Env.withPropertyNoMemory 5 1
      (SetClipboardData16 Env.withPropertyNoMemory CF_TEXT 1
        (OpenClipboard32 5 State.initial).2).2).fmt (CF_TEXT - 1)).wDataPresent = 1 ∧
    ((CLIPBOARD_ReadSelection Env.withProperty 5 1
      (SetClipboardData16 Env.withProperty CF_TEXT 1
        (OpenClipboard32 5 State.initial).2).2).fmt (CF_OEMTEXT - 1)).wDataPresent = 1 ∧
    GlobalLock16
      ((CLIPBOARD_ReadSelection Env.withProperty 5 1
        (SetClipboardData16 Env.withProperty CF_TEXT 1
          (OpenClipboard32 5 State.initial).2).2).fmt (CF_OEMTEXT - 1)).hData
      (CLIPBOARD_ReadSelection Env.withProperty 5 1
        (SetClipboardData16 Env.withProperty CF_TEXT 1
          (OpenClipboard32 5 State.initial).2).2) = none :=
  ⟨Reachable.dataSet _ CF_TEXT 1 (Reachable.opened _ 5 Reachable.initial),
    by decide, by decide, by decide, by decide⟩

/-- Claim C26, amended: when a non-empty 8-bit string of n bytes followed by its
NUL arrives (n at most 0xFFFC, the most the request lets the server send), the
allocation succeeds, the chain holds the built-in records and the handles the
two text records hold are null or allocated, `CLIPBOARD_ReadSelection` writes
exactly n + k + 1 bytes, the size of the block it allocated (k the number of
line feeds), and leaves the OEM text record present with that block, which holds
the input with a carriage return before every line feed and the NUL; the text
record is cleared and the wait flag is cleared.  When no data is received (no
property, a failed read, another type or format, or n = 0) the format records
are unchanged and the wait flag is cleared as well; and when an 8-bit string
arrives but the allocation fails, the format records and the heap are unchanged
and the wait flag is cleared. -/
theorem CLIPBOARD_ReadSelection_spec (env : Env) (w prop : Nat) (s : State) :
    (∀ (p : XProperty) (data : List Nat),
      prop ≠ None → env.XGetWindowProperty w prop = some p →
      p.atype = XA_STRING → p.aformat = 8 →
      data ≠ [] → data.length ≤ 0xFFFC → p.nitems = data.length → p.val = data ++ [0] →
      (GlobalAlloc16 env (data.length + data.count 10 + 1) s).1 ≠ 0 →
      CF_OEMTEXT - 1 < s.ClipFormats.length →
      ((s.fmt (CF_TEXT - 1)).hData = 0
        ∨ (GlobalLock16 (s.fmt (CF_TEXT - 1)).hData s).isSome) →
      ((s.fmt (CF_OEMTEXT - 1)).hData = 0
        ∨ (GlobalLock16 (s.fmt (CF_OEMTEXT - 1)).hData s).isSome) →
      (CLIPBOARD_ReadSelection.copy p.val p.nitems).length
        = data.length + data.count 10 + 1 ∧
      GlobalLock16 ((CLIPBOARD_ReadSelection env w prop s).fmt (CF_OEMTEXT - 1)).hData
          (CLIPBOARD_ReadSelection env w prop s)
        = some (withCarriageReturns data ++ [0]) ∧
      (withCarriageReturns data ++ [0]).length = data.length + data.count 10 + 1 ∧
      ((CLIPBOARD_ReadSelection env w prop s).fmt (CF_OEMTEXT - 1)).wDataPresent = 1 ∧
      ((CLIPBOARD_ReadSelection env w prop s).fmt (CF_TEXT - 1)).wDataPresent = 0 ∧
      ((CLIPBOARD_ReadSelection env w prop s).fmt (CF_TEXT - 1)).hData = 0 ∧
      (CLIPBOARD_ReadSelection env w prop s).selectionWait = false) ∧
    ((prop = None ∨ env.XGetWindowProperty w prop = none ∨
        ∃ p, env.XGetWindowProperty w prop = some p ∧
          (p.atype ≠ XA_STRING ∨ p.aformat ≠ 8 ∨ p.nitems = 0)) →
      (CLIPBOARD_ReadSelection env w prop s).ClipFormats = s.ClipFormats ∧
      (CLIPBOARD_ReadSelection env w prop s).selectionWait = false) ∧
    (∀ (p : XProperty),
      prop ≠ None → env.XGetWindowProperty w prop = some p →
      p.atype = XA_STRING → p.aformat = 8 → p.nitems ≠ 0 →
      (GlobalAlloc16 env
        (p.nitems + CLIPBOARD_ReadSelection.count p.val p.nitems + 1) s).1 = 0 →
      (CLIPBOARD_ReadSelection env w prop s).ClipFormats = s.ClipFormats ∧
      (CLIPBOARD_ReadSelection env w prop s).heap = s.heap ∧
      (CLIPBOARD_ReadSelection env w prop s).selectionWait = false) := by
  refine ⟨?_, ?_, ?_⟩
  · intro p data hprop hget htype hformat hne _ hn hval halloc hlen hT hO
    have hcount : CLIPBOARD_ReadSelection.count p.val p.nitems = data.count 10 := by
      rw [hval, hn]
      exact CLIPBOARD_ReadSelection_count_spec data
    have hcopy : CLIPBOARD_ReadSelection.copy p.val p.nitems
        = withCarriageReturns data ++ [0] := by
      rw [hval, hn]
      exact CLIPBOARD_ReadSelection_copy_spec data
    have hsize : (withCarriageReturns data ++ [0]).length
        = data.length + data.count 10 + 1 := by
      rw [List.length_append, withCarriageReturns_length]
      rfl
    have hn0 : p.nitems ≠ 0 := by
      rw [hn]
      intro h0
      exact hne (List.length_eq_zero.mp h0)
    obtain ⟨h1, s1, hf, h10, hfresh, hlock, hfmts, hwait⟩ :=
      CLIPBOARD_ReadSelection_fetch_ok env w prop s p hprop hget htype hformat hn0
        (by rw [hcopy, hsize, hcount, hn])
        (by rw [hcount, hn]; exact halloc)
    have hfmt : ∀ i, s1.fmt i = s.fmt i := by
      intro i
      simp only [State.fmt, hfmts]
    have hold : ∀ i, ((s.fmt i).hData = 0 ∨ (GlobalLock16 (s.fmt i).hData s).isSome) →
        (s1.fmt i).hData ≠ h1 := by
      intro i hi heq
      rw [hfmt] at heq
      rcases hi with h0 | hsome
      · exact h10 (heq.symm.trans h0)
      · rw [heq, hfresh] at hsome
        exact absurd hsome (by simp)
    obtain ⟨r1, r2, r3, r4, r5, -⟩ := CLIPBOARD_ReadSelection_store_ok h1 s1 h10
      (by rw [hfmts]; exact hlen) (hold _ hT) (hold _ hO)
    have hR : CLIPBOARD_ReadSelection env w prop s
        = { CLIPBOARD_ReadSelection.store h1 s1 with selectionWait := false } := by
      unfold CLIPBOARD_ReadSelection
      rw [hf]
    have hfmtR : ∀ i, (CLIPBOARD_ReadSelection env w prop s).fmt i
        = (CLIPBOARD_ReadSelection.store h1 s1).fmt i := by
      intro i
      rw [hR]
      rfl
    refine ⟨by rw [hcopy, hsize], ?_, hsize, ?_, ?_, ?_, ?_⟩
    · rw [hfmtR, r2, hR]
      exact (GlobalLock16_congr h1 _ (CLIPBOARD_ReadSelection.store h1 s1) rfl).trans
        (r5.trans (hlock.trans (congrArg some hcopy)))
    · rw [hfmtR, r1]
    · rw [hfmtR, r3]
    · rw [hfmtR, r4]
    · rw [hR]
  · intro hnone
    have hf : CLIPBOARD_ReadSelection.fetch env w prop s = (0, s) := by
      unfold CLIPBOARD_ReadSelection.fetch
      rcases hnone with h | h | ⟨p, hp, h⟩
      · simp [h]
      · by_cases hprop : prop = None
        · simp [hprop]
        · simp [hprop, h]
      · by_cases hprop : prop = None
        · simp [hprop]
        · simp only [ne_eq, hprop, not_false_eq_true, if_true, hp]
          rcases h with h | h | h
          · simp [h]
          · simp [h]
          · simp [h]
    unfold CLIPBOARD_ReadSelection
    rw [hf]
    simp [CLIPBOARD_ReadSelection.store]
  · intro p hprop hget htype hformat hn0 halloc
    have hf : CLIPBOARD_ReadSelection.fetch env w prop s
        = (0, { s with calls := s.calls ++ [Call.GlobalAlloc16
              (p.nitems + CLIPBOARD_ReadSelection.count p.val p.nitems + 1)] }) := by
      unfold CLIPBOARD_ReadSelection.fetch
      simp only [ne_eq, hprop, not_false_eq_true, if_true, hget, htype, hformat, and_self, hn0,
        GlobalAlloc16_fail env _ s halloc]
      simp [GlobalLock16]
    unfold CLIPBOARD_ReadSelection
    rw [hf]
    simp [CLIPBOARD_ReadSelection.store]

theorem CLIPBOARD_ReadSelection_spec_witness :
    GlobalLock16 ((CLIPBOARD_ReadSelection Env.withProperty 5 1
        (State.withText [72, 105])).fmt (CF_OEMTEXT - 1)).hData
      (CLIPBOARD_ReadSelection Env.withProperty 5 1 (State.withText [72, 105]))
      = some [97, 13, 10, 98, 0] ∧
    ((State.withText [72, 105]).fmt (CF_TEXT - 1)).wDataPresent = 1 ∧
    ((CLIPBOARD_ReadSelection Env.withProperty 5 1
        (State.withText [72, 105])).fmt (CF_TEXT - 1)).wDataPresent = 0 ∧
    (CLIPBOARD_ReadSelection Env.withProperty 5 None (State.withText [72, 105])).ClipFormats
      = (State.withText [72, 105]).ClipFormats :=
  ⟨((CLIPBOARD_ReadSelection_spec Env.withProperty 5 1 (State.withText [72, 105])).1
      { atype := XA_STRING, aformat := 8, nitems := 3, val := [97, 10, 98, 0] } [97, 10, 98]
      (by decide) rfl rfl rfl (by decide) (by decide) rfl rfl (by decide) (by decide)
      (by decide) (by decide)).2.1,
   by decide,
   ((CLIPBOARD_ReadSelection_spec Env.withProperty 5 1 (State.withText [72, 105])).1
      { atype := XA_STRING, aformat := 8, nitems := 3, val := [97, 10, 98, 0] } [97, 10, 98]
      (by decide) rfl rfl rfl (by decide) (by decide) rfl rfl (by decide) (by decide)
      (by decide) (by decide)).2.2.2.2.1,
   ((CLIPBOARD_ReadSelection_spec Env.withProperty 5 None (State.withText [72, 105])).2.1
      (Or.inl rfl)).1⟩

/-! ## Text aliases in the reachable states -/

theorem AliasBacked_congr (s s1 : State) (h : textView s1 = textView s)
    (hs : AliasBacked s) : AliasBacked s1 := by
  simp only [textView, Prod.mk.injEq] at h
  obtain ⟨⟨h1, h2⟩, h3, h4⟩ := h
  unfold AliasBacked IsAlias HoldsData at hs ⊢
  rw [h1, h2, h3, h4]
  exact hs

theorem textView_of_formats (s s1 : State) (h : s1.ClipFormats = s.ClipFormats) :
    textView s1 = textView s := by
  simp only [textView, State.fmt, h]

theorem TextLayout_of_ids (s s1 : State)
    (h : s1.ClipFormats.map CLIPFORMAT.wFormatID = s.ClipFormats.map CLIPFORMAT.wFormatID)
    (hs : TextLayout s) : TextLayout s1 := by
  unfold TextLayout at hs ⊢
  rw [h]
  exact hs

theorem TextLayout_cons (s : State) (h : TextLayout s) :
    ∃ r0 r1 r2 r3 r4 r5 r6 rest, s.ClipFormats = r0 :: r1 :: r2 :: r3 :: r4 :: r5 :: r6 :: rest ∧
      r0.wFormatID = CF_TEXT ∧ r1.wFormatID = CF_BITMAP ∧ r2.wFormatID = CF_METAFILEPICT ∧
      r3.wFormatID = CF_SYLK ∧ r4.wFormatID = CF_DIF ∧ r5.wFormatID = CF_TIFF ∧
      r6.wFormatID = CF_OEMTEXT := by
  unfold TextLayout at h
  rcases hl : s.ClipFormats with _ | ⟨r0, _ | ⟨r1, _ | ⟨r2, _ | ⟨r3, _ | ⟨r4, _ | ⟨r5, _ | ⟨r6, rest⟩⟩⟩⟩⟩⟩⟩ <;>
    rw [hl] at h <;> simp at h
  obtain ⟨h0, h1, h2, h3, h4, h5, h6⟩ := h
  exact ⟨r0, r1, r2, r3, r4, r5, r6, rest, rfl, h0, h1, h2, h3, h4, h5, h6⟩

theorem TextLayout_length (s : State) (h : TextLayout s) : CF_OEMTEXT - 1 < s.ClipFormats.length := by
  obtain ⟨r0, r1, r2, r3, r4, r5, r6, rest, hl, -⟩ := TextLayout_cons s h
  rw [hl]
  simp [CF_OEMTEXT]

theorem TextLayout_ids (s : State) (h : TextLayout s) :
    (s.fmt (CF_TEXT - 1)).wFormatID = CF_TEXT ∧ (s.fmt (CF_OEMTEXT - 1)).wFormatID = CF_OEMTEXT := by
  obtain ⟨r0, r1, r2, r3, r4, r5, r6, rest, hl, h0, -, -, -, -, -, h6⟩ := TextLayout_cons s h
  simp only [State.fmt, hl]
  exact ⟨h0, h6⟩

/-- Under the layout the chain walk for a text id stops at the record the code
indexes directly, and only for that id. -/
theorem TextLayout_walk (s : State) (h : TextLayout s) (wFormat : Nat) :
    (wFormat = CF_TEXT → walkToFormat s.ClipFormats wFormat 0 = some (CF_TEXT - 1)) ∧
    (wFormat = CF_OEMTEXT → walkToFormat s.ClipFormats wFormat 0 = some (CF_OEMTEXT - 1)) ∧
    (walkToFormat s.ClipFormats wFormat 0 = some (CF_TEXT - 1) → wFormat = CF_TEXT) ∧
    (walkToFormat s.ClipFormats wFormat 0 = some (CF_OEMTEXT - 1) → wFormat = CF_OEMTEXT) := by
  obtain ⟨r0, r1, r2, r3, r4, r5, r6, rest, hl, h0, h1, h2, h3, h4, h5, h6⟩ :=
    TextLayout_cons s h
  refine ⟨?_, ?_, ?_, ?_⟩
  · intro hw
    subst hw
    rw [hl]
    simp [walkToFormat, h0, CF_TEXT]
  · intro hw
    subst hw
    rw [hl]
    simp [walkToFormat, h0, h1, h2, h3, h4, h5, h6, CF_TEXT, CF_BITMAP, CF_METAFILEPICT, CF_SYLK,
      CF_DIF, CF_TIFF, CF_OEMTEXT]
  · intro hw
    have := walkToFormat_found _ _ _ _ hw
    rw [hl] at this
    simp only [CF_TEXT] at this
    simpa [h0] using this.symm
  · intro hw
    have := walkToFormat_found _ _ _ _ hw
    rw [hl] at this
    simp only [CF_OEMTEXT] at this
    simpa [h6] using this.symm

theorem SendMessage16_text (env : Env)
    (hproc : ∀ hwnd msg wParam s, TextLayout s ∧ AliasBacked s →
      TextLayout (env.WndProc hwnd msg wParam s) ∧ AliasBacked (env.WndProc hwnd msg wParam s))
    (hwnd : Nat) (msg : Message) (wParam lParam : Nat) (s : State)
    (h : TextLayout s ∧ AliasBacked s) :
    TextLayout (SendMessage16 env hwnd msg wParam lParam s) ∧
    AliasBacked (SendMessage16 env hwnd msg wParam lParam s) := by
  unfold SendMessage16
  have h1 := hproc hwnd msg wParam
    { s with calls := s.calls ++ [Call.SendMessage16 hwnd msg wParam lParam] }
    ⟨TextLayout_of_ids s _ rfl h.1, AliasBacked_congr s _ (textView_of_formats s _ rfl) h.2⟩
  exact ⟨TextLayout_of_ids _ _ rfl h1.1, AliasBacked_congr _ _ (textView_of_formats _ _ rfl) h1.2⟩

/-- An operation that leaves the chain as it is keeps the layout and the
aliases. -/
theorem text_of_formats (s s1 : State) (h : s1.ClipFormats = s.ClipFormats)
    (hs : TextLayout s ∧ AliasBacked s) : TextLayout s1 ∧ AliasBacked s1 :=
  ⟨TextLayout_of_ids s s1 (by rw [h]) hs.1, AliasBacked_congr s s1 (textView_of_formats s s1 h) hs.2⟩

theorem OpenClipboard32_formats (hWnd : Nat) (s : State) :
    (OpenClipboard32 hWnd s).2.ClipFormats = s.ClipFormats := by
  unfold OpenClipboard32
  simp only []
  split <;> rfl

theorem CloseClipboard32_text (env : Env)
    (hproc : ∀ hwnd msg wParam s, TextLayout s ∧ AliasBacked s →
      TextLayout (env.WndProc hwnd msg wParam s) ∧ AliasBacked (env.WndProc hwnd msg wParam s))
    (s : State) (h : TextLayout s ∧ AliasBacked s) :
    TextLayout (CloseClipboard32 env s).2 ∧ AliasBacked (CloseClipboard32 env s).2 := by
  unfold CloseClipboard32
  split
  · exact h
  · simp only []
    split
    · exact SendMessage16_text env hproc _ _ _ _ _ (text_of_formats s _ rfl h)
    · exact text_of_formats s _ rfl h

theorem CLIPBOARD_ReleaseSelection_formats (env : Env) (w hwnd : Nat) (s : State) :
    (CLIPBOARD_ReleaseSelection env w hwnd s).ClipFormats = s.ClipFormats := by
  unfold CLIPBOARD_ReleaseSelection XSetSelectionOwner
  simp only []
  split_ifs <;> rfl

theorem fmt_append_left (s : State) (l : List CLIPFORMAT) (i : Nat)
    (hi : i < s.ClipFormats.length) :
    ({ s with ClipFormats := s.ClipFormats ++ l } : State).fmt i = s.fmt i := by
  simp [State.fmt, List.getD_eq_getElem?_getD, List.getElem?_append_left hi]

theorem RegisterClipboardFormat16_text (FormatName : Option String) (s : State)
    (h : TextLayout s ∧ AliasBacked s) :
    TextLayout (RegisterClipboardFormat16 FormatName s).2 ∧
    AliasBacked (RegisterClipboardFormat16 FormatName s).2 := by
  cases FormatName with
  | none => exact h
  | some name =>
    cases hw : RegisterClipboardFormat16.walk s.ClipFormats name 0 with
    | some lp =>
      rw [RegisterClipboardFormat16_found s name lp hw]
      have hlt := (RegisterClipboardFormat16_walk_bound _ _ _ _ hw).2
      simp only [Nat.zero_add] at hlt
      refine ⟨TextLayout_of_ids s _ (setFmt_ids s lp _ rfl) h.1, AliasBacked_congr s _ ?_ h.2⟩
      have key : ∀ i, ((s.setFmt lp { s.fmt lp with
            wRefCount := ((s.fmt lp).wRefCount + 1) % 65536 }).fmt i).wDataPresent
            = (s.fmt i).wDataPresent ∧
          ((s.setFmt lp { s.fmt lp with
            wRefCount := ((s.fmt lp).wRefCount + 1) % 65536 }).fmt i).hData = (s.fmt i).hData := by
        intro i
        by_cases hi : lp = i
        · subst hi
          rw [fmt_setFmt _ _ _ hlt]
          exact ⟨rfl, rfl⟩
        · rw [fmt_setFmt_ne _ _ _ _ hi]
          exact ⟨rfl, rfl⟩
      simp only [textView, (key _).1, (key _).2]
    | none =>
      rw [RegisterClipboardFormat16_new s name hw]
      have hlen := TextLayout_length s h.1
      constructor
      · have h1 := h.1
        unfold TextLayout at h1 ⊢
        simp only [List.map_append]
        rw [List.take_append_of_le_length (by
          simp only [List.length_map]
          unfold CF_OEMTEXT at hlen
          omega)]
        exact h1
      · refine AliasBacked_congr s _ ?_ h.2
        have e1 := fmt_append_left s [CLIPFORMAT.mk s.LastRegFormat 1 0 name 0 0] (CF_TEXT - 1)
          (by unfold CF_TEXT; unfold CF_OEMTEXT at hlen; omega)
        have e2 := fmt_append_left s [CLIPFORMAT.mk s.LastRegFormat 1 0 name 0 0] (CF_OEMTEXT - 1)
          hlen
        simp only [textView, State.fmt] at e1 e2 ⊢
        rw [e1, e2]

theorem CLIPBOARD_DeleteRecord_if_ids (c : Prop) [Decidable c] (lp : Nat) (s : State) :
    (if c then CLIPBOARD_DeleteRecord lp s else s).ClipFormats.map CLIPFORMAT.wFormatID
      = s.ClipFormats.map CLIPFORMAT.wFormatID := by
  split
  · exact CLIPBOARD_DeleteRecord_ids lp s
  · rfl

theorem EmptyClipboard32_loop_ids (n : Nat) : ∀ (lp : Nat) (s : State),
    (EmptyClipboard32.loop n lp s).ClipFormats.map CLIPFORMAT.wFormatID
      = s.ClipFormats.map CLIPFORMAT.wFormatID := by
  induction n with
  | zero =>
    intro lp s
    rfl
  | succ n ih =>
    intro lp s
    have hstep : EmptyClipboard32.loop (n + 1) lp s = EmptyClipboard32.loop n (lp + 1)
        (if (s.fmt lp).wDataPresent ≠ 0 ∨ (s.fmt lp).hData ≠ 0 then
          CLIPBOARD_DeleteRecord lp s else s) := rfl
    rw [hstep, ih]
    exact CLIPBOARD_DeleteRecord_if_ids _ lp s

theorem AliasBacked_of_clear (s : State)
    (h : ∀ r ∈ s.ClipFormats, r.wDataPresent = 0 ∧ r.hData = 0) : AliasBacked s := by
  have hc := fmt_of_clear s h
  constructor
  · intro ha
    exact absurd (hc _).2 ha.1
  · intro ha
    exact absurd (hc _).2 ha.1

theorem EmptyClipboard32_text (env : Env)
    (hproc : ∀ hwnd msg wParam s, TextLayout s ∧ AliasBacked s →
      TextLayout (env.WndProc hwnd msg wParam s) ∧ AliasBacked (env.WndProc hwnd msg wParam s))
    (s : State) (h : TextLayout s ∧ AliasBacked s) :
    TextLayout (EmptyClipboard32 env s).2 ∧ AliasBacked (EmptyClipboard32 env s).2 := by
  by_cases hopen : s.hWndClipWindow = 0
  · unfold EmptyClipboard32
    rw [if_pos hopen]
    exact h
  · obtain ⟨-, e2, -⟩ := EmptyClipboard32_open env s _ hopen rfl
    refine ⟨?_, AliasBacked_of_clear _ e2⟩
    have hN : TextLayout (if s.hWndClipOwner ≠ 0 then
        SendMessage16 env s.hWndClipOwner Message.WM_DESTROYCLIPBOARD 0 0 s else s) := by
      split
      · exact (SendMessage16_text env hproc _ _ _ _ _ h).1
      · exact h.1
    refine TextLayout_of_ids _ _ ?_ hN
    have hE : (EmptyClipboard32 env s).2.ClipFormats
        = (EmptyClipboard32.loop
            (if s.hWndClipOwner ≠ 0 then
              SendMessage16 env s.hWndClipOwner Message.WM_DESTROYCLIPBOARD 0 0 s
             else s).ClipFormats.length 0
            (if s.hWndClipOwner ≠ 0 then
              SendMessage16 env s.hWndClipOwner Message.WM_DESTROYCLIPBOARD 0 0 s
             else s)).ClipFormats := by
      unfold EmptyClipboard32
      rw [if_neg hopen]
      simp only [XSetSelectionOwner]
      split_ifs <;> rfl
    rw [hE]
    exact EmptyClipboard32_loop_ids _ _ _

theorem CLIPBOARD_DisOwn_loop_ids (n : Nat) : ∀ (lp : Nat) (s : State),
    (CLIPBOARD_DisOwn.loop n lp s).ClipFormats.map CLIPFORMAT.wFormatID
      = s.ClipFormats.map CLIPFORMAT.wFormatID := by
  induction n with
  | zero =>
    intro lp s
    rfl
  | succ n ih =>
    intro lp s
    have hstep : CLIPBOARD_DisOwn.loop (n + 1) lp s = CLIPBOARD_DisOwn.loop n (lp + 1)
        (if (s.fmt lp).wDataPresent ≠ 0 ∧ (s.fmt lp).hData = 0 then
          s.setFmt lp { s.fmt lp with wDataPresent := 0 }
        else s) := rfl
    rw [hstep, ih]
    split
    · exact setFmt_ids s lp _ rfl
    · rfl

theorem CLIPBOARD_DisOwn_loop_text (s : State) (h : TextLayout s ∧ AliasBacked s) :
    TextLayout (CLIPBOARD_DisOwn.loop s.ClipFormats.length 0 s) ∧
    AliasBacked (CLIPBOARD_DisOwn.loop s.ClipFormats.length 0 s) := by
  refine ⟨TextLayout_of_ids s _ (CLIPBOARD_DisOwn_loop_ids _ _ _) h.1, ?_⟩
  obtain ⟨-, l2, -⟩ := CLIPBOARD_DisOwn_loop_spec s.ClipFormats.length 0 s
  obtain ⟨a1, a2⟩ := h.2
  have key : ∀ i j, (IsAlias (s.fmt i) → HoldsData (s.fmt j)) →
      IsAlias ((CLIPBOARD_DisOwn.loop s.ClipFormats.length 0 s).fmt i) →
      HoldsData ((CLIPBOARD_DisOwn.loop s.ClipFormats.length 0 s).fmt j) := by
    intro i j hij ha
    rw [l2] at ha ⊢
    unfold IsAlias HoldsData at *
    by_cases hci : 0 ≤ i ∧ i < 0 + s.ClipFormats.length ∧ (s.fmt i).wDataPresent ≠ 0
        ∧ (s.fmt i).hData = 0
    · rw [if_pos hci] at ha
      exact absurd hci.2.2.2 ha.1
    · rw [if_neg hci] at ha
      have hj := hij ha
      have hcj : ¬ (0 ≤ j ∧ j < 0 + s.ClipFormats.length ∧ (s.fmt j).wDataPresent ≠ 0
          ∧ (s.fmt j).hData = 0) := fun hc => hj.2 hc.2.2.2
      rw [if_neg hcj]
      exact hj
  exact ⟨key _ _ a1, key _ _ a2⟩

theorem CLIPBOARD_DisOwn_text (env : Env)
    (hproc : ∀ hwnd msg wParam s, TextLayout s ∧ AliasBacked s →
      TextLayout (env.WndProc hwnd msg wParam s) ∧ AliasBacked (env.WndProc hwnd msg wParam s))
    (pWnd : WND) (s : State) (h : TextLayout s ∧ AliasBacked s) :
    TextLayout (CLIPBOARD_DisOwn env pWnd s) ∧ AliasBacked (CLIPBOARD_DisOwn env pWnd s) := by
  unfold CLIPBOARD_DisOwn
  refine text_of_formats _ _ (CLIPBOARD_CheckSelection_frame env pWnd _).2.1 ?_
  split
  · exact text_of_formats _ _ rfl
      (CLIPBOARD_DisOwn_loop_text _ (SendMessage16_text env hproc _ _ _ _ _ h))
  · exact h

/-- The second block of `CLIPBOARD_ReadSelection` for a non-null handle: what it
leaves in the two text records, and the ids of the chain. -/
theorem CLIPBOARD_ReadSelection_store_text (hText : Nat) (s : State) (h0 : hText ≠ 0)
    (hlen : CF_OEMTEXT - 1 < s.ClipFormats.length) :
    textView (CLIPBOARD_ReadSelection.store hText s) = ((0, 0), (1, hText)) ∧
    (CLIPBOARD_ReadSelection.store hText s).ClipFormats.map CLIPFORMAT.wFormatID
      = s.ClipFormats.map CLIPFORMAT.wFormatID := by
  have hne : CF_TEXT - 1 ≠ CF_OEMTEXT - 1 := by decide
  have stepT : ∃ s1, s1 = (if (s.fmt (CF_TEXT - 1)).wDataPresent ≠ 0
        ∨ (s.fmt (CF_TEXT - 1)).hData ≠ 0 then CLIPBOARD_DeleteRecord (CF_TEXT - 1) s else s) ∧
      (s1.fmt (CF_TEXT - 1)).wDataPresent = 0 ∧ (s1.fmt (CF_TEXT - 1)).hData = 0 ∧
      s1.ClipFormats.length = s.ClipFormats.length ∧
      s1.ClipFormats.map CLIPFORMAT.wFormatID = s.ClipFormats.map CLIPFORMAT.wFormatID := by
    refine ⟨_, rfl, ?_, ?_, ?_, CLIPBOARD_DeleteRecord_if_ids _ _ _⟩
    · split
      · exact (fmt_DeleteRecord_same _ s).1
      · rename_i hc
        simp only [not_or, ne_eq, not_not] at hc
        exact hc.1
    · split
      · exact (fmt_DeleteRecord_same _ s).2
      · rename_i hc
        simp only [not_or, ne_eq, not_not] at hc
        exact hc.2
    · split
      · exact CLIPBOARD_DeleteRecord_length _ s
      · rfl
  obtain ⟨s1, hs1, t1, t2, t4, t5⟩ := stepT
  have stepO : ∃ s2, s2 = (if (s1.fmt (CF_OEMTEXT - 1)).wDataPresent ≠ 0
        ∨ (s1.fmt (CF_OEMTEXT - 1)).hData ≠ 0 then CLIPBOARD_DeleteRecord (CF_OEMTEXT - 1) s1
        else s1) ∧
      s2.fmt (CF_TEXT - 1) = s1.fmt (CF_TEXT - 1) ∧
      s2.ClipFormats.length = s1.ClipFormats.length ∧
      s2.ClipFormats.map CLIPFORMAT.wFormatID = s1.ClipFormats.map CLIPFORMAT.wFormatID := by
    refine ⟨_, rfl, ?_, ?_, CLIPBOARD_DeleteRecord_if_ids _ _ _⟩
    · split
      · exact fmt_DeleteRecord_other _ _ s1 (Ne.symm hne)
      · rfl
    · split
      · exact CLIPBOARD_DeleteRecord_length _ s1
      · rfl
  obtain ⟨s2, hs2, o1, o2, o3⟩ := stepO
  have hres : CLIPBOARD_ReadSelection.store hText s
      = (s2.setFmt (CF_OEMTEXT - 1) { s2.fmt (CF_OEMTEXT - 1) with wDataPresent := 1 }).setFmt
          (CF_OEMTEXT - 1)
          { (s2.setFmt (CF_OEMTEXT - 1)
              { s2.fmt (CF_OEMTEXT - 1) with wDataPresent := 1 }).fmt (CF_OEMTEXT - 1)
            with hData := hText } := by
    unfold CLIPBOARD_ReadSelection.store
    rw [if_pos h0, hs2, hs1]
  have hlen2 : CF_OEMTEXT - 1 < s2.ClipFormats.length := by rw [o2, t4]; exact hlen
  have hlen3 : CF_OEMTEXT - 1 < (s2.setFmt (CF_OEMTEXT - 1)
      { s2.fmt (CF_OEMTEXT - 1) with wDataPresent := 1 }).ClipFormats.length := by
    simp only [State.setFmt, List.length_set]
    exact hlen2
  rw [hres]
  constructor
  · simp only [textView, Prod.mk.injEq]
    refine ⟨⟨?_, ?_⟩, ?_, ?_⟩
    · rw [fmt_setFmt_ne _ _ _ _ (Ne.symm hne), fmt_setFmt_ne _ _ _ _ (Ne.symm hne), o1]
      exact t1
    · rw [fmt_setFmt_ne _ _ _ _ (Ne.symm hne), fmt_setFmt_ne _ _ _ _ (Ne.symm hne), o1]
      exact t2
    · rw [fmt_setFmt _ _ _ hlen3, fmt_setFmt _ _ _ hlen2]
    · rw [fmt_setFmt _ _ _ hlen3]
  · have i3 := setFmt_ids s2 (CF_OEMTEXT - 1)
      { s2.fmt (CF_OEMTEXT - 1) with wDataPresent := 1 } rfl
    have i4 := setFmt_ids
      (s2.setFmt (CF_OEMTEXT - 1) { s2.fmt (CF_OEMTEXT - 1) with wDataPresent := 1 })
      (CF_OEMTEXT - 1)
      { (s2.setFmt (CF_OEMTEXT - 1)
          { s2.fmt (CF_OEMTEXT - 1) with wDataPresent := 1 }).fmt (CF_OEMTEXT - 1)
        with hData := hText } rfl
    exact i4.trans (i3.trans (o3.trans t5))

theorem CLIPBOARD_ReadSelection_text (env : Env) (w prop : Nat) (s : State)
    (h : TextLayout s ∧ AliasBacked s) :
    TextLayout (CLIPBOARD_ReadSelection env w prop s) ∧
    AliasBacked (CLIPBOARD_ReadSelection env w prop s) := by
  unfold CLIPBOARD_ReadSelection
  obtain ⟨f1, -⟩ := CLIPBOARD_ReadSelection_fetch_frame env w prop s
  have hF := text_of_formats s _ f1 h
  generalize CLIPBOARD_ReadSelection.fetch env w prop s = r at hF
  obtain ⟨hText, s1⟩ := r
  simp only [] at hF ⊢
  refine text_of_formats (CLIPBOARD_ReadSelection.store hText s1) _ rfl ?_
  by_cases h0 : hText = 0
  · unfold CLIPBOARD_ReadSelection.store
    rw [if_neg (by simpa using h0)]
    exact hF
  · obtain ⟨v, ids⟩ := CLIPBOARD_ReadSelection_store_text hText s1 h0 (TextLayout_length s1 hF.1)
    refine ⟨TextLayout_of_ids _ _ ids hF.1, ?_⟩
    simp only [textView, Prod.mk.injEq] at v
    obtain ⟨⟨v1, v2⟩, v3, v4⟩ := v
    constructor
    · intro ha
      exact absurd v2 ha.1
    · intro ha
      rw [IsAlias, v3] at ha
      exact absurd ha.2 (by decide)

theorem textView_setFmt_other (s : State) (i : Nat) (r : CLIPFORMAT)
    (h0 : i ≠ CF_TEXT - 1) (h6 : i ≠ CF_OEMTEXT - 1) :
    textView (s.setFmt i r) = textView s := by
  simp only [textView, fmt_setFmt_ne s i _ r h0, fmt_setFmt_ne s i _ r h6]

theorem textView_DeleteRecord_other (s : State) (i : Nat)
    (h0 : i ≠ CF_TEXT - 1) (h6 : i ≠ CF_OEMTEXT - 1) :
    textView (CLIPBOARD_DeleteRecord i s) = textView s := by
  simp only [textView, fmt_DeleteRecord_other i _ s h0, fmt_DeleteRecord_other i _ s h6]

/-- Withdrawing a promise, that is clearing the data-present flag of a record
with a null handle, keeps the aliases backed. -/
theorem AliasBacked_withdraw (s : State) (i : Nat) (hl : TextLayout s)
    (h0 : (s.fmt i).hData = 0) (h : AliasBacked s) :
    AliasBacked (s.setFmt i { s.fmt i with wDataPresent := 0 }) := by
  have hlen := TextLayout_length s hl
  by_cases hT : i = CF_TEXT - 1
  · subst hT
    have hne : CF_TEXT - 1 ≠ CF_OEMTEXT - 1 := by decide
    constructor
    · intro ha
      rw [fmt_setFmt _ _ _ (by unfold CF_TEXT; unfold CF_OEMTEXT at hlen; omega)] at ha
      exact absurd h0 ha.1
    · intro ha
      rw [fmt_setFmt_ne _ _ _ _ hne] at ha
      exact absurd h0 (h.2 ha).2
  · by_cases hO : i = CF_OEMTEXT - 1
    · subst hO
      have hne : CF_OEMTEXT - 1 ≠ CF_TEXT - 1 := by decide
      constructor
      · intro ha
        rw [fmt_setFmt_ne _ _ _ _ hne] at ha
        exact absurd h0 (h.1 ha).2
      · intro ha
        rw [fmt_setFmt _ _ _ hlen] at ha
        exact absurd h0 ha.1
    · exact AliasBacked_congr s _ (textView_setFmt_other s i _ hT hO) h

/-- The block of `SetClipboardData16` that discards the old data, called for a
text format on its record: afterwards the sibling text record is not an
alias. -/
theorem SetClipboardData16_discard_text (s : State) (h : AliasBacked s) :
    ¬ IsAlias ((SetClipboardData16.discard CF_TEXT (CF_TEXT - 1) s).fmt (CF_OEMTEXT - 1)) ∧
    ¬ IsAlias ((SetClipboardData16.discard CF_OEMTEXT (CF_OEMTEXT - 1) s).fmt (CF_TEXT - 1)) := by
  have hne : CF_TEXT - 1 ≠ CF_OEMTEXT - 1 := by decide
  have hid : CF_TEXT ≠ CF_OEMTEXT := by decide
  constructor
  · unfold SetClipboardData16.discard
    by_cases hc : (s.fmt (CF_TEXT - 1)).wDataPresent ≠ 0 ∨ (s.fmt (CF_TEXT - 1)).hData ≠ 0
    · rw [if_pos hc]
      simp only [hid, false_and, if_false, true_and]
      split
      · intro ha
        exact ha.1 (fmt_DeleteRecord_same _ _).2
      · rename_i hna
        intro ha
        exact hna ha
    · rw [if_neg hc]
      intro ha
      exact hc (Or.inl (h.2 ha).1)
  · unfold SetClipboardData16.discard
    by_cases hc : (s.fmt (CF_OEMTEXT - 1)).wDataPresent ≠ 0 ∨ (s.fmt (CF_OEMTEXT - 1)).hData ≠ 0
    · rw [if_pos hc]
      simp only [hid.symm, false_and, if_false, true_and]
      split
      · intro ha
        exact ha.1 (fmt_DeleteRecord_same _ _).2
      · rename_i hna
        intro ha
        exact hna ha
    · rw [if_neg hc]
      intro ha
      exact hc (Or.inl (h.1 ha).1)

/-- The same block called for a format that is not text, on a record that is
not a text record: the two text records are as before. -/
theorem SetClipboardData16_discard_other (wFormat lp : Nat) (s : State)
    (hT : wFormat ≠ CF_TEXT) (hO : wFormat ≠ CF_OEMTEXT)
    (h0 : lp ≠ CF_TEXT - 1) (h6 : lp ≠ CF_OEMTEXT - 1) :
    textView (SetClipboardData16.discard wFormat lp s) = textView s := by
  unfold SetClipboardData16.discard
  simp only [hT, hO, false_and, if_false]
  split
  · exact textView_DeleteRecord_other s lp h0 h6
  · rfl

theorem SetClipboardData16_blocks (env : Env) (wFormat hData : Nat) (s : State) :
    SetClipboardData16 env wFormat hData s =
      match walkToFormat s.ClipFormats wFormat 0 with
      | none => (0, s)
      | some lpFormat =>
        (((SetClipboardData16.store lpFormat hData (SetClipboardData16.discard wFormat lpFormat
            (SetClipboardData16.acquire env wFormat s))).fmt lpFormat).hData,
          SetClipboardData16.store lpFormat hData (SetClipboardData16.discard wFormat lpFormat
            (SetClipboardData16.acquire env wFormat s))) := by
  unfold SetClipboardData16 SetClipboardData16.store
  cases walkToFormat s.ClipFormats wFormat 0 <;> rfl

theorem setFmt_twice (s : State) (lp : Nat) (f g : CLIPFORMAT → CLIPFORMAT)
    (hlp : lp < s.ClipFormats.length) :
    ((s.setFmt lp (f (s.fmt lp))).setFmt lp (g ((s.setFmt lp (f (s.fmt lp))).fmt lp))).fmt lp
      = g (f (s.fmt lp)) ∧
    ∀ i, lp ≠ i →
      ((s.setFmt lp (f (s.fmt lp))).setFmt lp (g ((s.setFmt lp (f (s.fmt lp))).fmt lp))).fmt i
        = s.fmt i := by
  have hl3 : lp < (s.setFmt lp (f (s.fmt lp))).ClipFormats.length := by
    simp only [State.setFmt, List.length_set]
    exact hlp
  constructor
  · rw [fmt_setFmt _ _ _ hl3, fmt_setFmt _ _ _ hlp]
  · intro i hi
    rw [fmt_setFmt_ne _ _ _ _ hi, fmt_setFmt_ne _ _ _ _ hi]

theorem setFmt_twice_ids (s : State) (lp : Nat) (f g : CLIPFORMAT → CLIPFORMAT)
    (hf : ∀ r, (f r).wFormatID = r.wFormatID) (hg : ∀ r, (g r).wFormatID = r.wFormatID) :
    ((s.setFmt lp (f (s.fmt lp))).setFmt lp
        (g ((s.setFmt lp (f (s.fmt lp))).fmt lp))).ClipFormats.map CLIPFORMAT.wFormatID
      = s.ClipFormats.map CLIPFORMAT.wFormatID :=
  (setFmt_ids (s.setFmt lp (f (s.fmt lp))) lp (g ((s.setFmt lp (f (s.fmt lp))).fmt lp))
    (hg _)).trans (setFmt_ids s lp (f (s.fmt lp)) (hf _))

theorem SetClipboardData16_store_spec (lp hData : Nat) (s : State)
    (hlp : lp < s.ClipFormats.length) :
    ((SetClipboardData16.store lp hData s).fmt lp).wDataPresent = 1 ∧
    ((SetClipboardData16.store lp hData s).fmt lp).hData = hData ∧
    (∀ i, lp ≠ i → (SetClipboardData16.store lp hData s).fmt i = s.fmt i) ∧
    (SetClipboardData16.store lp hData s).ClipFormats.map CLIPFORMAT.wFormatID
      = s.ClipFormats.map CLIPFORMAT.wFormatID := by
  have hdef : SetClipboardData16.store lp hData s
      = (({ s with bClipChanged := true } : State).setFmt lp
          ((fun r : CLIPFORMAT => { r with wDataPresent := 1 })
            (({ s with bClipChanged := true } : State).fmt lp))).setFmt lp
          ((fun r : CLIPFORMAT => { r with hData := hData })
            ((({ s with bClipChanged := true } : State).setFmt lp
              ((fun r : CLIPFORMAT => { r with wDataPresent := 1 })
                (({ s with bClipChanged := true } : State).fmt lp))).fmt lp)) := rfl
  obtain ⟨t1, t2⟩ := setFmt_twice ({ s with bClipChanged := true } : State) lp
    (fun r : CLIPFORMAT => { r with wDataPresent := 1 })
    (fun r : CLIPFORMAT => { r with hData := hData }) hlp
  rw [← hdef] at t1 t2
  refine ⟨by rw [t1], by rw [t1], ?_, ?_⟩
  · intro i hi
    rw [t2 i hi]
    rfl
  · rw [hdef]
    exact setFmt_twice_ids ({ s with bClipChanged := true } : State) lp
      (fun r : CLIPFORMAT => { r with wDataPresent := 1 })
      (fun r : CLIPFORMAT => { r with hData := hData }) (fun _ => rfl) (fun _ => rfl)

theorem SetClipboardData16_text (env : Env) (wFormat hData : Nat) (s : State)
    (h : TextLayout s ∧ AliasBacked s) :
    TextLayout (SetClipboardData16 env wFormat hData s).2 ∧
    AliasBacked (SetClipboardData16 env wFormat hData s).2 := by
  rw [SetClipboardData16_blocks]
  cases hw : walkToFormat s.ClipFormats wFormat 0 with
  | none => exact h
  | some lp =>
    simp only []
    obtain ⟨a1, -⟩ := SetClipboardData16_acquire_frame env wFormat s
    have h1 := text_of_formats s _ a1 h
    generalize SetClipboardData16.acquire env wFormat s = s1 at h1 a1
    obtain ⟨d1, d2, -⟩ := SetClipboardData16_discard_frame wFormat lp s1
    have hlp : lp < s1.ClipFormats.length := by
      have := (walkToFormat_bound _ _ _ _ hw).2
      rw [a1]
      omega
    have hlp2 : lp < (SetClipboardData16.discard wFormat lp s1).ClipFormats.length := by
      rw [d1]
      exact hlp
    have hwalk := TextLayout_walk s h.1 wFormat
    obtain ⟨f1, -, f2, f3⟩ := SetClipboardData16_store_spec lp hData
      (SetClipboardData16.discard wFormat lp s1) hlp2
    constructor
    · exact TextLayout_of_ids s1 _ (f3.trans d2) h1.1
    · by_cases hT : lp = CF_TEXT - 1
      · subst hT
        have hwf : wFormat = CF_TEXT := hwalk.2.2.1 hw
        subst hwf
        have hne : CF_TEXT - 1 ≠ CF_OEMTEXT - 1 := by decide
        constructor
        · intro ha
          rw [ha.2] at f1
          exact absurd f1 (by decide)
        · intro ha
          rw [f2 _ hne] at ha
          exact absurd ha (SetClipboardData16_discard_text s1 h1.2).1
      · by_cases hO : lp = CF_OEMTEXT - 1
        · subst hO
          have hwf : wFormat = CF_OEMTEXT := hwalk.2.2.2 hw
          subst hwf
          have hne : CF_OEMTEXT - 1 ≠ CF_TEXT - 1 := by decide
          constructor
          · intro ha
            rw [f2 _ hne] at ha
            exact absurd ha (SetClipboardData16_discard_text s1 h1.2).2
          · intro ha
            rw [ha.2] at f1
            exact absurd f1 (by decide)
        · have hwT : wFormat ≠ CF_TEXT := by
            intro e
            have := hwalk.1 e
            rw [hw] at this
            exact hT (Option.some.inj this)
          have hwO : wFormat ≠ CF_OEMTEXT := by
            intro e
            have := hwalk.2.1 e
            rw [hw] at this
            exact hO (Option.some.inj this)
          refine AliasBacked_congr s1 _ ?_ h1.2
          have hv := SetClipboardData16_discard_other wFormat lp s1 hwT hwO hT hO
          simp only [textView] at hv ⊢
          rw [f2 _ hT, f2 _ hO]
          exact hv

theorem CLIPBOARD_RenderFormat_text (env : Env)
    (hproc : ∀ hwnd msg wParam s, TextLayout s ∧ AliasBacked s →
      TextLayout (env.WndProc hwnd msg wParam s) ∧ AliasBacked (env.WndProc hwnd msg wParam s))
    (lp : Nat) (s : State) (h : TextLayout s ∧ AliasBacked s) :
    TextLayout (CLIPBOARD_RenderFormat env lp s).2 ∧
    AliasBacked (CLIPBOARD_RenderFormat env lp s).2 := by
  unfold CLIPBOARD_RenderFormat
  split
  · rename_i hc
    split
    · exact SendMessage16_text env hproc _ _ _ _ _ h
    · have h1 := text_of_formats s ({ s with hWndClipOwner := 0 } : State) rfl h
      exact ⟨TextLayout_of_ids _ _
          (setFmt_ids ({ s with hWndClipOwner := 0 } : State) lp
            { ({ s with hWndClipOwner := 0 } : State).fmt lp with wDataPresent := 0 } rfl) h1.1,
        AliasBacked_withdraw ({ s with hWndClipOwner := 0 } : State) lp h1.1 hc.2 h1.2⟩
  · exact h

/-- A rendering that reports success leaves a non-null handle in the record. -/
theorem CLIPBOARD_RenderFormat_handle (env : Env) (lp : Nat) (s : State)
    (h : (CLIPBOARD_RenderFormat env lp s).1 = true) :
    ((CLIPBOARD_RenderFormat env lp s).2.fmt lp).hData ≠ 0 := by
  unfold CLIPBOARD_RenderFormat at h ⊢
  split
  · rw [if_pos (by assumption)] at h
    split
    · rw [if_pos (by assumption)] at h
      exact of_decide_eq_true h
    · rw [if_neg (by assumption)] at h
      exact absurd h (by simp)
  · rw [if_neg (by assumption)] at h
    exact of_decide_eq_true h

/-- The conversion writes nothing but the handle of the target record. -/
theorem CLIPBOARD_RenderText_formats (env : Env) (lpTarget lpSource : Nat) (s : State)
    (hlt : lpTarget < s.ClipFormats.length) :
    ∃ x, (CLIPBOARD_RenderText env lpTarget lpSource s).2.ClipFormats
      = (s.setFmt lpTarget { s.fmt lpTarget with hData := x }).ClipFormats := by
  have hself : s.ClipFormats = (s.setFmt lpTarget
      { s.fmt lpTarget with hData := (s.fmt lpTarget).hData }).ClipFormats := by
    simp only [State.setFmt, State.fmt]
    apply List.ext_getElem?
    intro i
    by_cases hi : lpTarget = i
    · subst hi
      simp [List.getElem?_set, hlt, List.getD_eq_getElem?_getD]
    · simp [List.getElem?_set_ne hi]
  have htwice : ∀ (sA : State) (x y : Nat), sA.ClipFormats = s.ClipFormats →
      ((sA.setFmt lpTarget { sA.fmt lpTarget with hData := x }).setFmt lpTarget
        { (sA.setFmt lpTarget { sA.fmt lpTarget with hData := x }).fmt lpTarget with
          hData := y }).ClipFormats
        = (s.setFmt lpTarget { s.fmt lpTarget with hData := y }).ClipFormats := by
    intro sA x y hA
    simp only [State.setFmt, State.fmt, hA]
    simp [List.getD_eq_getElem?_getD, hlt, List.getElem?_set]
  unfold CLIPBOARD_RenderText GlobalAlloc16
  simp only []
  split
  · exact ⟨_, hself⟩
  · split_ifs <;> simp only [] <;> split <;>
      first
        | exact ⟨_, rfl⟩
        | exact ⟨0, htwice _ _ _ rfl⟩

/-- Storing a converted handle in a text record with a null handle, while the
sibling text record has a non-null handle, keeps the aliases backed. -/
theorem AliasBacked_render (s : State) (U R x : Nat) (hl : TextLayout s) (h : AliasBacked s)
    (hUR : (U = CF_TEXT - 1 ∧ R = CF_OEMTEXT - 1) ∨ (U = CF_OEMTEXT - 1 ∧ R = CF_TEXT - 1))
    (hU : (s.fmt U).hData = 0) (hR : (s.fmt R).hData ≠ 0) :
    AliasBacked (s.setFmt U { s.fmt U with hData := x }) := by
  have hlen := TextLayout_length s hl
  have hlen0 : CF_TEXT - 1 < s.ClipFormats.length := by
    unfold CF_TEXT
    unfold CF_OEMTEXT at hlen
    omega
  have h06 : CF_TEXT - 1 ≠ CF_OEMTEXT - 1 := by decide
  have h60 : CF_OEMTEXT - 1 ≠ CF_TEXT - 1 := by decide
  rcases hUR with ⟨hu, hr⟩ | ⟨hu, hr⟩
  · subst hu
    subst hr
    constructor
    · intro _
      rw [fmt_setFmt_ne _ _ _ _ h06]
      refine ⟨?_, hR⟩
      intro hwp
      exact absurd hU (h.2 ⟨hR, hwp⟩).2
    · intro ha
      rw [fmt_setFmt_ne _ _ _ _ h06] at ha
      exact absurd hU (h.2 ha).2
  · subst hu
    subst hr
    constructor
    · intro ha
      rw [fmt_setFmt_ne _ _ _ _ h60] at ha
      exact absurd hU (h.1 ha).2
    · intro _
      rw [fmt_setFmt_ne _ _ _ _ h60]
      refine ⟨?_, hR⟩
      intro hwp
      exact absurd hU (h.1 ⟨hR, hwp⟩).2

/-- The two records `GetClipboardData16` chooses are the same record or the two
text records. -/
theorem GetClipboardData16_select_cases (wFormat : Nat) (s : State) (R U : Nat)
    (h : GetClipboardData16.select wFormat s = some (R, U)) :
    U = R ∨ (U = CF_TEXT - 1 ∧ R = CF_OEMTEXT - 1) ∨ (U = CF_OEMTEXT - 1 ∧ R = CF_TEXT - 1) := by
  unfold GetClipboardData16.select at h
  split_ifs at h
  · simp only [Option.some.injEq, Prod.mk.injEq] at h
    exact Or.inr (Or.inl ⟨h.2.symm, h.1.symm⟩)
  · simp only [Option.some.injEq, Prod.mk.injEq] at h
    exact Or.inr (Or.inr ⟨h.2.symm, h.1.symm⟩)
  · cases hw : walkToFormat s.ClipFormats wFormat 0 with
    | none =>
      rw [hw] at h
      exact absurd h (by simp)
    | some lp =>
      rw [hw] at h
      simp only [Option.some.injEq, Prod.mk.injEq] at h
      exact Or.inl (h.2.symm.trans h.1)

theorem GetClipboardData16_text (env : Env)
    (hproc : ∀ hwnd msg wParam s, TextLayout s ∧ AliasBacked s →
      TextLayout (env.WndProc hwnd msg wParam s) ∧ AliasBacked (env.WndProc hwnd msg wParam s))
    (wFormat : Nat) (s : State) (h : TextLayout s ∧ AliasBacked s) :
    TextLayout (GetClipboardData16 env wFormat s).2 ∧
    AliasBacked (GetClipboardData16 env wFormat s).2 := by
  by_cases hopen : s.hWndClipWindow = 0
  · unfold GetClipboardData16
    rw [if_pos hopen]
    exact h
  · rw [GetClipboardData16_select env wFormat s hopen]
    cases hsel : GetClipboardData16.select wFormat s with
    | none => exact h
    | some p =>
      obtain ⟨R, U⟩ := p
      simp only []
      have h1 := CLIPBOARD_RenderFormat_text env hproc R s h
      have hh := CLIPBOARD_RenderFormat_handle env R s
      generalize CLIPBOARD_RenderFormat env R s = q at h1 hh
      obtain ⟨ok, s1⟩ := q
      simp only [] at h1 hh ⊢
      cases ok with
      | false => exact h1
      | true =>
        simp only [not_true_eq_false, if_false]
        split
        · rename_i hc
          have hcases := GetClipboardData16_select_cases wFormat s R U hsel
          have hUR : (U = CF_TEXT - 1 ∧ R = CF_OEMTEXT - 1) ∨
              (U = CF_OEMTEXT - 1 ∧ R = CF_TEXT - 1) := by
            rcases hcases with e | e
            · exact absurd e hc.1
            · exact e
          have hlt : U < s1.ClipFormats.length := by
            have hlen := TextLayout_length s1 h1.1
            rcases hUR with ⟨hu, -⟩ | ⟨hu, -⟩
            · rw [hu]
              unfold CF_TEXT
              unfold CF_OEMTEXT at hlen
              omega
            · rw [hu]
              exact hlen
          obtain ⟨x, hx⟩ := CLIPBOARD_RenderText_formats env U R s1 hlt
          have hmid : TextLayout (s1.setFmt U { s1.fmt U with hData := x }) ∧
              AliasBacked (s1.setFmt U { s1.fmt U with hData := x }) :=
            ⟨TextLayout_of_ids s1 _ (setFmt_ids s1 U { s1.fmt U with hData := x } rfl) h1.1,
              AliasBacked_render s1 U R x h1.1 h1.2 hUR hc.2 (hh rfl)⟩
          exact text_of_formats (s1.setFmt U { s1.fmt U with hData := x }) _ hx hmid
        · exact h1

/-- Setting the data of one text format leaves no alias in the sibling text
record. -/
theorem SetClipboardData16_sibling (env : Env) (hData : Nat) (s : State)
    (h : TextLayout s ∧ AliasBacked s) :
    ¬ IsAlias ((SetClipboardData16 env CF_TEXT hData s).2.fmt (CF_OEMTEXT - 1)) ∧
    ¬ IsAlias ((SetClipboardData16 env CF_OEMTEXT hData s).2.fmt (CF_TEXT - 1)) := by
  have hwalk1 := (TextLayout_walk s h.1 CF_TEXT).1 rfl
  have hwalk2 := (TextLayout_walk s h.1 CF_OEMTEXT).2.1 rfl
  have h06 : CF_TEXT - 1 ≠ CF_OEMTEXT - 1 := by decide
  have h60 : CF_OEMTEXT - 1 ≠ CF_TEXT - 1 := by decide
  have hlen := TextLayout_length s h.1
  have hlen0 : CF_TEXT - 1 < s.ClipFormats.length := by
    unfold CF_TEXT
    unfold CF_OEMTEXT at hlen
    omega
  constructor
  · rw [SetClipboardData16_blocks, hwalk1]
    simp only []
    obtain ⟨a1, -⟩ := SetClipboardData16_acquire_frame env CF_TEXT s
    have h1 := text_of_formats s _ a1 h
    generalize SetClipboardData16.acquire env CF_TEXT s = s1 at h1 a1
    obtain ⟨d1, -⟩ := SetClipboardData16_discard_frame CF_TEXT (CF_TEXT - 1) s1
    have hlp2 : CF_TEXT - 1 <
        (SetClipboardData16.discard CF_TEXT (CF_TEXT - 1) s1).ClipFormats.length := by
      rw [d1, a1]
      exact hlen0
    obtain ⟨-, -, f2, -⟩ := SetClipboardData16_store_spec (CF_TEXT - 1) hData
      (SetClipboardData16.discard CF_TEXT (CF_TEXT - 1) s1) hlp2
    rw [f2 _ h06]
    exact (SetClipboardData16_discard_text s1 h1.2).1
  · rw [SetClipboardData16_blocks, hwalk2]
    simp only []
    obtain ⟨a1, -⟩ := SetClipboardData16_acquire_frame env CF_OEMTEXT s
    have h1 := text_of_formats s _ a1 h
    generalize SetClipboardData16.acquire env CF_OEMTEXT s = s1 at h1 a1
    obtain ⟨d1, -⟩ := SetClipboardData16_discard_frame CF_OEMTEXT (CF_OEMTEXT - 1) s1
    have hlp2 : CF_OEMTEXT - 1 <
        (SetClipboardData16.discard CF_OEMTEXT (CF_OEMTEXT - 1) s1).ClipFormats.length := by
      rw [d1, a1]
      exact hlen
    obtain ⟨-, -, f2, -⟩ := SetClipboardData16_store_spec (CF_OEMTEXT - 1) hData
      (SetClipboardData16.discard CF_OEMTEXT (CF_OEMTEXT - 1) s1) hlp2
    rw [f2 _ h60]
    exact (SetClipboardData16_discard_text s1 h1.2).2

/-- For a text format the record whose handle `GetClipboardData16` returns is
the record of that format. -/
theorem GetClipboardData16_select_update (s : State) (h : TextLayout s) (R U : Nat) :
    (GetClipboardData16.select CF_TEXT s = some (R, U) → U = CF_TEXT - 1) ∧
    (GetClipboardData16.select CF_OEMTEXT s = some (R, U) → U = CF_OEMTEXT - 1) := by
  have hwalk1 := (TextLayout_walk s h CF_TEXT).1 rfl
  have hwalk2 := (TextLayout_walk s h CF_OEMTEXT).2.1 rfl
  constructor
  · intro hs
    unfold GetClipboardData16.select at hs
    rw [hwalk1] at hs
    split_ifs at hs <;> simp only [Option.some.injEq, Prod.mk.injEq] at hs
    · exact hs.2.symm
    · rename_i h2
      exact absurd h2.1 (by decide)
    · exact hs.2.symm
  · intro hs
    unfold GetClipboardData16.select at hs
    rw [hwalk2] at hs
    split_ifs at hs <;> simp only [Option.some.injEq, Prod.mk.injEq] at hs
    · rename_i h2
      exact absurd h2.1 (by decide)
    · exact hs.2.symm
    · exact hs.2.symm

/-- A non-null result of `GetClipboardData16` is the handle the chosen record
holds afterwards. -/
theorem GetClipboardData16_returns (env : Env) (wFormat U0 : Nat) (s : State)
    (hsel : ∀ R U, GetClipboardData16.select wFormat s = some (R, U) → U = U0)
    (hr : (GetClipboardData16 env wFormat s).1 ≠ 0) :
    (GetClipboardData16 env wFormat s).1 = ((GetClipboardData16 env wFormat s).2.fmt U0).hData := by
  by_cases hopen : s.hWndClipWindow = 0
  · unfold GetClipboardData16 at hr
    rw [if_pos hopen] at hr
    exact absurd rfl hr
  · rw [GetClipboardData16_select env wFormat s hopen] at hr ⊢
    cases hs : GetClipboardData16.select wFormat s with
    | none =>
      rw [hs] at hr
      exact absurd rfl hr
    | some p =>
      obtain ⟨R, U⟩ := p
      have hU := hsel R U hs
      subst hU
      rw [hs] at hr
      simp only [] at hr ⊢
      split_ifs at hr ⊢ <;>
        first
          | rfl
          | exact absurd rfl hr

theorem LocksWithin_of_heap (s1 s : State) (h : s1.heap = s.heap) : LocksWithin s1 s := by
  intro h0 x hx
  rw [GlobalLock16_congr h0 s1 s h] at hx
  exact hx

theorem LocksWithin_trans (s2 s1 s : State) (h21 : LocksWithin s2 s1) (h10 : LocksWithin s1 s) :
    LocksWithin s2 s :=
  fun h x hx => h10 h x (h21 h x hx)

/-- A freed handle locks to nothing. -/
theorem GlobalLock16_GlobalFree16_same (old : Nat) (s : State) :
    GlobalLock16 old (GlobalFree16 old s) = none := by
  unfold GlobalLock16 GlobalFree16
  split
  · rfl
  · have : (s.heap.filter (fun b => b.1 != old)).find? (fun b => b.1 == old) = none := by
      rw [List.find?_eq_none]
      intro x hx
      have := (List.mem_filter.1 hx).2
      simpa using this
    rw [this]
    rfl

theorem LocksWithin_GlobalFree16 (old : Nat) (s : State) : LocksWithin (GlobalFree16 old s) s := by
  intro h x hx
  by_cases hne : h = old
  · subst hne
    rw [GlobalLock16_GlobalFree16_same] at hx
    exact absurd hx (by simp)
  · rw [GlobalLock16_GlobalFree16_ne h old s hne] at hx
    exact hx

theorem LocksWithin_DeleteRecord (lp : Nat) (s : State) :
    LocksWithin (CLIPBOARD_DeleteRecord lp s) s := by
  unfold CLIPBOARD_DeleteRecord
  simp only []
  split
  · exact LocksWithin_of_heap _ _ rfl
  · split
    · exact LocksWithin_trans _ _ _ (LocksWithin_of_heap _ (GlobalFree16 (s.fmt lp).hData s) rfl)
        (LocksWithin_GlobalFree16 _ s)
    · exact LocksWithin_of_heap _ _ rfl

theorem LocksWithin_DeleteRecord_if (c : Prop) [Decidable c] (lp : Nat) (s : State) :
    LocksWithin (if c then CLIPBOARD_DeleteRecord lp s else s) s := by
  split
  · exact LocksWithin_DeleteRecord lp s
  · exact LocksWithin_of_heap _ _ rfl

/-- The aliases stay current over a step that leaves the handles of the two text
records as they are, makes no record an alias and changes no allocated block. -/
theorem AliasCurrent_mono (env : Env) (s1 s : State)
    (hT : (s1.fmt (CF_TEXT - 1)).hData = (s.fmt (CF_TEXT - 1)).hData)
    (hO : (s1.fmt (CF_OEMTEXT - 1)).hData = (s.fmt (CF_OEMTEXT - 1)).hData)
    (aT : IsAlias (s1.fmt (CF_TEXT - 1)) → IsAlias (s.fmt (CF_TEXT - 1)))
    (aO : IsAlias (s1.fmt (CF_OEMTEXT - 1)) → IsAlias (s.fmt (CF_OEMTEXT - 1)))
    (hl : LocksWithin s1 s) (h : AliasCurrent env s) : AliasCurrent env s1 := by
  constructor
  · intro ha src dst h1 h2
    rw [hO] at h1
    rw [hT] at h2
    exact h.1 (aT ha) src dst (hl _ _ h1) (hl _ _ h2)
  · intro ha src dst h1 h2
    rw [hT] at h1
    rw [hO] at h2
    exact h.2 (aO ha) src dst (hl _ _ h1) (hl _ _ h2)

theorem AliasCurrent_of_view (env : Env) (s1 s : State) (hv : textView s1 = textView s)
    (hl : LocksWithin s1 s) (h : AliasCurrent env s) : AliasCurrent env s1 := by
  simp only [textView, Prod.mk.injEq] at hv
  obtain ⟨⟨v1, v2⟩, v3, v4⟩ := hv
  refine AliasCurrent_mono env s1 s v2 v4 ?_ ?_ hl h
  · intro ha
    unfold IsAlias at ha ⊢
    rw [← v1, ← v2]
    exact ha
  · intro ha
    unfold IsAlias at ha ⊢
    rw [← v3, ← v4]
    exact ha

theorem AliasCurrent_of_frame (env : Env) (s1 s : State) (hf : s1.ClipFormats = s.ClipFormats)
    (hh : s1.heap = s.heap) (h : AliasCurrent env s) : AliasCurrent env s1 :=
  AliasCurrent_of_view env s1 s (textView_of_formats s s1 hf) (LocksWithin_of_heap s1 s hh) h

/-- Without an alias there is nothing to keep current. -/
theorem AliasCurrent_of_none (env : Env) (s : State)
    (hT : ¬ IsAlias (s.fmt (CF_TEXT - 1))) (hO : ¬ IsAlias (s.fmt (CF_OEMTEXT - 1))) :
    AliasCurrent env s :=
  ⟨fun ha => absurd ha hT, fun ha => absurd ha hO⟩

theorem SendMessage16_current (env : Env)
    (hcur : ∀ hwnd msg wParam s, TextLayout s ∧ AliasBacked s ∧ AliasCurrent env s →
      AliasCurrent env (env.WndProc hwnd msg wParam s))
    (hwnd : Nat) (msg : Message) (wParam lParam : Nat) (s : State)
    (h : TextLayout s ∧ AliasBacked s ∧ AliasCurrent env s) :
    AliasCurrent env (SendMessage16 env hwnd msg wParam lParam s) := by
  unfold SendMessage16
  have h0 := text_of_formats s
    { s with calls := s.calls ++ [Call.SendMessage16 hwnd msg wParam lParam] } rfl ⟨h.1, h.2.1⟩
  have h1 := hcur hwnd msg wParam
    { s with calls := s.calls ++ [Call.SendMessage16 hwnd msg wParam lParam] }
    ⟨h0.1, h0.2, AliasCurrent_of_frame env _ s rfl rfl h.2.2⟩
  exact AliasCurrent_of_frame env _ _ rfl rfl h1

theorem CloseClipboard32_current (env : Env)
    (hcur : ∀ hwnd msg wParam s, TextLayout s ∧ AliasBacked s ∧ AliasCurrent env s →
      AliasCurrent env (env.WndProc hwnd msg wParam s))
    (s : State) (h : TextLayout s ∧ AliasBacked s ∧ AliasCurrent env s) :
    AliasCurrent env (CloseClipboard32 env s).2 := by
  unfold CloseClipboard32
  split
  · exact h.2.2
  · simp only []
    have h0 := text_of_formats s ({ s with hWndClipWindow := 0 } : State) rfl ⟨h.1, h.2.1⟩
    have h1 : AliasCurrent env ({ s with hWndClipWindow := 0 } : State) :=
      AliasCurrent_of_frame env _ s rfl rfl h.2.2
    split
    · exact SendMessage16_current env hcur _ _ _ _ _ ⟨h0.1, h0.2, h1⟩
    · exact h1

theorem OpenClipboard32_heap (hWnd : Nat) (s : State) :
    (OpenClipboard32 hWnd s).2.heap = s.heap := by
  unfold OpenClipboard32
  simp only []
  split <;> rfl

theorem CLIPBOARD_CheckSelection_heap (env : Env) (pWnd : WND) (s : State) :
    (CLIPBOARD_CheckSelection env pWnd s).heap = s.heap := by
  unfold CLIPBOARD_CheckSelection XSetSelectionOwner XGetSelectionOwner
  cases pWnd.next <;> cases pWnd.parentChild <;> simp only [] <;> split_ifs <;> rfl

theorem CLIPBOARD_ReleaseSelection_heap (env : Env) (w hwnd : Nat) (s : State) :
    (CLIPBOARD_ReleaseSelection env w hwnd s).heap = s.heap := by
  unfold CLIPBOARD_ReleaseSelection XSetSelectionOwner
  simp only []
  split_ifs <;> rfl

theorem SetClipboardData16_acquire_heap (env : Env) (wFormat : Nat) (s : State) :
    (SetClipboardData16.acquire env wFormat s).heap = s.heap := by
  unfold SetClipboardData16.acquire
  split
  · simp only []
    split <;> simp [XSetSelectionOwner]
  · rfl

/-- Registering a name leaves the two text records and the heap as they are. -/
theorem RegisterClipboardFormat16_view (FormatName : Option String) (s : State)
    (h : TextLayout s) :
    textView (RegisterClipboardFormat16 FormatName s).2 = textView s ∧
    (RegisterClipboardFormat16 FormatName s).2.heap = s.heap := by
  cases FormatName with
  | none => exact ⟨rfl, rfl⟩
  | some name =>
    cases hw : RegisterClipboardFormat16.walk s.ClipFormats name 0 with
    | some lp =>
      rw [RegisterClipboardFormat16_found s name lp hw]
      have hlt := (RegisterClipboardFormat16_walk_bound _ _ _ _ hw).2
      simp only [Nat.zero_add] at hlt
      refine ⟨?_, rfl⟩
      have key : ∀ i, ((s.setFmt lp { s.fmt lp with
            wRefCount := ((s.fmt lp).wRefCount + 1) % 65536 }).fmt i).wDataPresent
            = (s.fmt i).wDataPresent ∧
          ((s.setFmt lp { s.fmt lp with
            wRefCount := ((s.fmt lp).wRefCount + 1) % 65536 }).fmt i).hData = (s.fmt i).hData := by
        intro i
        by_cases hi : lp = i
        · subst hi
          rw [fmt_setFmt _ _ _ hlt]
          exact ⟨rfl, rfl⟩
        · rw [fmt_setFmt_ne _ _ _ _ hi]
          exact ⟨rfl, rfl⟩
      simp only [textView, (key _).1, (key _).2]
    | none =>
      rw [RegisterClipboardFormat16_new s name hw]
      have hlen := TextLayout_length s h
      refine ⟨?_, rfl⟩
      have e1 := fmt_append_left s [CLIPFORMAT.mk s.LastRegFormat 1 0 name 0 0] (CF_TEXT - 1)
        (by unfold CF_TEXT; unfold CF_OEMTEXT at hlen; omega)
      have e2 := fmt_append_left s [CLIPFORMAT.mk s.LastRegFormat 1 0 name 0 0] (CF_OEMTEXT - 1)
        hlen
      simp only [textView, State.fmt] at e1 e2 ⊢
      rw [e1, e2]

theorem AliasCurrent_of_clear (env : Env) (s : State)
    (h : ∀ r ∈ s.ClipFormats, r.wDataPresent = 0 ∧ r.hData = 0) : AliasCurrent env s :=
  AliasCurrent_of_none env s (fun ha => ha.1 (fmt_of_clear s h _).2)
    (fun ha => ha.1 (fmt_of_clear s h _).2)

theorem EmptyClipboard32_current (env : Env) (s : State) (h : AliasCurrent env s) :
    AliasCurrent env (EmptyClipboard32 env s).2 := by
  by_cases hopen : s.hWndClipWindow = 0
  · unfold EmptyClipboard32
    rw [if_pos hopen]
    exact h
  · obtain ⟨-, e2, -⟩ := EmptyClipboard32_open env s _ hopen rfl
    exact AliasCurrent_of_clear env _ e2

theorem CLIPBOARD_DisOwn_loop_current (env : Env) (s : State) (h : AliasCurrent env s) :
    AliasCurrent env (CLIPBOARD_DisOwn.loop s.ClipFormats.length 0 s) := by
  obtain ⟨-, l2, -, -, -, -, -, l8⟩ := CLIPBOARD_DisOwn_loop_spec s.ClipFormats.length 0 s
  have hd : ∀ i, ((CLIPBOARD_DisOwn.loop s.ClipFormats.length 0 s).fmt i).hData
      = (s.fmt i).hData := by
    intro i
    rw [l2]
    split <;> rfl
  have ha : ∀ i, IsAlias ((CLIPBOARD_DisOwn.loop s.ClipFormats.length 0 s).fmt i) →
      IsAlias (s.fmt i) := by
    intro i hi
    rw [l2] at hi
    by_cases hci : 0 ≤ i ∧ i < 0 + s.ClipFormats.length ∧ (s.fmt i).wDataPresent ≠ 0
        ∧ (s.fmt i).hData = 0
    · rw [if_pos hci] at hi
      exact absurd hci.2.2.2 hi.1
    · rw [if_neg hci] at hi
      exact hi
  exact AliasCurrent_mono env _ s (hd _) (hd _) (ha _) (ha _) (LocksWithin_of_heap _ _ l8) h

theorem CLIPBOARD_DisOwn_current (env : Env)
    (hcur : ∀ hwnd msg wParam s, TextLayout s ∧ AliasBacked s ∧ AliasCurrent env s →
      AliasCurrent env (env.WndProc hwnd msg wParam s))
    (pWnd : WND) (s : State) (h : TextLayout s ∧ AliasBacked s ∧ AliasCurrent env s) :
    AliasCurrent env (CLIPBOARD_DisOwn env pWnd s) := by
  unfold CLIPBOARD_DisOwn
  refine AliasCurrent_of_frame env _ _ (CLIPBOARD_CheckSelection_frame env pWnd _).2.1
    (CLIPBOARD_CheckSelection_heap env pWnd _) ?_
  split
  · exact AliasCurrent_of_frame env _ _ rfl rfl
      (CLIPBOARD_DisOwn_loop_current env _ (SendMessage16_current env hcur _ _ _ _ _ h))
  · exact h.2.2

/-- The first block of `CLIPBOARD_ReadSelection` changes the heap only when it
hands back a handle. -/
theorem CLIPBOARD_ReadSelection_fetch_heap (env : Env) (w prop : Nat) (s : State) :
    (CLIPBOARD_ReadSelection.fetch env w prop s).1 ≠ 0 ∨
    (CLIPBOARD_ReadSelection.fetch env w prop s).2.heap = s.heap := by
  unfold CLIPBOARD_ReadSelection.fetch
  simp only []
  split
  · split
    · exact Or.inr rfl
    · rename_i p _
      split
      · split
        · by_cases ha : (GlobalAlloc16 env
              (p.nitems + CLIPBOARD_ReadSelection.count p.val p.nitems + 1) s).1 = 0
          · rw [GlobalAlloc16_fail env _ s ha]
            refine Or.inr ?_
            simp [GlobalLock16]
          · obtain ⟨h1, sA, e, h10, -, hheap, -⟩ := GlobalAlloc16_ok env _ s ha
            rw [e]
            refine Or.inl ?_
            simp only [GlobalLock16_head h1 _ _ sA hheap h10]
            exact h10
        · exact Or.inr rfl
      · exact Or.inr rfl
  · exact Or.inr rfl

theorem CLIPBOARD_ReadSelection_current (env : Env) (w prop : Nat) (s : State)
    (h : TextLayout s ∧ AliasCurrent env s) :
    AliasCurrent env (CLIPBOARD_ReadSelection env w prop s) := by
  unfold CLIPBOARD_ReadSelection
  obtain ⟨f1, -⟩ := CLIPBOARD_ReadSelection_fetch_frame env w prop s
  have hh := CLIPBOARD_ReadSelection_fetch_heap env w prop s
  generalize CLIPBOARD_ReadSelection.fetch env w prop s = r at f1 hh
  obtain ⟨hText, s1⟩ := r
  simp only [] at f1 hh ⊢
  refine AliasCurrent_of_frame env _ (CLIPBOARD_ReadSelection.store hText s1) rfl rfl ?_
  by_cases h0 : hText = 0
  · unfold CLIPBOARD_ReadSelection.store
    rw [if_neg (by simpa using h0)]
    exact AliasCurrent_of_frame env s1 s f1 (hh.resolve_left (not_not.2 h0)) h.2
  · obtain ⟨v, -⟩ := CLIPBOARD_ReadSelection_store_text hText s1 h0
      (by rw [f1]; exact TextLayout_length s h.1)
    simp only [textView, Prod.mk.injEq] at v
    obtain ⟨⟨-, v2⟩, v3, -⟩ := v
    refine AliasCurrent_of_none env _ (fun ha => ha.1 v2) ?_
    intro ha
    rw [IsAlias, v3] at ha
    exact absurd ha.2 (by decide)

theorem SetClipboardData16_store_heap (lp hData : Nat) (s : State) :
    (SetClipboardData16.store lp hData s).heap = s.heap := rfl

theorem SetClipboardData16_current (env : Env) (wFormat hData : Nat) (s : State)
    (h : TextLayout s ∧ AliasBacked s ∧ AliasCurrent env s) :
    AliasCurrent env (SetClipboardData16 env wFormat hData s).2 := by
  rw [SetClipboardData16_blocks]
  cases hw : walkToFormat s.ClipFormats wFormat 0 with
  | none => exact h.2.2
  | some lp =>
    simp only []
    obtain ⟨a1, -⟩ := SetClipboardData16_acquire_frame env wFormat s
    have a2 := SetClipboardData16_acquire_heap env wFormat s
    have h1 := text_of_formats s _ a1 ⟨h.1, h.2.1⟩
    have h2 := AliasCurrent_of_frame env _ s a1 a2 h.2.2
    generalize SetClipboardData16.acquire env wFormat s = s1 at h1 h2 a1
    obtain ⟨d1, -⟩ := SetClipboardData16_discard_frame wFormat lp s1
    have hlp : lp < s1.ClipFormats.length := by
      have := (walkToFormat_bound _ _ _ _ hw).2
      rw [a1]
      omega
    have hlp2 : lp < (SetClipboardData16.discard wFormat lp s1).ClipFormats.length := by
      rw [d1]
      exact hlp
    have hwalk := TextLayout_walk s h.1 wFormat
    obtain ⟨f1, -, f2, -⟩ := SetClipboardData16_store_spec lp hData
      (SetClipboardData16.discard wFormat lp s1) hlp2
    by_cases hT : lp = CF_TEXT - 1
    · subst hT
      have hwf : wFormat = CF_TEXT := hwalk.2.2.1 hw
      subst hwf
      have hne : CF_TEXT - 1 ≠ CF_OEMTEXT - 1 := by decide
      refine AliasCurrent_of_none env _ ?_ ?_
      · intro ha
        rw [ha.2] at f1
        exact absurd f1 (by decide)
      · intro ha
        rw [f2 _ hne] at ha
        exact absurd ha (SetClipboardData16_discard_text s1 h1.2).1
    · by_cases hO : lp = CF_OEMTEXT - 1
      · subst hO
        have hwf : wFormat = CF_OEMTEXT := hwalk.2.2.2 hw
        subst hwf
        have hne : CF_OEMTEXT - 1 ≠ CF_TEXT - 1 := by decide
        refine AliasCurrent_of_none env _ ?_ ?_
        · intro ha
          rw [f2 _ hne] at ha
          exact absurd ha (SetClipboardData16_discard_text s1 h1.2).2
        · intro ha
          rw [ha.2] at f1
          exact absurd f1 (by decide)
      · have hwT : wFormat ≠ CF_TEXT := by
          intro e
          have := hwalk.1 e
          rw [hw] at this
          exact hT (Option.some.inj this)
        have hwO : wFormat ≠ CF_OEMTEXT := by
          intro e
          have := hwalk.2.1 e
          rw [hw] at this
          exact hO (Option.some.inj this)
        have hv := SetClipboardData16_discard_other wFormat lp s1 hwT hwO hT hO
        have hl : LocksWithin (SetClipboardData16.discard wFormat lp s1) s1 := by
          unfold SetClipboardData16.discard
          simp only [hwT, hwO, false_and, if_false]
          exact LocksWithin_DeleteRecord_if _ lp s1
        refine AliasCurrent_of_view env _ s1 ?_
          (LocksWithin_trans _ _ _ (LocksWithin_of_heap _ _ (SetClipboardData16_store_heap _ _ _)) hl)
          h2
        simp only [textView] at hv ⊢
        rw [f2 _ hT, f2 _ hO]
        exact hv

/-- Withdrawing a promise, that is clearing the data-present flag of a record
with a null handle, keeps the aliases current. -/
theorem AliasCurrent_withdraw (env : Env) (s : State) (i : Nat) (hl : TextLayout s)
    (h0 : (s.fmt i).hData = 0) (h : AliasCurrent env s) :
    AliasCurrent env (s.setFmt i { s.fmt i with wDataPresent := 0 }) := by
  have hlen := TextLayout_length s hl
  have hlen0 : CF_TEXT - 1 < s.ClipFormats.length := by
    unfold CF_TEXT
    unfold CF_OEMTEXT at hlen
    omega
  have key : ∀ j, j < s.ClipFormats.length →
      ((s.setFmt i { s.fmt i with wDataPresent := 0 }).fmt j).hData = (s.fmt j).hData ∧
      (IsAlias ((s.setFmt i { s.fmt i with wDataPresent := 0 }).fmt j) → IsAlias (s.fmt j)) := by
    intro j hj
    by_cases hij : i = j
    · subst hij
      rw [fmt_setFmt _ _ _ hj]
      exact ⟨rfl, fun ha => absurd h0 ha.1⟩
    · rw [fmt_setFmt_ne _ _ _ _ hij]
      exact ⟨rfl, fun ha => ha⟩
  exact AliasCurrent_mono env _ s (key _ hlen0).1 (key _ hlen).1 (key _ hlen0).2 (key _ hlen).2
    (LocksWithin_of_heap _ _ rfl) h

theorem CLIPBOARD_RenderFormat_current (env : Env)
    (hcur : ∀ hwnd msg wParam s, TextLayout s ∧ AliasBacked s ∧ AliasCurrent env s →
      AliasCurrent env (env.WndProc hwnd msg wParam s))
    (lp : Nat) (s : State) (h : TextLayout s ∧ AliasBacked s ∧ AliasCurrent env s) :
    AliasCurrent env (CLIPBOARD_RenderFormat env lp s).2 := by
  unfold CLIPBOARD_RenderFormat
  split
  · rename_i hc
    split
    · exact SendMessage16_current env hcur _ _ _ _ _ h
    · exact AliasCurrent_withdraw env ({ s with hWndClipOwner := 0 } : State) lp
        (TextLayout_of_ids s _ rfl h.1) hc.2
        (AliasCurrent_of_frame env ({ s with hWndClipOwner := 0 } : State) s rfl rfl h.2.2)
  · exact h.2.2

/-- The conversion block of `CLIPBOARD_RenderText` when the source locks and the
allocation succeeds, for either direction: the target record gets a new handle
whose block holds the first `size % 65536` bytes of the source, converted to OEM
when the source record has the id `CF_TEXT` and from OEM otherwise. -/
theorem CLIPBOARD_RenderText_converted (env : Env) (lpTarget lpSource : Nat) (s : State)
    (bytes : List Nat) (hne : lpTarget ≠ lpSource) (hlt : lpTarget < s.ClipFormats.length)
    (hlock : GlobalLock16 (s.fmt lpSource).hData s = some bytes)
    (halloc : (GlobalAlloc16 env (bytes.length % 65536) s).1 ≠ 0) :
    ∃ h1 s1, CLIPBOARD_RenderText env lpTarget lpSource s = (true, s1) ∧
      h1 ≠ 0 ∧ GlobalLock16 h1 s = none ∧
      (s1.fmt lpTarget).hData = h1 ∧ s1.fmt lpSource = s.fmt lpSource ∧
      GlobalLock16 h1 s1 = some ((bytes.take (bytes.length % 65536)).map
        (if (s.fmt lpSource).wFormatID = CF_TEXT then env.CharToOem else env.OemToChar)) ∧
      (∀ h, h ≠ h1 → GlobalLock16 h s1 = GlobalLock16 h s) := by
  obtain ⟨h1, sA, ha, h10, hfresh, hheap, hfmts, -⟩ := GlobalAlloc16_ok env _ s halloc
  have hsize : GlobalSize16 (s.fmt lpSource).hData s = bytes.length := by
    simp only [GlobalSize16, hlock]
  have hltA : lpTarget < sA.ClipFormats.length := by rw [hfmts]; exact hlt
  unfold CLIPBOARD_RenderText
  simp only [hsize, hlock, ha]
  generalize hB : sA.setFmt lpTarget { sA.fmt lpTarget with hData := h1 } = sB
  have hBt : sB.fmt lpTarget = { sA.fmt lpTarget with hData := h1 } := by
    rw [← hB]; exact fmt_setFmt sA _ _ hltA
  have hBs : sB.fmt lpSource = s.fmt lpSource := by
    rw [← hB, fmt_setFmt_ne sA _ _ _ hne]
    simp only [State.fmt, hfmts]
  have hBheap : sB.heap = (h1, List.replicate (bytes.length % 65536) 0) :: s.heap := by
    rw [← hB]; exact hheap
  have hBh : (sB.fmt lpTarget).hData = h1 := by rw [hBt]
  have hm : (bytes.length % 65536) ≤ bytes.length := Nat.mod_le _ _
  have hother : ∀ (x : List Nat) (h : Nat), h ≠ h1 →
      GlobalLock16 h (storeBytes h1 x sB) = GlobalLock16 h s := by
    intro x h hh
    rw [GlobalLock16_storeBytes_ne h h1 _ sB hh]
    by_cases h0 : h = 0
    · simp [GlobalLock16, h0]
    · have : (h1 == h) = false := by simpa using fun e => hh e.symm
      simp [GlobalLock16, h0, hBheap, List.find?, this]
  simp only [hBh, GlobalLock16_head h1 _ _ sB hBheap h10, hBs]
  have hfresh1 : GlobalLock16 h1 s = none := by simp [GlobalLock16, h10, hfresh]
  by_cases hid : (s.fmt lpSource).wFormatID = CF_TEXT
  · simp only [hid, if_true]
    refine ⟨h1, _, rfl, h10, hfresh1, hBh, hBs, ?_, hother _⟩
    rw [GlobalLock16_storeBytes_head h1 _ _ _ sB hBheap h10]
    simp [List.length_take, hm]
  · simp only [hid, if_false]
    refine ⟨h1, _, rfl, h10, hfresh1, hBh, hBs, ?_, hother _⟩
    rw [GlobalLock16_storeBytes_head h1 _ _ _ sB hBheap h10]
    simp [List.length_take, hm]

/-- The conversion `GetClipboardData16` asks for, on a target text record with a
null handle whose sibling has a non-null handle, leaves the aliases current:
the new alias holds the conversion of what the sibling holds. -/
theorem CLIPBOARD_RenderText_current (env : Env) (U R : Nat) (s : State)
    (hl : TextLayout s) (hb : AliasBacked s) (hc : AliasCurrent env s)
    (hUR : (U = CF_TEXT - 1 ∧ R = CF_OEMTEXT - 1) ∨ (U = CF_OEMTEXT - 1 ∧ R = CF_TEXT - 1))
    (hU : (s.fmt U).hData = 0) (hR : (s.fmt R).hData ≠ 0) :
    AliasCurrent env (CLIPBOARD_RenderText env U R s).2 := by
  have hlen := TextLayout_length s hl
  have hlen0 : CF_TEXT - 1 < s.ClipFormats.length := by
    unfold CF_TEXT
    unfold CF_OEMTEXT at hlen
    omega
  have hids := TextLayout_ids s hl
  have h06 : CF_TEXT - 1 ≠ CF_OEMTEXT - 1 := by decide
  have h60 : CF_OEMTEXT - 1 ≠ CF_TEXT - 1 := by decide
  have hidne : CF_OEMTEXT ≠ CF_TEXT := by decide
  cases hlock : GlobalLock16 (s.fmt R).hData s with
  | none =>
    have e : CLIPBOARD_RenderText env U R s = (false, s) := by
      unfold CLIPBOARD_RenderText
      simp only [hlock]
    rw [e]
    exact hc
  | some bytes =>
    by_cases halloc : (GlobalAlloc16 env (bytes.length % 65536) s).1 = 0
    · rcases hUR with ⟨hu, hr⟩ | ⟨hu, hr⟩
      · subst hu
        subst hr
        obtain ⟨-, t1, -, t3, -, -⟩ :=
          CLIPBOARD_RenderText_fail env _ _ s bytes h06 hlen0 hlock halloc
        refine AliasCurrent_of_none env _ (fun ha => ha.1 t1) ?_
        intro ha
        rw [t3] at ha
        exact absurd hU (hb.2 ha).2
      · subst hu
        subst hr
        obtain ⟨-, t1, -, t3, -, -⟩ :=
          CLIPBOARD_RenderText_fail env _ _ s bytes h60 hlen hlock halloc
        refine AliasCurrent_of_none env _ ?_ (fun ha => ha.1 t1)
        intro ha
        rw [t3] at ha
        exact absurd hU (hb.1 ha).2
    · rcases hUR with ⟨hu, hr⟩ | ⟨hu, hr⟩
      · subst hu
        subst hr
        obtain ⟨h1, s1, e, h10, hfresh, t1, t2, t3, t4⟩ :=
          CLIPBOARD_RenderText_converted env _ _ s bytes h06 hlen0 hlock halloc
        rw [e]
        simp only []
        have hsrc : (s.fmt (CF_OEMTEXT - 1)).hData ≠ h1 := by
          intro e1
          rw [e1, hfresh] at hlock
          exact absurd hlock (by simp)
        constructor
        · intro _ src dst hs hd
          rw [t2, t4 _ hsrc, hlock] at hs
          rw [t1, t3, hids.2, if_neg hidne] at hd
          rw [← Option.some.inj hs, ← Option.some.inj hd]
        · intro ha
          rw [t2] at ha
          exact absurd hU (hb.2 ha).2
      · subst hu
        subst hr
        obtain ⟨h1, s1, e, h10, hfresh, t1, t2, t3, t4⟩ :=
          CLIPBOARD_RenderText_converted env _ _ s bytes h60 hlen hlock halloc
        rw [e]
        simp only []
        have hsrc : (s.fmt (CF_TEXT - 1)).hData ≠ h1 := by
          intro e1
          rw [e1, hfresh] at hlock
          exact absurd hlock (by simp)
        constructor
        · intro ha
          rw [t2] at ha
          exact absurd hU (hb.1 ha).2
        · intro _ src dst hs hd
          rw [t2, t4 _ hsrc, hlock] at hs
          rw [t1, t3, hids.1, if_pos rfl] at hd
          rw [← Option.some.inj hs, ← Option.some.inj hd]

theorem GetClipboardData16_current (env : Env)
    (hproc : ∀ hwnd msg wParam s, TextLayout s ∧ AliasBacked s →
      TextLayout (env.WndProc hwnd msg wParam s) ∧ AliasBacked (env.WndProc hwnd msg wParam s))
    (hcur : ∀ hwnd msg wParam s, TextLayout s ∧ AliasBacked s ∧ AliasCurrent env s →
      AliasCurrent env (env.WndProc hwnd msg wParam s))
    (wFormat : Nat) (s : State) (h : TextLayout s ∧ AliasBacked s ∧ AliasCurrent env s) :
    AliasCurrent env (GetClipboardData16 env wFormat s).2 := by
  by_cases hopen : s.hWndClipWindow = 0
  · unfold GetClipboardData16
    rw [if_pos hopen]
    exact h.2.2
  · rw [GetClipboardData16_select env wFormat s hopen]
    cases hsel : GetClipboardData16.select wFormat s with
    | none => exact h.2.2
    | some p =>
      obtain ⟨R, U⟩ := p
      simp only []
      have h1 := CLIPBOARD_RenderFormat_text env hproc R s ⟨h.1, h.2.1⟩
      have h2 := CLIPBOARD_RenderFormat_current env hcur R s h
      have hh := CLIPBOARD_RenderFormat_handle env R s
      generalize CLIPBOARD_RenderFormat env R s = q at h1 h2 hh
      obtain ⟨ok, s1⟩ := q
      simp only [] at h1 h2 hh ⊢
      cases ok with
      | false => exact h2
      | true =>
        simp only [not_true_eq_false, if_false]
        split
        · rename_i hc
          have hcases := GetClipboardData16_select_cases wFormat s R U hsel
          have hUR : (U = CF_TEXT - 1 ∧ R = CF_OEMTEXT - 1) ∨
              (U = CF_OEMTEXT - 1 ∧ R = CF_TEXT - 1) := by
            rcases hcases with e | e
            · exact absurd e hc.1
            · exact e
          exact CLIPBOARD_RenderText_current env U R s1 h1.1 h1.2 h2 hUR hc.2 (hh rfl)
        · exact h2

/-- When `CLIPBOARD_ReadSelection` stores the selection text it replaces both
text records: the text record is cleared and the OEM text record has data
present with the new handle; otherwise it leaves the records and the heap as
they are. -/
theorem CLIPBOARD_ReadSelection_replaces (env : Env) (w prop : Nat) (s : State)
    (h : TextLayout s) :
    ((CLIPBOARD_ReadSelection env w prop s).ClipFormats = s.ClipFormats ∧
      (CLIPBOARD_ReadSelection env w prop s).heap = s.heap) ∨
    ∃ hText, hText ≠ 0 ∧
      textView (CLIPBOARD_ReadSelection env w prop s) = ((0, 0), (1, hText)) := by
  unfold CLIPBOARD_ReadSelection
  obtain ⟨f1, -⟩ := CLIPBOARD_ReadSelection_fetch_frame env w prop s
  have hh := CLIPBOARD_ReadSelection_fetch_heap env w prop s
  generalize CLIPBOARD_ReadSelection.fetch env w prop s = r at f1 hh
  obtain ⟨hText, s1⟩ := r
  simp only [] at f1 hh ⊢
  by_cases h0 : hText = 0
  · left
    unfold CLIPBOARD_ReadSelection.store
    rw [if_neg (by simpa using h0)]
    exact ⟨f1, hh.resolve_left (not_not.2 h0)⟩
  · right
    obtain ⟨v, -⟩ := CLIPBOARD_ReadSelection_store_text hText s1 h0
      (by rw [f1]; exact TextLayout_length s h)
    exact ⟨hText, h0, (textView_of_formats (CLIPBOARD_ReadSelection.store hText s1) _ rfl).trans v⟩

/-- Claim C29: in every state reachable from the initial state by the operations
of the module (open, close, empty, `SetClipboardData16`, `GetClipboardData16`,
`RegisterClipboardFormat16`, `CLIPBOARD_DisOwn`, `CLIPBOARD_ReadSelection` and the
others), the window procedures that run in between keeping the properties, a
text record holds an alias handle (non-null handle, data-present flag clear)
only while its sibling text record has data present with a non-null handle, and
the bytes of an alias are the conversion of the bytes its sibling holds now
(both blocks being allocated); setting the data of one text format leaves no
alias in the sibling record; a non-null handle `GetClipboardData16` returns for
a text format is the handle of that format's record in the state it leaves, and
when that record is an alias its bytes are the conversion of what the sibling
record holds in that state, never of data that has been replaced;
`CLIPBOARD_ReadSelection` either leaves the records and the heap as they are or
leaves the text record cleared and the OEM text record with data present; and
an `EmptyClipboard32` that returns true leaves no alias. -/
theorem Reachable_text_alias (env : Env)
    (hproc : ∀ hwnd msg wParam s, TextLayout s ∧ AliasBacked s →
      TextLayout (env.WndProc hwnd msg wParam s) ∧ AliasBacked (env.WndProc hwnd msg wParam s))
    (hcur : ∀ hwnd msg wParam s, TextLayout s ∧ AliasBacked s ∧ AliasCurrent env s →
      AliasCurrent env (env.WndProc hwnd msg wParam s))
    (s : State) (hs : Reachable env s) :
    (IsAlias (s.fmt (CF_TEXT - 1)) → HoldsData (s.fmt (CF_OEMTEXT - 1))) ∧
    (IsAlias (s.fmt (CF_OEMTEXT - 1)) → HoldsData (s.fmt (CF_TEXT - 1))) ∧
    (∀ hData, ¬ IsAlias ((SetClipboardData16 env CF_TEXT hData s).2.fmt (CF_OEMTEXT - 1))) ∧
    (∀ hData, ¬ IsAlias ((SetClipboardData16 env CF_OEMTEXT hData s).2.fmt (CF_TEXT - 1))) ∧
    ((GetClipboardData16 env CF_TEXT s).1 ≠ 0 →
      (GetClipboardData16 env CF_TEXT s).1
        = ((GetClipboardData16 env CF_TEXT s).2.fmt (CF_TEXT - 1)).hData) ∧
    ((GetClipboardData16 env CF_OEMTEXT s).1 ≠ 0 →
      (GetClipboardData16 env CF_OEMTEXT s).1
        = ((GetClipboardData16 env CF_OEMTEXT s).2.fmt (CF_OEMTEXT - 1)).hData) ∧
    AliasCurrent env s ∧
    (∀ src dst, (GetClipboardData16 env CF_TEXT s).1 ≠ 0 →
      IsAlias ((GetClipboardData16 env CF_TEXT s).2.fmt (CF_TEXT - 1)) →
      GlobalLock16 ((GetClipboardData16 env CF_TEXT s).2.fmt (CF_OEMTEXT - 1)).hData
        (GetClipboardData16 env CF_TEXT s).2 = some src →
      GlobalLock16 (GetClipboardData16 env CF_TEXT s).1
        (GetClipboardData16 env CF_TEXT s).2 = some dst →
      dst = (src.take (src.length % 65536)).map env.OemToChar) ∧
    (∀ src dst, (GetClipboardData16 env CF_OEMTEXT s).1 ≠ 0 →
      IsAlias ((GetClipboardData16 env CF_OEMTEXT s).2.fmt (CF_OEMTEXT - 1)) →
      GlobalLock16 ((GetClipboardData16 env CF_OEMTEXT s).2.fmt (CF_TEXT - 1)).hData
        (GetClipboardData16 env CF_OEMTEXT s).2 = some src →
      GlobalLock16 (GetClipboardData16 env CF_OEMTEXT s).1
        (GetClipboardData16 env CF_OEMTEXT s).2 = some dst →
      dst = (src.take (src.length % 65536)).map env.CharToOem) ∧
    (∀ w prop,
      ((CLIPBOARD_ReadSelection env w prop s).ClipFormats = s.ClipFormats ∧
        (CLIPBOARD_ReadSelection env w prop s).heap = s.heap) ∨
      ∃ hText, hText ≠ 0 ∧
        textView (CLIPBOARD_ReadSelection env w prop s) = ((0, 0), (1, hText))) ∧
    ((EmptyClipboard32 env s).1 = true →
      ¬ IsAlias ((EmptyClipboard32 env s).2.fmt (CF_TEXT - 1)) ∧
      ¬ IsAlias ((EmptyClipboard32 env s).2.fmt (CF_OEMTEXT - 1))) := by
  have key : TextLayout s ∧ AliasBacked s ∧ AliasCurrent env s := by
    induction hs with
    | initial =>
      refine ⟨?_, ?_, ?_⟩
      · unfold TextLayout
        decide
      · constructor <;>
        · intro ha
          exact absurd rfl ha.1
      · constructor <;>
        · intro ha
          exact absurd rfl ha.1
    | opened s hWnd _ ih =>
      have h := text_of_formats s _ (OpenClipboard32_formats hWnd s) ⟨ih.1, ih.2.1⟩
      exact ⟨h.1, h.2, AliasCurrent_of_frame env _ s (OpenClipboard32_formats hWnd s)
        (OpenClipboard32_heap hWnd s) ih.2.2⟩
    | closed s _ ih =>
      have h := CloseClipboard32_text env hproc s ⟨ih.1, ih.2.1⟩
      exact ⟨h.1, h.2, CloseClipboard32_current env hcur s ih⟩
    | emptied s _ ih =>
      have h := EmptyClipboard32_text env hproc s ⟨ih.1, ih.2.1⟩
      exact ⟨h.1, h.2, EmptyClipboard32_current env s ih.2.2⟩
    | dataSet s wFormat hData _ ih =>
      have h := SetClipboardData16_text env wFormat hData s ⟨ih.1, ih.2.1⟩
      exact ⟨h.1, h.2, SetClipboardData16_current env wFormat hData s ih⟩
    | dataGot s wFormat _ ih =>
      have h := GetClipboardData16_text env hproc wFormat s ⟨ih.1, ih.2.1⟩
      exact ⟨h.1, h.2, GetClipboardData16_current env hproc hcur wFormat s ih⟩
    | registered s FormatName _ ih =>
      have h := RegisterClipboardFormat16_text FormatName s ⟨ih.1, ih.2.1⟩
      obtain ⟨v, hh⟩ := RegisterClipboardFormat16_view FormatName s ih.1
      exact ⟨h.1, h.2, AliasCurrent_of_view env _ s v (LocksWithin_of_heap _ _ hh) ih.2.2⟩
    | viewerSet s hWnd _ ih =>
      have h := text_of_formats s (SetClipboardViewer32 hWnd s).2 rfl ⟨ih.1, ih.2.1⟩
      exact ⟨h.1, h.2, AliasCurrent_of_frame env _ s rfl rfl ih.2.2⟩
    | disowned s pWnd _ ih =>
      have h := CLIPBOARD_DisOwn_text env hproc pWnd s ⟨ih.1, ih.2.1⟩
      exact ⟨h.1, h.2, CLIPBOARD_DisOwn_current env hcur pWnd s ih⟩
    | selectionChecked s pWnd _ ih =>
      have h := text_of_formats s _ (CLIPBOARD_CheckSelection_frame env pWnd s).2.1 ⟨ih.1, ih.2.1⟩
      exact ⟨h.1, h.2, AliasCurrent_of_frame env _ s (CLIPBOARD_CheckSelection_frame env pWnd s).2.1
        (CLIPBOARD_CheckSelection_heap env pWnd s) ih.2.2⟩
    | selectionReleased s w hwnd _ ih =>
      have h := text_of_formats s _ (CLIPBOARD_ReleaseSelection_formats env w hwnd s)
        ⟨ih.1, ih.2.1⟩
      exact ⟨h.1, h.2, AliasCurrent_of_frame env _ s (CLIPBOARD_ReleaseSelection_formats env w hwnd s)
        (CLIPBOARD_ReleaseSelection_heap env w hwnd s) ih.2.2⟩
    | selectionRead s w prop _ ih =>
      have h := CLIPBOARD_ReadSelection_text env w prop s ⟨ih.1, ih.2.1⟩
      exact ⟨h.1, h.2, CLIPBOARD_ReadSelection_current env w prop s ⟨ih.1, ih.2.2⟩⟩
  have kb : TextLayout s ∧ AliasBacked s := ⟨key.1, key.2.1⟩
  have g5 := GetClipboardData16_returns env CF_TEXT (CF_TEXT - 1) s
    (fun R U => (GetClipboardData16_select_update s key.1 R U).1)
  have g6 := GetClipboardData16_returns env CF_OEMTEXT (CF_OEMTEXT - 1) s
    (fun R U => (GetClipboardData16_select_update s key.1 R U).2)
  refine ⟨key.2.1.1, key.2.1.2, ?_, ?_, g5, g6, key.2.2, ?_, ?_, ?_, ?_⟩
  · intro hData
    exact (SetClipboardData16_sibling env hData s kb).1
  · intro hData
    exact (SetClipboardData16_sibling env hData s kb).2
  · intro src dst hr ha h1 h2
    rw [g5 hr] at h2
    exact (GetClipboardData16_current env hproc hcur CF_TEXT s key).1 ha src dst h1 h2
  · intro src dst hr ha h1 h2
    rw [g6 hr] at h2
    exact (GetClipboardData16_current env hproc hcur CF_OEMTEXT s key).2 ha src dst h1 h2
  · intro w prop
    exact CLIPBOARD_ReadSelection_replaces env w prop s key.1
  · intro hr
    by_cases hopen : s.hWndClipWindow = 0
    · unfold EmptyClipboard32 at hr
      rw [if_pos hopen] at hr
      exact absurd hr (by simp)
    · obtain ⟨-, e2, -⟩ := EmptyClipboard32_open env s _ hopen rfl
      exact ⟨fun ha => ha.1 (fmt_of_clear _ e2 _).2, fun ha => ha.1 (fmt_of_clear _ e2 _).2⟩

theorem Reachable_text_alias_witness :
    (GetClipboardData16 Env.withPropertyShifting CF_TEXT
      (CLIPBOARD_ReadSelection Env.withPropertyShifting 1 1
        (OpenClipboard32 5 State.initial).2)).1 ≠ 0 ∧
    IsAlias ((GetClipboardData16 Env.withPropertyShifting CF_TEXT
      (CLIPBOARD_ReadSelection Env.withPropertyShifting 1 1
        (OpenClipboard32 5 State.initial).2)).2.fmt (CF_TEXT - 1)) ∧
    GlobalLock16 (GetClipboardData16 Env.withPropertyShifting CF_TEXT
        (CLIPBOARD_ReadSelection Env.withPropertyShifting 1 1
          (OpenClipboard32 5 State.initial).2)).1
      (GetClipboardData16 Env.withPropertyShifting CF_TEXT
        (CLIPBOARD_ReadSelection Env.withPropertyShifting 1 1
          (OpenClipboard32 5 State.initial).2)).2 = some [98, 14, 11, 99, 1] ∧
    [98, 14, 11, 99, 1]
      = (([97, 13, 10, 98, 0] : List Nat).take (([97, 13, 10, 98, 0] : List Nat).length % 65536)).map
          Env.withPropertyShifting.OemToChar :=
  ⟨by decide, ⟨by decide, by decide⟩, by decide,
   (Reachable_text_alias Env.withPropertyShifting (fun _ _ _ _ h => h) (fun _ _ _ _ h => h.2.2) _
      (Reachable.selectionRead _ 1 1 (Reachable.opened _ 5 Reachable.initial))).2.2.2.2.2.2.2.1
      [97, 13, 10, 98, 0] [98, 14, 11, 99, 1] (by decide) ⟨by decide, by decide⟩
      (by decide) (by decide)⟩

/-! ## Enumerating and counting the formats -/

theorem walkToFormat_append (pre rest : List CLIPFORMAT) (r : CLIPFORMAT) (k : Nat)
    (hpre : ∀ x ∈ pre, x.wFormatID ≠ r.wFormatID) :
    walkToFormat (pre ++ r :: rest) r.wFormatID k = some (k + pre.length) := by
  induction pre generalizing k with
  | nil => simp [walkToFormat]
  | cons x pre ih =>
    have hx : x.wFormatID ≠ r.wFormatID := hpre x (List.mem_cons_self _ _)
    rw [List.cons_append, walkToFormat, if_neg hx,
      ih (k + 1) (fun y hy => hpre y (List.mem_cons_of_mem _ hy)), List.length_cons]
    congr 1
    omega

theorem EnumClipboardFormats32_next_spec (s : State) (l : List CLIPFORMAT) :
    EnumClipboardFormats32.next s l
      = ((l.filter (EnumClipboardFormats32.stops s)).map CLIPFORMAT.wFormatID).headD 0 := by
  induction l with
  | nil => rfl
  | cons r rest ih =>
    rw [EnumClipboardFormats32.next]
    by_cases hc : r.wDataPresent ≠ 0 ∨
        (r.wFormatID = CF_OEMTEXT ∧ (s.fmt (CF_TEXT - 1)).wDataPresent ≠ 0)
    · rw [if_pos hc, List.filter_cons_of_pos (by simpa [EnumClipboardFormats32.stops] using hc)]
      rfl
    · rw [if_neg hc, List.filter_cons_of_neg (by simpa [EnumClipboardFormats32.stops] using hc)]
      exact ih

/-- With the clipboard open and the selection held, a call for the id of a
record that no earlier record shares answers from the records after it. -/
theorem EnumClipboardFormats32_at (env : Env) (fuel : Nat) (s : State)
    (pre rest : List CLIPFORMAT) (r : CLIPFORMAT)
    (hl : s.ClipFormats = pre ++ r :: rest)
    (hpre : ∀ x ∈ pre, x.wFormatID ≠ r.wFormatID) (hr : r.wFormatID ≠ 0)
    (hopen : s.hWndClipWindow ≠ 0) (hsel : s.selectionAcquired = true) :
    EnumClipboardFormats32 env fuel r.wFormatID s
      = some (EnumClipboardFormats32.next s rest, s) := by
  have hwalk : walkToFormat s.ClipFormats r.wFormatID 0 = some pre.length := by
    rw [hl, walkToFormat_append pre rest r 0 hpre, Nat.zero_add]
  have hdrop : s.ClipFormats.drop (pre.length + 1) = rest := by
    rw [hl]
    simp
  unfold EnumClipboardFormats32
  rw [if_neg hopen]
  have hreq : ¬ ((r.wFormatID = 0 ∨ r.wFormatID = CF_TEXT ∨ r.wFormatID = CF_OEMTEXT) ∧
      ¬ s.selectionAcquired = true) := fun h => h.2 hsel
  rw [if_neg hreq]
  simp only []
  rw [if_neg (fun h => hr h.1), if_neg hr, hwalk]
  simp only []
  rw [hdrop]

/-- With the clipboard open and the selection held, the first call of the
enumeration answers the id of the first record when a text record has data
present, and else from the records after the first. -/
theorem EnumClipboardFormats32_zero (env : Env) (fuel : Nat) (s : State)
    (r0 : CLIPFORMAT) (rest : List CLIPFORMAT) (hl : s.ClipFormats = r0 :: rest)
    (hopen : s.hWndClipWindow ≠ 0) (hsel : s.selectionAcquired = true) :
    EnumClipboardFormats32 env fuel 0 s
      = some (if r0.wDataPresent ≠ 0 ∨ (s.fmt (CF_OEMTEXT - 1)).wDataPresent ≠ 0
                then r0.wFormatID
              else EnumClipboardFormats32.next s rest, s) := by
  have h0 : s.fmt 0 = r0 := by
    simp [State.fmt, hl]
  have hwalk : walkToFormat s.ClipFormats r0.wFormatID 0 = some 0 := by
    rw [hl]
    simp [walkToFormat]
  have hdrop : s.ClipFormats.drop (0 + 1) = rest := by
    rw [hl]
    simp
  unfold EnumClipboardFormats32
  rw [if_neg hopen]
  have hreq : ¬ (((0 : Nat) = 0 ∨ (0 : Nat) = CF_TEXT ∨ (0 : Nat) = CF_OEMTEXT) ∧
      ¬ s.selectionAcquired = true) := fun h => h.2 hsel
  rw [if_neg hreq]
  simp only []
  rw [h0]
  by_cases hc : r0.wDataPresent ≠ 0 ∨ (s.fmt (CF_OEMTEXT - 1)).wDataPresent ≠ 0
  · rw [if_pos ⟨trivial, hc⟩, if_pos hc]
  · rw [if_neg (fun h => hc h.2), if_neg hc, if_pos trivial, hwalk]
    simp only []
    rw [hdrop]

theorem enumerateFormats_step (env : Env) (fuel calls f g : Nat) (s : State)
    (h : EnumClipboardFormats32 env fuel f s = some (g, s)) :
    enumerateFormats env fuel (calls + 1) f s
      = if g = 0 then some ([], s)
        else (enumerateFormats env fuel calls g s).map (fun r => (g :: r.1, r.2)) := by
  rw [enumerateFormats, h]

/-- From the id of a record on, the loop visits the records after it at which
the second loop of `EnumClipboardFormats32` stops, in chain order. -/
theorem enumerateFormats_from (env : Env) (fuel : Nat) (s : State)
    (hopen : s.hWndClipWindow ≠ 0) (hsel : s.selectionAcquired = true)
    (hids : (s.ClipFormats.map CLIPFORMAT.wFormatID).Nodup)
    (hnz : ∀ r ∈ s.ClipFormats, r.wFormatID ≠ 0) :
    ∀ (rest pre : List CLIPFORMAT) (r : CLIPFORMAT) (calls : Nat),
      s.ClipFormats = pre ++ r :: rest → rest.length < calls →
      enumerateFormats env fuel calls r.wFormatID s
        = some ((rest.filter (EnumClipboardFormats32.stops s)).map CLIPFORMAT.wFormatID, s) := by
  have hpre : ∀ (pre rest : List CLIPFORMAT) (r : CLIPFORMAT),
      s.ClipFormats = pre ++ r :: rest → ∀ x ∈ pre, x.wFormatID ≠ r.wFormatID := by
    intro pre rest r hl x hx he
    rw [hl, List.map_append, List.map_cons] at hids
    have hd := (List.nodup_append.1 hids).2.2
    exact hd (List.mem_map_of_mem _ hx) (by rw [he]; exact List.mem_cons_self _ _)
  intro rest
  induction rest with
  | nil =>
    intro pre r calls hl hc
    obtain ⟨c, rfl⟩ : ∃ c, calls = c + 1 := ⟨calls - 1, by omega⟩
    have hr : r.wFormatID ≠ 0 := hnz r (by rw [hl]; simp)
    rw [enumerateFormats_step env fuel c _ _ s
      (EnumClipboardFormats32_at env fuel s pre [] r hl (hpre pre [] r hl) hr hopen hsel)]
    rfl
  | cons r1 rest ih =>
    intro pre r calls hl hc
    obtain ⟨c, rfl⟩ : ∃ c, calls = c + 1 := ⟨calls - 1, by omega⟩
    have hc1 : rest.length < c := by
      rw [List.length_cons] at hc
      omega
    have hr : r.wFormatID ≠ 0 := hnz r (by rw [hl]; simp)
    have hr1 : r1.wFormatID ≠ 0 := hnz r1 (by rw [hl]; simp)
    have hl1 : s.ClipFormats = (pre ++ [r]) ++ r1 :: rest := by
      rw [hl]
      simp
    have e := enumerateFormats_step env fuel c _ _ s
      (EnumClipboardFormats32_at env fuel s pre (r1 :: rest) r hl (hpre pre _ r hl) hr hopen hsel)
    have e1 := enumerateFormats_step env fuel c _ _ s
      (EnumClipboardFormats32_at env fuel s (pre ++ [r]) rest r1 hl1 (hpre _ _ r1 hl1) hr1
        hopen hsel)
    by_cases hP : r1.wDataPresent ≠ 0 ∨
        (r1.wFormatID = CF_OEMTEXT ∧ (s.fmt (CF_TEXT - 1)).wDataPresent ≠ 0)
    · have hn : EnumClipboardFormats32.next s (r1 :: rest) = r1.wFormatID := by
        rw [EnumClipboardFormats32.next, if_pos hP]
      rw [e, hn, if_neg hr1, ih (pre ++ [r]) r1 c hl1 hc1,
        List.filter_cons_of_pos (by simpa [EnumClipboardFormats32.stops] using hP)]
      rfl
    · have hn : EnumClipboardFormats32.next s (r1 :: rest)
          = EnumClipboardFormats32.next s rest := by
        rw [EnumClipboardFormats32.next, if_neg hP]
      rw [e, hn, ← e1, ih (pre ++ [r]) r1 (c + 1) hl1 (by omega),
        List.filter_cons_of_neg (by simpa [EnumClipboardFormats32.stops] using hP)]

theorem CountClipboardFormats32_loop_spec (l : List CLIPFORMAT) (c : Int) :
    CountClipboardFormats32.loop l c
      = c + ((l.countP (fun r => decide (r.wDataPresent ≠ 0)) : Nat) : Int) := by
  induction l generalizing c with
  | nil => simp [CountClipboardFormats32.loop]
  | cons r rest ih =>
    rw [CountClipboardFormats32.loop, ih]
    by_cases h : r.wDataPresent ≠ 0
    · rw [if_pos h, List.countP_cons_of_pos _ _ (by simpa using h)]
      push_cast
      ring
    · rw [if_neg h, List.countP_cons_of_neg _ _ (by simpa using h)]

/-- In a chain with the built-in layout and pairwise different ids, the text
records are the only records with a text id. -/
theorem TextLayout_unique (s : State) (hlayout : TextLayout s)
    (hids : (s.ClipFormats.map CLIPFORMAT.wFormatID).Nodup) :
    ∀ r ∈ s.ClipFormats,
      (r.wFormatID = CF_TEXT → r = s.fmt (CF_TEXT - 1)) ∧
      (r.wFormatID = CF_OEMTEXT → r = s.fmt (CF_OEMTEXT - 1)) := by
  obtain ⟨r0, r1, r2, r3, r4, r5, r6, rest, hl, h0, -, -, -, -, -, h6⟩ :=
    TextLayout_cons s hlayout
  have f0 : s.fmt (CF_TEXT - 1) = r0 := by
    simp [State.fmt, hl, CF_TEXT]
  have f6 : s.fmt (CF_OEMTEXT - 1) = r6 := by
    simp [State.fmt, hl, CF_OEMTEXT]
  have hinj := List.inj_on_of_nodup_map hids
  have m0 : r0 ∈ s.ClipFormats := by
    rw [hl]
    simp
  have m6 : r6 ∈ s.ClipFormats := by
    rw [hl]
    simp
  intro r hr
  constructor
  · intro he
    rw [f0]
    exact hinj hr m0 (he.trans h0.symm)
  · intro he
    rw [f6]
    exact hinj hr m6 (he.trans h6.symm)

/-- After the first record the records the specification lists are the records
at which the second loop of `EnumClipboardFormats32` stops. -/
theorem listedFormat_eq_stops (s : State) (hlayout : TextLayout s)
    (hids : (s.ClipFormats.map CLIPFORMAT.wFormatID).Nodup)
    (r0 : CLIPFORMAT) (rest : List CLIPFORMAT) (hl : s.ClipFormats = r0 :: rest) :
    ∀ r ∈ rest, listedFormat s r = EnumClipboardFormats32.stops s r := by
  have huniq := TextLayout_unique s hlayout hids
  have f0 : s.fmt (CF_TEXT - 1) = r0 := by
    simp [State.fmt, hl, CF_TEXT]
  have hid0 : r0.wFormatID = CF_TEXT := by
    rw [← f0]
    exact (TextLayout_ids s hlayout).1
  have hnd : r0.wFormatID ∉ rest.map CLIPFORMAT.wFormatID := by
    rw [hl, List.map_cons] at hids
    exact (List.nodup_cons.1 hids).1
  intro r hr
  have hm : r ∈ s.ClipFormats := by
    rw [hl]
    exact List.mem_cons_of_mem _ hr
  have hne : r.wFormatID ≠ CF_TEXT := by
    intro he
    apply hnd
    rw [hid0, ← he]
    exact List.mem_map_of_mem _ hr
  unfold listedFormat EnumClipboardFormats32.stops
  apply decide_eq_decide.2
  constructor
  · rintro (h | ⟨h1 | h1, h2 | h2⟩)
    · exact Or.inl h
    · exact absurd h1 hne
    · exact absurd h1 hne
    · exact Or.inr ⟨h1, h2⟩
    · rw [← (huniq r hm).2 h1] at h2
      exact Or.inl h2
  · rintro (h | ⟨h1, h2⟩)
    · exact Or.inl h
    · exact Or.inr ⟨Or.inr h1, Or.inl h2⟩

/-- The records the specification lists, from the first record on. -/
theorem listedFormat_filter (s : State) (hlayout : TextLayout s)
    (hids : (s.ClipFormats.map CLIPFORMAT.wFormatID).Nodup)
    (r0 : CLIPFORMAT) (rest : List CLIPFORMAT) (hl : s.ClipFormats = r0 :: rest) :
    s.ClipFormats.filter (listedFormat s)
      = (if r0.wDataPresent ≠ 0 ∨ (s.fmt (CF_OEMTEXT - 1)).wDataPresent ≠ 0 then [r0] else [])
        ++ rest.filter (EnumClipboardFormats32.stops s) := by
  have f0 : s.fmt (CF_TEXT - 1) = r0 := by
    simp [State.fmt, hl, CF_TEXT]
  have hid0 : r0.wFormatID = CF_TEXT := by
    rw [← f0]
    exact (TextLayout_ids s hlayout).1
  have hrest : rest.filter (listedFormat s) = rest.filter (EnumClipboardFormats32.stops s) :=
    List.filter_congr (listedFormat_eq_stops s hlayout hids r0 rest hl)
  have hl0 : listedFormat s r0
      = decide (r0.wDataPresent ≠ 0 ∨ (s.fmt (CF_OEMTEXT - 1)).wDataPresent ≠ 0) := by
    unfold listedFormat
    rw [f0]
    apply decide_eq_decide.2
    constructor
    · rintro (h | ⟨-, h⟩)
      · exact Or.inl h
      · exact h
    · intro h
      exact Or.inr ⟨Or.inl hid0, h⟩
  conv_lhs => rw [hl]
  by_cases hc : r0.wDataPresent ≠ 0 ∨ (s.fmt (CF_OEMTEXT - 1)).wDataPresent ≠ 0
  · rw [List.filter_cons_of_pos (by rw [hl0]; exact decide_eq_true hc), if_pos hc, hrest]
    rfl
  · rw [List.filter_cons_of_neg (by rw [hl0]; simpa using hc), if_neg hc, hrest]
    rfl

/-- The number of records the specification lists is the number
`CountClipboardFormats32` computes. -/
theorem listedFormat_count (s : State) (hlayout : TextLayout s)
    (hids : (s.ClipFormats.map CLIPFORMAT.wFormatID).Nodup)
    (hflags : ∀ r ∈ s.ClipFormats, r.wDataPresent = 0 ∨ r.wDataPresent = 1) :
    (((s.ClipFormats.filter (listedFormat s)).length : Nat) : Int)
      = |((s.fmt (CF_TEXT - 1)).wDataPresent : Int) - ((s.fmt (CF_OEMTEXT - 1)).wDataPresent : Int)|
        + ((s.ClipFormats.countP (fun r => decide (r.wDataPresent ≠ 0)) : Nat) : Int) := by
  have huniq := TextLayout_unique s hlayout hids
  obtain ⟨r0, r1, r2, r3, r4, r5, r6, rest, hl, h0, h1, h2, h3, h4, h5, h6⟩ :=
    TextLayout_cons s hlayout
  have f0 : s.fmt (CF_TEXT - 1) = r0 := by
    simp [State.fmt, hl, CF_TEXT]
  have f6 : s.fmt (CF_OEMTEXT - 1) = r6 := by
    simp [State.fmt, hl, CF_OEMTEXT]
  have hinj := List.inj_on_of_nodup_map hids
  have hrest : rest.countP (listedFormat s)
      = rest.countP (fun r => decide (r.wDataPresent ≠ 0)) := by
    apply List.countP_congr
    intro r hr
    have hm : r ∈ s.ClipFormats := by
      rw [hl]
      simp [hr]
    have hne0 : r.wFormatID ≠ CF_TEXT := by
      intro he
      have e := (huniq r hm).1 he
      rw [f0] at e
      subst e
      rw [hl] at hids
      simp only [List.map_cons, List.nodup_cons, List.mem_cons, List.mem_map, not_or] at hids
      exact hids.1.2.2.2.2.2.2 ⟨r, hr, rfl⟩
    have hne6 : r.wFormatID ≠ CF_OEMTEXT := by
      intro he
      have e := (huniq r hm).2 he
      rw [f6] at e
      subst e
      rw [hl] at hids
      simp only [List.map_cons, List.nodup_cons, List.mem_cons, List.mem_map, not_or] at hids
      exact hids.2.2.2.2.2.2.1 ⟨r, hr, rfl⟩
    simp [listedFormat, hne0, hne6]
  have hother : ∀ r : CLIPFORMAT, r.wFormatID ≠ CF_TEXT → r.wFormatID ≠ CF_OEMTEXT →
      listedFormat s r = decide (r.wDataPresent ≠ 0) := by
    intro r n0 n6
    simp [listedFormat, n0, n6]
  have hL1 := hother r1 (by rw [h1]; decide) (by rw [h1]; decide)
  have hL2 := hother r2 (by rw [h2]; decide) (by rw [h2]; decide)
  have hL3 := hother r3 (by rw [h3]; decide) (by rw [h3]; decide)
  have hL4 := hother r4 (by rw [h4]; decide) (by rw [h4]; decide)
  have hL5 := hother r5 (by rw [h5]; decide) (by rw [h5]; decide)
  have hL0 : listedFormat s r0 = decide (r0.wDataPresent ≠ 0 ∨ r6.wDataPresent ≠ 0) := by
    unfold listedFormat
    rw [f0, f6]
    apply decide_eq_decide.2
    constructor
    · rintro (h | ⟨-, h⟩)
      · exact Or.inl h
      · exact h
    · intro h
      exact Or.inr ⟨Or.inl h0, h⟩
  have hL6 : listedFormat s r6 = decide (r0.wDataPresent ≠ 0 ∨ r6.wDataPresent ≠ 0) := by
    unfold listedFormat
    rw [f0, f6]
    apply decide_eq_decide.2
    constructor
    · rintro (h | ⟨-, h⟩)
      · exact Or.inr h
      · exact h
    · intro h
      exact Or.inr ⟨Or.inr h6, h⟩
  have hfl0 : r0.wDataPresent = 0 ∨ r0.wDataPresent = 1 := hflags r0 (by rw [hl]; simp)
  have hfl6 : r6.wDataPresent = 0 ∨ r6.wDataPresent = 1 := hflags r6 (by rw [hl]; simp)
  rw [← List.countP_eq_length_filter, f0, f6]
  conv_lhs => rw [hl]
  conv_rhs => rw [hl]
  simp only [List.countP_cons, hrest]
  rw [hL0, hL1, hL2, hL3, hL4, hL5, hL6]
  generalize List.countP (fun r => decide (r.wDataPresent ≠ 0)) rest = n
  generalize (if decide (r1.wDataPresent ≠ 0) = true then 1 else 0 : Nat) = a1
  generalize (if decide (r2.wDataPresent ≠ 0) = true then 1 else 0 : Nat) = a2
  generalize (if decide (r3.wDataPresent ≠ 0) = true then 1 else 0 : Nat) = a3
  generalize (if decide (r4.wDataPresent ≠ 0) = true then 1 else 0 : Nat) = a4
  generalize (if decide (r5.wDataPresent ≠ 0) = true then 1 else 0 : Nat) = a5
  rcases hfl0 with e0 | e0 <;> rcases hfl6 with e6 | e6 <;> rw [e0, e6] <;> simp <;> omega

theorem getD_append_length (pre rest : List CLIPFORMAT) (z : CLIPFORMAT) :
    (pre ++ z :: rest).getD pre.length default = z := by
  induction pre with
  | nil => rfl
  | cons a pre ih =>
    rw [List.cons_append, List.length_cons, List.getD_cons_succ]
    exact ih

/-- For the id of a record of the chain `CLIPBOARD_IsPresent` answers whether the
specification lists the record. -/
theorem CLIPBOARD_IsPresent_listed (s : State) (hlayout : TextLayout s)
    (hids : (s.ClipFormats.map CLIPFORMAT.wFormatID).Nodup) :
    ∀ r ∈ s.ClipFormats, CLIPBOARD_IsPresent r.wFormatID s = listedFormat s r := by
  have huniq := TextLayout_unique s hlayout hids
  intro r hr
  unfold CLIPBOARD_IsPresent listedFormat
  by_cases ht : r.wFormatID = CF_TEXT ∨ r.wFormatID = CF_OEMTEXT
  · rw [if_pos ht]
    apply decide_eq_decide.2
    constructor
    · intro h
      exact Or.inr ⟨ht, h⟩
    · rintro (h | ⟨-, h⟩)
      · rcases ht with e | e
        · left
          rw [← (huniq r hr).1 e]
          exact h
        · right
          rw [← (huniq r hr).2 e]
          exact h
      · exact h
  · rw [if_neg ht]
    obtain ⟨pre, rest, hl⟩ := List.append_of_mem hr
    have hpre : ∀ x ∈ pre, x.wFormatID ≠ r.wFormatID := by
      intro x hx he
      rw [hl, List.map_append, List.map_cons] at hids
      have hd := (List.nodup_append.1 hids).2.2
      exact hd (List.mem_map_of_mem _ hx) (by rw [he]; exact List.mem_cons_self _ _)
    have hw : walkToFormat s.ClipFormats r.wFormatID 0 = some pre.length := by
      rw [hl, walkToFormat_append pre rest r 0 hpre, Nat.zero_add]
    have hf : s.fmt pre.length = r := by
      rw [State.fmt, hl]
      exact getD_append_length pre rest r
    rw [hw]
    simp only []
    rw [hf]
    apply decide_eq_decide.2
    constructor
    · intro h
      exact Or.inl h
    · rintro (h | ⟨h, -⟩)
      · exact h
      · exact absurd h ht

/-- Claim C28, amended: with the clipboard open, the selection held, every
data-present flag 0 or 1, the built-in records at the head of the chain and the
ids of the chain pairwise different and none of them 0, the loop
`f = EnumClipboardFormats32(f)` from 0, given more calls than the chain has
records, ends with the result 0 and leaves the state as it was; it has visited,
in chain order, the ids of the records the specification lists, which are
pairwise different, and their number is the result of `CountClipboardFormats32`;
the records listed are those for whose id `CLIPBOARD_IsPresent` answers true. -/
theorem enumerateFormats_spec (env : Env) (fuel calls : Nat) (s : State)
    (hopen : s.hWndClipWindow ≠ 0) (hsel : s.selectionAcquired = true)
    (hflags : ∀ r ∈ s.ClipFormats, r.wDataPresent = 0 ∨ r.wDataPresent = 1)
    (hlayout : TextLayout s)
    (hids : (s.ClipFormats.map CLIPFORMAT.wFormatID).Nodup)
    (hnz : ∀ r ∈ s.ClipFormats, r.wFormatID ≠ 0)
    (hcalls : s.ClipFormats.length < calls) :
    enumerateFormats env fuel calls 0 s
      = some ((s.ClipFormats.filter (listedFormat s)).map CLIPFORMAT.wFormatID, s) ∧
    ((s.ClipFormats.filter (listedFormat s)).map CLIPFORMAT.wFormatID).Nodup ∧
    CountClipboardFormats32 env fuel s
      = some ((((s.ClipFormats.filter (listedFormat s)).map CLIPFORMAT.wFormatID).length : Int),
          s) ∧
    (∀ r ∈ s.ClipFormats, listedFormat s r = CLIPBOARD_IsPresent r.wFormatID s) := by
  refine ⟨?_, ?_, ?_, fun r hr => (CLIPBOARD_IsPresent_listed s hlayout hids r hr).symm⟩
  · obtain ⟨r0, rest, hl⟩ : ∃ r0 rest, s.ClipFormats = r0 :: rest := by
      obtain ⟨r0, r1, r2, r3, r4, r5, r6, rest, hl, -⟩ := TextLayout_cons s hlayout
      exact ⟨r0, _, hl⟩
    obtain ⟨c, rfl⟩ : ∃ c, calls = c + 1 := ⟨calls - 1, by omega⟩
    have hc : rest.length < c := by
      rw [hl, List.length_cons] at hcalls
      omega
    have hr0 : r0.wFormatID ≠ 0 := hnz r0 (by rw [hl]; simp)
    have hl0 : s.ClipFormats = [] ++ r0 :: rest := hl
    have hfrom := enumerateFormats_from env fuel s hopen hsel hids hnz rest [] r0
    rw [enumerateFormats_step env fuel c 0 _ s
        (EnumClipboardFormats32_zero env fuel s r0 rest hl hopen hsel),
      listedFormat_filter s hlayout hids r0 rest hl]
    by_cases hT : r0.wDataPresent ≠ 0 ∨ (s.fmt (CF_OEMTEXT - 1)).wDataPresent ≠ 0
    · rw [if_pos hT, if_pos hT, if_neg hr0, hfrom c hl0 hc]
      rfl
    · rw [if_neg hT, if_neg hT]
      have e1 := enumerateFormats_step env fuel c _ _ s
        (EnumClipboardFormats32_at env fuel s [] rest r0 hl0 (fun x hx => by simp at hx) hr0
          hopen hsel)
      rw [← e1, hfrom (c + 1) hl0 (by omega)]
      rfl
  · exact hids.sublist (List.Sublist.map _ (List.filter_sublist _))
  · unfold CountClipboardFormats32
    rw [if_neg (not_not.2 hsel)]
    simp only []
    rw [CountClipboardFormats32_loop_spec, List.length_map,
      listedFormat_count s hlayout hids hflags, Int.zero_add]

theorem enumerateFormats_spec_witness :
    enumerateFormats Env.quiet 0 17 0
        (SetClipboardData16 Env.quiet CF_TEXT 1 (OpenClipboard32 5 State.initial).2).2
      = some ([CF_TEXT, CF_OEMTEXT],
          (SetClipboardData16 Env.quiet CF_TEXT 1 (OpenClipboard32 5 State.initial).2).2) ∧
    CountClipboardFormats32 Env.quiet 0
        (SetClipboardData16 Env.quiet CF_TEXT 1 (OpenClipboard32 5 State.initial).2).2
      = some (2, (SetClipboardData16 Env.quiet CF_TEXT 1 (OpenClipboard32 5 State.initial).2).2) :=
  ⟨(enumerateFormats_spec Env.quiet 0 17
      (SetClipboardData16 Env.quiet CF_TEXT 1 (OpenClipboard32 5 State.initial).2).2
      (by decide) (by decide) (by decide) (by unfold TextLayout; decide) (by decide) (by decide)
      (by decide)).1,
   (enumerateFormats_spec Env.quiet 0 17
      (SetClipboardData16 Env.quiet CF_TEXT 1 (OpenClipboard32 5 State.initial).2).2
      (by decide) (by decide) (by decide) (by unfold TextLayout; decide) (by decide) (by decide)
      (by decide)).2.2.1⟩

/-! ## The enumeration after the id counter has wrapped -/

theorem set_append_length (pre rest : List CLIPFORMAT) (z x : CLIPFORMAT) :
    (pre ++ z :: rest).set pre.length x = pre ++ x :: rest := by
  induction pre with
  | nil => rfl
  | cons a pre ih =>
    rw [List.cons_append, List.length_cons, List.set_cons_succ, ih]
    rfl

/-- Setting data in a record that holds none writes the flag and the handle of
that record and nothing else of the chain. -/
theorem SetClipboardData16_fresh (env : Env) (wFormat hData lp : Nat) (s : State)
    (hw : walkToFormat s.ClipFormats wFormat 0 = some lp)
    (hwp : (s.fmt lp).wDataPresent = 0) (hh : (s.fmt lp).hData = 0) :
    (SetClipboardData16 env wFormat hData s).2.ClipFormats
      = s.ClipFormats.set lp { s.fmt lp with wDataPresent := 1, hData := hData } ∧
    (SetClipboardData16 env wFormat hData s).2.hWndClipWindow = s.hWndClipWindow ∧
    (SetClipboardData16 env wFormat hData s).2.selectionAcquired
      = (SetClipboardData16.acquire env wFormat s).selectionAcquired := by
  have hlt : lp < s.ClipFormats.length := by
    have := (walkToFormat_bound _ _ _ _ hw).2
    omega
  obtain ⟨a1, a2, -⟩ := SetClipboardData16_acquire_frame env wFormat s
  have hfmt : (SetClipboardData16.acquire env wFormat s).fmt lp = s.fmt lp := by
    simp only [State.fmt, a1]
  have hd : SetClipboardData16.discard wFormat lp (SetClipboardData16.acquire env wFormat s)
      = SetClipboardData16.acquire env wFormat s := by
    unfold SetClipboardData16.discard
    rw [if_neg]
    rw [hfmt, hwp, hh]
    simp
  rw [SetClipboardData16_blocks, hw]
  simp only []
  rw [hd]
  generalize SetClipboardData16.acquire env wFormat s = sA at a1 a2 hfmt
  refine ⟨?_, a2, rfl⟩
  unfold SetClipboardData16.store
  simp only [State.setFmt, State.fmt, a1]
  simp [List.getD_eq_getElem?_getD, hlt, List.getElem?_set]

theorem SetClipboardData16_acquire_quiet (s : State) :
    (SetClipboardData16.acquire Env.quiet CF_TEXT s).selectionAcquired = true ∧
    (SetClipboardData16.acquire Env.quiet 0 s).selectionAcquired = s.selectionAcquired := by
  constructor
  · unfold SetClipboardData16.acquire
    by_cases hc : ¬ s.selectionAcquired = true ∧ (CF_TEXT = CF_TEXT ∨ CF_TEXT = CF_OEMTEXT)
    · rw [if_pos hc]
      simp [XSetSelectionOwner, XGetSelectionOwner, Env.quiet]
    · rw [if_neg hc]
      by_contra hn
      exact hc ⟨hn, Or.inl rfl⟩
  · unfold SetClipboardData16.acquire
    rw [if_neg]
    intro h
    rcases h.2 with e | e
    · exact absurd e (by decide)
    · exact absurd e (by decide)

theorem RegisterClipboardFormat16_window (FormatName : Option String) (s : State) :
    (RegisterClipboardFormat16 FormatName s).2.hWndClipWindow = s.hWndClipWindow := by
  unfold RegisterClipboardFormat16
  split
  · rfl
  · split <;> rfl

theorem registerAll_frame (names : List String) (s : State) :
    (registerAll names s).hWndClipWindow = s.hWndClipWindow ∧
    (registerAll names s).selectionAcquired = s.selectionAcquired := by
  induction names generalizing s with
  | nil => exact ⟨rfl, rfl⟩
  | cons name rest ih =>
    rw [registerAll]
    obtain ⟨i1, i2⟩ := ih (RegisterClipboardFormat16 (some name) s).2
    exact ⟨i1.trans (RegisterClipboardFormat16_window _ s),
      i2.trans (RegisterClipboardFormat16_selection _ s).1⟩

/-- The records appended for names that have no record yet carry the successive
values of the 16-bit id counter. -/
theorem registerAll_xNames_formats (n j : Nat) (s : State) (hL : s.LastRegFormat < 65536)
    (h : ∀ r ∈ s.ClipFormats, ∀ i, j ≤ i → r.Name ≠ xName i) :
    (registerAll ((List.range' j n).map xName) s).ClipFormats
      = s.ClipFormats ++ (List.range n).map
          (fun k => CLIPFORMAT.mk ((s.LastRegFormat + k) % 65536) 1 0 (xName (j + k)) 0 0) := by
  induction n generalizing j s with
  | zero => simp [registerAll]
  | succ n ih =>
    have hw : RegisterClipboardFormat16.walk s.ClipFormats (xName j) 0 = none :=
      (RegisterClipboardFormat16_walk_none _ _ _).2 (fun r hr => h r hr j (Nat.le_refl _))
    rw [List.range'_succ, List.map_cons, registerAll, RegisterClipboardFormat16_new s _ hw]
    simp only []
    have ih1 := ih (j + 1)
      ({ s with ClipFormats := s.ClipFormats ++ [CLIPFORMAT.mk s.LastRegFormat 1 0 (xName j) 0 0],
                LastRegFormat := (s.LastRegFormat + 1) % 65536 } : State)
      (Nat.mod_lt _ (by decide))
      (by
        intro r hr i hi
        simp only [List.mem_append, List.mem_singleton] at hr
        rcases hr with hr | hr
        · exact h r hr i (by omega)
        · rw [hr]
          exact xName_ne j i (by omega))
    rw [ih1]
    simp only []
    rw [List.range_succ_eq_map, List.map_cons, List.map_map, List.append_assoc,
      List.singleton_append]
    congr 2
    · simp only [Nat.add_zero]
      rw [Nat.mod_eq_of_lt hL]
    · apply List.map_congr_left
      intro k _
      simp only [Function.comp]
      have e1 : ((s.LastRegFormat + 1) % 65536 + k) % 65536
          = (s.LastRegFormat + (k + 1)) % 65536 := by omega
      have e2 : j + 1 + k = j + (k + 1) := by omega
      rw [e1, e2]

theorem EnumClipboardFormats32_next_skip (s : State) (l1 l2 : List CLIPFORMAT)
    (h : ∀ r ∈ l1, ¬ (r.wDataPresent ≠ 0 ∨
      (r.wFormatID = CF_OEMTEXT ∧ (s.fmt (CF_TEXT - 1)).wDataPresent ≠ 0))) :
    EnumClipboardFormats32.next s (l1 ++ l2) = EnumClipboardFormats32.next s l2 := by
  induction l1 with
  | nil => rfl
  | cons r rest ih =>
    rw [List.cons_append, EnumClipboardFormats32.next, if_neg (h r (List.mem_cons_self _ _))]
    exact ih (fun x hx => h x (List.mem_cons_of_mem _ hx))

/-- The enumeration and the count on a chain whose text record has data present
and whose last record has the id 0 and data present, no other record having
data present. -/
theorem enumerateFormats_shape (env : Env) (fuel c : Nat) (s : State)
    (r0 c6 z : CLIPFORMAT) (mid1 mid2 : List CLIPFORMAT)
    (hl : s.ClipFormats = r0 :: (mid1 ++ c6 :: (mid2 ++ [z])))
    (hopen : s.hWndClipWindow ≠ 0) (hsel : s.selectionAcquired = true)
    (h0 : r0.wFormatID = CF_TEXT ∧ r0.wDataPresent = 1)
    (hlen : mid1.length = 5)
    (hmid1 : ∀ r ∈ mid1, r.wDataPresent = 0 ∧ r.wFormatID ≠ CF_OEMTEXT)
    (h6 : c6.wFormatID = CF_OEMTEXT ∧ c6.wDataPresent = 0)
    (hmid2 : ∀ r ∈ mid2, r.wDataPresent = 0 ∧ r.wFormatID ≠ CF_OEMTEXT)
    (hz : z.wFormatID = 0 ∧ z.wDataPresent = 1) :
    enumerateFormats env fuel (c + 3) 0 s = some ([CF_TEXT, CF_OEMTEXT], s) ∧
    CountClipboardFormats32 env fuel s = some (3, s) ∧
    (∀ r ∈ s.ClipFormats, r.wDataPresent = 0 ∨ r.wDataPresent = 1) := by
  have f0 : s.fmt (CF_TEXT - 1) = r0 := by
    simp [State.fmt, hl, CF_TEXT]
  have f6 : s.fmt (CF_OEMTEXT - 1) = c6 := by
    have := getD_append_length mid1 (mid2 ++ [z]) c6
    rw [hlen] at this
    simp only [State.fmt, hl, CF_OEMTEXT]
    exact this
  have hT : (s.fmt (CF_TEXT - 1)).wDataPresent ≠ 0 := by
    rw [f0, h0.2]
    decide
  have hskip : ∀ l : List CLIPFORMAT, (∀ r ∈ l, r.wDataPresent = 0 ∧ r.wFormatID ≠ CF_OEMTEXT) →
      ∀ r ∈ l, ¬ (r.wDataPresent ≠ 0 ∨
        (r.wFormatID = CF_OEMTEXT ∧ (s.fmt (CF_TEXT - 1)).wDataPresent ≠ 0)) := by
    intro l hlm r hr hc
    rcases hc with hc | hc
    · exact hc (hlm r hr).1
    · exact (hlm r hr).2 hc.1
  have hr0 : r0.wFormatID ≠ 0 := by
    rw [h0.1]
    decide
  have hc6 : c6.wFormatID ≠ 0 := by
    rw [h6.1]
    decide
  have e0 : EnumClipboardFormats32 env fuel 0 s = some (CF_TEXT, s) := by
    rw [EnumClipboardFormats32_zero env fuel s r0 _ hl hopen hsel,
      if_pos (Or.inl (by rw [h0.2]; decide)), h0.1]
  have e1 : EnumClipboardFormats32 env fuel CF_TEXT s = some (CF_OEMTEXT, s) := by
    have := EnumClipboardFormats32_at env fuel s [] _ r0 hl (fun x hx => by simp at hx) hr0
      hopen hsel
    rw [h0.1] at this
    rw [this, EnumClipboardFormats32_next_skip s mid1 _ (hskip mid1 hmid1),
      EnumClipboardFormats32.next, if_pos (Or.inr ⟨h6.1, hT⟩), h6.1]
  have e2 : EnumClipboardFormats32 env fuel CF_OEMTEXT s = some (0, s) := by
    have hpre : ∀ x ∈ r0 :: mid1, x.wFormatID ≠ c6.wFormatID := by
      intro x hx
      rcases List.mem_cons.1 hx with e | e
      · rw [e, h0.1, h6.1]
        decide
      · rw [h6.1]
        exact (hmid1 x e).2
    have := EnumClipboardFormats32_at env fuel s (r0 :: mid1) (mid2 ++ [z]) c6 hl hpre hc6
      hopen hsel
    rw [h6.1] at this
    rw [this, EnumClipboardFormats32_next_skip s mid2 _ (hskip mid2 hmid2),
      EnumClipboardFormats32.next, if_pos (Or.inl (by rw [hz.2]; decide)), hz.1]
  refine ⟨?_, ?_, ?_⟩
  · have s1 := enumerateFormats_step env fuel (c + 2) 0 CF_TEXT s e0
    have s2 := enumerateFormats_step env fuel (c + 1) CF_TEXT CF_OEMTEXT s e1
    have s3 := enumerateFormats_step env fuel c CF_OEMTEXT 0 s e2
    rw [if_pos rfl] at s3
    rw [if_neg (by decide), s3] at s2
    rw [if_neg (by decide), s2] at s1
    exact s1
  · have hm1 : mid1.countP (fun r => decide (r.wDataPresent ≠ 0)) = 0 :=
      List.countP_eq_zero.2 (fun r hr => by simp [(hmid1 r hr).1])
    have hm2 : mid2.countP (fun r => decide (r.wDataPresent ≠ 0)) = 0 :=
      List.countP_eq_zero.2 (fun r hr => by simp [(hmid2 r hr).1])
    unfold CountClipboardFormats32
    rw [if_neg (not_not.2 hsel)]
    simp only []
    rw [CountClipboardFormats32_loop_spec, f0, f6, h0.2, h6.2, hl]
    simp only [List.countP_cons, List.countP_append, List.countP_nil, hm1, hm2]
    simp [h0.2, h6.2, hz.2]
  · intro r hr
    rw [hl] at hr
    simp only [List.mem_cons, List.mem_append, List.mem_singleton, List.not_mem_nil,
      or_false] at hr
    rcases hr with e | e | e | e | e
    · rw [e]
      exact Or.inr h0.2
    · exact Or.inl (hmid1 r e).1
    · rw [e]
      exact Or.inl h6.2
    · exact Or.inl (hmid2 r e).1
    · rw [e]
      exact Or.inr hz.2

/-- The chain after text data and data for the format 0 were set in an open
clipboard whose chain is the start-up table, then records without data, then a
record with the id 0. -/
theorem wrapped_shape (sR : State) (big : List CLIPFORMAT) (name : String)
    (hR : sR.ClipFormats = Clipboard.ClipFormats ++ (big ++ [CLIPFORMAT.mk 0 1 0 name 0 0]))
    (hwin : sR.hWndClipWindow = 0)
    (hbig : ∀ r ∈ big, r.wDataPresent = 0 ∧ 49152 ≤ r.wFormatID) :
    (SetClipboardData16 Env.quiet 0 2
      (SetClipboardData16 Env.quiet CF_TEXT 1 (OpenClipboard32 5 sR).2).2).2.ClipFormats
      = CLIPFORMAT.mk CF_TEXT 1 1 "Text" 1 0 ::
          ((Clipboard.ClipFormats.tail).take 5 ++ CLIPFORMAT.mk CF_OEMTEXT 1 0 "OEM Text" 0 0 ::
            ((Clipboard.ClipFormats.drop 7 ++ big) ++ [CLIPFORMAT.mk 0 1 1 name 2 0])) ∧
    (SetClipboardData16 Env.quiet 0 2
      (SetClipboardData16 Env.quiet CF_TEXT 1 (OpenClipboard32 5 sR).2).2).2.hWndClipWindow = 5 ∧
    (SetClipboardData16 Env.quiet 0 2
      (SetClipboardData16 Env.quiet CF_TEXT 1 (OpenClipboard32 5 sR).2).2).2.selectionAcquired
      = true := by
  have hC : Clipboard.ClipFormats = CLIPFORMAT.mk CF_TEXT 1 0 "Text" 0 0 ::
      ((Clipboard.ClipFormats.tail).take 5 ++ CLIPFORMAT.mk CF_OEMTEXT 1 0 "OEM Text" 0 0 ::
        Clipboard.ClipFormats.drop 7) := rfl
  have hsmall : ∀ r ∈ (Clipboard.ClipFormats.tail).take 5 ++
      CLIPFORMAT.mk CF_OEMTEXT 1 0 "OEM Text" 0 0 :: Clipboard.ClipFormats.drop 7,
      r.wFormatID ≠ 0 := by decide
  generalize hm1 : (Clipboard.ClipFormats.tail).take 5 = mid1 at hC hsmall ⊢
  generalize hm2 : Clipboard.ClipFormats.drop 7 = mid2 at hC hsmall ⊢
  rw [hC] at hR
  -- the open
  have hO1 : (OpenClipboard32 5 sR).2.ClipFormats = sR.ClipFormats := OpenClipboard32_formats 5 sR
  have hO2 : (OpenClipboard32 5 sR).2.hWndClipWindow = 5 := by
    unfold OpenClipboard32
    simp [hwin]
  generalize (OpenClipboard32 5 sR).2 = sO at hO1 hO2
  rw [hR] at hO1
  -- the text data
  have hwT : walkToFormat sO.ClipFormats CF_TEXT 0 = some 0 := by
    rw [hO1]
    exact walkToFormat_append [] _ (CLIPFORMAT.mk CF_TEXT 1 0 "Text" 0 0) 0
      (fun x hx => by simp at hx)
  have hfT : sO.fmt 0 = CLIPFORMAT.mk CF_TEXT 1 0 "Text" 0 0 := by
    simp [State.fmt, hO1]
  obtain ⟨t1, t2, t3⟩ := SetClipboardData16_fresh Env.quiet CF_TEXT 1 0 sO hwT
    (by rw [hfT]) (by rw [hfT])
  rw [(SetClipboardData16_acquire_quiet sO).1] at t3
  rw [hO2] at t2
  rw [hfT, hO1, List.cons_append, List.set_cons_zero] at t1
  generalize (SetClipboardData16 Env.quiet CF_TEXT 1 sO).2 = sT at t1 t2 t3
  -- the data for the format 0
  have hT1 : sT.ClipFormats
      = (CLIPFORMAT.mk CF_TEXT 1 1 "Text" 1 0 ::
          (mid1 ++ CLIPFORMAT.mk CF_OEMTEXT 1 0 "OEM Text" 0 0 :: (mid2 ++ big)))
        ++ CLIPFORMAT.mk 0 1 0 name 0 0 :: [] := by
    rw [t1]
    simp
  have hpre : ∀ x ∈ CLIPFORMAT.mk CF_TEXT 1 1 "Text" 1 0 ::
      (mid1 ++ CLIPFORMAT.mk CF_OEMTEXT 1 0 "OEM Text" 0 0 :: (mid2 ++ big)),
      x.wFormatID ≠ (CLIPFORMAT.mk 0 1 0 name 0 0).wFormatID := by
    intro x hx
    simp only [List.mem_cons, List.mem_append] at hx hsmall
    rcases hx with e | e | e | e | e
    · rw [e]
      show CF_TEXT ≠ 0
      decide
    · exact hsmall x (Or.inl e)
    · exact hsmall x (Or.inr (Or.inl e))
    · exact hsmall x (Or.inr (Or.inr e))
    · have := (hbig x e).2
      show x.wFormatID ≠ 0
      omega
  have hwZ := walkToFormat_append _ [] (CLIPFORMAT.mk 0 1 0 name 0 0) 0 hpre
  rw [← hT1, Nat.zero_add] at hwZ
  have hfZ := getD_append_length (CLIPFORMAT.mk CF_TEXT 1 1 "Text" 1 0 ::
      (mid1 ++ CLIPFORMAT.mk CF_OEMTEXT 1 0 "OEM Text" 0 0 :: (mid2 ++ big))) []
      (CLIPFORMAT.mk 0 1 0 name 0 0)
  rw [← hT1] at hfZ
  obtain ⟨z1, z2, z3⟩ := SetClipboardData16_fresh Env.quiet 0 2 _ sT hwZ
    (by rw [State.fmt, hfZ]) (by rw [State.fmt, hfZ])
  rw [(SetClipboardData16_acquire_quiet sT).2, t3] at z3
  rw [t2] at z2
  refine ⟨?_, z2, z3⟩
  rw [z1, State.fmt, hfZ, hT1, set_append_length]
  simp

theorem xNames_eq (n : Nat) : xNames n = (List.range' 0 n).map xName := by
  unfold xNames
  rw [List.range_eq_range']

/-- The claim C28 read on the code fails once the 16-bit id counter has wrapped:
in the state reached from start-up by registering 16385 new names, opening the
clipboard and setting data for the text format and for the format 0, the
clipboard is open, the selection is held and every data-present flag is 0 or 1,
yet the loop `f = EnumClipboardFormats32(f)` stops after the two text formats,
at the record with the id 0, while `CountClipboardFormats32` counts 3. -/
theorem enumerateFormats_wrapped :
    Reachable Env.quiet (SetClipboardData16 Env.quiet 0 2
      (SetClipboardData16 Env.quiet CF_TEXT 1
        (OpenClipboard32 5 (registerAll (xNames 16385) State.initial)).2).2).2 ∧
    (SetClipboardData16 Env.quiet 0 2
      (SetClipboardData16 Env.quiet CF_TEXT 1
        (OpenClipboard32 5 (registerAll (xNames 16385) State.initial)).2).2).2.hWndClipWindow
      ≠ 0 ∧
    (SetClipboardData16 Env.quiet 0 2
      (SetClipboardData16 Env.quiet CF_TEXT 1
        (OpenClipboard32 5 (registerAll (xNames 16385) State.initial)).2).2).2.selectionAcquired
      = true ∧
    (∀ r ∈ (SetClipboardData16 Env.quiet 0 2
      (SetClipboardData16 Env.quiet CF_TEXT 1
        (OpenClipboard32 5 (registerAll (xNames 16385) State.initial)).2).2).2.ClipFormats,
      r.wDataPresent = 0 ∨ r.wDataPresent = 1) ∧
    (∀ calls, 3 ≤ calls →
      enumerateFormats Env.quiet 0 calls 0 (SetClipboardData16 Env.quiet 0 2
        (SetClipboardData16 Env.quiet CF_TEXT 1
          (OpenClipboard32 5 (registerAll (xNames 16385) State.initial)).2).2).2
        = some ([CF_TEXT, CF_OEMTEXT], (SetClipboardData16 Env.quiet 0 2
            (SetClipboardData16 Env.quiet CF_TEXT 1
              (OpenClipboard32 5 (registerAll (xNames 16385) State.initial)).2).2).2)) ∧
    CountClipboardFormats32 Env.quiet 0 (SetClipboardData16 Env.quiet 0 2
      (SetClipboardData16 Env.quiet CF_TEXT 1
        (OpenClipboard32 5 (registerAll (xNames 16385) State.initial)).2).2).2
      = some (3, (SetClipboardData16 Env.quiet 0 2
          (SetClipboardData16 Env.quiet CF_TEXT 1
            (OpenClipboard32 5 (registerAll (xNames 16385) State.initial)).2).2).2) := by
  refine ⟨Reachable.dataSet _ 0 2 (Reachable.dataSet _ CF_TEXT 1 (Reachable.opened _ 5
      (Reachable_registerAll Env.quiet (xNames 16385) State.initial Reachable.initial))), ?_⟩
  have hR0 := registerAll_xNames_formats 16385 0 State.initial (by decide)
    (fun r hr i _ => xName_not_builtin i r hr)
  rw [← xNames_eq] at hR0
  have hsplit : (List.range 16385).map
      (fun k => CLIPFORMAT.mk ((State.initial.LastRegFormat + k) % 65536) 1 0
        (xName (0 + k)) 0 0)
      = (List.range 16384).map (fun k => CLIPFORMAT.mk ((49152 + k) % 65536) 1 0 (xName k) 0 0)
        ++ [CLIPFORMAT.mk 0 1 0 (xName 16384) 0 0] := by
    have h1 : (16385 : Nat) = 16384 + 1 := rfl
    have hbase : State.initial.LastRegFormat = 49152 := rfl
    have hid : (49152 + 16384) % 65536 = 0 := by decide
    rw [h1, List.range_succ, List.map_append, List.map_singleton, hbase]
    simp only [Nat.zero_add, hid]
  have hR : (registerAll (xNames 16385) State.initial).ClipFormats
      = Clipboard.ClipFormats ++
        ((List.range 16384).map (fun k => CLIPFORMAT.mk ((49152 + k) % 65536) 1 0 (xName k) 0 0)
          ++ [CLIPFORMAT.mk 0 1 0 (xName 16384) 0 0]) := by
    rw [hR0, hsplit]
    rfl
  have hbig : ∀ r ∈ (List.range 16384).map
      (fun k => CLIPFORMAT.mk ((49152 + k) % 65536) 1 0 (xName k) 0 0),
      r.wDataPresent = 0 ∧ 49152 ≤ r.wFormatID := by
    intro r hr
    obtain ⟨k, hk, rfl⟩ := List.mem_map.1 hr
    have hk1 := List.mem_range.1 hk
    refine ⟨rfl, ?_⟩
    show 49152 ≤ (49152 + k) % 65536
    omega
  have hwin : (registerAll (xNames 16385) State.initial).hWndClipWindow = 0 :=
    (registerAll_frame _ _).1
  obtain ⟨w1, w2, w3⟩ := wrapped_shape _ _ (xName 16384) hR hwin hbig
  generalize (SetClipboardData16 Env.quiet 0 2
      (SetClipboardData16 Env.quiet CF_TEXT 1
        (OpenClipboard32 5 (registerAll (xNames 16385) State.initial)).2).2).2 = sW
    at w1 w2 w3 ⊢
  have hopen : sW.hWndClipWindow ≠ 0 := by
    rw [w2]
    decide
  have hmid1 : ∀ r ∈ (Clipboard.ClipFormats.tail).take 5,
      r.wDataPresent = 0 ∧ r.wFormatID ≠ CF_OEMTEXT := by decide
  have hdrop : ∀ r ∈ Clipboard.ClipFormats.drop 7,
      r.wDataPresent = 0 ∧ r.wFormatID ≠ CF_OEMTEXT := by decide
  have hmid2 : ∀ r ∈ Clipboard.ClipFormats.drop 7 ++ (List.range 16384).map
      (fun k => CLIPFORMAT.mk ((49152 + k) % 65536) 1 0 (xName k) 0 0),
      r.wDataPresent = 0 ∧ r.wFormatID ≠ CF_OEMTEXT := by
    intro r hr
    rcases List.mem_append.1 hr with e | e
    · exact hdrop r e
    · refine ⟨(hbig r e).1, ?_⟩
      have := (hbig r e).2
      unfold CF_OEMTEXT
      omega
  have key := fun c => enumerateFormats_shape Env.quiet 0 c sW _ _ _ _ _ w1 hopen w3
    ⟨rfl, rfl⟩ rfl hmid1 ⟨rfl, rfl⟩ hmid2 ⟨rfl, rfl⟩
  refine ⟨hopen, w3, (key 0).2.2, ?_, (key 0).2.1⟩
  intro calls hcalls
  obtain ⟨c, rfl⟩ : ∃ c, calls = c + 3 := ⟨calls - 3, by omega⟩
  exact (key c).1

end Clipboard

namespace File

/-! ## The file layer: what touches the handle table -/

/-- Two states with the same handle table and the same event log. -/
theorem modifyObject_htab (ptr : Nat) (f : FILE_OBJECT → FILE_OBJECT) (s : State) :
    (modifyObject ptr f s).handles = s.handles ∧ (modifyObject ptr f s).events = s.events := by
  unfold modifyObject
  split <;> simp

theorem FILE_Destroy_htab (ptr : Nat) (s : State) :
    (FILE_Destroy ptr s).handles = s.handles ∧ (FILE_Destroy ptr s).events = s.events := by
  unfold FILE_Destroy
  split
  · simp
  · simp only []
    split <;> simp [sys_close]

theorem K32OBJ_IncCount_htab (ptr : Nat) (s : State) :
    (K32OBJ_IncCount ptr s).handles = s.handles ∧ (K32OBJ_IncCount ptr s).events = s.events :=
  modifyObject_htab _ _ _

theorem K32OBJ_DecCount_htab (ptr : Nat) (s : State) :
    (K32OBJ_DecCount ptr s).handles = s.handles ∧ (K32OBJ_DecCount ptr s).events = s.events := by
  unfold K32OBJ_DecCount
  split
  · simp
  · split
    · exact ⟨(FILE_Destroy_htab _ _).1.trans (modifyObject_htab _ _ _).1,
        (FILE_Destroy_htab _ _).2.trans (modifyObject_htab _ _ _).2⟩
    · exact modifyObject_htab _ _ _

theorem FILE_SetDosError_htab (s : State) :
    (FILE_SetDosError s).handles = s.handles ∧ (FILE_SetDosError s).events = s.events := by
  unfold FILE_SetDosError
  split <;> simp [DOS_ERROR]

theorem sys_open_htab (env : Env) (name : String) (flags : OpenFlags) (mode : Nat) (s : State) :
    (sys_open env name flags mode s).2.handles = s.handles ∧
    (sys_open env name flags mode s).2.events = s.events := by
  unfold sys_open
  simp only []
  split
  · simp
  · split
    · split_ifs <;> simp
    · split <;> simp

theorem sys_fstat_htab (env : Env) (fd : Int) (s : State) :
    (sys_fstat env fd s).2.handles = s.handles ∧ (sys_fstat env fd s).2.events = s.events := by
  unfold sys_fstat
  simp only []
  split
  · simp
  · split
    · simp
    · split <;> simp

theorem sys_read_htab (env : Env) (fd : Int) (count : Nat) (s : State) :
    (sys_read env fd count s).2.2.handles = s.handles ∧
    (sys_read env fd count s).2.2.events = s.events := by
  unfold sys_read
  simp only []
  split
  · simp
  · split
    · simp
    · split
      · simp
      · split
        · simp
        · split <;> simp

theorem sys_write_htab (env : Env) (fd : Int) (buffer : List Nat) (count : Nat) (s : State) :
    (sys_write env fd buffer count s).2.handles = s.handles ∧
    (sys_write env fd buffer count s).2.events = s.events := by
  unfold sys_write
  simp only []
  split
  · simp
  · split
    · simp
    · split
      · simp
      · split
        · simp
        · split <;> simp

theorem sys_lseek_cur_htab (env : Env) (fd : Int) (s : State) :
    (sys_lseek_cur env fd s).2.handles = s.handles ∧
    (sys_lseek_cur env fd s).2.events = s.events := by
  unfold sys_lseek_cur
  simp only []
  split
  · simp
  · split <;> simp

theorem sys_ftruncate_htab (env : Env) (fd : Int) (length : Int) (s : State) :
    (sys_ftruncate env fd length s).2.handles = s.handles ∧
    (sys_ftruncate env fd length s).2.events = s.events := by
  unfold sys_ftruncate
  simp only []
  split
  · simp
  · split
    · simp
    · split
      · simp
      · split <;> simp

theorem PROCESS_GetObjPtr_htab (handle : Int) (s : State) :
    (PROCESS_GetObjPtr handle s).2.handles = s.handles ∧
    (PROCESS_GetObjPtr handle s).2.events = s.events := by
  unfold PROCESS_GetObjPtr
  split
  · split
    · exact K32OBJ_IncCount_htab _ _
    · simp
  · simp


theorem GetFileInformationByHandle_htab (env : Env) (hFile : Int) (s : State) :
    (GetFileInformationByHandle env hFile s).2.2.handles = s.handles ∧
    (GetFileInformationByHandle env hFile s).2.2.events = s.events := by
  unfold GetFileInformationByHandle FILE_GetFile FILE_ReleaseFile
  have hg := PROCESS_GetObjPtr_htab hFile s
  generalize PROCESS_GetObjPtr hFile s = g at hg
  obtain ⟨file, s1⟩ := g
  cases file with
  | none => exact hg
  | some file =>
    simp only []
    generalize ((assocFind file s1.objects).map FILE_OBJECT.unix_handle).getD (-1) = fd
    have hf := sys_fstat_htab env fd s1
    generalize sys_fstat env fd s1 = r at hf
    obtain ⟨st, s2⟩ := r
    cases st with
    | none =>
      simp only []
      exact ⟨(K32OBJ_DecCount_htab _ _).1.trans ((FILE_SetDosError_htab _).1.trans (hf.1.trans hg.1)),
        (K32OBJ_DecCount_htab _ _).2.trans ((FILE_SetDosError_htab _).2.trans (hf.2.trans hg.2))⟩
    | some st =>
      simp only []
      exact ⟨(K32OBJ_DecCount_htab _ _).1.trans (hf.1.trans hg.1),
        (K32OBJ_DecCount_htab _ _).2.trans (hf.2.trans hg.2)⟩

theorem _lread32_htab (env : Env) (hFile : Int) (count : Nat) (s : State) :
    (_lread32 env hFile count s).2.2.handles = s.handles ∧
    (_lread32 env hFile count s).2.2.events = s.events := by
  unfold _lread32 FILE_GetFile FILE_ReleaseFile
  have hg := PROCESS_GetObjPtr_htab hFile s
  generalize PROCESS_GetObjPtr hFile s = g at hg
  obtain ⟨file, s1⟩ := g
  cases file with
  | none => exact hg
  | some file =>
    simp only []
    generalize ((assocFind file s1.objects).map FILE_OBJECT.unix_handle).getD (-1) = fd
    by_cases hc : count = 0
    · simp only [hc, if_true]
      exact ⟨(K32OBJ_DecCount_htab _ _).1.trans hg.1, (K32OBJ_DecCount_htab _ _).2.trans hg.2⟩
    · simp only [hc, if_false]
      have hf := sys_read_htab env fd count s1
      generalize sys_read env fd count s1 = r at hf
      obtain ⟨r, bytes, s2⟩ := r
      simp only []
      split
      · exact ⟨(K32OBJ_DecCount_htab _ _).1.trans ((FILE_SetDosError_htab _).1.trans (hf.1.trans hg.1)),
          (K32OBJ_DecCount_htab _ _).2.trans ((FILE_SetDosError_htab _).2.trans (hf.2.trans hg.2))⟩
      · exact ⟨(K32OBJ_DecCount_htab _ _).1.trans (hf.1.trans hg.1),
          (K32OBJ_DecCount_htab _ _).2.trans (hf.2.trans hg.2)⟩

theorem _hwrite32_htab (env : Env) (hFile : Int) (buffer : List Nat) (count : Int) (s : State) :
    (_hwrite32 env hFile buffer count s).2.handles = s.handles ∧
    (_hwrite32 env hFile buffer count s).2.events = s.events := by
  unfold _hwrite32 FILE_GetFile FILE_ReleaseFile
  have hg := PROCESS_GetObjPtr_htab hFile s
  generalize PROCESS_GetObjPtr hFile s = g at hg
  obtain ⟨file, s1⟩ := g
  cases file with
  | none => exact hg
  | some file =>
    simp only []
    generalize ((assocFind file s1.objects).map FILE_OBJECT.unix_handle).getD (-1) = fd
    have key : ∀ r : Int × State, r.2.handles = s1.handles ∧ r.2.events = s1.events →
        (K32OBJ_DecCount file (if r.1 = -1 then FILE_SetDosError r.2 else r.2)).handles = s.handles ∧
        (K32OBJ_DecCount file (if r.1 = -1 then FILE_SetDosError r.2 else r.2)).events = s.events := by
      intro r hr
      split
      · exact ⟨(K32OBJ_DecCount_htab _ _).1.trans ((FILE_SetDosError_htab _).1.trans (hr.1.trans hg.1)),
          (K32OBJ_DecCount_htab _ _).2.trans ((FILE_SetDosError_htab _).2.trans (hr.2.trans hg.2))⟩
      · exact ⟨(K32OBJ_DecCount_htab _ _).1.trans (hr.1.trans hg.1),
          (K32OBJ_DecCount_htab _ _).2.trans (hr.2.trans hg.2)⟩
    by_cases hc : count = 0
    · simp only [hc, if_true]
      have hl := sys_lseek_cur_htab env fd s1
      generalize sys_lseek_cur env fd s1 = l at hl
      obtain ⟨pos, s2⟩ := l
      have ht := sys_ftruncate_htab env fd pos s2
      exact key _ ⟨ht.1.trans hl.1, ht.2.trans hl.2⟩
    · simp only [hc, if_false]
      exact key _ (sys_write_htab env fd buffer (toUINT32 count) s1)

theorem _lwrite32_htab (env : Env) (hFile : Int) (buffer : List Nat) (count : Nat) (s : State) :
    (_lwrite32 env hFile buffer count s).2.handles = s.handles ∧
    (_lwrite32 env hFile buffer count s).2.events = s.events := by
  unfold _lwrite32
  exact _hwrite32_htab env hFile buffer (toINT32 count) s

theorem CopyFile32A_write_htab (env : Env) (h2 : Int) (buffer : List Nat) (fuel : Nat) :
    ∀ (p count : Nat) (s : State) (ret : Bool) (s' : State),
      CopyFile32A.write env h2 buffer fuel p count s = Except.ok (ret, s') →
      s'.handles = s.handles ∧ s'.events = s.events := by
  induction fuel with
  | zero =>
    intro p count s ret s' h
    simp [CopyFile32A.write, throw, throwThe, MonadExceptOf.throw] at h
  | succ fuel ih =>
    intro p count s ret s' h
    unfold CopyFile32A.write at h
    split at h
    · have hw := _lwrite32_htab env h2 (buffer.drop p) count s
      generalize _lwrite32 env h2 (buffer.drop p) count s = w at hw h
      obtain ⟨r, s1⟩ := w
      simp only [] at h
      split at h
      · simp only [pure, Except.pure, Except.ok.injEq, Prod.mk.injEq] at h
        rw [← h.2]
        exact hw
      · have := ih _ _ _ _ _ h
        exact ⟨this.1.trans hw.1, this.2.trans hw.2⟩
    · simp only [pure, Except.pure, Except.ok.injEq, Prod.mk.injEq] at h
      rw [← h.2]
      exact ⟨rfl, rfl⟩

theorem CopyFile32A_copy_htab (env : Env) (h2 : Int) (fuel : Nat) :
    ∀ (buffer : List Nat) (s : State) (ret : Bool) (s' : State),
      CopyFile32A.copy env h2 fuel buffer s = Except.ok (ret, s') →
      s'.handles = s.handles ∧ s'.events = s.events := by
  induction fuel with
  | zero =>
    intro buffer s ret s' h
    simp [CopyFile32A.copy, throw, throwThe, MonadExceptOf.throw] at h
  | succ fuel ih =>
    intro buffer s ret s' h
    unfold CopyFile32A.copy at h
    have hr := _lread32_htab env h2 2048 s
    generalize _lread32 env h2 2048 s = r at hr h
    obtain ⟨count, bytes, s1⟩ := r
    simp only [] at h
    split at h
    · split at h
      · simp [throw, throwThe, MonadExceptOf.throw] at h
      · rename_i s2 hw
        simp only [pure, Except.pure, Except.ok.injEq, Prod.mk.injEq] at h
        have := CopyFile32A_write_htab env h2 _ _ _ _ _ _ _ hw
        rw [← h.2]
        exact ⟨this.1.trans hr.1, this.2.trans hr.2⟩
      · rename_i s2 hw
        have h1 := CopyFile32A_write_htab env h2 _ _ _ _ _ _ _ hw
        have h2 := ih _ _ _ _ h
        exact ⟨h2.1.trans (h1.1.trans hr.1), h2.2.trans (h1.2.trans hr.2)⟩
    · simp only [pure, Except.pure, Except.ok.injEq, Prod.mk.injEq] at h
      rw [← h.2]
      exact hr


/-! ## Association lists and fresh slots -/

theorem assocErase_of_fresh {κ α : Type} [DecidableEq κ] (k : κ) (l : List (κ × α))
    (h : ∀ e ∈ l, e.1 ≠ k) : assocErase k l = l := by
  unfold assocErase
  rw [List.filter_eq_self]
  intro e he
  simpa using h e he

theorem assocFind_of_fresh {κ α : Type} [DecidableEq κ] (k : κ) (l : List (κ × α))
    (h : ∀ e ∈ l, e.1 ≠ k) : assocFind k l = none := by
  induction l with
  | nil => rfl
  | cons e l ih =>
    obtain ⟨k1, v⟩ := e
    have h1 : k1 ≠ k := h (k1, v) (List.mem_cons_self _ _)
    simp only [assocFind, h1, if_false]
    exact ih (fun e he => h e (List.mem_cons_of_mem _ he))

theorem le_foldl_max (l : List Int) (a : Int) :
    a ≤ l.foldl max a ∧ ∀ x ∈ l, x ≤ l.foldl max a := by
  induction l generalizing a with
  | nil => simp
  | cons y l ih =>
    simp only [List.foldl_cons, List.mem_cons, forall_eq_or_imp]
    obtain ⟨h1, h2⟩ := ih (max a y)
    refine ⟨le_trans (le_max_left a y) h1, le_trans (le_max_right a y) h1, h2⟩

theorem lt_freshHandle (l : List (Int × Nat)) : ∀ e ∈ l, e.1 < freshHandle l := by
  intro e he
  have := (le_foldl_max (l.map Prod.fst) 0).2 e.1 (List.mem_map_of_mem _ he)
  unfold freshHandle
  omega

theorem one_le_freshHandle (l : List (Int × Nat)) : 1 ≤ freshHandle l := by
  have := (le_foldl_max (l.map Prod.fst) 0).1
  unfold freshHandle
  omega

theorem freshHandle_fresh (l : List (Int × Nat)) : ∀ e ∈ l, e.1 ≠ freshHandle l :=
  fun e he => ne_of_lt (lt_freshHandle l e he)

/-! ## Allocating and closing a slot -/

theorem PROCESS_AllocHandle_spec (env : Env) (ptr : Nat) (s : State) :
    ((PROCESS_AllocHandle env ptr s).1 = INVALID_HANDLE_VALUE32 ∧
      (PROCESS_AllocHandle env ptr s).2.handles = s.handles ∧
      (PROCESS_AllocHandle env ptr s).2.events = s.events) ∨
    ((PROCESS_AllocHandle env ptr s).1 = freshHandle s.handles ∧
      (PROCESS_AllocHandle env ptr s).2.handles = (freshHandle s.handles, ptr) :: s.handles ∧
      (PROCESS_AllocHandle env ptr s).2.events
        = s.events ++ [Event.AllocHandle (freshHandle s.handles)]) := by
  unfold PROCESS_AllocHandle
  simp only []
  split
  · left
    refine ⟨rfl, ?_, ?_⟩
    · rw [(K32OBJ_DecCount_htab _ _).1, (K32OBJ_IncCount_htab _ _).1]
    · rw [(K32OBJ_DecCount_htab _ _).2, (K32OBJ_IncCount_htab _ _).2]
  · right
    refine ⟨rfl, ?_, ?_⟩
    · simp only [(K32OBJ_IncCount_htab _ _).1, assocInsert]
      rw [assocErase_of_fresh _ _ (freshHandle_fresh s.handles)]
    · simp only [(K32OBJ_IncCount_htab _ _).2]

theorem FILE_Alloc_spec (env : Env) (s : State) :
    ((FILE_Alloc env s).2.1 = none ∧
      ((FILE_Alloc env s).1 = 0 ∨ (FILE_Alloc env s).1 = INVALID_HANDLE_VALUE32) ∧
      (FILE_Alloc env s).2.2.handles = s.handles ∧
      (FILE_Alloc env s).2.2.events = s.events) ∨
    ((FILE_Alloc env s).1 = freshHandle s.handles ∧
      ∃ file, (FILE_Alloc env s).2.1 = some file ∧
      (FILE_Alloc env s).2.2.handles = (freshHandle s.handles, file) :: s.handles ∧
      (FILE_Alloc env s).2.2.events
        = s.events ++ [Event.AllocHandle (freshHandle s.handles)]) := by
  unfold FILE_Alloc
  simp only []
  split
  · left
    simp [DOS_ERROR]
  · generalize hs2 : ({ s with tick := s.tick + 1, objects := assocInsert (freshPtr s.objects) ⟨0, -1, none, FILE_TYPE_DISK⟩ s.objects } : State) = s2
    have h2 : s2.handles = s.handles ∧ s2.events = s.events := by
      rw [← hs2]
      exact ⟨rfl, rfl⟩
    rcases PROCESS_AllocHandle_spec env (freshPtr s.objects) s2 with ⟨a1, a2, a3⟩ | ⟨a1, a2, a3⟩
    · left
      simp only [a1, if_true]
      exact ⟨trivial, Or.inr trivial, a2.trans h2.1, a3.trans h2.2⟩
    · right
      have hne : freshHandle s2.handles ≠ INVALID_HANDLE_VALUE32 := by
        have := one_le_freshHandle s2.handles
        unfold INVALID_HANDLE_VALUE32
        omega
      rw [← a1] at hne
      simp only [hne, if_false]
      rw [h2.1] at a1 a2 a3
      rw [h2.2] at a3
      exact ⟨a1, _, rfl, a2, a3⟩

theorem CloseHandle_spec (handle : Int) (s : State) :
    (assocFind handle s.handles = none →
      (CloseHandle handle s).2.handles = s.handles ∧
      (CloseHandle handle s).2.events = s.events) ∧
    (assocFind handle s.handles ≠ none →
      (CloseHandle handle s).2.handles = assocErase handle s.handles ∧
      (CloseHandle handle s).2.events = s.events ++ [Event.CloseHandle handle]) := by
  unfold CloseHandle
  constructor
  · intro h
    simp [h]
  · intro h
    split
    · simp only []
      rw [(K32OBJ_DecCount_htab _ _).1, (K32OBJ_DecCount_htab _ _).2]
      exact ⟨rfl, rfl⟩
    · rename_i hn
      exact absurd hn h

/-- Closing the handle a call is holding settles the call. -/
theorem CloseHandle_of_Holding (s s1 s2 : State) (h : Int) (hh : Holding s s1 h)
    (h2 : s2.handles = s1.handles ∧ s2.events = s1.events) :
    Settled s (CloseHandle h s2).2 := by
  obtain ⟨hfresh, ptr, hh1, hh2⟩ := hh
  have hfind : assocFind h s2.handles ≠ none := by
    rw [h2.1, hh1]
    simp [assocFind]
  obtain ⟨c1, c2⟩ := (CloseHandle_spec h s2).2 hfind
  refine ⟨?_, Or.inr ?_⟩
  · rw [c1, h2.1, hh1]
    have : assocErase h ((h, ptr) :: s.handles) = assocErase h s.handles := by
      simp [assocErase]
    rw [this, assocErase_of_fresh]
    rw [hfresh]
    exact freshHandle_fresh s.handles
  · rw [c2, h2.2, hh2, ← hfresh]
    simp


theorem FILE_OpenUnixFile_open_htab (env : Env) (name : String) (mode : OpenFlags) (file : Nat)
    (s : State) :
    (FILE_OpenUnixFile.open env name mode file s).2.handles = s.handles ∧
    (FILE_OpenUnixFile.open env name mode file s).2.events = s.events := by
  unfold FILE_OpenUnixFile.open
  have ho := sys_open_htab env name mode 0o666 s
  generalize sys_open env name mode 0o666 s = o at ho
  obtain ⟨fd, s1⟩ := o
  simp only []
  have hm := modifyObject_htab file (fun o => { o with unix_handle := fd }) s1
  split
  · split
    · have ho2 := sys_open_htab env name
        { access := O_RDONLY, creat := false, excl := false, trunc := false } 0
        (modifyObject file (fun o => { o with unix_handle := fd }) s1)
      generalize sys_open env name
        { access := O_RDONLY, creat := false, excl := false, trunc := false } 0
        (modifyObject file (fun o => { o with unix_handle := fd }) s1) = o2 at ho2
      obtain ⟨fd2, s2⟩ := o2
      simp only []
      have hm2 := modifyObject_htab file (fun o => { o with unix_handle := fd2 }) s2
      exact ⟨hm2.1.trans (ho2.1.trans (hm.1.trans ho.1)), hm2.2.trans (ho2.2.trans (hm.2.trans ho.2))⟩
    · exact ⟨hm.1.trans ho.1, hm.2.trans ho.2⟩
  · exact ⟨hm.1.trans ho.1, hm.2.trans ho.2⟩

theorem Settled_of_htab (s s1 : State) (h : s1.handles = s.handles ∧ s1.events = s.events) :
    Settled s s1 := ⟨h.1, Or.inl h.2⟩

/-- The function `FILE_OpenUnixFile` returns the invalid handle with no handle left open, or
a new handle that it leaves open. -/
theorem FILE_OpenUnixFile_spec (env : Env) (name : String) (mode : OpenFlags) (s : State)
    (h : Int) (s' : State) (hr : FILE_OpenUnixFile env name mode s = Except.ok (h, s')) :
    (h = -1 ∧ Settled s s') ∨ (h ≠ -1 ∧ Holding s s' h) := by
  unfold FILE_OpenUnixFile at hr
  have ha := FILE_Alloc_spec env s
  generalize FILE_Alloc env s = a at ha hr
  obtain ⟨handle, file, s1⟩ := a
  simp only [] at ha hr
  rcases ha with ⟨hfile, hhandle, ht⟩ | ⟨hhandle, f, hfile, hh, he⟩
  · subst hfile
    rcases hhandle with h0 | hinv
    · subst h0
      simp [INVALID_HANDLE_VALUE32, throw, throwThe, MonadExceptOf.throw] at hr
    · subst hinv
      simp only [if_true, pure, Except.pure, Except.ok.injEq, Prod.mk.injEq] at hr
      left
      rw [← hr.1, ← hr.2]
      exact ⟨rfl, Settled_of_htab _ _ ht⟩
  · subst hfile
    have hne : handle ≠ INVALID_HANDLE_VALUE32 := by
      have := one_le_freshHandle s.handles
      unfold INVALID_HANDLE_VALUE32
      omega
    have hold : Holding s s1 handle := ⟨hhandle, f, by rw [hh, hhandle], by rw [he, hhandle]⟩
    simp only [hne, if_false] at hr
    have ho := FILE_OpenUnixFile_open_htab env name mode f s1
    generalize FILE_OpenUnixFile.open env name mode f s1 = o at ho hr
    obtain ⟨fd, s2⟩ := o
    simp only [] at ho hr
    have hst : ∀ r : Option Stat × State,
        r = (if fd = -1 then (none, s2) else sys_fstat env fd s2) →
        r.2.handles = s1.handles ∧ r.2.events = s1.events := by
      intro r hr2
      subst hr2
      split
      · exact ho
      · exact ⟨(sys_fstat_htab _ _ _).1.trans ho.1, (sys_fstat_htab _ _ _).2.trans ho.2⟩
    have hst2 := hst _ rfl
    generalize (if fd = -1 then (none, s2) else sys_fstat env fd s2) = r at hst2 hr
    obtain ⟨st, s3⟩ := r
    simp only [] at hst2 hr
    cases st with
    | none =>
      simp only [pure, Except.pure, Except.ok.injEq, Prod.mk.injEq] at hr
      left
      rw [← hr.1, ← hr.2]
      refine ⟨rfl, CloseHandle_of_Holding s s1 _ handle hold ?_⟩
      exact ⟨(FILE_SetDosError_htab _).1.trans hst2.1, (FILE_SetDosError_htab _).2.trans hst2.2⟩
    | some st =>
      simp only [] at hr
      split at hr
      · simp only [pure, Except.pure, Except.ok.injEq, Prod.mk.injEq] at hr
        left
        rw [← hr.1, ← hr.2]
        exact ⟨rfl, CloseHandle_of_Holding s s1 _ handle hold hst2⟩
      · simp only [pure, Except.pure, Except.ok.injEq, Prod.mk.injEq] at hr
        right
        rw [← hr.1, ← hr.2]
        refine ⟨hne, hhandle, f, ?_, ?_⟩
        · rw [(modifyObject_htab _ _ _).1, hst2.1, hh, hhandle]
        · rw [(modifyObject_htab _ _ _).2, hst2.2, he, hhandle]

theorem FILE_Open_spec (env : Env) (path : String) (mode : OpenFlags) (s : State)
    (h : Int) (s' : State) (hr : FILE_Open env path mode s = Except.ok (h, s')) :
    (h = -1 ∧ Settled s s') ∨ (h ≠ -1 ∧ Holding s s' h) := by
  unfold FILE_Open at hr
  split at hr
  · split at hr
    · simp only [pure, Except.pure, Except.ok.injEq, Prod.mk.injEq] at hr
      left
      rw [← hr.1, ← hr.2]
      exact ⟨rfl, rfl, Or.inl rfl⟩
    · exact FILE_OpenUnixFile_spec _ _ _ _ _ _ hr
  · split at hr
    · simp only [pure, Except.pure, Except.ok.injEq, Prod.mk.injEq] at hr
      left
      rw [← hr.1, ← hr.2]
      exact ⟨rfl, rfl, Or.inl rfl⟩
    · exact FILE_OpenUnixFile_spec _ _ _ _ _ _ hr

theorem _lopen32_spec (env : Env) (path : String) (mode : Nat) (s : State)
    (h : Int) (s' : State) (hr : _lopen32 env path mode s = Except.ok (h, s')) :
    (h = -1 ∧ Settled s s') ∨ (h ≠ -1 ∧ Holding s s' h) := by
  unfold _lopen32 at hr
  exact FILE_Open_spec _ _ _ _ _ _ hr

theorem FILE_Create_spec (env : Env) (path : String) (mode : Nat) (unique : Bool) (s : State)
    (hv : HandlesValid s)
    (h : Int) (s' : State) (hr : FILE_Create env path mode unique s = Except.ok (h, s')) :
    (h = -1 ∧ Settled s s') ∨ (h ≠ -1 ∧ Holding s s' h) := by
  unfold FILE_Create at hr
  split at hr
  · simp only [pure, Except.pure, Except.ok.injEq, Prod.mk.injEq] at hr
    left
    rw [← hr.1, ← hr.2]
    exact ⟨rfl, rfl, Or.inl rfl⟩
  · have ha := FILE_Alloc_spec env s
    generalize FILE_Alloc env s = a at ha hr
    obtain ⟨handle, file, s1⟩ := a
    simp only [] at ha hr
    rcases ha with ⟨hfile, hhandle, ht⟩ | ⟨hhandle, f, hfile, hh, he⟩
    · subst hfile
      rcases hhandle with h0 | hinv
      · subst h0
        simp only [INVALID_HANDLE_VALUE32, Int.reduceNeg, zero_eq_neg, one_ne_zero, if_false] at hr
        split at hr
        · simp only [pure, Except.pure, Except.ok.injEq, Prod.mk.injEq] at hr
          left
          rw [← hr.1, ← hr.2]
          refine ⟨rfl, Settled_of_htab _ _ ?_⟩
          have hnone : assocFind (0 : Int) s1.handles = none := by
            apply assocFind_of_fresh
            intro e he
            rw [ht.1] at he
            have := hv e he
            omega
          have hc : ∀ x : State, x.handles = s1.handles → x.events = s1.events →
              (CloseHandle 0 x).2.handles = s.handles ∧ (CloseHandle 0 x).2.events = s.events := by
            intro x hx1 hx2
            have hc := (CloseHandle_spec 0 x).1 (by rw [hx1]; exact hnone)
            exact ⟨hc.1.trans (hx1.trans ht.1), hc.2.trans (hx2.trans ht.2)⟩
          exact hc _ rfl rfl
        · simp [throw, throwThe, MonadExceptOf.throw] at hr
      · subst hinv
        simp only [if_true, pure, Except.pure, Except.ok.injEq, Prod.mk.injEq] at hr
        left
        rw [← hr.1, ← hr.2]
        exact ⟨rfl, Settled_of_htab _ _ ht⟩
    · subst hfile
      have hne : handle ≠ INVALID_HANDLE_VALUE32 := by
        have := one_le_freshHandle s.handles
        unfold INVALID_HANDLE_VALUE32
        omega
      have hold : Holding s s1 handle := ⟨hhandle, f, by rw [hh, hhandle], by rw [he, hhandle]⟩
      simp only [hne, if_false] at hr
      split at hr
      · simp only [pure, Except.pure, Except.ok.injEq, Prod.mk.injEq] at hr
        left
        rw [← hr.1, ← hr.2]
        exact ⟨rfl, CloseHandle_of_Holding s s1 _ handle hold ⟨rfl, rfl⟩⟩
      · rename_i long_name _
        have ho := sys_open_htab env long_name
          { access := O_RDWR, creat := true, excl := unique, trunc := true } mode s1
        generalize sys_open env long_name
          { access := O_RDWR, creat := true, excl := unique, trunc := true } mode s1 = o at ho hr
        obtain ⟨fd, s2⟩ := o
        simp only [] at ho hr
        have hm := modifyObject_htab f (fun o => { o with unix_handle := fd }) s2
        split at hr
        · simp only [pure, Except.pure, Except.ok.injEq, Prod.mk.injEq] at hr
          left
          rw [← hr.1, ← hr.2]
          refine ⟨rfl, CloseHandle_of_Holding s s1 _ handle hold ?_⟩
          exact ⟨(FILE_SetDosError_htab _).1.trans (hm.1.trans ho.1),
            (FILE_SetDosError_htab _).2.trans (hm.2.trans ho.2)⟩
        · simp only [pure, Except.pure, Except.ok.injEq, Prod.mk.injEq] at hr
          right
          rw [← hr.1, ← hr.2]
          refine ⟨hne, hhandle, f, ?_, ?_⟩
          · rw [(modifyObject_htab _ _ _).1, hm.1, ho.1, hh, hhandle]
          · rw [(modifyObject_htab _ _ _).2, hm.2, ho.2, he, hhandle]


theorem CloseHandle_head (s : State) (h : Int) (p : Nat) (l : List (Int × Nat))
    (hs : s.handles = (h, p) :: l) (hl : ∀ e ∈ l, e.1 ≠ h) :
    (CloseHandle h s).2.handles = l ∧
    (CloseHandle h s).2.events = s.events ++ [Event.CloseHandle h] := by
  have hfind : assocFind h s.handles ≠ none := by
    rw [hs]
    simp [assocFind]
  obtain ⟨c1, c2⟩ := (CloseHandle_spec h s).2 hfind
  refine ⟨?_, c2⟩
  rw [c1, hs]
  have : assocErase h ((h, p) :: l) = assocErase h l := by
    simp [assocErase]
  rw [this, assocErase_of_fresh _ _ hl]

theorem CloseHandle_second (s : State) (h1 h2 : Int) (p1 p2 : Nat) (l : List (Int × Nat))
    (hs : s.handles = (h2, p2) :: (h1, p1) :: l) (hne : h2 ≠ h1) (hl : ∀ e ∈ l, e.1 ≠ h1) :
    (CloseHandle h1 s).2.handles = (h2, p2) :: l ∧
    (CloseHandle h1 s).2.events = s.events ++ [Event.CloseHandle h1] := by
  have hfind : assocFind h1 s.handles ≠ none := by
    rw [hs]
    simp [assocFind, hne]
  obtain ⟨c1, c2⟩ := (CloseHandle_spec h1 s).2 hfind
  refine ⟨?_, c2⟩
  rw [c1, hs]
  have : assocErase h1 ((h2, p2) :: (h1, p1) :: l) = (h2, p2) :: assocErase h1 l := by
    simp [assocErase, hne]
  rw [this, assocErase_of_fresh _ _ hl]

/-- Whenever CopyFile32A returns, the handle table is the one it found and the
slots it allocated on the way are exactly the slots it closed. -/
theorem CopyFile32A_handles_settled (env : Env) (fuel : Nat) (source dest : String)
    (fail_if_exists : Bool) (s : State) (hv : HandlesValid s) (ret : Bool) (s' : State)
    (hr : CopyFile32A env fuel source dest fail_if_exists s = Except.ok (ret, s')) :
    s'.handles = s.handles ∧
    ∃ evs, s'.events = s.events ++ evs ∧
      (closed evs).Perm (allocated evs) ∧ (allocated evs).Nodup ∧
      ∀ h ∈ allocated evs, assocFind h s.handles = none := by
  have hfresh : assocFind (freshHandle s.handles) s.handles = none :=
    assocFind_of_fresh _ _ (freshHandle_fresh s.handles)
  have settled : ∀ s1 : State, Settled s s1 →
      s1.handles = s.handles ∧
      ∃ evs, s1.events = s.events ++ evs ∧
        (closed evs).Perm (allocated evs) ∧ (allocated evs).Nodup ∧
        ∀ h ∈ allocated evs, assocFind h s.handles = none := by
    rintro s1 ⟨h1, h2 | h2⟩
    · exact ⟨h1, [], by simp [h2], by simp [closed, allocated], by simp [allocated],
        by simp [allocated]⟩
    · refine ⟨h1, _, h2, by simp [closed, allocated], by simp [allocated], ?_⟩
      simp only [allocated, List.mem_singleton]
      rintro h rfl
      exact hfresh
  unfold CopyFile32A at hr
  split at hr
  · simp [throw, throwThe, MonadExceptOf.throw] at hr
  · rename_i h1 s1 hopen
    have ho := _lopen32_spec _ _ _ _ _ _ hopen
    split at hr
    · rename_i hh1
      simp only [pure, Except.pure, Except.ok.injEq, Prod.mk.injEq] at hr
      rw [← hr.2]
      rcases ho with ⟨-, hs⟩ | ⟨hne, -⟩
      · exact settled _ hs
      · exact absurd hh1 hne
    · rename_i hh1
      rcases ho with ⟨heq, -⟩ | ⟨-, hold⟩
      · exact absurd heq hh1
      · have hg := GetFileInformationByHandle_htab env h1 s1
        generalize GetFileInformationByHandle env h1 s1 = g at hg hr
        obtain ⟨r, info, s2⟩ := g
        simp only [] at hg hr
        split at hr
        · simp only [pure, Except.pure, Except.ok.injEq, Prod.mk.injEq] at hr
          rw [← hr.2]
          exact settled _ (CloseHandle_of_Holding s s1 s2 h1 hold hg)
        · obtain ⟨hf1, p1, hh, he⟩ := hold
          have hv2 : HandlesValid s2 := by
            intro e hmem
            rw [hg.1, hh] at hmem
            rcases List.mem_cons.mp hmem with rfl | hmem
            · rw [hf1]
              exact one_le_freshHandle _
            · exact hv e hmem
          split at hr
          · simp [throw, throwThe, MonadExceptOf.throw] at hr
          · rename_i h2 s3 hcreate
            have hc := FILE_Create_spec _ _ _ _ _ hv2 _ _ hcreate
            have hlt : h1 < freshHandle s2.handles := by
              apply lt_freshHandle s2.handles (h1, p1)
              rw [hg.1, hh]
              exact List.mem_cons_self _ _
            have hfresh2 : ∀ e ∈ s.handles, e.1 ≠ freshHandle s2.handles := by
              intro e hmem
              apply ne_of_lt
              apply lt_freshHandle s2.handles e
              rw [hg.1, hh]
              exact List.mem_cons_of_mem _ hmem
            have hfresh1 : ∀ e ∈ s.handles, e.1 ≠ h1 := by
              rw [hf1]
              exact freshHandle_fresh s.handles
            split at hr
            · rename_i hh2
              simp only [pure, Except.pure, Except.ok.injEq, Prod.mk.injEq] at hr
              rw [← hr.2]
              rcases hc with ⟨-, hs3, hev⟩ | ⟨hne, -⟩
              · obtain ⟨c1, c2⟩ := CloseHandle_head s3 h1 p1 s.handles
                  (by rw [hs3, hg.1, hh]) hfresh1
                refine ⟨c1, ?_⟩
                rcases hev with hev | hev
                · refine ⟨[Event.AllocHandle h1, Event.CloseHandle h1], ?_, ?_, ?_, ?_⟩
                  · rw [c2, hev, hg.2, he]
                    simp
                  · simp [closed, allocated]
                  · simp [allocated]
                  · simp only [allocated, List.mem_singleton]
                    rintro h rfl
                    rw [hf1]
                    exact hfresh
                · refine ⟨[Event.AllocHandle h1, Event.AllocHandle (freshHandle s2.handles),
                    Event.CloseHandle (freshHandle s2.handles), Event.CloseHandle h1], ?_, ?_, ?_, ?_⟩
                  · rw [c2, hev, hg.2, he]
                    simp
                  · simp only [closed, allocated]
                    exact List.Perm.swap _ _ _
                  · simp only [allocated, List.nodup_cons, List.mem_singleton, List.not_mem_nil,
                      not_false_eq_true, List.nodup_nil, and_true]
                    omega
                  · simp only [allocated, List.mem_cons, List.mem_singleton, List.not_mem_nil,
                      or_false]
                    rintro h (rfl | rfl)
                    · rw [hf1]
                      exact hfresh
                    · exact assocFind_of_fresh _ _ hfresh2
              · exact absurd hh2 hne
            · rename_i hh2
              rcases hc with ⟨heq, -⟩ | ⟨-, hf2, p2, hh3, he3⟩
              · exact absurd heq hh2
              · split at hr
                · simp [throw, throwThe, MonadExceptOf.throw] at hr
                · rename_i r4 s4 hcopy
                  have h4 := CopyFile32A_copy_htab env h2 fuel _ _ _ _ hcopy
                  simp only [pure, Except.pure, Except.ok.injEq, Prod.mk.injEq] at hr
                  rw [← hr.2]
                  have hne21 : h2 ≠ h1 := by
                    rw [hf2]
                    omega
                  obtain ⟨c1, c2⟩ := CloseHandle_second s4 h1 h2 p1 p2 s.handles
                    (by rw [h4.1, hh3, hg.1, hh]) hne21 hfresh1
                  obtain ⟨d1, d2⟩ := CloseHandle_head (CloseHandle h1 s4).2 h2 p2 s.handles c1
                    (by rw [hf2]; exact hfresh2)
                  refine ⟨d1, [Event.AllocHandle h1, Event.AllocHandle h2,
                    Event.CloseHandle h1, Event.CloseHandle h2], ?_, ?_, ?_, ?_⟩
                  · rw [d2, c2, h4.2, he3, hg.2, he]
                    simp
                  · simp [closed, allocated]
                  · simp only [allocated, List.nodup_cons, List.mem_singleton, List.not_mem_nil,
                      not_false_eq_true, List.nodup_nil, and_true]
                    exact fun h => hne21 h.symm
                  · simp only [allocated, List.mem_cons, List.mem_singleton, List.not_mem_nil,
                      or_false]
                    rintro h (rfl | rfl)
                    · rw [hf1]
                      exact hfresh
                    · rw [hf2]
                      exact assocFind_of_fresh _ _ hfresh2


/-! ## The destination of a copy -/

theorem assocFind_insert_same {κ α : Type} [DecidableEq κ] (k : κ) (v : α) (l : List (κ × α)) :
    assocFind k (assocInsert k v l) = some v := by
  simp [assocInsert, assocFind]

theorem modifyObject_find (ptr : Nat) (f : FILE_OBJECT → FILE_OBJECT) (s : State)
    (o : FILE_OBJECT) (h : assocFind ptr s.objects = some o) :
    assocFind ptr (modifyObject ptr f s).objects = some (f o) ∧
    (modifyObject ptr f s).fds = s.fds ∧ (modifyObject ptr f s).files = s.files ∧
    (modifyObject ptr f s).handles = s.handles := by
  unfold modifyObject
  rw [h]
  exact ⟨assocFind_insert_same _ _ _, rfl, rfl, rfl⟩

theorem modifyObject_world (ptr : Nat) (f : FILE_OBJECT → FILE_OBJECT) (s : State) :
    (modifyObject ptr f s).fds = s.fds ∧ (modifyObject ptr f s).files = s.files := by
  unfold modifyObject
  split <;> exact ⟨rfl, rfl⟩

theorem K32OBJ_DecCount_find (ptr : Nat) (s : State) (o : FILE_OBJECT)
    (h : assocFind ptr s.objects = some o) (hc : 2 ≤ o.refcount) :
    assocFind ptr (K32OBJ_DecCount ptr s).objects = some { o with refcount := o.refcount - 1 } ∧
    (K32OBJ_DecCount ptr s).fds = s.fds ∧ (K32OBJ_DecCount ptr s).files = s.files ∧
    (K32OBJ_DecCount ptr s).handles = s.handles := by
  unfold K32OBJ_DecCount
  rw [h]
  have : ¬ o.refcount ≤ 1 := by omega
  simp only [this, if_false]
  exact modifyObject_find ptr _ s o h

/-- Borrowing the object of a handle on an empty file and releasing it again
leaves the handle on the empty file. -/
theorem AtEmptyFile_borrow (s : State) (h : Int) (name : String) (ha : AtEmptyFile s h name) :
    ∃ (f : Nat) (o : FILE_OBJECT) (d : OpenFile),
      FILE_GetFile h s = (some f, K32OBJ_IncCount f s) ∧
      assocFind f (K32OBJ_IncCount f s).objects = some { o with refcount := o.refcount + 1 } ∧
      1 ≤ o.refcount ∧
      (K32OBJ_IncCount f s).fds = s.fds ∧ (K32OBJ_IncCount f s).files = s.files ∧
      (K32OBJ_IncCount f s).handles = s.handles ∧
      assocFind o.unix_handle s.fds = some d ∧ d.pos = 0 ∧ d.access = O_RDWR ∧ d.name = name := by
  obtain ⟨f, o, d, file, h1, h2, h3, h4, h5, h6, h7, -, -, -⟩ := ha
  refine ⟨f, o, d, ?_, ?_, h3, ?_, ?_, ?_, h4, h5, h6, h7⟩
  · simp [FILE_GetFile, PROCESS_GetObjPtr, h1, h2]
  · exact (modifyObject_find f _ s o h2).1
  · exact (modifyObject_find f _ s o h2).2.1
  · exact (modifyObject_find f _ s o h2).2.2.1
  · exact (modifyObject_find f _ s o h2).2.2.2

theorem FILE_SetDosError_world (s : State) :
    (FILE_SetDosError s).handles = s.handles ∧ (FILE_SetDosError s).objects = s.objects ∧
    (FILE_SetDosError s).fds = s.fds ∧ (FILE_SetDosError s).files = s.files := by
  unfold FILE_SetDosError
  split <;> simp [DOS_ERROR]

/-- After the borrow is released the handle is on the empty file again, provided
the work done in between kept the object, the descriptor and the file. -/
theorem AtEmptyFile_release (s s1 : State) (h : Int) (name : String) (f : Nat)
    (o : FILE_OBJECT) (d : OpenFile) (file : UnixFile)
    (hh : assocFind h s1.handles = some f)
    (ho : assocFind f s1.objects = some { o with refcount := o.refcount + 1 })
    (hc : 1 ≤ o.refcount)
    (hd : assocFind o.unix_handle s1.fds = some d) (hp : d.pos = 0) (hacc : d.access = O_RDWR)
    (hn : d.name = name) (hf : assocFind name s1.files = some file) (he : file.data = [])
    (hdir : file.isDir = false) (hs : s = FILE_ReleaseFile f s1) :
    AtEmptyFile s h name := by
  subst hs
  obtain ⟨k1, k2, k3, k4⟩ := K32OBJ_DecCount_find f s1 _ ho (by simp; omega)
  refine ⟨f, _, d, file, ?_, k1, ?_, ?_, hp, hacc, hn, ?_, he, hdir⟩
  · unfold FILE_ReleaseFile
    rw [k4]
    exact hh
  · simpa using hc
  · unfold FILE_ReleaseFile
    rw [k2]
    exact hd
  · unfold FILE_ReleaseFile
    rw [k3]
    exact hf


theorem toUINT32_neg_one : toUINT32 (-1) = 4294967295 := by decide

theorem toINT32_max : toINT32 4294967295 = -1 := by decide

theorem sys_read_at_empty (env : Env) (fd : Int) (s : State) (d : OpenFile) (file : UnixFile)
    (hd : assocFind fd s.fds = some d) (hacc : d.access = O_RDWR)
    (hf : assocFind d.name s.files = some file) (he : file.data = [])
    (hdir : file.isDir = false) :
    (∃ e, sys_read env fd 2048 s = (-1, [], { s with tick := s.tick + 1, natives := s.natives ++ [Native.Read fd 2048], errno := e })) ∨
    sys_read env fd 2048 s =
      (0, [], { s with tick := s.tick + 1, natives := s.natives ++ [Native.Read fd 2048],
                       fds := assocInsert fd { d with pos := d.pos + 0 } s.fds }) := by
  unfold sys_read
  cases hfault : env.fault s.tick with
  | some e => exact Or.inl ⟨e, rfl⟩
  | none =>
    right
    have hw : ¬ d.access = O_WRONLY := by
      rw [hacc]
      decide
    simp [hd, hw, hf, hdir, he, moved]

theorem _lread32_value (env : Env) (s s1 : State) (h : Int) (f : Nat) (o : FILE_OBJECT)
    (d : OpenFile) (file : UnixFile)
    (hget : FILE_GetFile h s = (some f, s1)) (hobj : assocFind f s1.objects = some o)
    (hd : assocFind o.unix_handle s1.fds = some d) (hacc : d.access = O_RDWR)
    (hf : assocFind d.name s1.files = some file) (he : file.data = [])
    (hdir : file.isDir = false) :
    (∃ e, _lread32 env h 2048 s =
      (4294967295, [], FILE_ReleaseFile f
        (FILE_SetDosError { s1 with tick := s1.tick + 1, natives := s1.natives ++ [Native.Read o.unix_handle 2048], errno := e }))) ∨
    _lread32 env h 2048 s =
      (0, [], FILE_ReleaseFile f
        { s1 with tick := s1.tick + 1, natives := s1.natives ++ [Native.Read o.unix_handle 2048],
                  fds := assocInsert o.unix_handle { d with pos := d.pos + 0 } s1.fds }) := by
  unfold _lread32
  rw [hget]
  simp only [hobj, Option.map_some', Option.getD_some]
  have h2048 : ¬ (2048 : Nat) = 0 := by decide
  simp only [h2048, if_false]
  rcases sys_read_at_empty env o.unix_handle s1 d file hd hacc hf he hdir with ⟨e, hrd⟩ | hrd
  · left
    refine ⟨e, ?_⟩
    rw [hrd]
    simp only [toUINT32_neg_one, if_true]
  · right
    rw [hrd]
    have hne : ¬ toUINT32 0 = toUINT32 (-1) := by decide
    simp only [hne, if_false]
    rfl

/-- Reading through a handle on an empty file yields 0 bytes or a failure, and
leaves the files and the handle as they are. -/
theorem _lread32_at_empty (env : Env) (s : State) (h : Int) (name : String)
    (ha : AtEmptyFile s h name) :
    ((_lread32 env h 2048 s).1 = 0 ∨ (_lread32 env h 2048 s).1 = 4294967295) ∧
    (_lread32 env h 2048 s).2.1 = [] ∧
    (_lread32 env h 2048 s).2.2.files = s.files ∧
    AtEmptyFile (_lread32 env h 2048 s).2.2 h name := by
  obtain ⟨f, o, d, hget, hobj, hc, hfds, hfiles, hhandles, hd, hp, hacc, hn⟩ :=
    AtEmptyFile_borrow s h name ha
  obtain ⟨f', o', d', file, h1, h2, -, h4, -, -, h7, h8, h9, h10⟩ := ha
  have hff : f' = f := by
    have := hget
    simp only [FILE_GetFile, PROCESS_GetObjPtr, h1, h2, Prod.mk.injEq, Option.some.injEq] at this
    exact this.1
  subst hff
  generalize K32OBJ_IncCount f' s = s1 at hget hobj hfds hfiles hhandles
  have hd1 : assocFind o.unix_handle s1.fds = some d := by rw [hfds]; exact hd
  have hf1 : assocFind d.name s1.files = some file := by rw [hfiles, hn]; exact h8
  have hh1 : assocFind h s1.handles = some f' := by rw [hhandles]; exact h1
  rcases _lread32_value env s s1 h f' _ d file hget hobj hd1 hacc hf1 h9 h10 with ⟨e, hv⟩ | hv
  · rw [hv]
    obtain ⟨w1, w2, w3, w4⟩ := FILE_SetDosError_world { s1 with tick := s1.tick + 1, natives := s1.natives ++ [Native.Read o.unix_handle 2048], errno := e }
    refine ⟨Or.inr rfl, rfl, ?_, ?_⟩
    · obtain ⟨-, -, k3, -⟩ := K32OBJ_DecCount_find f' (FILE_SetDosError
        { s1 with tick := s1.tick + 1, natives := s1.natives ++ [Native.Read o.unix_handle 2048], errno := e }) _ (by rw [w2]; exact hobj) (by simp; omega)
      show (FILE_ReleaseFile f' _).files = s.files
      unfold FILE_ReleaseFile
      rw [k3, w4]
      exact hfiles
    · refine AtEmptyFile_release _ _ h name f' o d file ?_ ?_ hc ?_ hp hacc hn ?_ h9 h10 rfl
      · rw [w1]
        exact hh1
      · rw [w2]
        exact hobj
      · rw [w3]
        exact hd1
      · rw [w4, ← hn]
        exact hf1
  · rw [hv]
    refine ⟨Or.inl rfl, rfl, ?_, ?_⟩
    · obtain ⟨-, -, k3, -⟩ := K32OBJ_DecCount_find f' { s1 with tick := s1.tick + 1, natives := s1.natives ++ [Native.Read o.unix_handle 2048], fds := assocInsert o.unix_handle { d with pos := d.pos + 0 } s1.fds } _ hobj (by simp; omega)
      show (FILE_ReleaseFile f' _).files = s.files
      unfold FILE_ReleaseFile
      rw [k3]
      exact hfiles
    · refine AtEmptyFile_release _ _ h name f' o { d with pos := d.pos + 0 } file ?_ ?_ hc ?_
        (by simpa using hp) hacc hn ?_ h9 h10 rfl
      · exact hh1
      · exact hobj
      · exact assocFind_insert_same _ _ _
      · rw [← hn]
        exact hf1


theorem sys_write_too_long (env : Env) (fd : Int) (buffer : List Nat) (count : Nat) (s : State)
    (d : OpenFile) (hd : assocFind fd s.fds = some d) (hb : buffer.length < count) :
    ∃ e, sys_write env fd buffer count s = (-1, { s with tick := s.tick + 1, natives := s.natives ++ [Native.Write fd count], errno := e }) := by
  unfold sys_write
  cases hfault : env.fault s.tick with
  | some e => exact ⟨e, rfl⟩
  | none =>
    simp only [hd]
    by_cases hacc : d.access = O_RDONLY
    · exact ⟨Errno.EBADF, by simp [hacc]⟩
    · exact ⟨Errno.EFAULT, by simp [hacc, hb]⟩

/-- Writing 4294967295 bytes, the count a failed read leaves, from the 2048 byte
buffer fails, and leaves the files as they are. -/
theorem _lwrite32_at_empty (env : Env) (s : State) (h : Int) (name : String)
    (buffer : List Nat) (ha : AtEmptyFile s h name) (hb : buffer.length < 4294967295) :
    (_lwrite32 env h buffer 4294967295 s).1 = 4294967295 ∧
    (_lwrite32 env h buffer 4294967295 s).2.files = s.files := by
  obtain ⟨f, o, d, hget, hobj, hc, hfds, hfiles, hhandles, hd, hp, hacc, hn⟩ :=
    AtEmptyFile_borrow s h name ha
  generalize K32OBJ_IncCount f s = s1 at hget hobj hfds hfiles hhandles
  have hd1 : assocFind o.unix_handle s1.fds = some d := by rw [hfds]; exact hd
  obtain ⟨e, hw⟩ := sys_write_too_long env o.unix_handle buffer 4294967295 s1 d hd1 hb
  have hval : _lwrite32 env h buffer 4294967295 s =
      (4294967295, FILE_ReleaseFile f
        (FILE_SetDosError { s1 with tick := s1.tick + 1, natives := s1.natives ++ [Native.Write o.unix_handle 4294967295], errno := e })) := by
    unfold _lwrite32 _hwrite32
    rw [toINT32_max, hget]
    simp only [hobj, Option.map_some', Option.getD_some]
    have hne : ¬ (-1 : Int) = 0 := by decide
    simp only [hne, if_false, toUINT32_neg_one, hw, if_true]
  rw [hval]
  refine ⟨rfl, ?_⟩
  obtain ⟨w1, w2, w3, w4⟩ := FILE_SetDosError_world { s1 with tick := s1.tick + 1, natives := s1.natives ++ [Native.Write o.unix_handle 4294967295], errno := e }
  obtain ⟨-, -, k3, -⟩ := K32OBJ_DecCount_find f (FILE_SetDosError
    { s1 with tick := s1.tick + 1, natives := s1.natives ++ [Native.Write o.unix_handle 4294967295], errno := e }) _ (by rw [w2]; exact hobj) (by simp; omega)
  show (FILE_ReleaseFile f _).files = s.files
  unfold FILE_ReleaseFile
  rw [k3, w4]
  exact hfiles

/-- On a destination that is empty the copy loop of CopyFile32A ends in its
first round, and it writes nothing. -/
theorem CopyFile32A_copy_at_empty (env : Env) (h2 : Int) (name : String) (fuel : Nat)
    (buffer : List Nat) (hb : buffer.length = 2048) (s : State) (ha : AtEmptyFile s h2 name) :
    ∃ ret s', CopyFile32A.copy env h2 (fuel + 1) buffer s = Except.ok (ret, s') ∧
      s'.files = s.files := by
  obtain ⟨hcount, hbytes, hfiles, ha1⟩ := _lread32_at_empty env s h2 name ha
  unfold CopyFile32A.copy
  generalize _lread32 env h2 2048 s = r at hcount hbytes hfiles ha1
  obtain ⟨count, bytes, s1⟩ := r
  simp only [] at hcount hbytes hfiles ha1 ⊢
  subst hbytes
  rcases hcount with rfl | rfl
  · exact ⟨true, s1, by simp [pure, Except.pure], hfiles⟩
  · obtain ⟨w1, w2⟩ := _lwrite32_at_empty env s1 h2 name buffer ha1 (by omega)
    refine ⟨false, (_lwrite32 env h2 buffer 4294967295 s1).2, ?_, w2.trans hfiles⟩
    have hw : CopyFile32A.write env h2 buffer (fuel + 1) 0 4294967295 s1
        = Except.ok (false, (_lwrite32 env h2 buffer 4294967295 s1).2) := by
      unfold CopyFile32A.write
      simp only [List.drop_zero, gt_iff_lt, Nat.ofNat_pos, if_true, w1, toINT32_max]
      simp [pure, Except.pure]
    simp [hw, pure, Except.pure]


theorem K32OBJ_DecCount_world (ptr : Nat) (s : State) :
    (K32OBJ_DecCount ptr s).files = s.files := by
  unfold K32OBJ_DecCount
  split
  · rfl
  · split
    · unfold FILE_Destroy
      split
      · exact (modifyObject_world _ _ _).2
      · simp only []
        split
        · simp only [sys_close]
          exact (modifyObject_world _ _ _).2
        · exact (modifyObject_world _ _ _).2
    · exact (modifyObject_world _ _ _).2

theorem CloseHandle_files (handle : Int) (s : State) :
    (CloseHandle handle s).2.files = s.files := by
  unfold CloseHandle
  split
  · simp only []
    rw [K32OBJ_DecCount_world]
  · rfl

/-- What `FILE_Alloc` leaves when it hands out a file object: the new slot
designates a new object with one reference. -/
theorem FILE_Alloc_object (env : Env) (s : State) (f : Nat)
    (hf : (FILE_Alloc env s).2.1 = some f) :
    assocFind (FILE_Alloc env s).1 (FILE_Alloc env s).2.2.handles = some f ∧
    (∃ o, assocFind f (FILE_Alloc env s).2.2.objects = some o ∧ o.refcount = 1) ∧
    (FILE_Alloc env s).2.2.files = s.files ∧ (FILE_Alloc env s).2.2.fds = s.fds := by
  have hne : ¬ freshHandle s.handles = -1 := by
    have := one_le_freshHandle s.handles
    omega
  by_cases h1 : env.HeapAllocFails s.tick = true
  · simp [FILE_Alloc, h1] at hf
  · by_cases h2 : env.AllocHandleFails (s.tick + 1) = true
    · simp [FILE_Alloc, PROCESS_AllocHandle, h1, h2, INVALID_HANDLE_VALUE32] at hf
    · simp only [FILE_Alloc, PROCESS_AllocHandle, h1, h2, INVALID_HANDLE_VALUE32, hne,
        Bool.false_eq_true, if_false, Option.some.injEq] at hf ⊢
      subst hf
      refine ⟨assocFind_insert_same _ _ _, ?_, ?_, ?_⟩
      · refine ⟨_, (modifyObject_find (freshPtr s.objects) _ _ _ (assocFind_insert_same _ _ _)).1, rfl⟩
      · exact (modifyObject_world _ _ _).2
      · exact (modifyObject_world _ _ _).1

theorem FILE_Alloc_null (env : Env) (s : State) (hheap : env.HeapAllocFails s.tick = false)
    (hf : (FILE_Alloc env s).2.1 = none) :
    (FILE_Alloc env s).1 = INVALID_HANDLE_VALUE32 := by
  have hne : ¬ freshHandle s.handles = -1 := by
    have := one_le_freshHandle s.handles
    omega
  by_cases h2 : env.AllocHandleFails (s.tick + 1) = true
  · simp [FILE_Alloc, PROCESS_AllocHandle, hheap, h2, INVALID_HANDLE_VALUE32]
  · simp [FILE_Alloc, PROCESS_AllocHandle, hheap, h2, INVALID_HANDLE_VALUE32, hne] at hf

/-- A successful creating, truncating, read-write `open` leaves a descriptor at
position 0 on an empty regular file. -/
theorem sys_open_create (env : Env) (name : String) (unique : Bool) (mode : Nat) (s : State)
    (hfd : (sys_open env name
      { access := O_RDWR, creat := true, excl := unique, trunc := true } mode s).1 ≠ -1) :
    assocFind (sys_open env name
        { access := O_RDWR, creat := true, excl := unique, trunc := true } mode s).1
      (sys_open env name
        { access := O_RDWR, creat := true, excl := unique, trunc := true } mode s).2.fds
      = some { name := name, pos := 0, access := O_RDWR } ∧
    (∃ file, assocFind name (sys_open env name
        { access := O_RDWR, creat := true, excl := unique, trunc := true } mode s).2.files
          = some file ∧ file.data = [] ∧ file.isDir = false) ∧
    (sys_open env name
      { access := O_RDWR, creat := true, excl := unique, trunc := true } mode s).2.objects
      = s.objects ∧
    (sys_open env name
      { access := O_RDWR, creat := true, excl := unique, trunc := true } mode s).2.handles
      = s.handles := by
  cases hfault : env.fault s.tick with
  | some e => simp [sys_open, hfault] at hfd
  | none =>
    cases hfile : assocFind name s.files with
    | none =>
      simp only [sys_open, hfault, hfile, if_true]
      refine ⟨assocFind_insert_same _ _ _, ⟨_, assocFind_insert_same _ _ _, ?_, ?_⟩, ?_, ?_⟩ <;>
        first | rfl | trivial
    | some f =>
      simp only [sys_open, hfault, hfile] at hfd ⊢
      have hrw : ¬ O_RDWR = O_RDONLY := by decide
      have hrw2 : ¬ O_RDWR = O_WRONLY := by decide
      simp only [hrw, hrw2, ne_eq, not_false_eq_true, and_true, true_and] at hfd ⊢
      by_cases hu : unique = true
      · simp [hu] at hfd
      · simp only [hu, Bool.false_eq_true, if_false] at hfd ⊢
        by_cases hdir : f.isDir = true
        · simp [hdir] at hfd
        · simp only [hdir, Bool.false_eq_true, if_false, not_false_eq_true, if_true] at hfd ⊢
          by_cases hr : f.st_mode &&& S_IRUSR = 0
          · simp [hr] at hfd
          · simp only [hr, if_false] at hfd ⊢
            by_cases hw : f.st_mode &&& S_IWUSR = 0
            · simp [hw] at hfd
            · simp only [hw, if_false] at hfd ⊢
              refine ⟨assocFind_insert_same _ _ _, ⟨_, assocFind_insert_same _ _ _, ?_, ?_⟩,
                ?_, ?_⟩ <;> first | rfl | trivial


/-- A handle that `FILE_Create` returns is open, read-write and at position 0,
on an empty regular file, the file the destination path resolves to. -/
theorem FILE_Create_at_empty (env : Env) (path : String) (mode : Nat) (unique : Bool)
    (s : State) (h : Int) (s' : State)
    (hr : FILE_Create env path mode unique s = Except.ok (h, s')) (hne : h ≠ -1) :
    ∃ name, AtEmptyFile s' h name ∧
      ∃ files, env.DOSFS_GetFullName path false files = Sum.inr name := by
  unfold FILE_Create at hr
  split at hr
  · simp only [pure, Except.pure, Except.ok.injEq, Prod.mk.injEq] at hr
    exact absurd hr.1.symm hne
  · have hobj := FILE_Alloc_object env s
    generalize FILE_Alloc env s = a at hobj hr
    obtain ⟨handle, file, s1⟩ := a
    simp only [] at hobj hr
    split at hr
    · simp only [pure, Except.pure, Except.ok.injEq, Prod.mk.injEq] at hr
      exact absurd hr.1.symm hne
    · split at hr
      · simp only [pure, Except.pure, Except.ok.injEq, Prod.mk.injEq] at hr
        exact absurd hr.1.symm hne
      · rename_i long_name hfull
        cases file with
        | none => simp [throw, throwThe, MonadExceptOf.throw] at hr
        | some f =>
          obtain ⟨a1, ⟨o, a2, a3⟩, a4, a5⟩ := hobj f rfl
          simp only [] at hr
          have hopen := sys_open_create env long_name unique mode s1
          generalize sys_open env long_name
            { access := O_RDWR, creat := true, excl := unique, trunc := true } mode s1 = r
            at hopen hr
          obtain ⟨fd, s2⟩ := r
          simp only [] at hopen hr
          split at hr
          · simp only [pure, Except.pure, Except.ok.injEq, Prod.mk.injEq] at hr
            exact absurd hr.1.symm hne
          · rename_i hfd
            obtain ⟨b1, ⟨file, b2, b3, b4⟩, b5, b6⟩ := hopen hfd
            simp only [pure, Except.pure, Except.ok.injEq, Prod.mk.injEq] at hr
            obtain ⟨m1, m2, m3, m4⟩ := modifyObject_find f
              (fun o => { o with unix_handle := fd }) s2 o (by rw [b5]; exact a2)
            obtain ⟨n1, n2, n3, n4⟩ := modifyObject_find f
              (fun o => { o with unix_name := some long_name })
              (modifyObject f (fun o => { o with unix_handle := fd }) s2) _ m1
            refine ⟨long_name, ?_, s1.files, hfull⟩
            rw [← hr.1, ← hr.2]
            refine ⟨f, _, { name := long_name, pos := 0, access := O_RDWR }, file, ?_, n1, ?_, ?_,
              rfl, rfl, rfl, ?_, b3, b4⟩
            · rw [n4, m4, b6]
              exact a1
            · simp only []
              omega
            · simp only []
              rw [n2, m2]
              exact b1
            · rw [n3, m3]
              exact b2

theorem FILE_OpenUnixFile_ok (env : Env) (name : String) (mode : OpenFlags) (s : State)
    (hheap : ∀ n, env.HeapAllocFails n = false) :
    ∃ r, FILE_OpenUnixFile env name mode s = Except.ok r := by
  unfold FILE_OpenUnixFile
  have hnull := FILE_Alloc_null env s (hheap _)
  generalize FILE_Alloc env s = a at hnull
  obtain ⟨handle, file, s1⟩ := a
  simp only [] at hnull ⊢
  split
  · exact ⟨_, rfl⟩
  · rename_i hinv
    cases file with
    | none => exact absurd (hnull rfl) hinv
    | some f =>
      simp only []
      split
      · exact ⟨_, rfl⟩
      · split <;> exact ⟨_, rfl⟩

theorem FILE_Open_ok (env : Env) (path : String) (mode : OpenFlags) (s : State)
    (hheap : ∀ n, env.HeapAllocFails n = false) :
    ∃ r, FILE_Open env path mode s = Except.ok r := by
  unfold FILE_Open
  split
  · split
    · exact ⟨_, rfl⟩
    · exact FILE_OpenUnixFile_ok _ _ _ _ hheap
  · split
    · exact ⟨_, rfl⟩
    · exact FILE_OpenUnixFile_ok _ _ _ _ hheap

theorem _lopen32_ok (env : Env) (path : String) (mode : Nat) (s : State)
    (hheap : ∀ n, env.HeapAllocFails n = false) :
    ∃ r, _lopen32 env path mode s = Except.ok r := by
  unfold _lopen32
  exact FILE_Open_ok _ _ _ _ hheap

theorem FILE_Create_ok (env : Env) (path : String) (mode : Nat) (unique : Bool) (s : State)
    (hheap : ∀ n, env.HeapAllocFails n = false) :
    ∃ r, FILE_Create env path mode unique s = Except.ok r := by
  unfold FILE_Create
  split
  · exact ⟨_, rfl⟩
  · have hnull := FILE_Alloc_null env s (hheap _)
    generalize FILE_Alloc env s = a at hnull
    obtain ⟨handle, file, s1⟩ := a
    simp only [] at hnull ⊢
    split
    · exact ⟨_, rfl⟩
    · rename_i hinv
      split
      · exact ⟨_, rfl⟩
      · cases file with
        | none => exact absurd (hnull rfl) hinv
        | some f =>
          simp only []
          split <;> exact ⟨_, rfl⟩


/-- With a heap that does not fail, one unit of fuel is enough for CopyFile32A
to return: the copy loop ends in its first round. -/
theorem CopyFile32A_returns (env : Env) (fuel : Nat) (source dest : String)
    (fail_if_exists : Bool) (s : State) (hheap : ∀ n, env.HeapAllocFails n = false)
    (hfuel : 1 ≤ fuel) :
    ∃ ret s', CopyFile32A env fuel source dest fail_if_exists s = Except.ok (ret, s') := by
  obtain ⟨n, rfl⟩ : ∃ n, fuel = n + 1 := ⟨fuel - 1, by omega⟩
  unfold CopyFile32A
  obtain ⟨⟨h1, s1⟩, hopen⟩ := _lopen32_ok env source OF_READ s hheap
  rw [hopen]
  simp only []
  split
  · exact ⟨_, _, rfl⟩
  · generalize GetFileInformationByHandle env h1 s1 = g
    obtain ⟨r, info, s2⟩ := g
    simp only []
    split
    · exact ⟨_, _, rfl⟩
    · generalize (if (Option.map (fun x => x.dwFileAttributes) info).getD 0 &&&
          FILE_ATTRIBUTE_READONLY ≠ 0 then 0o444 else 0o666) = mode
      obtain ⟨⟨h2, s3⟩, hcreate⟩ := FILE_Create_ok env dest mode fail_if_exists s2 hheap
      rw [hcreate]
      simp only []
      split
      · exact ⟨_, _, rfl⟩
      · rename_i hh2
        obtain ⟨name, hat, -⟩ := FILE_Create_at_empty _ _ _ _ _ _ _ hcreate hh2
        obtain ⟨ret, s4, hcopy, -⟩ := CopyFile32A_copy_at_empty env h2 name n
          (List.replicate 2048 0) (List.length_replicate _ _) s3 hat
        rw [hcopy]
        exact ⟨_, _, rfl⟩

/-- Whenever CopyFile32A returns TRUE, the file the destination resolves to is
empty: the copy loop reads from the handle of the destination. -/
theorem CopyFile32A_leaves_dest_empty (env : Env) (fuel : Nat) (source dest : String)
    (fail_if_exists : Bool) (s s' : State)
    (hr : CopyFile32A env fuel source dest fail_if_exists s = Except.ok (true, s')) :
    ∃ name, s'.contents name = some [] ∧
      ∃ files, env.DOSFS_GetFullName dest false files = Sum.inr name := by
  unfold CopyFile32A at hr
  split at hr
  · simp [throw, throwThe, MonadExceptOf.throw] at hr
  · rename_i h1 s1 hopen
    split at hr
    · simp [pure, Except.pure] at hr
    · generalize GetFileInformationByHandle env h1 s1 = g at hr
      obtain ⟨r, info, s2⟩ := g
      simp only [] at hr
      split at hr
      · simp [pure, Except.pure] at hr
      · split at hr
        · simp [throw, throwThe, MonadExceptOf.throw] at hr
        · rename_i h2 s3 hcreate
          split at hr
          · simp [pure, Except.pure] at hr
          · rename_i hh2
            obtain ⟨name, hat, hres⟩ := FILE_Create_at_empty _ _ _ _ _ _ _ hcreate hh2
            split at hr
            · simp [throw, throwThe, MonadExceptOf.throw] at hr
            · rename_i r4 s4 hcopy
              simp only [pure, Except.pure, Except.ok.injEq, Prod.mk.injEq] at hr
              cases fuel with
              | zero => simp [CopyFile32A.copy, throw, throwThe, MonadExceptOf.throw] at hcopy
              | succ n =>
                obtain ⟨ret, s4', hcopy', hfiles⟩ := CopyFile32A_copy_at_empty env h2 name n
                  (List.replicate 2048 0) (List.length_replicate _ _) s3 hat
                rw [hcopy'] at hcopy
                simp only [Except.ok.injEq, Prod.mk.injEq] at hcopy
                obtain ⟨f, o, d, file, -, -, -, -, -, -, -, hfile, hdata, -⟩ := hat
                refine ⟨name, ?_, hres⟩
                rw [← hr.2]
                unfold State.contents
                rw [CloseHandle_files, CloseHandle_files, ← hcopy.2, hfiles, hfile, ← hdata]
                rfl

/-- C2: CopyFile32A returns (given fuel for one round of its loop and a heap
that does not fail), and whenever it returns, on whichever path, the handle
table is the one it found and the slots it allocated on the way are exactly the
slots it closed, each once: the closed handles are a rearrangement of the
allocated ones, no handle was allocated twice, and every allocated handle was a
free slot of the table before the call, so no handle of the caller is closed. -/
theorem CopyFile32A_closes_handles (env : Env) (fuel : Nat) (source dest : String)
    (fail_if_exists : Bool) (s : State) (hv : HandlesValid s) :
    ((∀ n, env.HeapAllocFails n = false) → 1 ≤ fuel →
      ∃ ret s', CopyFile32A env fuel source dest fail_if_exists s = Except.ok (ret, s')) ∧
    ∀ ret s', CopyFile32A env fuel source dest fail_if_exists s = Except.ok (ret, s') →
      s'.handles = s.handles ∧
      ∃ evs, s'.events = s.events ++ evs ∧
        (closed evs).Perm (allocated evs) ∧ (allocated evs).Nodup ∧
        ∀ h ∈ allocated evs, assocFind h s.handles = none :=
  ⟨CopyFile32A_returns env fuel source dest fail_if_exists s,
   CopyFile32A_handles_settled env fuel source dest fail_if_exists s hv⟩

/-- Witness of C2: a process holding handle 7 copies the two byte file "a" to
"b"; the call returns, handle 7 is still the only slot in use and every slot
the call allocated is closed. -/
theorem CopyFile32A_closes_handles_witness :
    ∃ ret s', CopyFile32A Env.plain 1 "a" "b" false State.sample = Except.ok (ret, s') ∧
      s'.handles = State.sample.handles ∧
      ∃ evs, s'.events = State.sample.events ++ evs ∧
        (closed evs).Perm (allocated evs) ∧ (allocated evs).Nodup ∧
        ∀ h ∈ allocated evs, assocFind h State.sample.handles = none := by
  have hv : HandlesValid State.sample := by
    intro e he
    have h7 : e = (7, 0) := by simpa [State.sample] using he
    subst h7
    decide
  obtain ⟨ret, s', h⟩ := (CopyFile32A_closes_handles Env.plain 1 "a" "b" false State.sample hv).1
    (fun _ => rfl) (le_refl 1)
  exact ⟨ret, s', h,
    (CopyFile32A_closes_handles Env.plain 1 "a" "b" false State.sample hv).2 ret s' h⟩

/-- C1 (the code at the failing input): copying the two byte file "a" to the
new file "b" returns TRUE, leaves "a" as it was and leaves "b" empty. -/
theorem CopyFile32A_copies_nothing :
    ∃ s', CopyFile32A Env.plain 1 "a" "b" false State.sample = Except.ok (true, s') ∧
      s'.contents "a" = some [72, 105] ∧ s'.contents "b" = some [] :=
  ⟨_, rfl, by decide, by decide⟩

/-! ## File times and the error translation -/

/-- Claim C15: for times whose halves are 32-bit words, `CompareFileTime x y` is
the sign of the comparison of the 64-bit quantities high * 2^32 + low; it is 0
exactly when both words are equal, and swapping the arguments negates it. -/
theorem CompareFileTime_spec (x y : FILETIME) (hx : x.InRange) (hy : y.InRange) :
    CompareFileTime x y = signOfComparison x.quantity y.quantity ∧
    (CompareFileTime x y = 0 ↔
      x.dwHighDateTime = y.dwHighDateTime ∧ x.dwLowDateTime = y.dwLowDateTime) ∧
    CompareFileTime y x = - CompareFileTime x y := by
  obtain ⟨hxl, hxh⟩ := hx
  obtain ⟨hyl, hyh⟩ := hy
  unfold CompareFileTime signOfComparison FILETIME.quantity
  refine ⟨?_, ?_, ?_⟩
  · split_ifs <;> first | rfl | omega
  · split_ifs <;> first | omega | (simp; omega)
  · split_ifs <;> first | rfl | omega

theorem CompareFileTime_spec_witness :
    CompareFileTime ⟨5, 1⟩ ⟨4294967295, 0⟩ = signOfComparison 4294967301 4294967295 ∧
    (CompareFileTime ⟨5, 1⟩ ⟨4294967295, 0⟩ = 0 ↔ (1 : Nat) = 0 ∧ (5 : Nat) = 4294967295) ∧
    CompareFileTime ⟨4294967295, 0⟩ ⟨5, 1⟩ = - CompareFileTime ⟨5, 1⟩ ⟨4294967295, 0⟩ :=
  CompareFileTime_spec ⟨5, 1⟩ ⟨4294967295, 0⟩ (by decide) (by decide)

/-- The claim C16 read on the code fails for ENFILE and EMFILE: the error
recorded is `ER_NoMoreFiles`, which is not `ER_TooManyOpenFiles`, the error the
module records when it cannot allocate a file object. -/
theorem FILE_SetDosError_no_more_files :
    (FILE_SetDosError { State.empty with errno := Errno.ENFILE }).DOS_ExtendedError
      = ER.ER_NoMoreFiles ∧
    (FILE_SetDosError { State.empty with errno := Errno.EMFILE }).DOS_ExtendedError
      = ER.ER_NoMoreFiles ∧
    ER.ER_NoMoreFiles ≠ ER.ER_TooManyOpenFiles ∧
    (FILE_Alloc { Env.plain with HeapAllocFails := fun _ => true }
      State.empty).2.2.DOS_ExtendedError = ER.ER_TooManyOpenFiles := by
  decide

/-- Claim C16, amended: `FILE_SetDosError` records one DOS error for every native
error number: EBADF the invalid handle, ENOENT file not found, EACCES, EPERM and
EROFS access denied, EEXIST file exists, ENOSPC disk full, ENFILE and EMFILE the
code `ER_NoMoreFiles`, and every native error number outside the table the
general failure; for no native error number does it record
`ER_TooManyOpenFiles`. -/
theorem FILE_SetDosError_table (s : State) :
    (FILE_SetDosError { s with errno := Errno.EBADF }).DOS_ExtendedError = ER.ER_InvalidHandle ∧
    (FILE_SetDosError { s with errno := Errno.ENOENT }).DOS_ExtendedError = ER.ER_FileNotFound ∧
    (FILE_SetDosError { s with errno := Errno.EACCES }).DOS_ExtendedError = ER.ER_AccessDenied ∧
    (FILE_SetDosError { s with errno := Errno.EPERM }).DOS_ExtendedError = ER.ER_AccessDenied ∧
    (FILE_SetDosError { s with errno := Errno.EROFS }).DOS_ExtendedError = ER.ER_AccessDenied ∧
    (FILE_SetDosError { s with errno := Errno.EEXIST }).DOS_ExtendedError = ER.ER_FileExists ∧
    (FILE_SetDosError { s with errno := Errno.ENOSPC }).DOS_ExtendedError = ER.ER_DiskFull ∧
    (FILE_SetDosError { s with errno := Errno.ENFILE }).DOS_ExtendedError = ER.ER_NoMoreFiles ∧
    (FILE_SetDosError { s with errno := Errno.EMFILE }).DOS_ExtendedError = ER.ER_NoMoreFiles ∧
    (∀ n, (FILE_SetDosError { s with errno := Errno.other n }).DOS_ExtendedError =
      ER.ER_GeneralFailure) ∧
    (FILE_SetDosError s).DOS_ExtendedError ≠ ER.ER_TooManyOpenFiles := by
  refine ⟨rfl, rfl, rfl, rfl, rfl, rfl, rfl, rfl, rfl, fun _ => rfl, ?_⟩
  unfold FILE_SetDosError
  cases h : s.errno <;> simp [DOS_ERROR]

/-- The claim C17 read on the code fails: for the native busy error the recorded
suggested action is Abort, not Retry. -/
theorem FILE_SetDosError_busy_not_retry :
    ¬ ((FILE_SetDosError { State.empty with errno := Errno.EBUSY }).DOS_ExtendedError =
          ER.ER_LockViolation ∧
       (FILE_SetDosError { State.empty with errno := Errno.EBUSY }).DOS_ErrorAction =
          SA.SA_Retry) := by
  decide

/-- Claim C17, amended: the native busy error is translated to the lock violation
with class access denied and suggested action Abort; the suggested action Retry
is recorded for EAGAIN and for no other native error, and EAGAIN gives the share
violation with class temporary. -/
theorem FILE_SetDosError_busy (s : State) :
    (FILE_SetDosError { s with errno := Errno.EBUSY }).DOS_ExtendedError = ER.ER_LockViolation ∧
    (FILE_SetDosError { s with errno := Errno.EBUSY }).DOS_ErrorClass = EC.EC_AccessDenied ∧
    (FILE_SetDosError { s with errno := Errno.EBUSY }).DOS_ErrorAction = SA.SA_Abort ∧
    ((FILE_SetDosError s).DOS_ErrorAction = SA.SA_Retry ↔ s.errno = Errno.EAGAIN) ∧
    (FILE_SetDosError { s with errno := Errno.EAGAIN }).DOS_ExtendedError =
      ER.ER_ShareViolation ∧
    (FILE_SetDosError { s with errno := Errno.EAGAIN }).DOS_ErrorClass = EC.EC_Temporary ∧
    (FILE_SetDosError { s with errno := Errno.EAGAIN }).DOS_ErrorAction = SA.SA_Retry := by
  refine ⟨rfl, rfl, rfl, ?_, rfl, rfl, rfl⟩
  unfold FILE_SetDosError
  cases h : s.errno <;> simp [DOS_ERROR]

/-! ## Creating and opening -/

/-- When the heap and the handle table have room, `FILE_Alloc` installs a new
object without a descriptor in the fresh slot and touches nothing else. -/
theorem FILE_Alloc_ok (env : Env) (s : State) (hheap : env.HeapAllocFails s.tick = false)
    (htable : env.AllocHandleFails (s.tick + 1) = false) :
    ∃ file sA, FILE_Alloc env s = (freshHandle s.handles, some file, sA) ∧
      sA.handles = (freshHandle s.handles, file) :: s.handles ∧
      sA.events = s.events ++ [Event.AllocHandle (freshHandle s.handles)] ∧
      sA.files = s.files ∧ sA.fds = s.fds ∧ sA.tick = s.tick + 2 ∧ sA.natives = s.natives ∧
      sA.DOS_ExtendedError = s.DOS_ExtendedError ∧
      assocFind file sA.objects = some ⟨1, -1, none, FILE_TYPE_DISK⟩ := by
  have hne : freshHandle s.handles ≠ INVALID_HANDLE_VALUE32 := by
    have := one_le_freshHandle s.handles
    unfold INVALID_HANDLE_VALUE32
    omega
  have herase : assocErase (freshHandle s.handles) s.handles = s.handles :=
    assocErase_of_fresh _ _ (freshHandle_fresh s.handles)
  unfold FILE_Alloc PROCESS_AllocHandle K32OBJ_IncCount modifyObject
  simp only [hheap, htable, Bool.false_eq_true, if_false, assocFind_insert_same, hne]
  refine ⟨_, _, rfl, ?_, rfl, rfl, rfl, rfl, rfl, rfl, ?_⟩
  · simp only [assocInsert, herase]
  · simp only [assocFind_insert_same]

theorem sys_open_natives (env : Env) (name : String) (flags : OpenFlags) (mode : Nat)
    (s : State) :
    (sys_open env name flags mode s).2.natives = s.natives ++ [Native.Open name flags mode] ∧
    (sys_open env name flags mode s).2.objects = s.objects ∧
    (sys_open env name flags mode s).2.DOS_ExtendedError = s.DOS_ExtendedError := by
  unfold sys_open
  simp only []
  split
  · simp
  · split
    · split_ifs <;> simp
    · split <;> simp

theorem FILE_SetDosError_natives (s : State) :
    (FILE_SetDosError s).natives = s.natives ∧ (FILE_SetDosError s).events = s.events := by
  unfold FILE_SetDosError
  cases s.errno <;> exact ⟨rfl, rfl⟩

theorem modifyObject_natives (ptr : Nat) (f : FILE_OBJECT → FILE_OBJECT) (s : State) :
    (modifyObject ptr f s).natives = s.natives ∧
    (modifyObject ptr f s).DOS_ExtendedError = s.DOS_ExtendedError := by
  unfold modifyObject
  cases assocFind ptr s.objects <;> exact ⟨rfl, rfl⟩

/-- Closing the slot that holds the only reference to an object frees the slot
and leaves the recorded DOS error and the files as they are. -/
theorem CloseHandle_last (s : State) (h : Int) (file : Nat) (l : List (Int × Nat))
    (o : FILE_OBJECT) (hs : s.handles = (h, file) :: l) (hl : ∀ e ∈ l, e.1 ≠ h)
    (ho : assocFind file s.objects = some o) (hc : o.refcount ≤ 1) :
    (CloseHandle h s).2.handles = l ∧
    (CloseHandle h s).2.events = s.events ++ [Event.CloseHandle h] ∧
    (CloseHandle h s).2.dosError = s.dosError ∧
    (CloseHandle h s).2.files = s.files ∧
    (CloseHandle h s).2.natives =
      s.natives ++ (if o.unix_handle ≠ -1 then [Native.Close o.unix_handle] else []) := by
  obtain ⟨c1, c2⟩ := CloseHandle_head s h file l hs hl
  refine ⟨c1, c2, ?_, CloseHandle_files h s, ?_⟩ <;>
  · unfold CloseHandle
    simp only [hs, assocFind, if_true]
    unfold K32OBJ_DecCount
    simp only [ho, hc, if_true]
    unfold FILE_Destroy modifyObject
    simp only [ho, assocFind_insert_same]
    by_cases hu : o.unix_handle = -1
    · simp [hu, State.dosError]
    · simp [hu, State.dosError, sys_close]

theorem FILE_SetDosError_dosError (s s1 : State) (h : s1.errno = s.errno) :
    (FILE_SetDosError s1).dosError = (FILE_SetDosError s).dosError := by
  unfold FILE_SetDosError
  rw [h]
  cases s.errno <;> rfl

/-- The body of `FILE_Create` once the slot is allocated and the path resolved:
one native open, then the failure or the success exit. -/
theorem FILE_Create_reach (env : Env) (path : String) (mode : Nat) (unique : Bool) (s sA : State)
    (long_name : String) (file : Nat)
    (hdev : env.DOSFS_IsDevice path = none)
    (hA : FILE_Alloc env s = (freshHandle s.handles, some file, sA))
    (hname : env.DOSFS_GetFullName path false sA.files = Sum.inr long_name) :
    FILE_Create env path mode unique s =
      if (sys_open env long_name
            { access := O_RDWR, creat := true, excl := unique, trunc := true } mode sA).1 = -1 then
        Except.ok (INVALID_HANDLE_VALUE32,
          (CloseHandle (freshHandle s.handles) (FILE_SetDosError
            (modifyObject file (fun o => { o with unix_handle := -1 })
              (sys_open env long_name
                { access := O_RDWR, creat := true, excl := unique, trunc := true }
                mode sA).2))).2)
      else
        Except.ok (freshHandle s.handles,
          modifyObject file (fun o => { o with unix_name := some long_name })
            (modifyObject file (fun o => { o with unix_handle := (sys_open env long_name
                { access := O_RDWR, creat := true, excl := unique, trunc := true } mode sA).1 })
              (sys_open env long_name
                { access := O_RDWR, creat := true, excl := unique, trunc := true }
                mode sA).2)) := by
  have hne : freshHandle s.handles ≠ INVALID_HANDLE_VALUE32 := by
    have := one_le_freshHandle s.handles
    unfold INVALID_HANDLE_VALUE32
    omega
  unfold FILE_Create
  simp only [hdev, hA, hne, if_false, hname]
  generalize sys_open env long_name
    { access := O_RDWR, creat := true, excl := unique, trunc := true } mode sA = o
  obtain ⟨fd, s2⟩ := o
  simp only []
  by_cases hfd : fd = -1
  · subst hfd
    simp only [if_true]
    rfl
  · simp only [hfd, if_false]
    rfl

/-- Native open with create and exclusive on a name that exists fails with
`EEXIST` and changes no file. -/
theorem sys_open_excl_exists (env : Env) (name : String) (acc mode : Nat) (tr : Bool)
    (s : State) (f : UnixFile) (hfault : env.fault s.tick = none)
    (hf : assocFind name s.files = some f) :
    (sys_open env name { access := acc, creat := true, excl := true, trunc := tr } mode s).1
      = -1 ∧
    (sys_open env name { access := acc, creat := true, excl := true, trunc := tr } mode s).2.errno
      = Errno.EEXIST ∧
    (sys_open env name { access := acc, creat := true, excl := true, trunc := tr } mode s).2.files
      = s.files := by
  unfold sys_open
  simp only [hfault, hf, and_self, if_true]

/-- Native open for read-write with truncate, not exclusive, on a regular file
the owner may read and write yields a descriptor and empties the file. -/
theorem sys_open_trunc_exists (env : Env) (name : String) (mode : Nat) (s : State)
    (f : UnixFile) (hfault : env.fault s.tick = none) (hf : assocFind name s.files = some f)
    (hdir : f.isDir = false) (hr : f.st_mode &&& S_IRUSR ≠ 0) (hw : f.st_mode &&& S_IWUSR ≠ 0) :
    (sys_open env name { access := O_RDWR, creat := true, excl := false, trunc := true } mode s).1
      ≠ -1 ∧
    (sys_open env name
      { access := O_RDWR, creat := true, excl := false, trunc := true } mode s).2.files
      = assocInsert name { f with data := [] } s.files := by
  have h1 : ¬ O_RDWR = O_RDONLY := by decide
  have h2 : ¬ O_RDWR = O_WRONLY := by decide
  unfold sys_open
  simp only [hfault, hf, hdir, hr, hw, h1, h2, Bool.false_eq_true, and_false, false_and,
    if_false, ne_eq, not_false_eq_true, and_self, if_true]
  constructor
  · have : (-1 : Int) ≤ (s.fds.map Prod.fst).foldl max (-1) := (le_foldl_max _ _).1
    unfold freshFd
    omega
  · trivial

/-- The claim C18 read on the code fails for the plain create: on the directory
"d" and on a file the owner may not write, both pre-existing, the create that is
not exclusive asks the native open, which fails, and returns the invalid handle,
with the files as they were. -/
theorem FILE_Create_plain_not_always :
    (∃ s1, FILE_Create Env.plain "d" 0o666 false State.withDir
        = Except.ok (INVALID_HANDLE_VALUE32, s1) ∧
      s1.natives = [Native.Open "d"
        { access := O_RDWR, creat := true, excl := false, trunc := true } 0o666] ∧
      s1.DOS_ExtendedError = ER.ER_CanNotMakeDir ∧ s1.files = State.withDir.files) ∧
    (∃ s1, FILE_Create Env.plain "a" 0o666 false
        { State.empty with files := [("a", UnixFile.regular [72, 105] 0o444)] }
        = Except.ok (INVALID_HANDLE_VALUE32, s1) ∧
      s1.DOS_ExtendedError = ER.ER_AccessDenied ∧
      s1.contents "a" = some [72, 105]) :=
  ⟨⟨_, rfl, by decide, by decide, by decide⟩, ⟨_, rfl, by decide, by decide⟩⟩

/-- Claim C18, amended: for a path that is not a device and any permission bits,
once the slot is allocated and the path resolved, `FILE_Create` makes exactly
one native call, an open for read-write with create and truncate that is
exclusive exactly when `unique` is set.  Hence, the native call not being
interrupted, on a path that exists the exclusive create returns the invalid
handle with the file-exists error, the slot it allocated closed again and the
files untouched, while the plain create of a regular file the owner may read
and write returns the newly opened handle and leaves the file with length 0. -/
theorem FILE_Create_exclusive (env : Env) (path : String) (mode : Nat) (s : State)
    (long_name : String)
    (hdev : env.DOSFS_IsDevice path = none)
    (hheap : env.HeapAllocFails s.tick = false)
    (htable : env.AllocHandleFails (s.tick + 1) = false)
    (hname : env.DOSFS_GetFullName path false s.files = Sum.inr long_name) :
    (∀ unique, ∃ h s1, FILE_Create env path mode unique s = Except.ok (h, s1) ∧
      s1.natives = s.natives ++ [Native.Open long_name
        { access := O_RDWR, creat := true, excl := unique, trunc := true } mode]) ∧
    (∀ file0, env.fault (s.tick + 2) = none → assocFind long_name s.files = some file0 →
      (∃ s1, FILE_Create env path mode true s = Except.ok (INVALID_HANDLE_VALUE32, s1) ∧
        s1.DOS_ExtendedError = ER.ER_FileExists ∧ s1.handles = s.handles ∧
        s1.events = s.events ++ [Event.AllocHandle (freshHandle s.handles),
                                 Event.CloseHandle (freshHandle s.handles)] ∧
        s1.files = s.files) ∧
      (file0.isDir = false → file0.st_mode &&& S_IRUSR ≠ 0 → file0.st_mode &&& S_IWUSR ≠ 0 →
        ∃ s1, FILE_Create env path mode false s = Except.ok (freshHandle s.handles, s1) ∧
          freshHandle s.handles ≠ INVALID_HANDLE_VALUE32 ∧
          Holding s s1 (freshHandle s.handles) ∧
          s1.contents long_name = some [])) := by
  obtain ⟨file, sA, hA, hAh, hAe, hAf, hAd, hAt, hAn, hAx, hAo⟩ :=
    FILE_Alloc_ok env s hheap htable
  have hne : freshHandle s.handles ≠ INVALID_HANDLE_VALUE32 := by
    have := one_le_freshHandle s.handles
    unfold INVALID_HANDLE_VALUE32
    omega
  have hreach := fun unique => FILE_Create_reach env path mode unique s sA long_name file hdev hA
    (by rw [hAf]; exact hname)
  -- closing the slot again after a failed open
  have hclose : ∀ s2 : State, s2.handles = sA.handles → s2.objects = sA.objects →
      (CloseHandle (freshHandle s.handles) (FILE_SetDosError
        (modifyObject file (fun o => { o with unix_handle := -1 }) s2))).2.handles = s.handles ∧
      (CloseHandle (freshHandle s.handles) (FILE_SetDosError
        (modifyObject file (fun o => { o with unix_handle := -1 }) s2))).2.events =
        s2.events ++ [Event.CloseHandle (freshHandle s.handles)] ∧
      (CloseHandle (freshHandle s.handles) (FILE_SetDosError
        (modifyObject file (fun o => { o with unix_handle := -1 }) s2))).2.natives = s2.natives ∧
      (CloseHandle (freshHandle s.handles) (FILE_SetDosError
        (modifyObject file (fun o => { o with unix_handle := -1 }) s2))).2.dosError =
        (FILE_SetDosError s2).dosError ∧
      (CloseHandle (freshHandle s.handles) (FILE_SetDosError
        (modifyObject file (fun o => { o with unix_handle := -1 }) s2))).2.files = s2.files := by
    intro s2 h2h h2o
    have hobj : assocFind file s2.objects = some ⟨1, -1, none, FILE_TYPE_DISK⟩ := by
      rw [h2o]; exact hAo
    obtain ⟨m1, m2, m3, m4⟩ := modifyObject_find file (fun o => { o with unix_handle := -1 })
      s2 _ hobj
    obtain ⟨w1, w2, w3, w4⟩ := FILE_SetDosError_world
      (modifyObject file (fun o => { o with unix_handle := -1 }) s2)
    obtain ⟨c1, c2, c3, c4, c5⟩ := CloseHandle_last
      (FILE_SetDosError (modifyObject file (fun o => { o with unix_handle := -1 }) s2))
      (freshHandle s.handles) file s.handles _
      (by rw [w1, m4, h2h, hAh]) (freshHandle_fresh s.handles) (by rw [w2]; exact m1)
      (Nat.le_refl 1)
    refine ⟨c1, ?_, ?_, ?_, ?_⟩
    · rw [c2, (FILE_SetDosError_natives _).2, (modifyObject_htab _ _ _).2]
    · rw [c5, (FILE_SetDosError_natives _).1, (modifyObject_natives _ _ _).1]
      simp
    · rw [c3]
      apply FILE_SetDosError_dosError
      unfold modifyObject
      simp only [hobj]
    · rw [c4, w4, m3]
  refine ⟨?_, ?_⟩
  · intro unique
    obtain ⟨n1, n2, -⟩ := sys_open_natives env long_name
      { access := O_RDWR, creat := true, excl := unique, trunc := true } mode sA
    obtain ⟨o1, -⟩ := sys_open_htab env long_name
      { access := O_RDWR, creat := true, excl := unique, trunc := true } mode sA
    rw [hreach unique]
    split
    · refine ⟨_, _, rfl, ?_⟩
      rw [(hclose _ o1 n2).2.2.1, n1, hAn]
    · refine ⟨_, _, rfl, ?_⟩
      rw [(modifyObject_natives _ _ _).1, (modifyObject_natives _ _ _).1, n1, hAn]
  · intro file0 hfault hexists
    have hfaultA : env.fault sA.tick = none := by rw [hAt]; exact hfault
    have hexA : assocFind long_name sA.files = some file0 := by rw [hAf]; exact hexists
    constructor
    · obtain ⟨e1, e2, e3⟩ := sys_open_excl_exists env long_name O_RDWR mode true sA file0
        hfaultA hexA
      obtain ⟨-, n2, n3⟩ := sys_open_natives env long_name
        { access := O_RDWR, creat := true, excl := true, trunc := true } mode sA
      obtain ⟨o1, o2⟩ := sys_open_htab env long_name
        { access := O_RDWR, creat := true, excl := true, trunc := true } mode sA
      rw [hreach true]
      simp only [e1, if_true]
      obtain ⟨c1, c2, -, c4, c5⟩ := hclose _ o1 n2
      refine ⟨_, rfl, ?_, c1, ?_, ?_⟩
      · have := congrArg Prod.fst c4
        simp only [State.dosError] at this
        rw [this]
        unfold FILE_SetDosError
        rw [e2]
        rfl
      · rw [c2, o2, hAe, List.append_assoc]
        rfl
      · rw [c5, e3, hAf]
    · intro hdir hr hw
      obtain ⟨t1, t2⟩ := sys_open_trunc_exists env long_name mode sA file0 hfaultA hexA hdir hr hw
      obtain ⟨o1, o2⟩ := sys_open_htab env long_name
        { access := O_RDWR, creat := true, excl := false, trunc := true } mode sA
      rw [hreach false]
      simp only [t1, if_false]
      refine ⟨_, rfl, hne, ⟨rfl, file, ?_, ?_⟩, ?_⟩
      · rw [(modifyObject_htab _ _ _).1, (modifyObject_htab _ _ _).1, o1, hAh]
      · rw [(modifyObject_htab _ _ _).2, (modifyObject_htab _ _ _).2, o2, hAe]
      · unfold State.contents
        rw [(modifyObject_world _ _ _).2, (modifyObject_world _ _ _).2, t2,
          assocFind_insert_same]
        rfl

theorem FILE_Create_exclusive_witness :
    (∃ h s1, FILE_Create Env.plain "a" 0o666 true State.sample = Except.ok (h, s1) ∧
      s1.natives = State.sample.natives ++ [Native.Open "a"
        { access := O_RDWR, creat := true, excl := true, trunc := true } 0o666]) ∧
    (∃ s1, FILE_Create Env.plain "a" 0o666 true State.sample =
        Except.ok (INVALID_HANDLE_VALUE32, s1) ∧
      s1.DOS_ExtendedError = ER.ER_FileExists ∧ s1.handles = State.sample.handles ∧
      s1.events = State.sample.events ++
        [Event.AllocHandle (freshHandle State.sample.handles),
         Event.CloseHandle (freshHandle State.sample.handles)] ∧
      s1.files = State.sample.files) ∧
    (∃ s1, FILE_Create Env.plain "a" 0o666 false State.sample =
        Except.ok (freshHandle State.sample.handles, s1) ∧
      freshHandle State.sample.handles ≠ INVALID_HANDLE_VALUE32 ∧
      Holding State.sample s1 (freshHandle State.sample.handles) ∧
      s1.contents "a" = some []) :=
  ⟨(FILE_Create_exclusive Env.plain "a" 0o666 State.sample "a" rfl rfl rfl rfl).1 true,
   ((FILE_Create_exclusive Env.plain "a" 0o666 State.sample "a" rfl rfl rfl rfl).2
      (UnixFile.regular [72, 105] 0o644) rfl rfl).1,
   ((FILE_Create_exclusive Env.plain "a" 0o666 State.sample "a" rfl rfl rfl rfl).2
      (UnixFile.regular [72, 105] 0o644) rfl rfl).2 rfl (by decide) (by decide)⟩

/-- When `FILE_Alloc` stores an object pointer, the heap and the handle table
had room. -/
theorem FILE_Alloc_of_some (env : Env) (s sA : State) (h : Int) (file : Nat)
    (hA : FILE_Alloc env s = (h, some file, sA)) :
    env.HeapAllocFails s.tick = false ∧ env.AllocHandleFails (s.tick + 1) = false := by
  unfold FILE_Alloc at hA
  by_cases hheap : env.HeapAllocFails s.tick = true
  · simp [hheap] at hA
  · simp only [hheap, Bool.false_eq_true, if_false] at hA
    by_cases htable : env.AllocHandleFails (s.tick + 1) = true
    · unfold PROCESS_AllocHandle at hA
      simp [htable] at hA
    · simp only [Bool.not_eq_true] at hheap htable
      exact ⟨hheap, htable⟩

/-- What a successful `FILE_Alloc` leaves: the new slot on top of the table, a
fresh object without a descriptor, and everything else as it was. -/
theorem FILE_Alloc_facts (env : Env) (s sA : State) (file : Nat)
    (hA : FILE_Alloc env s = (freshHandle s.handles, some file, sA)) :
    sA.handles = (freshHandle s.handles, file) :: s.handles ∧
    sA.events = s.events ++ [Event.AllocHandle (freshHandle s.handles)] ∧
    sA.files = s.files ∧ sA.fds = s.fds ∧ sA.tick = s.tick + 2 ∧ sA.natives = s.natives ∧
    sA.DOS_ExtendedError = s.DOS_ExtendedError ∧
    assocFind file sA.objects = some ⟨1, -1, none, FILE_TYPE_DISK⟩ := by
  obtain ⟨hheap, htable⟩ := FILE_Alloc_of_some env s sA _ file hA
  obtain ⟨file1, sA1, hA1, facts⟩ := FILE_Alloc_ok env s hheap htable
  rw [hA] at hA1
  simp only [Prod.mk.injEq, Option.some.injEq, true_and] at hA1
  obtain ⟨hf, hs⟩ := hA1
  subst hf
  subst hs
  exact facts

/-- The native calls of the first statement of `FILE_OpenUnixFile`: the open
asked for, and after its failure a read-only open exactly when the option
`failReadOnly` is off and the mode asked for is `O_RDWR`. -/
theorem FILE_OpenUnixFile_open_natives (env : Env) (name : String) (mode : OpenFlags)
    (file : Nat) (s : State) :
    ((sys_open env name mode 0o666 s).1 ≠ -1 →
      (FILE_OpenUnixFile.open env name mode file s).2.natives =
        s.natives ++ [Native.Open name mode 0o666]) ∧
    ((sys_open env name mode 0o666 s).1 = -1 →
      (FILE_OpenUnixFile.open env name mode file s).2.natives =
        s.natives ++ Native.Open name mode 0o666 ::
          (if ¬ env.failReadOnly ∧ mode = OpenFlags.rdwr then
            [Native.Open name OpenFlags.rdonly 0] else [])) := by
  have h1 := (sys_open_natives env name mode 0o666 s).1
  unfold FILE_OpenUnixFile.open
  generalize sys_open env name mode 0o666 s = o at h1
  obtain ⟨fd, s1⟩ := o
  simp only [] at h1 ⊢
  constructor
  · intro hfd
    simp only [hfd, if_false]
    rw [(modifyObject_natives _ _ _).1, h1]
  · intro hfd
    subst hfd
    simp only [if_true]
    by_cases hc : ¬ env.failReadOnly ∧ mode = OpenFlags.rdwr
    · have hc1 : ¬ env.failReadOnly = true ∧ mode =
          { access := O_RDWR, creat := false, excl := false, trunc := false } := hc
      rw [if_pos hc1, if_pos hc]
      simp only []
      rw [(modifyObject_natives _ _ _).1, (sys_open_natives _ _ _ _ _).1,
        (modifyObject_natives _ _ _).1, h1, List.append_assoc]
      rfl
    · have hc1 : ¬ (¬ env.failReadOnly = true ∧ mode =
          { access := O_RDWR, creat := false, excl := false, trunc := false }) := hc
      rw [if_neg hc1, if_neg hc]
      simp only []
      rw [(modifyObject_natives _ _ _).1, h1]

/-- The first statement of `FILE_OpenUnixFile` stores the descriptor it returns
in the object and touches no other field of it. -/
theorem FILE_OpenUnixFile_open_object (env : Env) (name : String) (mode : OpenFlags)
    (file : Nat) (s : State) (o : FILE_OBJECT) (ho : assocFind file s.objects = some o) :
    assocFind file (FILE_OpenUnixFile.open env name mode file s).2.objects =
      some { o with unix_handle := (FILE_OpenUnixFile.open env name mode file s).1 } := by
  have step : ∀ (flags : OpenFlags) (m : Nat) (t : State) (o1 : FILE_OBJECT),
      assocFind file t.objects = some o1 →
      assocFind file (modifyObject file
        (fun o => { o with unix_handle := (sys_open env name flags m t).1 })
        (sys_open env name flags m t).2).objects =
        some { o1 with unix_handle := (sys_open env name flags m t).1 } := by
    intro flags m t o1 h1
    exact (modifyObject_find file _ _ o1
      (by rw [(sys_open_natives env name flags m t).2.1]; exact h1)).1
  have h1 := step mode 0o666 s o ho
  unfold FILE_OpenUnixFile.open
  generalize sys_open env name mode 0o666 s = r at h1
  obtain ⟨fd, s1⟩ := r
  simp only [] at h1 ⊢
  by_cases hfd : fd = -1
  · subst hfd
    simp only [if_true]
    split
    · exact step { access := O_RDONLY, creat := false, excl := false, trunc := false } 0
        _ { o with unix_handle := -1 } h1
    · exact h1
  · simp only [hfd, if_false]
    exact h1

theorem sys_fstat_objects (env : Env) (fd : Int) (s : State) :
    (sys_fstat env fd s).2.objects = s.objects := by
  unfold sys_fstat
  simp only []
  split
  · rfl
  · split
    · rfl
    · split <;> rfl

/-- The body of `FILE_OpenUnixFile` once the slot is allocated. -/
theorem FILE_OpenUnixFile_reach (env : Env) (name : String) (mode : OpenFlags) (s sA : State)
    (file : Nat) (hA : FILE_Alloc env s = (freshHandle s.handles, some file, sA)) :
    FILE_OpenUnixFile env name mode s =
      match (if (FILE_OpenUnixFile.open env name mode file sA).1 = -1 then
               (none, (FILE_OpenUnixFile.open env name mode file sA).2)
             else sys_fstat env (FILE_OpenUnixFile.open env name mode file sA).1
               (FILE_OpenUnixFile.open env name mode file sA).2) with
      | (none, s3) =>
        Except.ok (INVALID_HANDLE_VALUE32,
          (CloseHandle (freshHandle s.handles) (FILE_SetDosError s3)).2)
      | (some st, s3) =>
        if st.isDir then
          Except.ok (INVALID_HANDLE_VALUE32,
            (CloseHandle (freshHandle s.handles)
              (DOS_ERROR ER.ER_AccessDenied EC.EC_AccessDenied SA.SA_Abort EL.EL_Disk s3)).2)
        else
          Except.ok (freshHandle s.handles,
            modifyObject file (fun o => { o with unix_name := some name }) s3) := by
  have hne : freshHandle s.handles ≠ INVALID_HANDLE_VALUE32 := by
    have := one_le_freshHandle s.handles
    unfold INVALID_HANDLE_VALUE32
    omega
  unfold FILE_OpenUnixFile
  simp only [hA, hne, if_false]
  generalize FILE_OpenUnixFile.open env name mode file sA = r
  obtain ⟨fd, s2⟩ := r
  simp only []
  generalize (if fd = -1 then (none, s2) else sys_fstat env fd s2) = q
  obtain ⟨st, s3⟩ := q
  cases st with
  | none => rfl
  | some st =>
    simp only []
    split <;> rfl

/-- Claim C19: in `FILE_OpenUnixFile`, the slot being allocated, when the first
native open fails a second, read-only open is made exactly when the option
`failReadOnly` is off and the mode asked for is `O_RDWR`; when no descriptor is
obtained the call returns the invalid handle, records the translation of the
native error and closes the slot it allocated; when the object opened is a
directory it returns the invalid handle, records access denied and closes the
slot. -/
theorem FILE_OpenUnixFile_failure (env : Env) (name : String) (mode : OpenFlags)
    (s sA : State) (file : Nat)
    (hA : FILE_Alloc env s = (freshHandle s.handles, some file, sA)) :
    ((sys_open env name mode 0o666 sA).1 = -1 →
      (FILE_OpenUnixFile.open env name mode file sA).2.natives =
        s.natives ++ Native.Open name mode 0o666 ::
          (if ¬ env.failReadOnly ∧ mode = OpenFlags.rdwr then
            [Native.Open name OpenFlags.rdonly 0] else [])) ∧
    ((FILE_OpenUnixFile.open env name mode file sA).1 = -1 →
      ∃ s1, FILE_OpenUnixFile env name mode s = Except.ok (INVALID_HANDLE_VALUE32, s1) ∧
        s1.dosError =
          (FILE_SetDosError (FILE_OpenUnixFile.open env name mode file sA).2).dosError ∧
        s1.handles = s.handles ∧
        s1.events = s.events ++ [Event.AllocHandle (freshHandle s.handles),
                                 Event.CloseHandle (freshHandle s.handles)]) ∧
    (∀ st, (FILE_OpenUnixFile.open env name mode file sA).1 ≠ -1 →
      (sys_fstat env (FILE_OpenUnixFile.open env name mode file sA).1
        (FILE_OpenUnixFile.open env name mode file sA).2).1 = some st →
      st.isDir = true →
      ∃ s1, FILE_OpenUnixFile env name mode s = Except.ok (INVALID_HANDLE_VALUE32, s1) ∧
        s1.dosError = (ER.ER_AccessDenied, EC.EC_AccessDenied, SA.SA_Abort, EL.EL_Disk) ∧
        s1.handles = s.handles ∧
        s1.events = s.events ++ [Event.AllocHandle (freshHandle s.handles),
                                 Event.CloseHandle (freshHandle s.handles)]) := by
  obtain ⟨hAh, hAe, -, -, -, hAn, -, hAo⟩ := FILE_Alloc_facts env s sA file hA
  have hreach := FILE_OpenUnixFile_reach env name mode s sA file hA
  have hobj := FILE_OpenUnixFile_open_object env name mode file sA _ hAo
  obtain ⟨b1, b2⟩ := FILE_OpenUnixFile_open_htab env name mode file sA
  refine ⟨?_, ?_, ?_⟩
  · intro hfd
    rw [(FILE_OpenUnixFile_open_natives env name mode file sA).2 hfd, hAn]
  · intro hfd
    rw [hreach]
    simp only [hfd, if_true]
    obtain ⟨w1, w2, -, -⟩ := FILE_SetDosError_world (FILE_OpenUnixFile.open env name mode file sA).2
    obtain ⟨c1, c2, c3, -, -⟩ := CloseHandle_last
      (FILE_SetDosError (FILE_OpenUnixFile.open env name mode file sA).2)
      (freshHandle s.handles) file s.handles _
      (by rw [w1, b1, hAh]) (freshHandle_fresh s.handles) (by rw [w2]; exact hobj)
      (Nat.le_refl 1)
    refine ⟨_, rfl, c3, c1, ?_⟩
    rw [c2, (FILE_SetDosError_natives _).2, b2, hAe, List.append_assoc]
    rfl
  · intro st hfd hst hdir
    rw [hreach]
    simp only [hfd, if_false]
    have f1 := sys_fstat_htab env (FILE_OpenUnixFile.open env name mode file sA).1
      (FILE_OpenUnixFile.open env name mode file sA).2
    have f2 := sys_fstat_objects env (FILE_OpenUnixFile.open env name mode file sA).1
      (FILE_OpenUnixFile.open env name mode file sA).2
    generalize sys_fstat env (FILE_OpenUnixFile.open env name mode file sA).1
      (FILE_OpenUnixFile.open env name mode file sA).2 = q at hst f1 f2
    obtain ⟨st1, s3⟩ := q
    simp only [] at hst f1 f2
    subst hst
    simp only [hdir, if_true]
    obtain ⟨c1, c2, c3, -, -⟩ := CloseHandle_last
      (DOS_ERROR ER.ER_AccessDenied EC.EC_AccessDenied SA.SA_Abort EL.EL_Disk s3)
      (freshHandle s.handles) file s.handles _
      (by show s3.handles = _; rw [f1.1, b1, hAh]) (freshHandle_fresh s.handles)
      (by show assocFind file s3.objects = _; rw [f2]; exact hobj) (Nat.le_refl 1)
    refine ⟨_, rfl, ?_, c1, ?_⟩
    · rw [c3]
      rfl
    · rw [c2]
      show s3.events ++ _ = _
      rw [f1.2, b2, hAe, List.append_assoc]
      rfl

theorem FILE_OpenUnixFile_failure_witness :
    (FILE_OpenUnixFile.open Env.plain "zz" OpenFlags.rdwr 1
        (FILE_Alloc Env.plain State.withDir).2.2).2.natives =
      State.withDir.natives ++ Native.Open "zz" OpenFlags.rdwr 0o666 ::
        (if ¬ Env.plain.failReadOnly ∧ OpenFlags.rdwr = OpenFlags.rdwr then
          [Native.Open "zz" OpenFlags.rdonly 0] else []) ∧
    (∃ s1, FILE_OpenUnixFile Env.plain "zz" OpenFlags.rdwr State.withDir =
        Except.ok (INVALID_HANDLE_VALUE32, s1) ∧
      s1.dosError = (FILE_SetDosError (FILE_OpenUnixFile.open Env.plain "zz" OpenFlags.rdwr 1
        (FILE_Alloc Env.plain State.withDir).2.2).2).dosError ∧
      s1.handles = State.withDir.handles ∧
      s1.events = State.withDir.events ++
        [Event.AllocHandle (freshHandle State.withDir.handles),
         Event.CloseHandle (freshHandle State.withDir.handles)]) ∧
    (∃ s1, FILE_OpenUnixFile Env.plain "d" OpenFlags.rdonly State.withDir =
        Except.ok (INVALID_HANDLE_VALUE32, s1) ∧
      s1.dosError = (ER.ER_AccessDenied, EC.EC_AccessDenied, SA.SA_Abort, EL.EL_Disk) ∧
      s1.handles = State.withDir.handles ∧
      s1.events = State.withDir.events ++
        [Event.AllocHandle (freshHandle State.withDir.handles),
         Event.CloseHandle (freshHandle State.withDir.handles)]) :=
  ⟨(FILE_OpenUnixFile_failure Env.plain "zz" OpenFlags.rdwr State.withDir
      (FILE_Alloc Env.plain State.withDir).2.2 1 (by decide)).1 (by decide),
   (FILE_OpenUnixFile_failure Env.plain "zz" OpenFlags.rdwr State.withDir
      (FILE_Alloc Env.plain State.withDir).2.2 1 (by decide)).2.1 (by decide),
   (FILE_OpenUnixFile_failure Env.plain "d" OpenFlags.rdonly State.withDir
      (FILE_Alloc Env.plain State.withDir).2.2 1 (by decide)).2.2
      (Stat.mk 0o755 true 0 0 0 2 1) (by decide) (by decide) rfl⟩

/-! ## Temporary names -/

/-- Claim C20, at the input where the code departs from it: with `unique` 0, the
clock reading 0xffff and the name for 0xffff taken, the probe goes on to the
number 0x10000 and the buffer is left with five hexadecimal digits before
".tmp", which is not the format of the specification. -/
theorem GetTempFileName32A_fifth_digit :
    (GetTempFileName32A (Env.atTime 0xffff) 2 (some "T") "abc" 0 "" State.withTemp).toOption.map
        (fun r => (r.1, r.2.1)) =
      some (0x10000, GetTempFileName32A.stem "T" "abc" ++ "10000.tmp") ∧
    ¬ TempNameFormat "T" "abc" (GetTempFileName32A.stem "T" "abc" ++ "10000.tmp") := by
  constructor
  · decide
  · rintro ⟨digits, hlen, -, heq⟩
    have := congrArg (fun t => t.data.length) heq
    simp [GetTempFileName32A.stem, hlen] at this

theorem toDigitsCore_hex (fuel n : Nat) (ds : List Char)
    (hds : ∀ c ∈ ds, c ∈ "0123456789abcdef".data) :
    ∀ c ∈ Nat.toDigitsCore 16 fuel n ds, c ∈ "0123456789abcdef".data := by
  have hdigit : ∀ k, k < 16 → Nat.digitChar k ∈ "0123456789abcdef".data := by decide
  induction fuel generalizing n ds with
  | zero => simpa [Nat.toDigitsCore] using hds
  | succ fuel ih =>
    have hcons : ∀ c ∈ Nat.digitChar (n % 16) :: ds, c ∈ "0123456789abcdef".data := by
      intro c hc
      rcases List.mem_cons.1 hc with rfl | hc
      · exact hdigit _ (Nat.mod_lt _ (by decide))
      · exact hds c hc
    unfold Nat.toDigitsCore
    simp only []
    split
    · exact hcons
    · exact ih _ _ hcons

/-- For a number below 0x10000 the format "%04x" writes exactly four lower-case
hexadecimal digits. -/
theorem hex04_four (n : Nat) (h : n < 65536) :
    (hex04 n).data.length = 4 ∧ ∀ c ∈ (hex04 n).data, c ∈ "0123456789abcdef".data := by
  have hlen : (Nat.toDigits 16 n).length ≤ 4 :=
    Nat.toDigitsCore_length 16 (by decide) (n + 1) n 4 (by simpa using h) (by decide)
  have hch : ∀ c ∈ Nat.toDigits 16 n, c ∈ "0123456789abcdef".data :=
    toDigitsCore_hex (n + 1) n [] (by simp)
  unfold hex04
  constructor
  · simp only [List.length_append, List.length_replicate]
    omega
  · intro c hc
    simp only [List.mem_append, List.mem_replicate] at hc
    rcases hc with ⟨-, rfl⟩ | hc
    · decide
    · exact hch c hc

/-- The stem the source builds is the one the specification describes. -/
theorem GetTempFileName32A_stem_spec (path pfx : String) :
    (GetTempFileName32A.stem path pfx).data =
      path.data ++ (if path.data.getLast? = some (Char.ofNat 92) then [] else [Char.ofNat 92])
        ++ ['~'] ++ pfx.data.take (min 3 pfx.data.length) := by
  have htake : pfx.data.take (min 3 pfx.data.length) = pfx.data.take 3 := by
    rcases Nat.le_total 3 pfx.data.length with h | h
    · rw [Nat.min_eq_left h]
    · rw [Nat.min_eq_right h, List.take_length, List.take_of_length_le h]
  unfold GetTempFileName32A.stem
  rw [htake]
  by_cases hp : path.data = []
  · simp [hp]
  · by_cases hl : path.data.getLast? = some (Char.ofNat 92)
    · simp [hp, hl]
    · simp [hl]

/-- With a number given by the caller nothing is probed and the name left in the
buffer has the format of the specification: the masked number has four
digits. -/
theorem GetTempFileName32A_given_number (env : Env) (fuel : Nat) (path pfx buffer : String)
    (unique : Nat) (s : State) (hu : unique ≠ 0) :
    ∃ name s1, GetTempFileName32A env fuel (some path) pfx unique buffer s =
        Except.ok (unique, name, s1) ∧
      name = GetTempFileName32A.stem path pfx ++ hex04 (unique % 65536) ++ ".tmp" ∧
      TempNameFormat path pfx name := by
  obtain ⟨h4, hch⟩ := hex04_four (unique % 65536) (Nat.mod_lt _ (by decide))
  unfold GetTempFileName32A
  simp only [hu, ne_eq, not_false_eq_true, if_true, if_false, pure, Except.pure]
  refine ⟨_, _, rfl, rfl, (hex04 (unique % 65536)).data, h4, hch, ?_⟩
  apply String.ext
  simp only [String.data_append, GetTempFileName32A_stem_spec]

/-! ## Handles that are not files, and the borrow of a file object -/

theorem FILE_GetFile_none (hFile : Int) (s : State) (h : (FILE_GetFile hFile s).1 = none) :
    FILE_GetFile hFile s = (none, { s with DOS_ExtendedError := ER.ER_InvalidHandle }) := by
  unfold FILE_GetFile PROCESS_GetObjPtr at h ⊢
  cases h1 : assocFind hFile s.handles with
  | none => rfl
  | some ptr =>
    cases h2 : assocFind ptr s.objects with
    | none => simp [h2]
    | some o => simp [h1, h2] at h

/-- Claim C23: for a handle that the handle table does not resolve to a file
object, each handle-based operation returns its sentinel (`_lread32` the value
-1 as a `UINT32`, `_hwrite32` the error handle -1, `SetFilePointer` 0xffffffff,
`FlushFileBuffers`, `SetEndOfFile`, `FILE_SetFileType` false and
`GetFileInformationByHandle` 0) and makes no native call: the log of native
calls and the native files and descriptors are as before. -/
theorem FILE_GetFile_failure_local (env : Env) (hFile : Int) (s : State) (count : Nat)
    (buffer : List Nat) (wcount : Int) (distance : Int) (highword : Option Int)
    (method type : Nat) (h : (FILE_GetFile hFile s).1 = none) :
    ((_lread32 env hFile count s).1 = toUINT32 (-1) ∧
      (_lread32 env hFile count s).2.2.natives = s.natives ∧
      (_lread32 env hFile count s).2.2.files = s.files ∧
      (_lread32 env hFile count s).2.2.fds = s.fds) ∧
    ((_hwrite32 env hFile buffer wcount s).1 = HFILE_ERROR32 ∧
      (_hwrite32 env hFile buffer wcount s).1 = -1 ∧
      (_hwrite32 env hFile buffer wcount s).2.natives = s.natives ∧
      (_hwrite32 env hFile buffer wcount s).2.files = s.files ∧
      (_hwrite32 env hFile buffer wcount s).2.fds = s.fds) ∧
    ((SetFilePointer env hFile distance highword method s).1 = 0xffffffff ∧
      (SetFilePointer env hFile distance highword method s).2.natives = s.natives ∧
      (SetFilePointer env hFile distance highword method s).2.files = s.files ∧
      (SetFilePointer env hFile distance highword method s).2.fds = s.fds) ∧
    ((FlushFileBuffers env hFile s).1 = false ∧
      (FlushFileBuffers env hFile s).2.natives = s.natives ∧
      (FlushFileBuffers env hFile s).2.files = s.files ∧
      (FlushFileBuffers env hFile s).2.fds = s.fds) ∧
    ((SetEndOfFile env hFile s).1 = false ∧
      (SetEndOfFile env hFile s).2.natives = s.natives ∧
      (SetEndOfFile env hFile s).2.files = s.files ∧
      (SetEndOfFile env hFile s).2.fds = s.fds) ∧
    ((FILE_SetFileType hFile type s).1 = false ∧
      (FILE_SetFileType hFile type s).2.natives = s.natives ∧
      (FILE_SetFileType hFile type s).2.files = s.files ∧
      (FILE_SetFileType hFile type s).2.fds = s.fds) ∧
    ((GetFileInformationByHandle env hFile s).1 = 0 ∧
      (GetFileInformationByHandle env hFile s).2.2.natives = s.natives ∧
      (GetFileInformationByHandle env hFile s).2.2.files = s.files ∧
      (GetFileInformationByHandle env hFile s).2.2.fds = s.fds) := by
  have hg := FILE_GetFile_none hFile s h
  refine ⟨?_, ?_, ?_, ?_, ?_, ?_, ?_⟩
  · unfold _lread32
    rw [hg]
    exact ⟨rfl, rfl, rfl, rfl⟩
  · unfold _hwrite32
    rw [hg]
    exact ⟨rfl, rfl, rfl, rfl, rfl⟩
  · unfold SetFilePointer
    split
    · exact ⟨rfl, rfl, rfl, rfl⟩
    · rw [hg]
      exact ⟨rfl, rfl, rfl, rfl⟩
  · unfold FlushFileBuffers
    rw [hg]
    exact ⟨rfl, rfl, rfl, rfl⟩
  · unfold SetEndOfFile
    rw [hg]
    exact ⟨rfl, rfl, rfl, rfl⟩
  · unfold FILE_SetFileType
    rw [hg]
    exact ⟨rfl, rfl, rfl, rfl⟩
  · unfold GetFileInformationByHandle
    rw [hg]
    exact ⟨rfl, rfl, rfl, rfl⟩

theorem FILE_GetFile_failure_local_witness :
    (FILE_GetFile 9 State.sample).1 = none ∧
    (_lread32 Env.plain 9 2 State.sample).1 = 4294967295 ∧
    (_hwrite32 Env.plain 9 [72] 1 State.sample).1 = -1 ∧
    (SetFilePointer Env.plain 9 0 none 0 State.sample).1 = 0xffffffff ∧
    (FlushFileBuffers Env.plain 9 State.sample).1 = false ∧
    (SetEndOfFile Env.plain 9 State.sample).2.natives = [] :=
  have h := FILE_GetFile_failure_local Env.plain 9 State.sample 2 [72] 1 0 none 0 0
    (by decide)
  ⟨by decide, h.1.1, h.2.1.2.1, h.2.2.1.1, h.2.2.2.1.1, h.2.2.2.2.1.2.1⟩

theorem assocFind_erase_ne {κ α : Type} [DecidableEq κ] (k q : κ) (l : List (κ × α))
    (h : k ≠ q) : assocFind q (assocErase k l) = assocFind q l := by
  unfold assocErase
  induction l with
  | nil => rfl
  | cons e rest ih =>
    obtain ⟨k1, v1⟩ := e
    rw [List.filter_cons]
    by_cases hk : k1 = k
    · subst hk
      rw [if_neg (by simp), ih, assocFind, if_neg h]
    · rw [if_pos (by simpa using hk), assocFind, assocFind, ih]

theorem assocFind_insert_ne {κ α : Type} [DecidableEq κ] (k q : κ) (v : α) (l : List (κ × α))
    (h : k ≠ q) : assocFind q (assocInsert k v l) = assocFind q l := by
  unfold assocInsert
  rw [assocFind, if_neg h]
  exact assocFind_erase_ne k q l h

theorem modifyObject_other (ptr q : Nat) (f : FILE_OBJECT → FILE_OBJECT) (s : State)
    (h : ptr ≠ q) : assocFind q (modifyObject ptr f s).objects = assocFind q s.objects := by
  unfold modifyObject
  split
  · exact assocFind_insert_ne _ _ _ _ h
  · rfl

theorem FILE_Destroy_other (ptr q : Nat) (s : State) (h : ptr ≠ q) :
    assocFind q (FILE_Destroy ptr s).objects = assocFind q s.objects := by
  unfold FILE_Destroy
  split
  · rfl
  · simp only []
    rw [assocFind_erase_ne _ _ _ h]
    split
    · rfl
    · rfl

theorem K32OBJ_DecCount_other (ptr q : Nat) (s : State) (h : ptr ≠ q) :
    assocFind q (K32OBJ_DecCount ptr s).objects = assocFind q s.objects := by
  unfold K32OBJ_DecCount
  split
  · rfl
  · split
    · rw [FILE_Destroy_other _ _ _ h, modifyObject_other _ _ _ _ h]
    · exact modifyObject_other _ _ _ _ h

/-- What the borrow of `FILE_GetFile` does to the object of a handle. -/
theorem FILE_GetFile_some (hFile : Int) (s : State) (file : Nat) (o : FILE_OBJECT)
    (hh : assocFind hFile s.handles = some file) (ho : assocFind file s.objects = some o) :
    ∃ s1, FILE_GetFile hFile s = (some file, s1) ∧ s1.handles = s.handles ∧
      assocFind file s1.objects = some { o with refcount := o.refcount + 1 } := by
  refine ⟨K32OBJ_IncCount file s, ?_, ?_, ?_⟩
  · simp [FILE_GetFile, PROCESS_GetObjPtr, hh, ho]
  · exact (modifyObject_find file _ s o ho).2.2.2
  · exact (modifyObject_find file _ s o ho).1

theorem borrowCount_eq (file : Nat) (s s2 : State) (o o2 : FILE_OBJECT)
    (ho : assocFind file s.objects = some o) (ho2 : assocFind file s2.objects = some o2)
    (hr : o2.refcount = o.refcount) (hh : s2.handles = s.handles) :
    borrowCount file s2 = borrowCount file s := by
  unfold borrowCount
  rw [ho, ho2, hh]
  simp [hr]

/-- The release that ends a borrow: when the work done since the borrow kept the
handle table and the reference count, the borrow count is what it was. -/
theorem FILE_ReleaseFile_balance (file : Nat) (s s2 : State) (o o2 : FILE_OBJECT)
    (ho : assocFind file s.objects = some o) (hc : 1 ≤ o.refcount)
    (ho2 : assocFind file s2.objects = some o2) (hr : o2.refcount = o.refcount + 1)
    (hh : s2.handles = s.handles) :
    borrowCount file (FILE_ReleaseFile file s2) = borrowCount file s := by
  obtain ⟨k1, -, -, k4⟩ := K32OBJ_DecCount_find file s2 o2 ho2 (by omega)
  refine borrowCount_eq file s _ o _ ho k1 ?_ (k4.trans hh)
  simp [hr]

theorem sys_fstat_table (env : Env) (fd : Int) (s : State) :
    (sys_fstat env fd s).2.handles = s.handles ∧ (sys_fstat env fd s).2.objects = s.objects := by
  unfold sys_fstat
  simp only []
  repeat' split
  all_goals simp

theorem sys_read_table (env : Env) (fd : Int) (count : Nat) (s : State) :
    (sys_read env fd count s).2.2.handles = s.handles ∧
    (sys_read env fd count s).2.2.objects = s.objects := by
  unfold sys_read
  simp only []
  repeat' split
  all_goals simp

theorem sys_write_table (env : Env) (fd : Int) (buffer : List Nat) (count : Nat) (s : State) :
    (sys_write env fd buffer count s).2.handles = s.handles ∧
    (sys_write env fd buffer count s).2.objects = s.objects := by
  unfold sys_write
  simp only []
  repeat' split
  all_goals simp

theorem sys_lseek_cur_table (env : Env) (fd : Int) (s : State) :
    (sys_lseek_cur env fd s).2.handles = s.handles ∧
    (sys_lseek_cur env fd s).2.objects = s.objects := by
  unfold sys_lseek_cur
  simp only []
  repeat' split
  all_goals simp

theorem sys_ftruncate_table (env : Env) (fd : Int) (length : Int) (s : State) :
    (sys_ftruncate env fd length s).2.handles = s.handles ∧
    (sys_ftruncate env fd length s).2.objects = s.objects := by
  unfold sys_ftruncate
  simp only []
  repeat' split
  all_goals simp

theorem sys_lseek_table (env : Env) (fd : Int) (offset : Int) (whence : Nat) (s : State) :
    (sys_lseek env fd offset whence s).2.handles = s.handles ∧
    (sys_lseek env fd offset whence s).2.objects = s.objects := by
  unfold sys_lseek
  simp only []
  repeat' split
  all_goals simp

theorem sys_fsync_table (env : Env) (fd : Int) (s : State) :
    (sys_fsync env fd s).2.handles = s.handles ∧ (sys_fsync env fd s).2.objects = s.objects := by
  unfold sys_fsync
  simp only []
  repeat' split
  all_goals simp

theorem sys_utime_table (env : Env) (name : Option String) (actime modtime : Nat) (s : State) :
    (sys_utime env name actime modtime s).2.handles = s.handles ∧
    (sys_utime env name actime modtime s).2.objects = s.objects := by
  unfold sys_utime
  simp only []
  repeat' split
  all_goals simp

theorem slotsOf_insert (ptr p : Nat) (h : Int) (l : List (Int × Nat)) :
    slotsOf ptr (assocInsert h p l)
      = (if p = ptr then 1 else 0) + slotsOf ptr (assocErase h l) := by
  unfold slotsOf assocInsert
  rw [List.filter_cons]
  by_cases hp : p = ptr
  · simp [hp]
    omega
  · simp [hp]

theorem slotsOf_erase (ptr : Nat) (h : Int) (l : List (Int × Nat))
    (hn : (l.map Prod.fst).Nodup) :
    slotsOf ptr l
      = slotsOf ptr (assocErase h l) + (if assocFind h l = some ptr then 1 else 0) := by
  induction l with
  | nil => simp [slotsOf, assocErase, assocFind]
  | cons e rest ih =>
    obtain ⟨k, p⟩ := e
    rw [List.map_cons, List.nodup_cons] at hn
    obtain ⟨hk, hrest⟩ := hn
    have ih := ih hrest
    by_cases hkh : k = h
    · subst hkh
      have hfresh : ∀ e ∈ rest, e.1 ≠ k := by
        intro e he heq
        exact hk (List.mem_map.mpr ⟨e, he, heq⟩)
      have he : assocErase k ((k, p) :: rest) = rest := by
        have := assocErase_of_fresh k rest hfresh
        unfold assocErase at this ⊢
        rw [List.filter_cons, if_neg (by simp), this]
      rw [he, assocFind, if_pos rfl]
      unfold slotsOf
      rw [List.filter_cons]
      by_cases hp : p = ptr
      · simp [hp]
      · simp [hp]
    · have he : assocErase h ((k, p) :: rest) = (k, p) :: assocErase h rest := by
        unfold assocErase
        rw [List.filter_cons, if_pos (by simpa using hkh)]
      rw [he, assocFind, if_neg hkh]
      unfold slotsOf at ih ⊢
      rw [List.filter_cons, List.filter_cons]
      by_cases hp : p = ptr
      · simp only [hp, decide_True, if_true, List.length_cons]
        omega
      · simp only [hp, decide_False, Bool.false_eq_true, if_false]
        exact ih

theorem borrowCount_of (file : Nat) (s : State) (o : FILE_OBJECT)
    (ho : assocFind file s.objects = some o) :
    borrowCount file s = some ((o.refcount : Int) - (slotsOf file s.handles : Int)) := by
  unfold borrowCount
  rw [ho]
  rfl

theorem FILE_SetDosError_borrowCount (file : Nat) (s : State) :
    borrowCount file (FILE_SetDosError s) = borrowCount file s := by
  unfold borrowCount
  rw [(FILE_SetDosError_world s).1, (FILE_SetDosError_world s).2.1]

theorem FILE_ReleaseFile_balance_same (file : Nat) (s s1 s2 : State) (o : FILE_OBJECT)
    (ho : assocFind file s.objects = some o) (hc : 1 ≤ o.refcount)
    (h1 : s1.handles = s.handles)
    (h2 : assocFind file s1.objects = some { o with refcount := o.refcount + 1 })
    (ht : s2.handles = s1.handles ∧ s2.objects = s1.objects) :
    borrowCount file (FILE_ReleaseFile file s2) = borrowCount file s := by
  refine FILE_ReleaseFile_balance file s s2 o { o with refcount := o.refcount + 1 } ho hc ?_ rfl ?_
  · rw [ht.2]
    exact h2
  · rw [ht.1, h1]

theorem FILE_SetDosError_keeps (s : State) :
    (FILE_SetDosError s).handles = s.handles ∧ (FILE_SetDosError s).objects = s.objects :=
  ⟨(FILE_SetDosError_world s).1, (FILE_SetDosError_world s).2.1⟩

theorem FILE_GetUnixHandle_balance (hFile : Int) (s : State) (file : Nat) (o : FILE_OBJECT)
    (hh : assocFind hFile s.handles = some file) (ho : assocFind file s.objects = some o)
    (hc : 1 ≤ o.refcount) :
    borrowCount file (FILE_GetUnixHandle hFile s).2 = borrowCount file s := by
  obtain ⟨s1, hg, h1, h2⟩ := FILE_GetFile_some hFile s file o hh ho
  unfold FILE_GetUnixHandle
  rw [hg]
  exact FILE_ReleaseFile_balance_same file s s1 s1 o ho hc h1 h2 ⟨rfl, rfl⟩

theorem GetFileInformationByHandle_balance (env : Env) (hFile : Int) (s : State) (file : Nat)
    (o : FILE_OBJECT)
    (hh : assocFind hFile s.handles = some file) (ho : assocFind file s.objects = some o)
    (hc : 1 ≤ o.refcount) :
    borrowCount file (GetFileInformationByHandle env hFile s).2.2 = borrowCount file s := by
  obtain ⟨s1, hg, h1, h2⟩ := FILE_GetFile_some hFile s file o hh ho
  unfold GetFileInformationByHandle
  rw [hg]
  simp only []
  generalize ((assocFind file s1.objects).map FILE_OBJECT.unix_handle).getD (-1) = fd
  have hf := sys_fstat_table env fd s1
  generalize sys_fstat env fd s1 = r at hf
  obtain ⟨st, s2⟩ := r
  cases st with
  | none =>
    simp only []
    exact FILE_ReleaseFile_balance_same file s s1 _ o ho hc h1 h2
      ⟨(FILE_SetDosError_keeps s2).1.trans hf.1, (FILE_SetDosError_keeps s2).2.trans hf.2⟩
  | some st =>
    simp only []
    exact FILE_ReleaseFile_balance_same file s s1 _ o ho hc h1 h2 hf

theorem _lread32_balance (env : Env) (hFile : Int) (count : Nat) (s : State) (file : Nat)
    (o : FILE_OBJECT)
    (hh : assocFind hFile s.handles = some file) (ho : assocFind file s.objects = some o)
    (hc : 1 ≤ o.refcount) :
    borrowCount file (_lread32 env hFile count s).2.2 = borrowCount file s := by
  obtain ⟨s1, hg, h1, h2⟩ := FILE_GetFile_some hFile s file o hh ho
  unfold _lread32
  rw [hg]
  simp only []
  generalize ((assocFind file s1.objects).map FILE_OBJECT.unix_handle).getD (-1) = fd
  by_cases hcount : count = 0
  · simp only [hcount, if_true]
    exact FILE_ReleaseFile_balance_same file s s1 s1 o ho hc h1 h2 ⟨rfl, rfl⟩
  · simp only [hcount, if_false]
    have hf := sys_read_table env fd count s1
    generalize sys_read env fd count s1 = r at hf
    obtain ⟨r, bytes, s2⟩ := r
    simp only []
    split
    · exact FILE_ReleaseFile_balance_same file s s1 _ o ho hc h1 h2
        ⟨(FILE_SetDosError_keeps s2).1.trans hf.1, (FILE_SetDosError_keeps s2).2.trans hf.2⟩
    · exact FILE_ReleaseFile_balance_same file s s1 _ o ho hc h1 h2 hf

/-- The tail shared by the operations that translate a native failure and then
release the object. -/
theorem FILE_ReleaseFile_after_native (file : Nat) (s s1 s2 : State) (o : FILE_OBJECT)
    (c : Prop) [Decidable c]
    (ho : assocFind file s.objects = some o) (hc : 1 ≤ o.refcount)
    (h1 : s1.handles = s.handles)
    (h2 : assocFind file s1.objects = some { o with refcount := o.refcount + 1 })
    (ht : s2.handles = s1.handles ∧ s2.objects = s1.objects) :
    borrowCount file (FILE_ReleaseFile file (if c then FILE_SetDosError s2 else s2))
      = borrowCount file s := by
  split
  · exact FILE_ReleaseFile_balance_same file s s1 _ o ho hc h1 h2
      ⟨(FILE_SetDosError_keeps s2).1.trans ht.1, (FILE_SetDosError_keeps s2).2.trans ht.2⟩
  · exact FILE_ReleaseFile_balance_same file s s1 _ o ho hc h1 h2 ht

theorem _hwrite32_balance (env : Env) (hFile : Int) (buffer : List Nat) (count : Int)
    (s : State) (file : Nat) (o : FILE_OBJECT)
    (hh : assocFind hFile s.handles = some file) (ho : assocFind file s.objects = some o)
    (hc : 1 ≤ o.refcount) :
    borrowCount file (_hwrite32 env hFile buffer count s).2 = borrowCount file s := by
  obtain ⟨s1, hg, h1, h2⟩ := FILE_GetFile_some hFile s file o hh ho
  unfold _hwrite32
  rw [hg]
  simp only []
  generalize ((assocFind file s1.objects).map FILE_OBJECT.unix_handle).getD (-1) = fd
  by_cases hcount : count = 0
  · simp only [hcount, if_true]
    have hl := sys_lseek_cur_table env fd s1
    generalize sys_lseek_cur env fd s1 = l at hl
    obtain ⟨pos, s2⟩ := l
    have ht := sys_ftruncate_table env fd pos s2
    exact FILE_ReleaseFile_after_native file s s1 _ o _ ho hc h1 h2
      ⟨ht.1.trans hl.1, ht.2.trans hl.2⟩
  · simp only [hcount, if_false]
    exact FILE_ReleaseFile_after_native file s s1 _ o _ ho hc h1 h2
      (sys_write_table env fd buffer (toUINT32 count) s1)

theorem SetFilePointer_balance (env : Env) (hFile : Int) (distance : Int)
    (highword : Option Int) (method : Nat) (s : State) (file : Nat) (o : FILE_OBJECT)
    (hh : assocFind hFile s.handles = some file) (ho : assocFind file s.objects = some o)
    (hc : 1 ≤ o.refcount) :
    borrowCount file (SetFilePointer env hFile distance highword method s).2
      = borrowCount file s := by
  obtain ⟨s1, hg, h1, h2⟩ := FILE_GetFile_some hFile s file o hh ho
  unfold SetFilePointer
  split
  · rfl
  · rw [hg]
    simp only []
    exact FILE_ReleaseFile_after_native file s s1 _ o _ ho hc h1 h2 (sys_lseek_table _ _ _ _ _)

theorem FlushFileBuffers_balance (env : Env) (hFile : Int) (s : State) (file : Nat)
    (o : FILE_OBJECT)
    (hh : assocFind hFile s.handles = some file) (ho : assocFind file s.objects = some o)
    (hc : 1 ≤ o.refcount) :
    borrowCount file (FlushFileBuffers env hFile s).2 = borrowCount file s := by
  obtain ⟨s1, hg, h1, h2⟩ := FILE_GetFile_some hFile s file o hh ho
  unfold FlushFileBuffers
  rw [hg]
  simp only []
  generalize ((assocFind file s1.objects).map FILE_OBJECT.unix_handle).getD (-1) = fd
  have hf := sys_fsync_table env fd s1
  generalize sys_fsync env fd s1 = r at hf
  obtain ⟨r, s2⟩ := r
  simp only []
  split
  · exact FILE_ReleaseFile_balance_same file s s1 _ o ho hc h1 h2 hf
  · exact FILE_ReleaseFile_balance_same file s s1 _ o ho hc h1 h2
      ⟨(FILE_SetDosError_keeps s2).1.trans hf.1, (FILE_SetDosError_keeps s2).2.trans hf.2⟩

theorem SetEndOfFile_balance (env : Env) (hFile : Int) (s : State) (file : Nat)
    (o : FILE_OBJECT)
    (hh : assocFind hFile s.handles = some file) (ho : assocFind file s.objects = some o)
    (hc : 1 ≤ o.refcount) :
    borrowCount file (SetEndOfFile env hFile s).2 = borrowCount file s := by
  obtain ⟨s1, hg, h1, h2⟩ := FILE_GetFile_some hFile s file o hh ho
  unfold SetEndOfFile
  rw [hg]
  simp only []
  generalize ((assocFind file s1.objects).map FILE_OBJECT.unix_handle).getD (-1) = fd
  have hl := sys_lseek_cur_table env fd s1
  generalize sys_lseek_cur env fd s1 = l at hl
  obtain ⟨pos, s2⟩ := l
  have ht := sys_ftruncate_table env fd pos s2
  generalize sys_ftruncate env fd pos s2 = r at ht
  obtain ⟨r, s3⟩ := r
  simp only []
  have ht3 : s3.handles = s1.handles ∧ s3.objects = s1.objects :=
    ⟨ht.1.trans hl.1, ht.2.trans hl.2⟩
  split
  · exact FILE_ReleaseFile_balance_same file s s1 _ o ho hc h1 h2
      ⟨(FILE_SetDosError_keeps s3).1.trans ht3.1, (FILE_SetDosError_keeps s3).2.trans ht3.2⟩
  · exact FILE_ReleaseFile_balance_same file s s1 _ o ho hc h1 h2 ht3

theorem FILE_SetFileType_balance (hFile : Int) (type : Nat) (s : State) (file : Nat)
    (o : FILE_OBJECT)
    (hh : assocFind hFile s.handles = some file) (ho : assocFind file s.objects = some o)
    (hc : 1 ≤ o.refcount) :
    borrowCount file (FILE_SetFileType hFile type s).2 = borrowCount file s := by
  obtain ⟨s1, hg, h1, h2⟩ := FILE_GetFile_some hFile s file o hh ho
  unfold FILE_SetFileType
  rw [hg]
  simp only []
  obtain ⟨k1, -, -, k4⟩ := modifyObject_find file (fun o => { o with type := type }) s1 _ h2
  exact FILE_ReleaseFile_balance file s _ o _ ho hc k1 rfl (k4.trans h1)

theorem GetFileType_balance (hFile : Int) (s : State) (file : Nat) (o : FILE_OBJECT)
    (hh : assocFind hFile s.handles = some file) (ho : assocFind file s.objects = some o)
    (hc : 1 ≤ o.refcount) :
    borrowCount file (GetFileType hFile s).2 = borrowCount file s := by
  obtain ⟨s1, hg, h1, h2⟩ := FILE_GetFile_some hFile s file o hh ho
  unfold GetFileType
  rw [hg]
  exact FILE_ReleaseFile_balance_same file s s1 s1 o ho hc h1 h2 ⟨rfl, rfl⟩

theorem SetFileTime_balance (env : Env) (hFile : Int) (t1 t2 t3 : Option FILETIME) (s : State)
    (file : Nat) (o : FILE_OBJECT)
    (hh : assocFind hFile s.handles = some file) (ho : assocFind file s.objects = some o)
    (hc : 1 ≤ o.refcount) :
    borrowCount file (SetFileTime env hFile t1 t2 t3 s).2 = borrowCount file s := by
  obtain ⟨s1, hg, h1, h2⟩ := FILE_GetFile_some hFile s file o hh ho
  unfold SetFileTime
  rw [hg]
  simp only []
  generalize (assocFind file s1.objects).bind FILE_OBJECT.unix_name = name
  generalize (match t2 with | some t => DOSFS_FileTimeToUnixTime t | none => 0) = actime
  generalize (match t3 with | some t => DOSFS_FileTimeToUnixTime t | none => 0) = modtime
  have hf := sys_utime_table env name actime modtime s1
  generalize sys_utime env name actime modtime s1 = r at hf
  obtain ⟨r, s2⟩ := r
  simp only []
  have hrel : borrowCount file (FILE_ReleaseFile file s2) = borrowCount file s := by
    exact FILE_ReleaseFile_balance_same file s s1 _ o ho hc h1 h2 hf
  split
  · simp only []
    rw [FILE_SetDosError_borrowCount]
    exact hrel
  · exact hrel

theorem FILE_Dup_balance (env : Env) (hFile : Int) (s : State) (file : Nat) (o : FILE_OBJECT)
    (hh : assocFind hFile s.handles = some file) (ho : assocFind file s.objects = some o)
    (hc : 1 ≤ o.refcount) :
    borrowCount file (FILE_Dup env hFile s).2 = borrowCount file s := by
  obtain ⟨s1, hg, h1, h2⟩ := FILE_GetFile_some hFile s file o hh ho
  unfold FILE_Dup
  rw [hg]
  simp only []
  unfold PROCESS_AllocHandle
  simp only []
  have h2t : assocFind file ({ s1 with tick := s1.tick + 1 } : State).objects
      = some { o with refcount := o.refcount + 1 } := h2
  obtain ⟨k1, -, -, k4⟩ := modifyObject_find file
    (fun o => { o with refcount := o.refcount + 1 }) { s1 with tick := s1.tick + 1 } _ h2t
  change assocFind file (K32OBJ_IncCount file { s1 with tick := s1.tick + 1 }).objects = _ at k1
  change (K32OBJ_IncCount file { s1 with tick := s1.tick + 1 }).handles = _ at k4
  generalize K32OBJ_IncCount file { s1 with tick := s1.tick + 1 } = sA at k1 k4
  simp only [] at k1 k4
  split
  · -- the table is exhausted: the reference is dropped again
    simp only []
    obtain ⟨d1, -, -, d4⟩ := K32OBJ_DecCount_find file sA _ k1 (by simp)
    refine FILE_ReleaseFile_balance file s _ o _ ho hc d1 (by simp) ?_
    rw [d4, k4, h1]
  · simp only []
    obtain ⟨d1, -, -, d4⟩ := K32OBJ_DecCount_find file
      { sA with handles := assocInsert (freshHandle s1.handles) file sA.handles,
                events := sA.events ++ [Event.AllocHandle (freshHandle s1.handles)] } _ k1
      (by simp)
    unfold FILE_ReleaseFile
    rw [borrowCount_of file _ _ d1, borrowCount_of file s o ho, d4]
    simp only [k4, h1]
    rw [slotsOf_insert, if_pos rfl, assocErase_of_fresh _ _ (freshHandle_fresh s.handles)]
    simp only [Option.some.injEq]
    push_cast
    omega

theorem FILE_Dup2_balance (hFile1 hFile2 : Int) (s : State) (file : Nat) (o : FILE_OBJECT)
    (hh : assocFind hFile1 s.handles = some file) (ho : assocFind file s.objects = some o)
    (hc : 1 ≤ o.refcount) (hn : (s.handles.map Prod.fst).Nodup) :
    borrowCount file (FILE_Dup2 hFile1 hFile2 s).2 = borrowCount file s := by
  obtain ⟨s1, hg, h1, h2⟩ := FILE_GetFile_some hFile1 s file o hh ho
  unfold FILE_Dup2
  rw [hg]
  simp only []
  unfold PROCESS_SetObjPtr
  split
  · -- the slot number is refused
    simp only []
    exact FILE_ReleaseFile_balance_same file s s1 _ o ho hc h1 h2 ⟨rfl, rfl⟩
  · simp only []
    obtain ⟨k1, -, -, k4⟩ := modifyObject_find file
      (fun o => { o with refcount := o.refcount + 1 }) s1 _ h2
    change assocFind file (K32OBJ_IncCount file s1).objects = _ at k1
    change (K32OBJ_IncCount file s1).handles = _ at k4
    generalize K32OBJ_IncCount file s1 = sA at k1 k4
    simp only [] at k1
    have hs := slotsOf_erase file hFile2 s.handles hn
    rw [h1]
    cases hold : assocFind hFile2 s.handles with
    | none =>
      simp only []
      rw [hold] at hs
      obtain ⟨d1, -, -, d4⟩ := K32OBJ_DecCount_find file
        { sA with handles := assocInsert hFile2 file sA.handles,
                  events := sA.events ++ (if (none : Option Nat).isSome
                    then [Event.CloseHandle hFile2] else []) ++ [Event.AllocHandle hFile2] }
        _ k1 (by simp)
      unfold FILE_ReleaseFile
      rw [borrowCount_of file _ _ d1, borrowCount_of file s o ho, d4]
      simp only [k4, h1]
      rw [slotsOf_insert, if_pos rfl]
      simp only [Option.some.injEq]
      simp only [if_false, reduceCtorEq] at hs
      push_cast
      omega
    | some old =>
      simp only []
      rw [hold] at hs
      have key : ∀ sB : State, sB.handles = assocInsert hFile2 file s.handles →
          assocFind file sB.objects = some { o with refcount := o.refcount + 1 + 1 } →
          borrowCount file (FILE_ReleaseFile file (K32OBJ_DecCount old sB))
            = borrowCount file s := by
        intro sB hBh hBo
        by_cases hof : old = file
        · subst hof
          obtain ⟨c1, -, -, c4⟩ := K32OBJ_DecCount_find old sB _ hBo (by simp)
          obtain ⟨d1, -, -, d4⟩ := K32OBJ_DecCount_find old (K32OBJ_DecCount old sB) _ c1
            (by simp; omega)
          unfold FILE_ReleaseFile
          rw [borrowCount_of old _ _ d1, borrowCount_of old s o ho, d4, c4, hBh]
          rw [slotsOf_insert, if_pos rfl]
          simp only [Option.some.injEq]
          simp only [if_true] at hs
          push_cast
          omega
        · have c1 : assocFind file (K32OBJ_DecCount old sB).objects
              = some { o with refcount := o.refcount + 1 + 1 } := by
            rw [K32OBJ_DecCount_other old file sB hof]
            exact hBo
          have c4 := (K32OBJ_DecCount_htab old sB).1
          obtain ⟨d1, -, -, d4⟩ := K32OBJ_DecCount_find file (K32OBJ_DecCount old sB) _ c1
            (by simp)
          unfold FILE_ReleaseFile
          rw [borrowCount_of file _ _ d1, borrowCount_of file s o ho, d4, c4, hBh]
          rw [slotsOf_insert, if_pos rfl]
          simp only [Option.some.injEq]
          have hne : ¬ (some old = some file) := by
            intro h
            exact hof (Option.some.inj h)
          simp only [hne, if_false] at hs
          push_cast
          omega
      exact key _ (by simp only [k4, h1]) k1

/-- Claim C24: every handle-based operation that borrows the file object through
`FILE_GetFile` releases it again on every path: for every environment (so for
every native failure) and a handle that resolves to a referenced object, the
borrow raises the borrow count of the object by one and each of the twelve
operations returns with the borrow count the object had before the call. -/
theorem FILE_GetFile_released (env : Env) (hFile : Int) (s : State) (file : Nat)
    (o : FILE_OBJECT) (count : Nat) (buffer : List Nat) (wcount : Int) (distance : Int)
    (highword : Option Int) (method type : Nat) (t1 t2 t3 : Option FILETIME) (hFile2 : Int)
    (hh : assocFind hFile s.handles = some file) (ho : assocFind file s.objects = some o)
    (hc : 1 ≤ o.refcount) (hn : (s.handles.map Prod.fst).Nodup) :
    (FILE_GetFile hFile s).1 = some file ∧
    borrowCount file (FILE_GetFile hFile s).2 = (borrowCount file s).map (fun n => n + 1) ∧
    borrowCount file (FILE_GetUnixHandle hFile s).2 = borrowCount file s ∧
    borrowCount file (GetFileInformationByHandle env hFile s).2.2 = borrowCount file s ∧
    borrowCount file (_lread32 env hFile count s).2.2 = borrowCount file s ∧
    borrowCount file (_hwrite32 env hFile buffer wcount s).2 = borrowCount file s ∧
    borrowCount file (SetFilePointer env hFile distance highword method s).2
      = borrowCount file s ∧
    borrowCount file (FlushFileBuffers env hFile s).2 = borrowCount file s ∧
    borrowCount file (SetEndOfFile env hFile s).2 = borrowCount file s ∧
    borrowCount file (FILE_SetFileType hFile type s).2 = borrowCount file s ∧
    borrowCount file (GetFileType hFile s).2 = borrowCount file s ∧
    borrowCount file (SetFileTime env hFile t1 t2 t3 s).2 = borrowCount file s ∧
    borrowCount file (FILE_Dup env hFile s).2 = borrowCount file s ∧
    borrowCount file (FILE_Dup2 hFile hFile2 s).2 = borrowCount file s := by
  refine ⟨?_, ?_, FILE_GetUnixHandle_balance hFile s file o hh ho hc,
    GetFileInformationByHandle_balance env hFile s file o hh ho hc,
    _lread32_balance env hFile count s file o hh ho hc,
    _hwrite32_balance env hFile buffer wcount s file o hh ho hc,
    SetFilePointer_balance env hFile distance highword method s file o hh ho hc,
    FlushFileBuffers_balance env hFile s file o hh ho hc,
    SetEndOfFile_balance env hFile s file o hh ho hc,
    FILE_SetFileType_balance hFile type s file o hh ho hc,
    GetFileType_balance hFile s file o hh ho hc,
    SetFileTime_balance env hFile t1 t2 t3 s file o hh ho hc,
    FILE_Dup_balance env hFile s file o hh ho hc,
    FILE_Dup2_balance hFile hFile2 s file o hh ho hc hn⟩
  · obtain ⟨s1, hg, -, -⟩ := FILE_GetFile_some hFile s file o hh ho
    rw [hg]
  · obtain ⟨s1, hg, h1, h2⟩ := FILE_GetFile_some hFile s file o hh ho
    rw [hg, borrowCount_of file s1 _ h2, borrowCount_of file s o ho, h1]
    simp only [Option.map_some', Option.some.injEq]
    push_cast
    omega

theorem FILE_GetFile_released_witness :
    borrowCount 0 State.sample = some 0 ∧
    borrowCount 0 (FILE_GetFile 7 State.sample).2 = some 1 ∧
    borrowCount 0 (_lread32 Env.plain 7 2 State.sample).2.2 = some 0 ∧
    borrowCount 0 (FILE_Dup Env.plain 7 State.sample).2 = some 0 ∧
    borrowCount 0 (FILE_Dup2 7 3 State.sample).2 = some 0 :=
  have h := FILE_GetFile_released Env.plain 7 State.sample 0
    { refcount := 1, unix_handle := -1, unix_name := none, type := 1 } 2 [] 0 0 none 0 0
    none none none 3 (by decide) (by decide) (by decide) (by decide)
  ⟨by decide, h.2.1.trans (by decide), h.2.2.2.2.1.trans (by decide),
    h.2.2.2.2.2.2.2.2.2.2.2.2.1.trans (by decide),
    h.2.2.2.2.2.2.2.2.2.2.2.2.2.trans (by decide)⟩

/-! ## Deleting a file -/

/-- Claim C25: the wide-character delete does not do what the other delete
entry points do.  `DeleteFile32W` hands the converted path to
`RemoveDirectory32A`: on the regular file "a" it issues a native `rmdir`,
returns false and leaves the file, while `DeleteFile32A` and `DeleteFile16`
issue a native `unlink`, return true and remove the file. -/
theorem DeleteFile32W_removes_directory :
    (DeleteFile32A Env.plain "a" State.sample).1 = true ∧
    State.contents (DeleteFile32A Env.plain "a" State.sample).2 "a" = none ∧
    (DeleteFile32A Env.plain "a" State.sample).2.natives = [Native.Unlink "a"] ∧
    DeleteFile16 Env.plain "a" State.sample = DeleteFile32A Env.plain "a" State.sample ∧
    (DeleteFile32W Env.plain "a" State.sample).1 = false ∧
    State.contents (DeleteFile32W Env.plain "a" State.sample).2 "a" = some [72, 105] ∧
    (DeleteFile32W Env.plain "a" State.sample).2.natives = [Native.Rmdir "a"] ∧
    (∀ (env : Env) (path : String) (s : State),
      DeleteFile32W env path s = RemoveDirectory32A env path s) := by
  refine ⟨by decide, by decide, by decide, rfl, by decide, by decide, by decide, ?_⟩
  intro env path s
  rfl

/-! ## The probing loop of the temporary names -/

theorem opens_append (l1 l2 : List Native) : opens (l1 ++ l2) = opens l1 + opens l2 :=
  List.countP_append _ _ _

theorem sys_open_fault (env : Env) (name : String) (flags : OpenFlags) (mode : Nat) (s : State)
    (e : Errno) (hfault : env.fault s.tick = some e) :
    (sys_open env name flags mode s).1 = -1 ∧
    (sys_open env name flags mode s).2.errno = e ∧
    (sys_open env name flags mode s).2.files = s.files := by
  unfold sys_open
  rw [hfault]
  exact ⟨rfl, rfl, rfl⟩

/-- A create whose native open fails: the invalid handle is returned, the slot is
closed again, the error of the open is translated, the files are untouched and
the native open is the one call made. -/
theorem FILE_Create_open_failed (env : Env) (path : String) (mode : Nat) (unique : Bool)
    (s : State) (long_name : String) (e : Errno)
    (hdev : env.DOSFS_IsDevice path = none)
    (hheap : env.HeapAllocFails s.tick = false)
    (htable : env.AllocHandleFails (s.tick + 1) = false)
    (hname : env.DOSFS_GetFullName path false s.files = Sum.inr long_name)
    (hopen : ∀ sA : State, sA.tick = s.tick + 2 → sA.files = s.files →
      (sys_open env long_name
        { access := O_RDWR, creat := true, excl := unique, trunc := true } mode sA).1 = -1 ∧
      (sys_open env long_name
        { access := O_RDWR, creat := true, excl := unique, trunc := true } mode sA).2.errno = e ∧
      (sys_open env long_name
        { access := O_RDWR, creat := true, excl := unique, trunc := true } mode sA).2.files
          = sA.files) :
    ∃ s1, FILE_Create env path mode unique s = Except.ok (INVALID_HANDLE_VALUE32, s1) ∧
      s1.dosError = (FILE_SetDosError { s with errno := e }).dosError ∧
      s1.handles = s.handles ∧ s1.files = s.files ∧
      s1.natives = s.natives ++ [Native.Open long_name
        { access := O_RDWR, creat := true, excl := unique, trunc := true } mode] := by
  obtain ⟨file, sA, hA, hAh, hAe, hAf, hAd, hAt, hAn, hAx, hAo⟩ :=
    FILE_Alloc_ok env s hheap htable
  have hreach := FILE_Create_reach env path mode unique s sA long_name file hdev hA
    (by rw [hAf]; exact hname)
  obtain ⟨e1, e2, e3⟩ := hopen sA hAt hAf
  obtain ⟨n1, n2, -⟩ := sys_open_natives env long_name
    { access := O_RDWR, creat := true, excl := unique, trunc := true } mode sA
  obtain ⟨o1, -⟩ := sys_open_htab env long_name
    { access := O_RDWR, creat := true, excl := unique, trunc := true } mode sA
  rw [hreach]
  simp only [e1, if_true]
  generalize (sys_open env long_name
    { access := O_RDWR, creat := true, excl := unique, trunc := true } mode sA).2 = s2
    at e2 e3 n1 n2 o1
  have hobj : assocFind file s2.objects = some ⟨1, -1, none, FILE_TYPE_DISK⟩ := by
    rw [n2]; exact hAo
  obtain ⟨m1, m2, m3, m4⟩ := modifyObject_find file (fun o => { o with unix_handle := -1 })
    s2 _ hobj
  obtain ⟨w1, w2, w3, w4⟩ := FILE_SetDosError_world
    (modifyObject file (fun o => { o with unix_handle := -1 }) s2)
  obtain ⟨c1, c2, c3, c4, c5⟩ := CloseHandle_last
    (FILE_SetDosError (modifyObject file (fun o => { o with unix_handle := -1 }) s2))
    (freshHandle s.handles) file s.handles _
    (by rw [w1, m4, o1, hAh]) (freshHandle_fresh s.handles) (by rw [w2]; exact m1)
    (Nat.le_refl 1)
  refine ⟨_, rfl, ?_, c1, ?_, ?_⟩
  · rw [c3]
    apply FILE_SetDosError_dosError
    unfold modifyObject
    simp only [hobj]
    exact e2
  · rw [c4, w4, m3, e3, hAf]
  · rw [c5, (FILE_SetDosError_natives _).1, (modifyObject_natives _ _ _).1, n1, hAn]
    simp

/-- While every create reports the name as taken and the counter has not reached
2^32, the probing loop goes on: no amount of fuel below the distance to 2^32
lets it return. -/
theorem GetTempFileName32A_probe_goes_on (t : Nat) (stem : String) (fuel : Nat) :
    ∀ (num : Nat) (s : State), num + fuel < 4294967296 →
      GetTempFileName32A.probe (Env.allTaken t) stem 0 fuel num s
        = Except.error Abort.OutOfFuel := by
  induction fuel with
  | zero =>
    intro num s _
    rfl
  | succ fuel ih =>
    intro num s hlt
    obtain ⟨s1, hc, hd, -, -, -⟩ := FILE_Create_open_failed (Env.allTaken t)
      (stem ++ hex04 num ++ ".tmp") 0o666 true s (stem ++ hex04 num ++ ".tmp") Errno.EEXIST
      rfl rfl rfl rfl (fun sA _ _ => sys_open_fault _ _ _ _ sA _ rfl)
    have hx : s1.DOS_ExtendedError = ER.ER_FileExists := congrArg Prod.fst hd
    have hmod : (num + 1) % 4294967296 = num + 1 := Nat.mod_eq_of_lt (by omega)
    rw [GetTempFileName32A.probe, hc]
    simp only [ne_eq, not_true_eq_false, if_false, hx, hmod, Nat.zero_mod,
      Nat.add_one_ne_zero, not_false_eq_true, if_true]
    exact ih (num + 1) s1 (by omega)

/-- With every name reported as taken the probing loop ends only when the 32-bit
counter wraps to 0, after one create for each number from the start to
2^32 - 1. -/
theorem GetTempFileName32A_probe_wraps (t : Nat) (stem : String) (k : Nat) :
    ∀ (fuel num : Nat) (s : State), 1 ≤ k → num + k = 4294967296 → k ≤ fuel →
      ∃ s1, GetTempFileName32A.probe (Env.allTaken t) stem 0 fuel num s = Except.ok (0, s1) ∧
        opens s1.natives = opens s.natives + k := by
  induction k with
  | zero =>
    intro fuel num s h1
    omega
  | succ k ih =>
    intro fuel num s _ hsum hfuel
    obtain ⟨fuel, rfl⟩ : ∃ f, fuel = f + 1 := ⟨fuel - 1, by omega⟩
    obtain ⟨s1, hc, hd, -, -, hn⟩ := FILE_Create_open_failed (Env.allTaken t)
      (stem ++ hex04 num ++ ".tmp") 0o666 true s (stem ++ hex04 num ++ ".tmp") Errno.EEXIST
      rfl rfl rfl rfl (fun sA _ _ => sys_open_fault _ _ _ _ sA _ rfl)
    have hx : s1.DOS_ExtendedError = ER.ER_FileExists := congrArg Prod.fst hd
    have hopens : opens s1.natives = opens s.natives + 1 := by
      rw [hn, opens_append]
      rfl
    rw [GetTempFileName32A.probe, hc]
    by_cases hk : k = 0
    · subst hk
      have hmod : (num + 1) % 4294967296 = 0 := by
        rw [hsum]
      simp only [ne_eq, not_true_eq_false, if_false, hx, hmod, Nat.zero_mod]
      exact ⟨s1, rfl, hopens⟩
    · have hmod : (num + 1) % 4294967296 = num + 1 := Nat.mod_eq_of_lt (by omega)
      simp only [ne_eq, not_true_eq_false, if_false, hx, hmod, Nat.zero_mod,
        Nat.add_one_ne_zero, not_false_eq_true, if_true]
      obtain ⟨s2, h2, h3⟩ := ih fuel (num + 1) s1 (by omega) (by omega) (by omega)
      exact ⟨s2, h2, by rw [h3, hopens]; omega⟩

theorem sys_access_natives (env : Env) (name : String) (s : State) :
    (sys_access env name s).2.natives = s.natives ++ [Native.Access name] := by
  unfold sys_access
  simp only []
  split
  · rfl
  · split
    · rfl
    · split <;> rfl

/-- A call with `unique = 0` whose probing loop does not return does not return. -/
theorem GetTempFileName32A_of_probe_error (env : Env) (fuel : Nat) (path pfx buffer : String)
    (s : State) (e : Abort)
    (hp : GetTempFileName32A.probe env (GetTempFileName32A.stem path pfx) 0 fuel
      ((sys_time env s).1 % 65536) (sys_time env s).2 = Except.error e) :
    GetTempFileName32A env fuel (some path) pfx 0 buffer s = Except.error e := by
  unfold GetTempFileName32A
  simp only [ne_eq, not_true_eq_false, if_false, if_true]
  rw [hp]
  rfl

/-- A call with `unique = 0` returns what its probing loop returns: the number,
the name built from it, and no further native open. -/
theorem GetTempFileName32A_of_probe (env : Env) (fuel : Nat) (path pfx buffer : String)
    (s : State) (n : Nat) (s1 : State)
    (hp : GetTempFileName32A.probe env (GetTempFileName32A.stem path pfx) 0 fuel
      ((sys_time env s).1 % 65536) (sys_time env s).2 = Except.ok (n, s1)) :
    ∃ s2, GetTempFileName32A env fuel (some path) pfx 0 buffer s
        = Except.ok (n, GetTempFileName32A.stem path pfx ++ hex04 n ++ ".tmp", s2) ∧
      opens s2.natives = opens s1.natives ∧ s2.files = s1.files := by
  unfold GetTempFileName32A
  simp only [ne_eq, not_true_eq_false, if_false, if_true]
  rw [hp]
  simp only [pure, Except.pure]
  refine ⟨_, rfl, ?_, ?_⟩
  · split
    · rfl
    · rw [sys_access_natives, opens_append]
      rfl
  · split
    · rfl
    · unfold sys_access
      simp only []
      split
      · rfl
      · split
        · rfl
        · split <;> rfl

/-- Claim C21: the probing loop does not give up after 65536 attempts.  With the
clock at 0 and every exclusive create failing with the Exists error, 65536
probes do not end the loop of `GetTempFileName32A`; it returns, with the number
0, only when the 32-bit counter wraps, after 4294967296 creates. -/
theorem GetTempFileName32A_probes_past_wrap :
    GetTempFileName32A (Env.allTaken 0) 65536 (some "T") "abc" 0 "" State.empty
      = Except.error Abort.OutOfFuel ∧
    ∃ buffer s1,
      GetTempFileName32A (Env.allTaken 0) 4294967296 (some "T") "abc" 0 "" State.empty
        = Except.ok (0, buffer, s1) ∧
      opens s1.natives = 4294967296 := by
  have htime : (sys_time (Env.allTaken 0) State.empty).1 % 65536 = 0 := rfl
  have hlog : opens (sys_time (Env.allTaken 0) State.empty).2.natives = 0 := rfl
  constructor
  · have hp := GetTempFileName32A_probe_goes_on 0 (GetTempFileName32A.stem "T" "abc") 65536 0
      (sys_time (Env.allTaken 0) State.empty).2 (by omega)
    rw [← htime] at hp
    exact GetTempFileName32A_of_probe_error (Env.allTaken 0) 65536 "T" "abc" "" State.empty _ hp
  · obtain ⟨s1, h1, h2⟩ := GetTempFileName32A_probe_wraps 0 (GetTempFileName32A.stem "T" "abc")
      4294967296 4294967296 0 (sys_time (Env.allTaken 0) State.empty).2 (by omega) (by omega)
      (Nat.le_refl _)
    rw [← htime] at h1
    obtain ⟨s2, k1, k2, -⟩ := GetTempFileName32A_of_probe (Env.allTaken 0) 4294967296 "T" "abc" ""
      State.empty _ _ h1
    rw [htime] at k1
    refine ⟨_, s2, k1, ?_⟩
    rw [k2, h2, hlog]

/-! ## The name a probe creates -/

theorem PROCESS_AllocHandle_files (env : Env) (ptr : Nat) (s : State) :
    (PROCESS_AllocHandle env ptr s).2.files = s.files := by
  unfold PROCESS_AllocHandle
  simp only []
  split
  · rw [K32OBJ_DecCount_world]
    exact (modifyObject_world _ _ _).2
  · exact (modifyObject_world _ _ _).2

theorem FILE_Alloc_files (env : Env) (s : State) : (FILE_Alloc env s).2.2.files = s.files := by
  unfold FILE_Alloc
  simp only []
  split
  · rfl
  · have h := PROCESS_AllocHandle_files env (freshPtr s.objects)
      { s with tick := s.tick + 1,
               objects := assocInsert (freshPtr s.objects)
                 ⟨0, -1, none, FILE_TYPE_DISK⟩ s.objects }
    generalize PROCESS_AllocHandle env (freshPtr s.objects)
      { s with tick := s.tick + 1,
               objects := assocInsert (freshPtr s.objects)
                 ⟨0, -1, none, FILE_TYPE_DISK⟩ s.objects } = r at h
    obtain ⟨handle, s3⟩ := r
    simp only []
    split <;> exact h

/-- An exclusive native create either fails and leaves the files, or finds no
file of that name and adds one. -/
theorem sys_open_excl_files (env : Env) (name : String) (acc mode : Nat) (tr : Bool)
    (s : State) :
    ((sys_open env name { access := acc, creat := true, excl := true, trunc := tr } mode s).1
        = -1 ∧
      (sys_open env name { access := acc, creat := true, excl := true, trunc := tr } mode s).2.files
        = s.files) ∨
    ((sys_open env name { access := acc, creat := true, excl := true, trunc := tr } mode s).1
        ≠ -1 ∧
      assocFind name s.files = none ∧
      ∃ f, (sys_open env name
          { access := acc, creat := true, excl := true, trunc := tr } mode s).2.files
        = assocInsert name f s.files) := by
  cases hfault : env.fault s.tick with
  | some e =>
    left
    simp [sys_open, hfault]
  | none =>
    cases hfile : assocFind name s.files with
    | some f =>
      left
      simp [sys_open, hfault, hfile]
    | none =>
      right
      simp only [sys_open, hfault, hfile, if_true]
      refine ⟨?_, trivial, _, rfl⟩
      have : (-1 : Int) ≤ (s.fds.map Prod.fst).foldl max (-1) := (le_foldl_max _ _).1
      unfold freshFd
      omega

/-- What an exclusive `FILE_Create` does to the files: nothing when it returns
the invalid handle; otherwise the name the path resolves to did not exist and is
added. -/
theorem FILE_Create_unique_files (env : Env) (path : String) (mode : Nat) (s : State)
    (h : Int) (s1 : State) (hr : FILE_Create env path mode true s = Except.ok (h, s1)) :
    (h = INVALID_HANDLE_VALUE32 ∧ s1.files = s.files) ∨
    (h ≠ INVALID_HANDLE_VALUE32 ∧ ∃ long_name f,
      env.DOSFS_GetFullName path false s.files = Sum.inr long_name ∧
      assocFind long_name s.files = none ∧ s1.files = assocInsert long_name f s.files) := by
  unfold FILE_Create at hr
  split at hr
  · simp only [pure, Except.pure, Except.ok.injEq, Prod.mk.injEq] at hr
    left
    rw [← hr.1, ← hr.2]
    exact ⟨rfl, rfl⟩
  · have hf := FILE_Alloc_files env s
    generalize FILE_Alloc env s = a at hf hr
    obtain ⟨handle, file, sA⟩ := a
    simp only [] at hf hr
    split at hr
    · simp only [pure, Except.pure, Except.ok.injEq, Prod.mk.injEq] at hr
      left
      rw [← hr.1, ← hr.2]
      exact ⟨rfl, hf⟩
    · rename_i hinv
      split at hr
      · simp only [pure, Except.pure, Except.ok.injEq, Prod.mk.injEq] at hr
        left
        rw [← hr.1, ← hr.2, CloseHandle_files]
        exact ⟨rfl, hf⟩
      · rename_i long_name hname
        cases file with
        | none => simp [throw, throwThe, MonadExceptOf.throw] at hr
        | some file =>
          simp only [] at hr
          have hopen := sys_open_excl_files env long_name O_RDWR mode true sA
          generalize sys_open env long_name
            { access := O_RDWR, creat := true, excl := true, trunc := true } mode sA = r
            at hopen hr
          obtain ⟨fd, s2⟩ := r
          simp only [] at hopen hr
          split at hr
          · simp only [pure, Except.pure, Except.ok.injEq, Prod.mk.injEq] at hr
            rename_i hfd
            left
            rcases hopen with ⟨-, h2⟩ | ⟨h1, -⟩
            · rw [← hr.1, ← hr.2, CloseHandle_files, (FILE_SetDosError_world _).2.2.2,
                (modifyObject_world _ _ _).2, h2]
              exact ⟨rfl, hf⟩
            · exact absurd hfd h1
          · simp only [pure, Except.pure, Except.ok.injEq, Prod.mk.injEq] at hr
            rename_i hfd
            right
            rcases hopen with ⟨h1, -⟩ | ⟨-, h2, f, h3⟩
            · exact absurd h1 hfd
            · rw [← hr.1, ← hr.2]
              refine ⟨hinv, long_name, f, ?_, ?_, ?_⟩
              · rw [← hf]
                exact hname
              · rw [← hf]
                exact h2
              · rw [(modifyObject_world _ _ _).2, (modifyObject_world _ _ _).2, h3, hf]

theorem GetTempFileName32A_probe_files (env : Env) (stem : String) (unique : Nat)
    (fuel : Nat) :
    ∀ (num : Nat) (s : State) (n : Nat) (s1 : State),
      GetTempFileName32A.probe env stem unique fuel num s = Except.ok (n, s1) →
      s1.files = s.files ∨
      ∃ long_name f,
        env.DOSFS_GetFullName (stem ++ hex04 n ++ ".tmp") false s.files = Sum.inr long_name ∧
        assocFind long_name s.files = none ∧ s1.files = assocInsert long_name f s.files := by
  induction fuel with
  | zero =>
    intro num s n s1 hr
    simp [GetTempFileName32A.probe, throw, throwThe, MonadExceptOf.throw] at hr
  | succ fuel ih =>
    intro num s n s1 hr
    rw [GetTempFileName32A.probe] at hr
    cases hc : FILE_Create env (stem ++ hex04 num ++ ".tmp") 0o666 true s with
    | error e => simp [hc, throw, throwThe, MonadExceptOf.throw] at hr
    | ok r =>
      obtain ⟨handle, s2⟩ := r
      rw [hc] at hr
      simp only [] at hr
      have hfiles := FILE_Create_unique_files env _ _ s handle s2 hc
      by_cases hh : handle = INVALID_HANDLE_VALUE32
      · rcases hfiles with ⟨-, hsame⟩ | ⟨hne, -⟩
        · simp only [hh, ne_eq, not_true_eq_false, if_false] at hr
          split at hr
          · simp only [pure, Except.pure, Except.ok.injEq, Prod.mk.injEq] at hr
            left
            rw [← hr.2]
            exact hsame
          · split at hr
            · rcases ih _ s2 n s1 hr with h1 | ⟨long_name, f, h1, h2, h3⟩
              · left
                rw [h1, hsame]
              · right
                rw [hsame] at h1 h2 h3
                exact ⟨long_name, f, h1, h2, h3⟩
            · simp only [pure, Except.pure, Except.ok.injEq, Prod.mk.injEq] at hr
              left
              rw [← hr.2]
              exact hsame
        · exact absurd hh hne
      · rcases hfiles with ⟨heq, -⟩ | ⟨-, long_name, f, h1, h2, h3⟩
        · exact absurd heq hh
        · simp only [hh, ne_eq, not_false_eq_true, if_true, pure, Except.pure, Except.ok.injEq,
            Prod.mk.injEq] at hr
          right
          rw [← hr.1, ← hr.2, CloseHandle_files]
          exact ⟨long_name, f, h1, h2, h3⟩

theorem sys_access_files (env : Env) (name : String) (s : State) :
    (sys_access env name s).2.files = s.files := by
  unfold sys_access
  simp only []
  split
  · rfl
  · split
    · rfl
    · split <;> rfl

/-- What a call with `unique = 0` that returns does to the files: nothing, or the
name left in the buffer resolved to a file that did not exist and is added. -/
theorem GetTempFileName32A_files (env : Env) (fuel : Nat) (path pfx buffer0 : String)
    (s : State) (r : Nat × String × State)
    (hr : GetTempFileName32A env fuel (some path) pfx 0 buffer0 s = Except.ok r) :
    r.2.2.files = s.files ∨
    ∃ long_name f,
      env.DOSFS_GetFullName r.2.1 false s.files = Sum.inr long_name ∧
      assocFind long_name s.files = none ∧ r.2.2.files = assocInsert long_name f s.files := by
  unfold GetTempFileName32A at hr
  simp only [ne_eq, not_true_eq_false, if_false, if_true] at hr
  cases hp : GetTempFileName32A.probe env (GetTempFileName32A.stem path pfx) 0 fuel
      ((sys_time env s).1 % 65536) (sys_time env s).2 with
  | error e => simp [hp, throw, throwThe, MonadExceptOf.throw] at hr
  | ok q =>
    obtain ⟨n, s1⟩ := q
    rw [hp] at hr
    simp only [pure, Except.pure, Except.ok.injEq] at hr
    have hprobe := GetTempFileName32A_probe_files env _ 0 fuel _ _ n s1 hp
    have htime : (sys_time env s).2.files = s.files := rfl
    rw [htime] at hprobe
    have hlast : r.2.2.files = s1.files := by
      rw [← hr]
      simp only []
      split
      · rfl
      · exact sys_access_files _ _ _
    have hbuf : r.2.1 = GetTempFileName32A.stem path pfx ++ hex04 n ++ ".tmp" := by
      rw [← hr]
    rw [hlast, hbuf]
    exact hprobe

/-- Claim C22: with `unique = 0`, a call of `GetTempFileName32A` that ends by
creating a file (it returns and the native files are not what they were, which
only the successful exclusive create brings about) leaves in the buffer a name
whose file did not exist before the call and exists after it; and a second call
made from the state the first one left, with the same path and prefix and also
ending by creating a file, leaves a different name, the first name still
resolving to the file created for it. -/
theorem GetTempFileName32A_fresh_name (env : Env) (fuel fuel2 : Nat)
    (path pfx buffer0 buffer02 : String) (s : State) (r r2 : Nat × String × State)
    (hr : GetTempFileName32A env fuel (some path) pfx 0 buffer0 s = Except.ok r)
    (hcreated : r.2.2.files ≠ s.files)
    (hr2 : GetTempFileName32A env fuel2 (some path) pfx 0 buffer02 r.2.2 = Except.ok r2)
    (hcreated2 : r2.2.2.files ≠ r.2.2.files)
    (hstable : env.DOSFS_GetFullName r.2.1 false r.2.2.files
      = env.DOSFS_GetFullName r.2.1 false s.files) :
    (∃ long_name,
      env.DOSFS_GetFullName r.2.1 false s.files = Sum.inr long_name ∧
      assocFind long_name s.files = none ∧ (assocFind long_name r.2.2.files).isSome) ∧
    r2.2.1 ≠ r.2.1 := by
  rcases GetTempFileName32A_files env fuel path pfx buffer0 s r hr with h | ⟨ln, f, h1, h2, h3⟩
  · exact absurd h hcreated
  · have hex : assocFind ln r.2.2.files = some f := by
      rw [h3]
      exact assocFind_insert_same _ _ _
    refine ⟨⟨ln, h1, h2, by rw [hex]; rfl⟩, ?_⟩
    rcases GetTempFileName32A_files env fuel2 path pfx buffer02 r.2.2 r2 hr2 with
      h | ⟨ln2, f2, k1, k2, k3⟩
    · exact absurd h hcreated2
    · intro heq
      rw [heq, hstable, h1] at k1
      have : ln = ln2 := Sum.inr.inj k1
      subst this
      rw [hex] at k2
      exact Option.noConfusion k2

theorem GetTempFileName32A_fresh_name_witness :
    (assocFind "T\\~abc0000.tmp" State.empty.files = none ∧
      ((GetTempFileName32A Env.plain 1 (some "T") "abc" 0 "" State.empty).toOption.map
        (fun r => (r.2.1, (assocFind "T\\~abc0000.tmp" r.2.2.files).isSome)))
        = some ("T\\~abc0000.tmp", true)) ∧
    ((GetTempFileName32A Env.plain 1 (some "T") "abc" 0 "" State.empty).toOption.getD
        (0, "", State.empty)).2.1 ≠
      ((GetTempFileName32A Env.plain 2 (some "T") "abc" 0 ""
        ((GetTempFileName32A Env.plain 1 (some "T") "abc" 0 "" State.empty).toOption.getD
          (0, "", State.empty)).2.2).toOption.getD (0, "", State.empty)).2.1 :=
  ⟨⟨by decide, by decide⟩,
   fun h => (GetTempFileName32A_fresh_name Env.plain 1 2 "T" "abc" "" "" State.empty
    ((GetTempFileName32A Env.plain 1 (some "T") "abc" 0 "" State.empty).toOption.getD
      (0, "", State.empty))
    ((GetTempFileName32A Env.plain 2 (some "T") "abc" 0 ""
        ((GetTempFileName32A Env.plain 1 (some "T") "abc" 0 "" State.empty).toOption.getD
          (0, "", State.empty)).2.2).toOption.getD (0, "", State.empty))
    rfl (by decide) rfl (by decide) rfl).2 h.symm⟩

end File
